import Mathlib

/-!
# Zeronode registry and payment election: a shallow embedding

The definitions below transcribe the C++ sources of the zeronode subsystem
(`zeronode.h/.cpp`, `zeronodeman.h/.cpp`, `zeronode-payments.h/.cpp`,
`activezeronode.h/.cpp`, `zeronode-sync.h`) into pure Lean functions.

Conventions.
* C++ `int` / `int64_t` values are unbounded `Int`; none of the arithmetic that is
  modelled here comes near the machine bounds (block heights, Unix times, vote counts).
* A `std::vector` is a `List`; a `std::map` is an association list that is read with
  `mapFind` and written with `mapSet` (one binding per key).
* A pointer into `vZeronodes` is the index of the entry in the list.
* Code that lives outside the subsystem (chain state, wallet, signatures, hashing,
  network) is a field of an oracle structure; the theorems hold for every oracle.
-/

namespace Zro

/-! ## Primitive data -/

/-- Blob of 256 bits (`uint256`), kept as its array of bytes in memory order. -/
abbrev uint256 := List Nat

/-- Script bytes (`CScript`). -/
abbrev CScript := List Nat

/-- Amount in the smallest unit (`CAmount`, an `int64_t`). -/
abbrev CAmount := Int

/-- Serialized public key (`CPubKey`). -/
abbrev CPubKey := List Nat

/-- Reference to a transaction output (`COutPoint`). -/
structure COutPoint where
  hash : uint256
  n : Nat
deriving DecidableEq, Repr

/-- Transaction input (`CTxIn`); `operator==` compares all three members. -/
structure CTxIn where
  prevout : COutPoint
  scriptSig : CScript
  nSequence : Nat
deriving DecidableEq, Repr

/-- Transaction output (`CTxOut`). -/
structure CTxOut where
  nValue : CAmount
  scriptPubKey : CScript
deriving DecidableEq, Repr

/-- Transaction, reduced to the outputs that the payee check reads. -/
structure CTransaction where
  vout : List CTxOut
deriving DecidableEq, Repr

/-- Network endpoint (`CService`): address bytes and port. -/
structure CService where
  ip : List Nat
  port : Nat
deriving DecidableEq, Repr

/-- Lookup in a `std::map` kept as an association list (`find`, `count`). -/
def mapFind {κ ν : Type} [DecidableEq κ] : List (κ × ν) → κ → Option ν
  | [], _ => none
  | (k, v) :: rest, key => if k = key then some v else mapFind rest key

/-- Assignment `m[key] = val` on a `std::map` kept as an association list. -/
def mapSet {κ ν : Type} [DecidableEq κ] : List (κ × ν) → κ → ν → List (κ × ν)
  | [], key, val => [(key, val)]
  | (k, v) :: rest, key, val =>
      if k = key then (k, val) :: rest else (k, v) :: mapSet rest key val

/-! ## Block payees (`zeronode-payments.h/.cpp`) -/

/-- The constant `MNPAYMENTS_SIGNATURES_REQUIRED`. -/
def MNPAYMENTS_SIGNATURES_REQUIRED : Int := 6

/-- The constant `MNPAYMENTS_SIGNATURES_TOTAL`. -/
def MNPAYMENTS_SIGNATURES_TOTAL : Int := 10

/-- Bucket of votes for one payee script (`CZeronodePayee`). -/
structure CZeronodePayee where
  scriptPubKey : CScript
  vecVoteHashes : List uint256
deriving DecidableEq, Repr

/-- The getter `CZeronodePayee::GetPayee`. -/
def CZeronodePayee.GetPayee (p : CZeronodePayee) : CScript := p.scriptPubKey

/-- The getter `CZeronodePayee::GetVoteCount`. -/
def CZeronodePayee.GetVoteCount (p : CZeronodePayee) : Int := p.vecVoteHashes.length

/-- Votes of one block height (`CZeronodeBlockPayees`). -/
structure CZeronodeBlockPayees where
  nBlockHeight : Int
  vecPayees : List CZeronodePayee
deriving DecidableEq, Repr

/-- Sum of the output values, `CTransaction::GetValueOut`. -/
def CTransaction.GetValueOut (tx : CTransaction) : CAmount :=
  (tx.vout.map (fun o => o.nValue)).sum

/-- First loop of `CZeronodeBlockPayees::IsTransactionValid`: the running maximum
`nMaxSignatures`, started at 0. -/
def maxSignatures : List CZeronodePayee → Int → Int
  | [], nMax => nMax
  | p :: rest, nMax =>
      maxSignatures rest (if p.GetVoteCount ≥ nMax then p.GetVoteCount else nMax)

/-- Inner loop of `IsTransactionValid`: does some output pay `nZeronodePayment` to
`payee`? -/
def hasRequiredOutput (payee : CScript) (nZeronodePayment : CAmount) : List CTxOut → Bool
  | [] => false
  | txout :: rest =>
      if payee = txout.scriptPubKey ∧ nZeronodePayment = txout.nValue then true
      else hasRequiredOutput payee nZeronodePayment rest

/-- Second loop of `IsTransactionValid`. The accumulator is `hasValidPayee`; the first
component of the result tells whether the loop left through its `return true`, the
second is `hasValidPayee` after the loop. -/
def scanPayees (nZeronodePayment : CAmount) (vout : List CTxOut) :
    List CZeronodePayee → Bool → Bool × Bool
  | [], hasValidPayee => (false, hasValidPayee)
  | p :: rest, hasValidPayee =>
      if p.GetVoteCount ≥ MNPAYMENTS_SIGNATURES_REQUIRED then
        if hasRequiredOutput p.GetPayee nZeronodePayment vout then (true, true)
        else scanPayees nZeronodePayment vout rest true
      else scanPayees nZeronodePayment vout rest hasValidPayee

/-- The method `CZeronodeBlockPayees::IsTransactionValid`. `GetZeronodePayment` is
defined outside the subsystem (`main.cpp`) and is a parameter. -/
def CZeronodeBlockPayees.IsTransactionValid (GetZeronodePayment : Int → CAmount → CAmount)
    (bp : CZeronodeBlockPayees) (txNew : CTransaction) : Bool :=
  let nZeronodePayment := GetZeronodePayment bp.nBlockHeight txNew.GetValueOut
  let nMaxSignatures := maxSignatures bp.vecPayees 0
  if nMaxSignatures < MNPAYMENTS_SIGNATURES_REQUIRED then true
  else
    match scanPayees nZeronodePayment txNew.vout bp.vecPayees false with
    | (true, _) => true
    | (false, hasValidPayee) => if !hasValidPayee then true else false

/-- The method `CZeronodePayments::IsTransactionValid` over `mapZeronodeBlocks`. -/
def paymentsIsTransactionValid (GetZeronodePayment : Int → CAmount → CAmount)
    (mapZeronodeBlocks : List (Int × CZeronodeBlockPayees))
    (txNew : CTransaction) (nBlockHeight : Int) : Bool :=
  match mapFind mapZeronodeBlocks nBlockHeight with
  | some bp => bp.IsTransactionValid GetZeronodePayment txNew
  | none => true

/-- The method `CZeronodePayments::CanVote` on `mapZeronodesLastVote`: the answer and
the map afterwards. -/
def CanVote (mapZeronodesLastVote : List (COutPoint × Int)) (outZeronode : COutPoint)
    (nBlockHeight : Int) : Bool × List (COutPoint × Int) :=
  if (mapFind mapZeronodesLastVote outZeronode).isSome ∧
      mapFind mapZeronodesLastVote outZeronode = some nBlockHeight then
    (false, mapZeronodesLastVote)
  else
    (true, mapSet mapZeronodesLastVote outZeronode nBlockHeight)

/-- A sequence of `CanVote` calls: the answers in call order and the final map. -/
def runCanVote : List (COutPoint × Int) → List (COutPoint × Int) →
    List Bool × List (COutPoint × Int)
  | m, [] => ([], m)
  | m, (o, h) :: calls =>
      let r := CanVote m o h
      let rs := runCanVote r.2 calls
      (r.1 :: rs.1, rs.2)

/-! ## Zeronode entries (`zeronode.h`) -/

/-- The constant `ZERONODE_CHECK_SECONDS`. -/
def ZERONODE_CHECK_SECONDS : Int := 5

/-- The constant `ZERONODE_MIN_MNB_SECONDS`. -/
def ZERONODE_MIN_MNB_SECONDS : Int := 5 * 60

/-- The constant `ZERONODE_MIN_MNP_SECONDS`. -/
def ZERONODE_MIN_MNP_SECONDS : Int := 10 * 60

/-- The constant `ZERONODE_EXPIRATION_SECONDS`. -/
def ZERONODE_EXPIRATION_SECONDS : Int := 65 * 60

/-- The constant `ZERONODE_WATCHDOG_MAX_SECONDS`. -/
def ZERONODE_WATCHDOG_MAX_SECONDS : Int := 120 * 60

/-- The constant `ZERONODE_NEW_START_REQUIRED_SECONDS`. -/
def ZERONODE_NEW_START_REQUIRED_SECONDS : Int := 180 * 60

/-- The constant `ZERONODE_POSE_BAN_MAX_SCORE`. -/
def ZERONODE_POSE_BAN_MAX_SCORE : Int := 5

/-- The constant `MIN_ZERONODE_PAYMENT_PROTO_VERSION_1`. -/
def MIN_ZERONODE_PAYMENT_PROTO_VERSION_1 : Int := 90023

/-- The constant `MIN_ZERONODE_PAYMENT_PROTO_VERSION_2`. -/
def MIN_ZERONODE_PAYMENT_PROTO_VERSION_2 : Int := 90024

/-- The sync stage `ZERONODE_SYNC_FAILED`. -/
def ZERONODE_SYNC_FAILED : Int := -1

/-- The sync stage `ZERONODE_SYNC_INITIAL`. -/
def ZERONODE_SYNC_INITIAL : Int := 0

/-- The sync stage `ZERONODE_SYNC_SPORKS`. -/
def ZERONODE_SYNC_SPORKS : Int := 1

/-- The sync stage `ZERONODE_SYNC_LIST`. -/
def ZERONODE_SYNC_LIST : Int := 2

/-- The sync stage `ZERONODE_SYNC_MNW`. -/
def ZERONODE_SYNC_MNW : Int := 3

/-- The sync stage `ZERONODE_SYNC_FINISHED`. -/
def ZERONODE_SYNC_FINISHED : Int := 999

/-- The null blob `uint256()`: 32 zero bytes. -/
def uint256.null : uint256 := List.replicate 32 0

/-- The default input `CTxIn()`: null outpoint (`n = (uint32_t) -1`), empty script,
final sequence number. -/
def CTxIn.null : CTxIn := ⟨⟨uint256.null, 4294967295⟩, [], 4294967295⟩

/-- Heart-beat message (`CZeronodePing`). -/
structure CZeronodePing where
  vin : CTxIn := CTxIn.null
  blockHash : uint256 := uint256.null
  sigTime : Int := 0
  vchSig : List Nat := []
deriving DecidableEq, Repr

/-- The `operator==` of `CZeronodePing`: only `vin` and `blockHash` are compared. -/
def CZeronodePing.eqOp (a b : CZeronodePing) : Bool :=
  a.vin = b.vin ∧ a.blockHash = b.blockHash

/-- Test `ping == CZeronodePing()`. -/
def CZeronodePing.isNull (p : CZeronodePing) : Bool := p.eqOp {}

/-- The enumeration `CZeronode::state`, in declaration order. -/
inductive state where
  | ZERONODE_PRE_ENABLED
  | ZERONODE_ENABLED
  | ZERONODE_EXPIRED
  | ZERONODE_OUTPOINT_SPENT
  | ZERONODE_UPDATE_REQUIRED
  | ZERONODE_WATCHDOG_EXPIRED
  | ZERONODE_NEW_START_REQUIRED
  | ZERONODE_POSE_BAN
deriving DecidableEq, Repr

open state

/-- Registry entry (`CZeronode`). The governance map is left out: no code of the
subsystem reads it. The defaults are those of the default constructor, except `sigTime`,
which the constructor takes from the clock. -/
structure CZeronode where
  vin : CTxIn := CTxIn.null
  addr : CService := ⟨[], 0⟩
  pubKeyCollateralAddress : CPubKey := []
  pubKeyZeronode : CPubKey := []
  lastPing : CZeronodePing := {}
  vchSig : List Nat := []
  sigTime : Int := 0
  nLastDsq : Int := 0
  nTimeLastChecked : Int := 0
  nTimeLastPaid : Int := 0
  nTimeLastWatchdogVote : Int := 0
  nActiveState : state := ZERONODE_ENABLED
  nCacheCollateralBlock : Int := 0
  nBlockLastPaid : Int := 0
  nProtocolVersion : Int := 0
  nPoSeBanScore : Int := 0
  nPoSeBanHeight : Int := 0
  fAllowMixingTx : Bool := true
  fUnitTest : Bool := false
deriving DecidableEq, Repr

/-- Announce message (`CZeronodeBroadcast`), a `CZeronode` with the recovery flag. -/
structure CZeronodeBroadcast extends CZeronode where
  fRecovery : Bool := false
deriving DecidableEq, Repr

/-- The method `CZeronode::IsEnabled`. -/
def CZeronode.IsEnabled (mn : CZeronode) : Bool := mn.nActiveState = ZERONODE_ENABLED

/-- The method `CZeronode::IsPreEnabled`. -/
def CZeronode.IsPreEnabled (mn : CZeronode) : Bool := mn.nActiveState = ZERONODE_PRE_ENABLED

/-- The method `CZeronode::IsPoSeBanned`. -/
def CZeronode.IsPoSeBanned (mn : CZeronode) : Bool := mn.nActiveState = ZERONODE_POSE_BAN

/-- The method `CZeronode::IsPoSeVerified`. -/
def CZeronode.IsPoSeVerified (mn : CZeronode) : Bool :=
  mn.nPoSeBanScore ≤ -ZERONODE_POSE_BAN_MAX_SCORE

/-- The method `CZeronode::IsExpired`. -/
def CZeronode.IsExpired (mn : CZeronode) : Bool := mn.nActiveState = ZERONODE_EXPIRED

/-- The method `CZeronode::IsOutpointSpent`. -/
def CZeronode.IsOutpointSpent (mn : CZeronode) : Bool :=
  mn.nActiveState = ZERONODE_OUTPOINT_SPENT

/-- The method `CZeronode::IsUpdateRequired`. -/
def CZeronode.IsUpdateRequired (mn : CZeronode) : Bool :=
  mn.nActiveState = ZERONODE_UPDATE_REQUIRED

/-- The method `CZeronode::IsWatchdogExpired`. -/
def CZeronode.IsWatchdogExpired (mn : CZeronode) : Bool :=
  mn.nActiveState = ZERONODE_WATCHDOG_EXPIRED

/-- The method `CZeronode::IsNewStartRequired`. -/
def CZeronode.IsNewStartRequired (mn : CZeronode) : Bool :=
  mn.nActiveState = ZERONODE_NEW_START_REQUIRED

/-- The static method `CZeronode::IsValidStateForAutoStart`. -/
def IsValidStateForAutoStart (nActiveStateIn : state) : Bool :=
  nActiveStateIn = ZERONODE_ENABLED ∨ nActiveStateIn = ZERONODE_PRE_ENABLED ∨
    nActiveStateIn = ZERONODE_EXPIRED ∨ nActiveStateIn = ZERONODE_WATCHDOG_EXPIRED

/-- The method `CZeronode::IsValidForPayment`. -/
def CZeronode.IsValidForPayment (mn : CZeronode) : Bool :=
  if mn.nActiveState = ZERONODE_ENABLED then true else false

/-- The method `CZeronode::IncreasePoSeBanScore`. -/
def CZeronode.IncreasePoSeBanScore (mn : CZeronode) : CZeronode :=
  if mn.nPoSeBanScore < ZERONODE_POSE_BAN_MAX_SCORE then
    { mn with nPoSeBanScore := mn.nPoSeBanScore + 1 }
  else mn

/-- The method `CZeronode::DecreasePoSeBanScore`. -/
def CZeronode.DecreasePoSeBanScore (mn : CZeronode) : CZeronode :=
  if mn.nPoSeBanScore > -ZERONODE_POSE_BAN_MAX_SCORE then
    { mn with nPoSeBanScore := mn.nPoSeBanScore - 1 }
  else mn

/-- The method `CZeronode::GetLastPaidBlock`. -/
def CZeronode.GetLastPaidBlock (mn : CZeronode) : Int := mn.nBlockLastPaid

/-! ## Oracles and global objects -/

/-- Content of a signed message. The sources build it as the concatenation of the
printed members; the members themselves are kept. -/
inductive SignedMessage where
  | announce (addr : CService) (sigTime : Int) (pubKeyCollateralAddress : CPubKey)
      (pubKeyZeronode : CPubKey) (nProtocolVersion : Int)
  | ping (vin : CTxIn) (blockHash : uint256) (sigTime : Int)
  | verify1 (addr : CService) (nonce : Int) (blockHash : uint256)
  | verify2 (addr : CService) (nonce : Int) (blockHash : uint256) (prevout1 : COutPoint)
      (prevout2 : COutPoint)
  | paymentVote (prevout : COutPoint) (nBlockHeight : Int) (payee : CScript)
deriving DecidableEq, Repr

/-- Kind of a relayed inventory item. -/
inductive InvType where
  | MSG_ZERONODE_ANNOUNCE
  | MSG_ZERONODE_PING
  | MSG_ZERONODE_VERIFY
  | MSG_ZERONODE_PAYMENT_VOTE
deriving DecidableEq, Repr

/-- Inventory item handed to `RelayInv`. -/
structure CInv where
  type : InvType
  hash : uint256
deriving DecidableEq, Repr

/-- Private key (`CKey`). -/
abbrev CKey := List Nat

/-- What the subsystem reads of a connected peer (`CNode`): its address, whether the
handshake is done, and `nCommonHeight` and `nSyncHeight` of `GetNodeStateStats`, if the
statistics are available. -/
structure CNode where
  addr : CService := ⟨[], 0⟩
  fSuccessfullyConnected : Bool := true
  stats : Option (Int × Int) := none
  id : Int := 0
  nVersion : Int := 0
deriving DecidableEq, Repr

/-- The request names kept by `netfulfilledman` that the subsystem uses: `mnverify`
followed by `-request`, `-reply` or `-done`, and the payment sync request. -/
inductive FulfilledKind where
  | mnverifyRequest
  | mnverifyReply
  | mnverifyDone
  | paymentSync
deriving DecidableEq, Repr

/-- Verification message (`CZeronodeVerification`); `CTxIn()` is `CTxIn.null`. -/
structure CZeronodeVerification where
  vin1 : CTxIn := CTxIn.null
  vin2 : CTxIn := CTxIn.null
  addr : CService := ⟨[], 0⟩
  nonce : Int := 0
  nBlockHeight : Int := 0
  vchSig1 : List Nat := []
  vchSig2 : List Nat := []
deriving DecidableEq, Repr

/-- Payment vote (`CZeronodePaymentVote`). -/
structure CZeronodePaymentVote where
  vinZeronode : CTxIn := CTxIn.null
  nBlockHeight : Int := 0
  payee : CScript := []
  vchSig : List Nat := []
deriving DecidableEq, Repr

/-- What the subsystem sends to one peer: `PushInventory(inv)`,
`PushMessage(DSEG, vin)`, `PushMessage(MNVERIFY, mnv)` and
`PushMessage(SYNCSTATUSCOUNT, nItemID, nCount)`. -/
inductive PeerMessage where
  | inv (item : CInv)
  | dseg (vin : CTxIn)
  | mnverify (mnv : CZeronodeVerification)
  | syncStatusCount (nItemID : Int) (nCount : Int)
deriving DecidableEq, Repr

/-- What the subsystem reads from the rest of the daemon while one entry point runs:
clock, shutdown flag, chain state, feature flags, hashing and signature checks. -/
structure Env where
  /-- Value of `GetTime()`. -/
  nTime : Int := 0
  /-- Value of `GetAdjustedTime()`. -/
  nAdjustedTime : Int := 0
  /-- Value of `ShutdownRequested()`. -/
  fShutdownRequested : Bool := false
  /-- Outcome of `TRY_LOCK(cs_main, lockMain)`. -/
  fLockMain : Bool := true
  /-- Whether `pcoinsTip` holds an unspent output at the outpoint. -/
  utxoExists : COutPoint → Bool := fun _ => true
  /-- Value of `chainActive.Height()`. -/
  nChainHeight : Int := 0
  /-- Height of the block with the given hash in `mapBlockIndex`, if it is known. -/
  mapBlockIndex : uint256 → Option Int := fun _ => none
  /-- The global `fZNode`. -/
  fZNode : Bool := false
  /-- The constant `PROTOCOL_VERSION` of the build. -/
  PROTOCOL_VERSION : Int := 90024
  /-- Value of `sporkManager.IsSporkActive(SPORK_10_ZERONODE_PAY_UPDATED_NODES)`. -/
  fSpork10Active : Bool := false
  /-- The check `darkSendSigner.VerifyMessage(pubkey, vchSig, strMessage, strError)`. -/
  VerifyMessage : CPubKey → List Nat → SignedMessage → Bool := fun _ _ _ => true
  /-- Hash of the members that `CZeronodeBroadcast::GetHash` writes. -/
  HashBroadcast : CTxIn → CPubKey → Int → uint256 := fun _ _ _ => uint256.null
  /-- Hash of the members that `CZeronodePing::GetHash` writes. -/
  HashPing : CTxIn → Int → uint256 := fun _ _ => uint256.null
  /-- Hash that `CalculateScore` takes of the block hash alone (`ss << blockHash`). -/
  HashBlock : uint256 → uint256 := fun _ => uint256.null
  /-- Hash that `CalculateScore` takes of block hash and `aux` (`ss2 << blockHash << aux`). -/
  HashBlockAux : uint256 → uint256 → uint256 := fun _ _ => uint256.null
  /-- The lookup `GetBlockHash(hash, nBlockHeight)`; `none` when it fails. -/
  GetBlockHash : Int → Option uint256 := fun _ => none
  /-- Whether `chainActive.Tip()` is non-null. -/
  fHasTip : Bool := true
  /-- Value of `GetInputAge(vin)`. -/
  GetInputAge : CTxIn → Int := fun _ => 0
  /-- The floating-point test `sigTime + (nMnCount * 2.6 * 60) > GetAdjustedTime()` of
  `GetNotQualifyReason`, as a function of `sigTime` and `nMnCount`. -/
  fSigTimeTooNew : Int → Int → Bool := fun _ _ => false
  /-- The script `GetScriptForDestination(pubkey.GetID())`. -/
  GetScriptForDestination : CPubKey → CScript := fun k => k
  /-- Whether `Params().NetworkIDString()` is `CBaseChainParams::REGTEST`. -/
  fRegTest : Bool := false
  /-- Whether `Params().NetworkIDString()` is `CBaseChainParams::MAIN`. -/
  fMainNet : Bool := true
  /-- Value of `Params(CBaseChainParams::MAIN).GetDefaultPort()`. -/
  mainnetDefaultPort : Nat := 8168
  /-- The test `addr.IsIPv4() && IsReachable(addr) && addr.IsRoutable()`. -/
  fAddrUsable : CService → Bool := fun _ => true
  /-- The test `addr.IsIPv4()` on the address of a peer. -/
  fIsIPv4 : CService → Bool := fun _ => true
  /-- The global `fListen`. -/
  fListen : Bool := true
  /-- The globals `fImporting || fReindex`. -/
  fImportingOrReindex : Bool := false
  /-- The lookup `GetLocal(service, paddrPeer)`; the argument is the peer, if one is
  given, and `none` is the answer `false`. -/
  GetLocal : Option CService → Option CService := fun _ => none
  /-- The connected peers `vNodes`. -/
  vNodes : List CNode := []
  /-- The attempt `ConnectNode(CAddress(service, NODE_NETWORK), NULL, false, true)`. -/
  ConnectNode : CService → Bool := fun _ => false
  /-- Whether `pwalletMain` is non-null. -/
  fWalletAvailable : Bool := false
  /-- Value of `pwalletMain->IsLocked()`. -/
  fWalletLocked : Bool := false
  /-- Value of `pwalletMain->GetBalance()`. -/
  nWalletBalance : CAmount := 0
  /-- The constant `COIN`. -/
  COIN : CAmount := 100000000
  /-- The lookup `pwalletMain->GetZeronodeVinAndKeys(vin, pubKey, key)`: input,
  collateral public key and collateral key; `none` is the answer `false`. -/
  GetZeronodeVinAndKeys : Option (CTxIn × CPubKey × CKey) := none
  /-- Value of `Params().GetConsensus().nZeronodeMinimumConfirmations`. -/
  nZeronodeMinimumConfirmations : Int := 15
  /-- The call `darkSendSigner.SignMessage(strMessage, vchSig, key)`; `none` is the
  answer `false`. -/
  SignMessage : CKey → SignedMessage → Option (List Nat) := fun _ _ => some []
  /-- The header `pindexBestHeader`: height and block time, if it is set. -/
  pindexBestHeader : Option (Int × Int) := none
  /-- The global `fCheckpointsEnabled`. -/
  fCheckpointsEnabled : Bool := false
  /-- Value of `Checkpoints::GetTotalBlocksEstimate(Params().Checkpoints())`. -/
  nTotalBlocksEstimate : Int := 0
  /-- Value of `Params().MaxTipAge()`. -/
  nMaxTipAge : Int := 86400
  /-- The member `nValue` of the unspent output at the outpoint in `pcoinsTip`. -/
  utxoValue : COutPoint → CAmount := fun _ => 100000000000
  /-- The member `nHeight` of the coins of the outpoint in `pcoinsTip`. -/
  utxoHeight : COutPoint → Int := fun _ => 0
  /-- The check `darkSendSigner.IsVinAssociatedWithPubkey(vin, pubkey)`. -/
  IsVinAssociatedWithPubkey : CTxIn → CPubKey → Bool := fun _ _ => true
  /-- The block hash that `GetTransaction(hash, tx, ..., hashBlock, true)` leaves in
  `hashBlock`. -/
  GetTransactionBlock : uint256 → uint256 := fun _ => uint256.null
  /-- Value of `chainActive[nHeight]->GetBlockTime()`. -/
  chainBlockTime : Int → Int := fun _ => 0
  /-- The global `fLiteMode`. -/
  fLiteMode : Bool := false
  /-- The lookup `netfulfilledman.HasFulfilledRequest(addr, strRequest)`. -/
  HasFulfilledRequest : CService → FulfilledKind → Bool := fun _ _ => false
  /-- The test `addr.IsRFC1918() || addr.IsLocal()`. -/
  fIsLocalAddr : CService → Bool := fun _ => false
  /-- The compact form `GetCompact(false)` of a score, read as `int64_t`. -/
  GetCompact : Nat → Int := fun x => x
  /-- Hash of the members that `CZeronodeVerification::GetHash` writes. -/
  HashVerification : CTxIn → CTxIn → CService → Int → Int → uint256 :=
    fun _ _ _ _ _ => uint256.null
  /-- Hash of the members that `CZeronodePaymentVote::GetHash` writes. -/
  HashVote : CScript → Int → COutPoint → uint256 := fun _ _ _ => uint256.null
  /-- Value of `CZeronodePayments::GetStorageLimit()` as a function of
  `mnodeman.size()`: `max(int(size * nStorageCoeff), nMinBlocksToStore)`, with the
  product taken in `float`. -/
  GetStorageLimit : Int → Int := fun _ => 5000

/-- The method `CZeronodePayments::GetMinZeronodePaymentsProto`. -/
def GetMinZeronodePaymentsProto (env : Env) : Int :=
  if env.fSpork10Active then MIN_ZERONODE_PAYMENT_PROTO_VERSION_2
  else MIN_ZERONODE_PAYMENT_PROTO_VERSION_1

/-- The members of `CZeronodeSync` that the registry reads or writes. -/
structure CZeronodeSync where
  nRequestedZeronodeAssets : Int := ZERONODE_SYNC_INITIAL
  nRequestedZeronodeAttempt : Int := 0
  nTimeAssetSyncStarted : Int := 0
  nTimeLastZeronodeList : Int := 0
  nTimeLastPaymentVote : Int := 0
  nTimeLastGovernanceItem : Int := 0
  nTimeLastFailure : Int := 0
  nCountFailures : Int := 0
  /-- The block `pCurrentBlockIndex`: height and block time, if it is set. -/
  pCurrentBlockIndex : Option (Int × Int) := none
  /-- Static local of `IsBlockchainSynced`. -/
  fBlockchainSynced : Bool := false
  /-- Static local of `IsBlockchainSynced`; `none` before the first call, which
  initialises it with the clock. -/
  nTimeLastProcess : Option Int := none
  /-- Static local of `IsBlockchainSynced`. -/
  nSkipped : Int := 0
  /-- Static local of `IsBlockchainSynced`. -/
  fFirstBlockAccepted : Bool := false
deriving DecidableEq, Repr

/-- The method `CZeronodeSync::IsZeronodeListSynced`. -/
def CZeronodeSync.IsZeronodeListSynced (s : CZeronodeSync) : Bool :=
  s.nRequestedZeronodeAssets > ZERONODE_SYNC_LIST

/-- The method `CZeronodeSync::IsSynced`. -/
def CZeronodeSync.IsSynced (s : CZeronodeSync) : Bool :=
  s.nRequestedZeronodeAssets = ZERONODE_SYNC_FINISHED

/-- The method `CZeronodeSync::AddedZeronodeList`. -/
def CZeronodeSync.AddedZeronodeList (env : Env) (s : CZeronodeSync) : CZeronodeSync :=
  { s with nTimeLastZeronodeList := env.nTime }

/-- The index `CZeronodeIndex`; `std::map<CTxIn, int>` orders its keys by `prevout`. -/
structure CZeronodeIndex where
  nSize : Int := 0
  mapIndex : List (COutPoint × Int) := []
  mapReverseIndex : List (Int × CTxIn) := []
deriving DecidableEq, Repr

/-- The method `CZeronodeIndex::AddZeronodeVIN`. -/
def CZeronodeIndex.AddZeronodeVIN (ix : CZeronodeIndex) (vinZeronode : CTxIn) :
    CZeronodeIndex :=
  match mapFind ix.mapIndex vinZeronode.prevout with
  | some _ => ix
  | none =>
      { nSize := ix.nSize + 1
        mapIndex := mapSet ix.mapIndex vinZeronode.prevout ix.nSize
        mapReverseIndex := mapSet ix.mapReverseIndex ix.nSize vinZeronode }

/-- The members of the registry `CZeronodeMan` that the modelled code touches. -/
structure CZeronodeMan where
  vZeronodes : List CZeronode := []
  indexZeronodes : CZeronodeIndex := {}
  fZeronodesAdded : Bool := false
  fZeronodesRemoved : Bool := false
  nLastWatchdogVoteTime : Int := 0
  mapSeenZeronodeBroadcast : List (uint256 × (Int × CZeronodeBroadcast)) := []
  mapSeenZeronodePing : List (uint256 × CZeronodePing) := []
  /-- Recovery requests: per announce hash the time limit and the peers asked (`CNetAddr`,
  the address bytes). -/
  mMnbRecoveryRequests : List (uint256 × (Int × List (List Nat))) := []
  mMnbRecoveryGoodReplies : List (uint256 × List CZeronodeBroadcast) := []
  /-- Peers (`CNetAddr`, the address bytes) that asked for the list, with the time
  from which they may ask again. -/
  mAskedUsForZeronodeList : List (List Nat × Int) := []
  mWeAskedForZeronodeListEntry : List (COutPoint × List (List Nat × Int)) := []
  mWeAskedForVerification : List (List Nat × CZeronodeVerification) := []
  mapSeenZeronodeVerification : List (uint256 × CZeronodeVerification) := []
  /-- The block `pCurrentBlockIndex` of the registry, kept as its height. -/
  pCurrentBlockIndex : Option Int := none
deriving DecidableEq, Repr

/-- The enumeration `CActiveZeronode::zeronode_type_enum_t`. -/
inductive zeronode_type_enum_t where
  | ZERONODE_UNKNOWN
  | ZERONODE_REMOTE
  | ZERONODE_LOCAL
deriving DecidableEq, Repr

/-- The texts assigned to `strNotCapableReason`, with the values printed into them. -/
inductive NotCapableReason where
  | unset
  | mustAcceptConnections
  | noExternalAddressRetry
  | noExternalAddress
  | invalidPortMainnet (port : Nat)
  | invalidPortOther (port : Nat)
  | couldNotConnect (service : CService)
  | invalidProtocolVersion
  | addressMismatch
  | inState (nActiveState : state)
  | notInList
  | inputTooNew (nInputAge : Int)
  | errorCreatingBroadcast
deriving DecidableEq, Repr

/-- The state `ACTIVE_ZERONODE_INITIAL`. -/
def ACTIVE_ZERONODE_INITIAL : Int := 0

/-- The state `ACTIVE_ZERONODE_SYNC_IN_PROCESS`. -/
def ACTIVE_ZERONODE_SYNC_IN_PROCESS : Int := 1

/-- The state `ACTIVE_ZERONODE_INPUT_TOO_NEW`. -/
def ACTIVE_ZERONODE_INPUT_TOO_NEW : Int := 2

/-- The state `ACTIVE_ZERONODE_NOT_CAPABLE`. -/
def ACTIVE_ZERONODE_NOT_CAPABLE : Int := 3

/-- The state `ACTIVE_ZERONODE_STARTED`. -/
def ACTIVE_ZERONODE_STARTED : Int := 4

/-- The members of `CActiveZeronode` (the local node). -/
structure CActiveZeronode where
  eType : zeronode_type_enum_t := .ZERONODE_UNKNOWN
  fPingerEnabled : Bool := false
  pubKeyZeronode : CPubKey := []
  keyZeronode : CKey := []
  vin : CTxIn := CTxIn.null
  service : CService := ⟨[], 0⟩
  nState : Int := ACTIVE_ZERONODE_INITIAL
  strNotCapableReason : NotCapableReason := .unset
deriving DecidableEq, Repr

/-- The members of `CZeronodePayments`; `pCurrentBlockIndex` is kept as the height of
the block it points to. -/
structure CZeronodePayments where
  pCurrentBlockIndex : Option Int := none
  mapZeronodeBlocks : List (Int × CZeronodeBlockPayees) := []
  mapZeronodesLastVote : List (COutPoint × Int) := []
  mapZeronodePaymentVotes : List (uint256 × CZeronodePaymentVote) := []
deriving DecidableEq, Repr

/-- The global objects `mnodeman`, `mnpayments`, `zeronodeSync`, `activeZeronode` and
the inventory items relayed so far. -/
structure World where
  mnodeman : CZeronodeMan := {}
  mnpayments : CZeronodePayments := {}
  zeronodeSync : CZeronodeSync := {}
  activeZeronode : CActiveZeronode := {}
  vRelayed : List CInv := []
  /-- Messages pushed to single peers so far, with the peer's `id`. -/
  vPushed : List (Int × PeerMessage) := []
  /-- The calls `netfulfilledman.AddFulfilledRequest(addr, strRequest)` made so far. -/
  vFulfilled : List (CService × FulfilledKind) := []
deriving DecidableEq, Repr

/-- The method `CZeronodeMan::size`. -/
def CZeronodeMan.size (m : CZeronodeMan) : Int := m.vZeronodes.length

/-- The method `CZeronodeMan::IsWatchdogActive`. -/
def CZeronodeMan.IsWatchdogActive (env : Env) (m : CZeronodeMan) : Bool :=
  env.nTime - m.nLastWatchdogVoteTime ≤ ZERONODE_WATCHDOG_MAX_SECONDS

/-- Loop of `CZeronodeMan::Find(const CTxIn&)`: index of the first entry with the
outpoint, counted from `i`. -/
def findByVin (vin : CTxIn) : List CZeronode → Nat → Option Nat
  | [], _ => none
  | mn :: rest, i => if mn.vin.prevout = vin.prevout then some i else findByVin vin rest (i + 1)

/-- The method `CZeronodeMan::Find(const CTxIn&)`; the pointer is the index. -/
def CZeronodeMan.Find (m : CZeronodeMan) (vin : CTxIn) : Option Nat :=
  findByVin vin m.vZeronodes 0

/-- The method `CZeronodeMan::Add`. -/
def CZeronodeMan.Add (m : CZeronodeMan) (mn : CZeronode) : Bool × CZeronodeMan :=
  match m.Find mn.vin with
  | none =>
      (true, { m with
        vZeronodes := m.vZeronodes ++ [mn]
        indexZeronodes := m.indexZeronodes.AddZeronodeVIN mn.vin
        fZeronodesAdded := true })
  | some _ => (false, m)

/-- Write through a pointer into `vZeronodes`. -/
def World.setMn (w : World) (i : Nat) (mn : CZeronode) : World :=
  { w with mnodeman := { w.mnodeman with vZeronodes := w.mnodeman.vZeronodes.set i mn } }

/-- Call of `RelayInv`. -/
def World.RelayInv (w : World) (inv : CInv) : World :=
  { w with vRelayed := w.vRelayed ++ [inv] }

/-- Call of `zeronodeSync.AddedZeronodeList()`. -/
def World.AddedZeronodeList (env : Env) (w : World) : World :=
  { w with zeronodeSync := w.zeronodeSync.AddedZeronodeList env }

/-! ## The lifecycle check (`CZeronode::Check`) -/

/-- The method `CZeronode::IsBroadcastedWithin`. -/
def CZeronode.IsBroadcastedWithin (env : Env) (mn : CZeronode) (nSeconds : Int) : Bool :=
  env.nAdjustedTime - mn.sigTime < nSeconds

/-- The method `CZeronode::IsPingedWithin`; the default argument is `-1`. -/
def CZeronode.IsPingedWithin (env : Env) (mn : CZeronode) (nSeconds : Int)
    (nTimeToCheckAt : Int) : Bool :=
  if mn.lastPing.isNull then false
  else
    let nTimeToCheckAt := if nTimeToCheckAt = -1 then env.nAdjustedTime else nTimeToCheckAt
    nTimeToCheckAt - mn.lastPing.sigTime < nSeconds

/-- End of `CZeronode::Check`: `PRE_ENABLED` while the last ping is less than
`ZERONODE_MIN_MNP_SECONDS` after the announce, `ENABLED` otherwise. -/
def CZeronode.CheckEnabled (mn : CZeronode) : CZeronode :=
  if mn.lastPing.sigTime - mn.sigTime < ZERONODE_MIN_MNP_SECONDS then
    { mn with nActiveState := ZERONODE_PRE_ENABLED }
  else { mn with nActiveState := ZERONODE_ENABLED }

/-- Part of `CZeronode::Check` after the PoSe block: protocol, ping and watchdog
checks, each branch assigning `nActiveState`. -/
def CZeronode.CheckUsual (env : Env) (w : World) (mn : CZeronode) : CZeronode :=
  let fOurZeronode : Bool := env.fZNode ∧ w.activeZeronode.pubKeyZeronode = mn.pubKeyZeronode
  let fRequireUpdate : Bool :=
    mn.nProtocolVersion < GetMinZeronodePaymentsProto env ∨
      (fOurZeronode = true ∧ mn.nProtocolVersion < env.PROTOCOL_VERSION)
  if fRequireUpdate then { mn with nActiveState := ZERONODE_UPDATE_REQUIRED }
  else
    let fWaitForPing : Bool :=
      !w.zeronodeSync.IsZeronodeListSynced && !mn.IsPingedWithin env ZERONODE_MIN_MNP_SECONDS (-1)
    if (fWaitForPing && !fOurZeronode) &&
        (mn.IsExpired || mn.IsWatchdogExpired || mn.IsNewStartRequired) then mn
    else if !fWaitForPing || fOurZeronode then
      if !mn.IsPingedWithin env ZERONODE_NEW_START_REQUIRED_SECONDS (-1) then
        { mn with nActiveState := ZERONODE_NEW_START_REQUIRED }
      else
        let fWatchdogActive : Bool := w.zeronodeSync.IsSynced && w.mnodeman.IsWatchdogActive env
        let fWatchdogExpired : Bool :=
          fWatchdogActive = true ∧
            env.nTime - mn.nTimeLastWatchdogVote > ZERONODE_WATCHDOG_MAX_SECONDS
        if fWatchdogExpired then { mn with nActiveState := ZERONODE_WATCHDOG_EXPIRED }
        else if !mn.IsPingedWithin env ZERONODE_EXPIRATION_SECONDS (-1) then
          { mn with nActiveState := ZERONODE_EXPIRED }
        else mn.CheckEnabled
    else mn.CheckEnabled

/-- The method `CZeronode::Check`. -/
def CZeronode.Check (env : Env) (w : World) (mn : CZeronode) (fForce : Bool) : CZeronode :=
  if env.fShutdownRequested then mn
  else if fForce = false ∧ env.nTime - mn.nTimeLastChecked < ZERONODE_CHECK_SECONDS then mn
  else
    let mn := { mn with nTimeLastChecked := env.nTime }
    if mn.IsOutpointSpent then mn
    else if mn.fUnitTest = false ∧ env.fLockMain = false then mn
    else if mn.fUnitTest = false ∧ env.utxoExists mn.vin.prevout = false then
      { mn with nActiveState := ZERONODE_OUTPOINT_SPENT }
    else
      let nHeight : Int := if mn.fUnitTest then 0 else env.nChainHeight
      if mn.IsPoSeBanned then
        if nHeight < mn.nPoSeBanHeight then mn
        else CZeronode.CheckUsual env w mn.DecreasePoSeBanScore
      else if mn.nPoSeBanScore ≥ ZERONODE_POSE_BAN_MAX_SCORE then
        { mn with nActiveState := ZERONODE_POSE_BAN
                  nPoSeBanHeight := nHeight + w.mnodeman.size }
      else CZeronode.CheckUsual env w mn

/-! ## Payment election (`CZeronodeMan::GetNextZeronodeInQueueForPayment`) -/

/-- Modelled from the spec: the order `operator<` of `COutPoint` (declared outside the
sources at hand), which the spec calls the lexicographic order of the outpoint:
transaction hash first, compared byte by byte, then output index. -/
def COutPoint.lt (a b : COutPoint) : Bool :=
  a.hash < b.hash ∨ (a.hash = b.hash ∧ a.n < b.n)

/-- The order `operator<` of `CTxIn`, the order of the outpoints. -/
def CTxIn.lt (a b : CTxIn) : Bool := a.prevout.lt b.prevout

/-- Modelled from the spec: `UintToArith256` (declared outside the sources at hand);
the blob read as an unsigned 256-bit integer, least significant byte first. -/
def UintToArith256 (b : uint256) : Nat := b.foldr (fun byte acc => byte + 256 * acc) 0

/-- Modelled from the spec: `ArithToUint256` (declared outside the sources at hand);
the 32 bytes of an unsigned 256-bit integer, least significant byte first. -/
def ArithToUint256 (x : Nat) : uint256 := (List.range 32).map (fun i => x / 256 ^ i % 256)

/-- The method `CZeronode::CalculateScore`; `arith_uint256` addition wraps at `2^256`. -/
def CZeronode.CalculateScore (env : Env) (mn : CZeronode) (blockHash : uint256) : Nat :=
  let aux := ArithToUint256 ((UintToArith256 mn.vin.prevout.hash + mn.vin.prevout.n) % 2 ^ 256)
  let hash2 := UintToArith256 (env.HashBlock blockHash)
  let hash3 := UintToArith256 (env.HashBlockAux blockHash aux)
  if hash3 > hash2 then hash3 - hash2 else hash2 - hash3

/-- Loop of `CZeronodeBlockPayees::GetBestPayee`: `payeeRet` and `nVotes`. -/
def bestPayeeLoop : List CZeronodePayee → CScript × Int → CScript × Int
  | [], acc => acc
  | p :: rest, (payeeRet, nVotes) =>
      if p.GetVoteCount > nVotes then bestPayeeLoop rest (p.GetPayee, p.GetVoteCount)
      else bestPayeeLoop rest (payeeRet, nVotes)

/-- The method `CZeronodeBlockPayees::GetBestPayee`; `none` is the answer `false`. -/
def CZeronodeBlockPayees.GetBestPayee (bp : CZeronodeBlockPayees) : Option CScript :=
  if bp.vecPayees.length = 0 then none
  else
    let r := bestPayeeLoop bp.vecPayees ([], -1)
    if r.2 > -1 then some r.1 else none

/-- The method `CZeronodePayments::IsScheduled`: is the node the best payee of one of
the heights `tip .. tip + 8` other than `nNotBlockHeight`? -/
def IsScheduled (env : Env) (pay : CZeronodePayments) (mn : CZeronode)
    (nNotBlockHeight : Int) : Bool :=
  match pay.pCurrentBlockIndex with
  | none => false
  | some nHeight =>
      let mnpayee := env.GetScriptForDestination mn.pubKeyCollateralAddress
      (List.range 9).any (fun k =>
        let h : Int := nHeight + (k : Int)
        if h = nNotBlockHeight then false
        else
          match mapFind pay.mapZeronodeBlocks h with
          | none => false
          | some bp =>
              match bp.GetBestPayee with
              | none => false
              | some payee => mnpayee = payee)

/-- The method `CZeronode::GetCollateralAge`: the age and the entry with its cache. -/
def CZeronode.GetCollateralAge (env : Env) (mn : CZeronode) : Int × CZeronode :=
  if env.fLockMain = false ∨ env.fHasTip = false then (-1, mn)
  else
    let nHeight := env.nChainHeight
    if mn.nCacheCollateralBlock = 0 then
      let nInputAge := env.GetInputAge mn.vin
      if nInputAge > 0 then
        let mn := { mn with nCacheCollateralBlock := nHeight - nInputAge }
        (nHeight - mn.nCacheCollateralBlock, mn)
      else (nInputAge, mn)
    else (nHeight - mn.nCacheCollateralBlock, mn)

/-- The reasons of `CZeronodeMan::GetNotQualifyReason` (strings in the sources). -/
inductive NotQualifyReason where
  | notValidForPayment
  | invalidProtocolVersion
  | isScheduled
  | tooNew
  | collateralAge
deriving DecidableEq, Repr

/-- The method `CZeronodeMan::GetNotQualifyReason`; `none` is `NULL` (the node
qualifies). The entry comes back with the cache that `GetCollateralAge` may fill; `pay`
is the global `mnpayments`. -/
def GetNotQualifyReason (env : Env) (pay : CZeronodePayments) (mn : CZeronode)
    (nBlockHeight : Int) (fFilterSigTime : Bool) (nMnCount : Int) :
    Option NotQualifyReason × CZeronode :=
  if !mn.IsValidForPayment then (some .notValidForPayment, mn)
  else if mn.nProtocolVersion < GetMinZeronodePaymentsProto env then
    (some .invalidProtocolVersion, mn)
  else if IsScheduled env pay mn nBlockHeight then (some .isScheduled, mn)
  else if fFilterSigTime && env.fSigTimeTooNew mn.sigTime nMnCount then (some .tooNew, mn)
  else
    let r := mn.GetCollateralAge env
    if r.1 < nMnCount then (some .collateralAge, r.2) else (none, r.2)

/-- Loop of `CZeronodeMan::CountEnabled`. -/
def countEnabledLoop (nProtocolVersion : Int) : List CZeronode → Int
  | [] => 0
  | mn :: rest =>
      if mn.nProtocolVersion < nProtocolVersion ∨ mn.IsEnabled = false then
        countEnabledLoop nProtocolVersion rest
      else countEnabledLoop nProtocolVersion rest + 1

/-- The method `CZeronodeMan::CountEnabled`; the default argument is `-1`. -/
def CountEnabled (env : Env) (w : World) (nProtocolVersion : Int) : Int :=
  let nProtocolVersion :=
    if nProtocolVersion = -1 then GetMinZeronodePaymentsProto env else nProtocolVersion
  countEnabledLoop nProtocolVersion w.mnodeman.vZeronodes

/-- The comparator `CompareLastPaidBlock`. -/
def CompareLastPaidBlock (t1 t2 : Int × CZeronode) : Bool :=
  if t1.1 ≠ t2.1 then t1.1 < t2.1 else t1.2.vin.lt t2.2.vin

/-- The call `sort(begin, end, comp)`: a sorted rearrangement. For elements that `comp`
tells apart pairwise, as the entries of a registry with distinct outpoints are, it is
the only one. -/
def stdSort {α : Type} (comp : α → α → Bool) (l : List α) : List α :=
  l.insertionSort (fun a b => comp b a = false)

/-- First loop of `GetNextZeronodeInQueueForPayment`: for each entry the entry after
`GetNotQualifyReason` and, when it qualifies, its pair for `vecZeronodeLastPaid`. -/
def lastPaidLoop (env : Env) (pay : CZeronodePayments) (nBlockHeight : Int)
    (fFilterSigTime : Bool) (nMnCount : Int) :
    List CZeronode → List CZeronode × List (Int × CZeronode)
  | [] => ([], [])
  | mn :: rest =>
      let r := GetNotQualifyReason env pay mn nBlockHeight fFilterSigTime nMnCount
      let rs := lastPaidLoop env pay nBlockHeight fFilterSigTime nMnCount rest
      match r.1 with
      | some _ => (r.2 :: rs.1, rs.2)
      | none => (r.2 :: rs.1, (r.2.GetLastPaidBlock, r.2) :: rs.2)

/-- Second loop of `GetNextZeronodeInQueueForPayment`, with the locals `nCountTenth`,
`nHighest` and `pBestZeronode`. -/
def bestOfTenthLoop (env : Env) (blockHash : uint256) (nTenthNetwork : Int) :
    List (Int × CZeronode) → Int → Nat → Option CZeronode → Option CZeronode
  | [], _, _, pBestZeronode => pBestZeronode
  | s :: rest, nCountTenth, nHighest, pBestZeronode =>
      let nScore := s.2.CalculateScore env blockHash
      let nHighest' := if nScore > nHighest then nScore else nHighest
      let pBestZeronode' := if nScore > nHighest then some s.2 else pBestZeronode
      if nCountTenth + 1 ≥ nTenthNetwork then pBestZeronode'
      else bestOfTenthLoop env blockHash nTenthNetwork rest (nCountTenth + 1) nHighest'
        pBestZeronode'

/-- Body of `GetNextZeronodeInQueueForPayment(nBlockHeight, fFilterSigTime, nCount)`;
`retry` stands for the recursive call with the filter off. The result is the winner
(`none` for `NULL`), `nCount` and the registry afterwards. -/
def queueForPaymentBody (retry : World → Option CZeronode × Int × World) (env : Env)
    (w : World) (nBlockHeight : Int) (fFilterSigTime : Bool) :
    Option CZeronode × Int × World :=
  let nMnCount := CountEnabled env w (-1)
  let r := lastPaidLoop env w.mnpayments nBlockHeight fFilterSigTime nMnCount
    w.mnodeman.vZeronodes
  let w1 : World := { w with mnodeman := { w.mnodeman with vZeronodes := r.1 } }
  let nCount : Int := r.2.length
  if fFilterSigTime = true ∧ nCount < nMnCount / 3 then retry w1
  else
    let vecZeronodeLastPaid := stdSort CompareLastPaidBlock r.2
    match env.GetBlockHash (nBlockHeight - 101) with
    | none => (none, nCount, w1)
    | some blockHash =>
        let nTenthNetwork := nMnCount / 10
        (bestOfTenthLoop env blockHash nTenthNetwork vecZeronodeLastPaid 0 0 none, nCount, w1)

/-- The method `CZeronodeMan::GetNextZeronodeInQueueForPayment(int, bool, int&)`. The
recursive call passes `false`, and a call with `false` does not recurse. -/
def GetNextZeronodeInQueueForPayment (env : Env) (w : World) (nBlockHeight : Int)
    (fFilterSigTime : Bool) : Option CZeronode × Int × World :=
  queueForPaymentBody
    (fun w1 => queueForPaymentBody (fun w2 => (none, 0, w2)) env w1 nBlockHeight false)
    env w nBlockHeight fFilterSigTime

/-! ## Specification-side definitions for the election -/

/-- Sort key of `CompareLastPaidBlock`: last-paid block, then transaction hash, then
output index, compared lexicographically. -/
def lastPaidKey (t : Int × CZeronode) : Lex (Int × Lex (List Nat × Nat)) :=
  toLex (t.1, toLex (t.2.vin.prevout.hash, t.2.vin.prevout.n))

/-- The survivors of the qualification step: the registry entries for which
`GetNotQualifyReason` finds no reason, in registry order, each with its last-paid
block. -/
def survivorPairs (env : Env) (w : World) (nBlockHeight : Int) (fFilterSigTime : Bool) :
    List (Int × CZeronode) :=
  w.mnodeman.vZeronodes.filterMap (fun mn =>
    let r := GetNotQualifyReason env w.mnpayments mn nBlockHeight fFilterSigTime
      (CountEnabled env w (-1))
    if r.1 = none then some (r.2.GetLastPaidBlock, r.2) else none)

/-- The sig-time filter that is in force after the retry rule: the requested one, unless
it leaves fewer than a third of the enabled nodes. -/
def effectiveFilter (env : Env) (w : World) (nBlockHeight : Int) (fFilterSigTime : Bool) :
    Bool :=
  fFilterSigTime &&
    !decide (((survivorPairs env w nBlockHeight fFilterSigTime).length : Int) <
      CountEnabled env w (-1) / 3)

/-- The survivors sorted by last-paid block ascending, ties broken by outpoint. -/
def sortedSurvivors (env : Env) (w : World) (nBlockHeight : Int) (fFilterSigTime : Bool) :
    List CZeronode :=
  (stdSort CompareLastPaidBlock (survivorPairs env w nBlockHeight fFilterSigTime)).map
    (fun s => s.2)

/-- The second loop of the election without its counter: the first entry of the list
whose score is strictly above `nHighest` and above every score before it, or `best`. -/
def pickBest (env : Env) (blockHash : uint256) :
    List (Int × CZeronode) → Nat → Option CZeronode → Option CZeronode
  | [], _, best => best
  | s :: rest, nHighest, best =>
      if s.2.CalculateScore env blockHash > nHighest then
        pickBest env blockHash rest (s.2.CalculateScore env blockHash) (some s.2)
      else pickBest env blockHash rest nHighest best

/-- Transaction hash whose first byte is `k` and whose other 31 bytes are zero. -/
def txidOfByte (k : Nat) : uint256 := k :: List.replicate 31 0

/-- Example registry: twenty `ENABLED` entries with the outpoints `(txidOfByte k, 0)`,
`k = 1 .. 20`, all at last-paid block 0. -/
def exampleRegistry : List CZeronode :=
  (List.range 20).map (fun k =>
    { vin := ⟨⟨txidOfByte (k + 1), 0⟩, [], 4294967295⟩, nProtocolVersion := 90024 })

/-- Example chain view: tip at height 1000, every block hash known, the collateral of
the entries `1 .. 10` is 100 blocks old and that of the entries `11 .. 20` 5 blocks;
the score of an outpoint is the number `txid + vout`. -/
def exampleEnv : Env :=
  { nChainHeight := 1000
    GetBlockHash := fun _ => some uint256.null
    HashBlockAux := fun _ aux => aux
    GetInputAge := fun vin => if vin.prevout.hash.headD 0 ≤ 10 then 100 else 5 }

/-- Example world: `exampleRegistry` and nothing else. -/
def exampleWorld : World := { mnodeman := { vZeronodes := exampleRegistry } }

/-- The entries that the second loop of the election looks at: the first
`max 1 (nMnCount / 10)` sorted survivors, `nMnCount` being `CountEnabled()`. -/
def electionWindow (env : Env) (w : World) (nBlockHeight : Int) (fFilterSigTime : Bool) :
    List CZeronode :=
  (sortedSurvivors env w nBlockHeight
    (effectiveFilter env w nBlockHeight fFilterSigTime)).take
      (max 1 (CountEnabled env w (-1) / 10)).toNat

/-- The world `w` with `vZeronodes` replaced by `l`. -/
def World.withEntries (w : World) (l : List CZeronode) : World :=
  { w with mnodeman := { w.mnodeman with vZeronodes := l } }

/-! ## Ping and announce ingest (`zeronode.cpp`) -/

/-- The call `m.insert(std::make_pair(key, val))` on a `std::map`: an existing binding
stays. -/
def mapInsert {κ ν : Type} [DecidableEq κ] (m : List (κ × ν)) (key : κ) (val : ν) :
    List (κ × ν) :=
  match mapFind m key with
  | some _ => m
  | none => m ++ [(key, val)]

/-- The method `CZeronodePing::GetHash`. -/
def CZeronodePing.GetHash (env : Env) (p : CZeronodePing) : uint256 :=
  env.HashPing p.vin p.sigTime

/-- The method `CZeronodeBroadcast::GetHash`, also for the temporary
`CZeronodeBroadcast mnb(*pmn)` built from an entry. -/
def CZeronode.GetHash (env : Env) (mn : CZeronode) : uint256 :=
  env.HashBroadcast mn.vin mn.pubKeyCollateralAddress mn.sigTime

/-- The method `CZeronodePing::SimpleCheck`: the answer and `nDos`. -/
def CZeronodePing.SimpleCheck (env : Env) (p : CZeronodePing) : Bool × Int :=
  if p.sigTime > env.nAdjustedTime + 60 * 60 then (false, 1)
  else if env.mapBlockIndex p.blockHash = none then (false, 0)
  else (true, 0)

/-- The method `CZeronodePing::CheckSignature`: the answer and `nDos`. -/
def CZeronodePing.CheckSignature (env : Env) (p : CZeronodePing) (pubKeyZeronode : CPubKey) :
    Bool × Int :=
  if env.VerifyMessage pubKeyZeronode p.vchSig (.ping p.vin p.blockHash p.sigTime) then (true, 0)
  else (false, 33)

/-- The method `CZeronodeBroadcast::CheckSignature`: the answer and `nDos`. -/
def CZeronodeBroadcast.CheckSignature (env : Env) (mnb : CZeronodeBroadcast) : Bool × Int :=
  if env.VerifyMessage mnb.pubKeyCollateralAddress mnb.vchSig
      (.announce mnb.addr mnb.sigTime mnb.pubKeyCollateralAddress mnb.pubKeyZeronode
        mnb.nProtocolVersion) then (true, 0)
  else (false, 100)

/-- The statement `mapSeenZeronodeBroadcast[hash].second.lastPing = ping`, guarded by
`count(hash)`. -/
def updateSeenBroadcastPing (m : List (uint256 × (Int × CZeronodeBroadcast))) (hash : uint256)
    (ping : CZeronodePing) : List (uint256 × (Int × CZeronodeBroadcast)) :=
  match mapFind m hash with
  | none => m
  | some (t, mnb) => mapSet m hash (t, { mnb with lastPing := ping })

/-- End of `CZeronodePing::CheckAndUpdate`, from "so, ping seems to be ok" on: bump the
sync timer, store the ping in the entry `i` (whose value is `mn`) and in the cached
announce, force a check, relay if the entry is enabled. -/
def CZeronodePing.storeAndCheck (env : Env) (p : CZeronodePing) (i : Nat) (mn : CZeronode)
    (w : World) : Bool × Int × World :=
  let w1 :=
    if w.zeronodeSync.IsZeronodeListSynced = false ∧
        mn.IsPingedWithin env (ZERONODE_EXPIRATION_SECONDS / 2) (-1) = false then
      w.AddedZeronodeList env
    else w
  let mn1 := { mn with lastPing := p }
  let w2 : World := { w1 with mnodeman := { w1.mnodeman with
    vZeronodes := w1.mnodeman.vZeronodes.set i mn1
    mapSeenZeronodeBroadcast :=
      updateSeenBroadcastPing w1.mnodeman.mapSeenZeronodeBroadcast (mn1.GetHash env) p } }
  let mn2 := mn1.Check env w2 true
  let w3 := w2.setMn i mn2
  if mn2.IsEnabled = false then (false, 0, w3)
  else (true, 0, w3.RelayInv ⟨.MSG_ZERONODE_PING, p.GetHash env⟩)

/-- The method `CZeronodePing::CheckAndUpdate(pmn, fFromNewBroadcast, nDos)`: the answer,
`nDos` and the world afterwards. `pmn` is the index of the entry, `none` for `NULL`. -/
def CZeronodePing.CheckAndUpdate (env : Env) (p : CZeronodePing) (pmn : Option Nat)
    (fFromNewBroadcast : Bool) (w : World) : Bool × Int × World :=
  if (p.SimpleCheck env).1 = false then (false, (p.SimpleCheck env).2, w)
  else
    match pmn with
    | none => (false, 0, w)
    | some i =>
      match w.mnodeman.vZeronodes[i]? with
      | none => (false, 0, w)
      | some mn =>
        if fFromNewBroadcast = false ∧ mn.IsUpdateRequired = true then (false, 0, w)
        else if fFromNewBroadcast = false ∧ mn.IsNewStartRequired = true then (false, 0, w)
        else if (match env.mapBlockIndex p.blockHash with
            | some nHeight => decide (nHeight < env.nChainHeight - 24)
            | none => false) = true then (false, 0, w)
        else if mn.IsPingedWithin env (ZERONODE_MIN_MNP_SECONDS - 60) p.sigTime = true then
          (false, 0, w)
        else if (p.CheckSignature env mn.pubKeyZeronode).1 = false then
          (false, (p.CheckSignature env mn.pubKeyZeronode).2, w)
        else p.storeAndCheck env i mn w

/-- Assignments at the start of `CZeronode::UpdateFromNewBroadcast`. -/
def CZeronode.takeBroadcast (mn : CZeronode) (mnb : CZeronodeBroadcast) : CZeronode :=
  { mn with
    pubKeyZeronode := mnb.pubKeyZeronode
    sigTime := mnb.sigTime
    vchSig := mnb.vchSig
    nProtocolVersion := mnb.nProtocolVersion
    addr := mnb.addr
    nPoSeBanScore := 0
    nPoSeBanHeight := 0
    nTimeLastChecked := 0 }

/-- The statements `lastPing = mnb.lastPing` and
`mnodeman.mapSeenZeronodePing.insert(...)` of `UpdateFromNewBroadcast`. -/
def World.takeLastPing (env : Env) (w : World) (i : Nat) (ping : CZeronodePing) : World :=
  { w with mnodeman := { w.mnodeman with
    vZeronodes := w.mnodeman.vZeronodes.modify (fun e => { e with lastPing := ping }) i
    mapSeenZeronodePing := mapInsert w.mnodeman.mapSeenZeronodePing (ping.GetHash env) ping } }

/-- The statement `nPoSeBanScore = -ZERONODE_POSE_BAN_MAX_SCORE` on the entry `i`. -/
def World.markVerified (w : World) (i : Nat) : World :=
  { w with mnodeman := { w.mnodeman with
    vZeronodes := w.mnodeman.vZeronodes.modify
      (fun e => { e with nPoSeBanScore := -ZERONODE_POSE_BAN_MAX_SCORE }) i } }

/-- The call `pmn->Check(fForce)` on the entry `i`. -/
def World.CheckMn (env : Env) (w : World) (i : Nat) (fForce : Bool) : World :=
  { w with mnodeman := { w.mnodeman with
    vZeronodes := w.mnodeman.vZeronodes.modify (fun e => e.Check env w fForce) i } }

/-- The members of an entry that an announce fills in: signing time, address, service
key, signature and protocol version. -/
def CZeronode.announced (mn : CZeronode) : Int × CService × CPubKey × List Nat × Int :=
  (mn.sigTime, mn.addr, mn.pubKeyZeronode, mn.vchSig, mn.nProtocolVersion)

/-- The members that an announce fills in, read from the entry `i` of the registry. -/
def World.announcedAt (w : World) (i : Nat) :
    Option (Int × CService × CPubKey × List Nat × Int) :=
  (w.mnodeman.vZeronodes[i]?).map CZeronode.announced

/-- The method `CZeronode::UpdateFromNewBroadcast(mnb)` on the entry with index `i`.
`ManageState` stands for the call `activeZeronode.ManageState()`; the result `none`
means that this call gave none. The members `pubKeyZeronode` and `nProtocolVersion`
tested at the end were assigned from `mnb` at the start. -/
def CZeronode.UpdateFromNewBroadcast (ManageState : World → Option World) (env : Env)
    (i : Nat) (mnb : CZeronodeBroadcast) (w : World) : Option (Bool × World) :=
  match w.mnodeman.vZeronodes[i]? with
  | none => none
  | some mn =>
    if mnb.sigTime ≤ mn.sigTime ∧ mnb.fRecovery = false then some (false, w)
    else
      let w1 := w.setMn i (mn.takeBroadcast mnb)
      let r := if mnb.lastPing.isNull then (true, 0, w1)
        else mnb.lastPing.CheckAndUpdate env (some i) true w1
      let w2 : World := if r.1 = true then r.2.2.takeLastPing env i mnb.lastPing else r.2.2
      if env.fZNode = true ∧ mnb.pubKeyZeronode = w2.activeZeronode.pubKeyZeronode then
        let w3 := w2.markVerified i
        if mnb.nProtocolVersion = env.PROTOCOL_VERSION then
          match ManageState w3 with
          | none => none
          | some w4 => some (true, w4)
        else some (false, w3)
      else some (true, w2)

/-- The method `CZeronodeBroadcast::RelayZNode`. -/
def CZeronodeBroadcast.RelayZNode (env : Env) (mnb : CZeronodeBroadcast) (w : World) : World :=
  w.RelayInv ⟨.MSG_ZERONODE_ANNOUNCE, mnb.toCZeronode.GetHash env⟩

/-- The method `CZeronodeBroadcast::Update(pmn, nDos)` on the entry with index `i`: the
answer, `nDos` and the world afterwards. -/
def CZeronodeBroadcast.Update (ManageState : World → Option World) (env : Env)
    (mnb : CZeronodeBroadcast) (i : Nat) (w : World) : Option (Bool × Int × World) :=
  match w.mnodeman.vZeronodes[i]? with
  | none => none
  | some mn =>
    if mn.sigTime = mnb.sigTime ∧ mnb.fRecovery = false then some (false, 0, w)
    else if mn.sigTime > mnb.sigTime then some (false, 0, w)
    else
      let mn1 := mn.Check env w false
      let w1 := w.setMn i mn1
      if mn1.IsPoSeBanned then some (false, 0, w1)
      else if mn1.pubKeyCollateralAddress ≠ mnb.pubKeyCollateralAddress then some (false, 33, w1)
      else if (mnb.CheckSignature env).1 = false then some (false, (mnb.CheckSignature env).2, w1)
      else if mn1.IsBroadcastedWithin env ZERONODE_MIN_MNB_SECONDS = false ∨
          (env.fZNode = true ∧ mnb.pubKeyZeronode = w1.activeZeronode.pubKeyZeronode) then
        match CZeronode.UpdateFromNewBroadcast ManageState env i mnb w1 with
        | none => none
        | some (true, w2) =>
            some (true, 0, (mnb.RelayZNode env (w2.CheckMn env i false)).AddedZeronodeList env)
        | some (false, w2) => some (true, 0, w2.AddedZeronodeList env)
      else some (true, 0, w1)

/-! ## The local node (`activezeronode.cpp`) and the calls it makes -/

/-- The constant `ZERONODE_COIN_REQUIRED`. -/
def ZERONODE_COIN_REQUIRED : Int := 1000

/-- The constant `ZERONODE_SYNC_TICK_SECONDS`. -/
def ZERONODE_SYNC_TICK_SECONDS : Int := 6

/-- The constant `ZERONODE_SYNC_ENOUGH_PEERS`. -/
def ZERONODE_SYNC_ENOUGH_PEERS : Int := 3

/-- The method `CZeronodeSync::Reset`. -/
def CZeronodeSync.Reset (env : Env) (s : CZeronodeSync) : CZeronodeSync :=
  { s with
    nRequestedZeronodeAssets := ZERONODE_SYNC_INITIAL
    nRequestedZeronodeAttempt := 0
    nTimeAssetSyncStarted := env.nTime
    nTimeLastZeronodeList := env.nTime
    nTimeLastPaymentVote := env.nTime
    nTimeLastGovernanceItem := env.nTime
    nTimeLastFailure := 0
    nCountFailures := 0 }

/-- The method `CZeronodeSync::CheckNodeHeight(pnode)` with `fDisconnectStuckNodes`
left at `false`; `nHeight` is `pCurrentBlockIndex->nHeight`. -/
def CheckNodeHeight (nHeight : Int) (pnode : CNode) : Bool :=
  match pnode.stats with
  | none => false
  | some (nCommonHeight, nSyncHeight) =>
      if nCommonHeight = -1 ∨ nSyncHeight = -1 then false
      else if nHeight - 1 > nCommonHeight then false
      else if nHeight < nSyncHeight - 1 then false
      else true

/-- Peer loop of `IsBlockchainSynced`: are `ZERONODE_SYNC_ENOUGH_PEERS` peers at our
height? The accumulator is `nNodesAtSameHeight`. -/
def enoughPeersAtSameHeight (nHeight : Int) : List CNode → Int → Bool
  | [], _ => false
  | pnode :: rest, nNodesAtSameHeight =>
      if CheckNodeHeight nHeight pnode = false then
        enoughPeersAtSameHeight nHeight rest nNodesAtSameHeight
      else if nNodesAtSameHeight + 1 ≥ ZERONODE_SYNC_ENOUGH_PEERS then true
      else enoughPeersAtSameHeight nHeight rest (nNodesAtSameHeight + 1)

/-- The method `CZeronodeSync::IsBlockchainSynced(fBlockAccepted)`: the answer and the
sync object with its static locals. -/
def CZeronodeSync.IsBlockchainSynced (env : Env) (s0 : CZeronodeSync) (fBlockAccepted : Bool) :
    Bool × CZeronodeSync :=
  let nTimeLastProcess := s0.nTimeLastProcess.getD env.nTime
  let s1 := { s0 with nTimeLastProcess := some nTimeLastProcess }
  let s2 :=
    if env.nTime - nTimeLastProcess > 60 * 60 then
      { s1.Reset env with fBlockchainSynced := false }
    else s1
  match s2.pCurrentBlockIndex, env.pindexBestHeader with
  | some (nHeight, nBlockTime), some (nBestHeight, nBestTime) =>
    if env.fImportingOrReindex then (false, s2)
    else if fBlockAccepted = true ∧ s2.IsSynced = false then
      (false, { s2 with fFirstBlockAccepted := true, fBlockchainSynced := false,
                        nTimeLastProcess := some env.nTime })
    else if fBlockAccepted = false ∧ env.nTime - nTimeLastProcess < ZERONODE_SYNC_TICK_SECONDS then
      (s2.fBlockchainSynced, { s2 with nSkipped := s2.nSkipped + 1 })
    else
      let s3 := { s2 with nTimeLastProcess := some env.nTime, nSkipped := 0 }
      if s3.fBlockchainSynced then (true, s3)
      else if env.fCheckpointsEnabled = true ∧ nHeight < env.nTotalBlocksEstimate then (false, s3)
      else if (env.vNodes.length : Int) ≥ ZERONODE_SYNC_ENOUGH_PEERS ∧
          enoughPeersAtSameHeight nHeight env.vNodes 0 = true then
        (true, { s3 with fBlockchainSynced := true })
      else if s3.fFirstBlockAccepted = false then (false, s3)
      else
        let nMaxBlockTime := max nBlockTime nBestTime
        let fSynced : Bool :=
          nBestHeight - nHeight < 24 * 6 ∧ env.nTime - nMaxBlockTime < env.nMaxTipAge
        (fSynced, { s3 with fBlockchainSynced := fSynced })
  | _, _ => (false, s2)

/-- The static method `CZeronode::IsValidNetAddr(addrIn)`. -/
def IsValidNetAddr (env : Env) (addrIn : CService) : Bool :=
  env.fRegTest || env.fAddrUsable addrIn

/-- The constructor `CZeronodePing(vinNew)`. Without a tip, or below height 12, the
members keep their defaults. -/
def CZeronodePing.ofVin (env : Env) (vinNew : CTxIn) : CZeronodePing :=
  if env.fHasTip = false ∨ env.nChainHeight < 12 then {}
  else
    { vin := vinNew
      blockHash := (env.GetBlockHash (env.nChainHeight - 12)).getD uint256.null
      sigTime := env.nAdjustedTime
      vchSig := [] }

/-- The method `CZeronodePing::Sign`; `none` is the answer `false`. -/
def CZeronodePing.Sign (env : Env) (p : CZeronodePing) (keyZeronode : CKey)
    (pubKeyZeronode : CPubKey) : Option CZeronodePing :=
  let sigTime := env.nAdjustedTime
  match env.SignMessage keyZeronode (.ping p.vin p.blockHash sigTime) with
  | none => none
  | some vchSig =>
      if env.VerifyMessage pubKeyZeronode vchSig (.ping p.vin p.blockHash sigTime) then
        some { p with sigTime := sigTime, vchSig := vchSig }
      else none

/-- The constructor `CZeronodeBroadcast(addrNew, vinNew, pubKeyCollateralAddressNew,
pubKeyZeronodeNew, nProtocolVersionIn)`. -/
def CZeronodeBroadcast.ofKeys (env : Env) (addrNew : CService) (vinNew : CTxIn)
    (pubKeyCollateralAddressNew pubKeyZeronodeNew : CPubKey) (nProtocolVersionIn : Int) :
    CZeronodeBroadcast :=
  { vin := vinNew
    addr := addrNew
    pubKeyCollateralAddress := pubKeyCollateralAddressNew
    pubKeyZeronode := pubKeyZeronodeNew
    sigTime := env.nAdjustedTime
    nActiveState := ZERONODE_ENABLED
    nProtocolVersion := nProtocolVersionIn
    fRecovery := false }

/-- The method `CZeronodeBroadcast::Sign`; `none` is the answer `false`. -/
def CZeronodeBroadcast.Sign (env : Env) (mnb : CZeronodeBroadcast) (keyCollateralAddress : CKey) :
    Option CZeronodeBroadcast :=
  let sigTime := env.nAdjustedTime
  let strMessage := SignedMessage.announce mnb.addr sigTime mnb.pubKeyCollateralAddress
    mnb.pubKeyZeronode mnb.nProtocolVersion
  match env.SignMessage keyCollateralAddress strMessage with
  | none => none
  | some vchSig =>
      if env.VerifyMessage mnb.pubKeyCollateralAddress vchSig strMessage then
        some { mnb with sigTime := sigTime, vchSig := vchSig }
      else none

/-- The static method `CZeronodeBroadcast::Create(vin, service, keys ..., strErrorRet,
mnbRet)`; `none` is the answer `false`. -/
def CZeronodeBroadcast.Create (env : Env) (txin : CTxIn) (service : CService)
    (keyCollateralAddressNew : CKey) (pubKeyCollateralAddressNew : CPubKey)
    (keyZeronodeNew : CKey) (pubKeyZeronodeNew : CPubKey) : Option CZeronodeBroadcast :=
  if env.fImportingOrReindex then none
  else
    match (CZeronodePing.ofVin env txin).Sign env keyZeronodeNew pubKeyZeronodeNew with
    | none => none
    | some mnp =>
        let mnbRet := CZeronodeBroadcast.ofKeys env service txin pubKeyCollateralAddressNew
          pubKeyZeronodeNew env.PROTOCOL_VERSION
        if IsValidNetAddr env mnbRet.addr = false then none
        else CZeronodeBroadcast.Sign env { mnbRet with lastPing := mnp } keyCollateralAddressNew

/-- The constructor `CZeronode(const CZeronodeBroadcast& mnb)`. -/
def CZeronode.ofBroadcast (mnb : CZeronodeBroadcast) : CZeronode :=
  { vin := mnb.vin
    addr := mnb.addr
    pubKeyCollateralAddress := mnb.pubKeyCollateralAddress
    pubKeyZeronode := mnb.pubKeyZeronode
    lastPing := mnb.lastPing
    vchSig := mnb.vchSig
    sigTime := mnb.sigTime
    nLastDsq := 0
    nTimeLastChecked := 0
    nTimeLastPaid := 0
    nTimeLastWatchdogVote := mnb.sigTime
    nActiveState := mnb.nActiveState
    nCacheCollateralBlock := 0
    nBlockLastPaid := 0
    nProtocolVersion := mnb.nProtocolVersion
    nPoSeBanScore := 0
    nPoSeBanHeight := 0
    fAllowMixingTx := true
    fUnitTest := false }

/-- Loop of `CZeronodeMan::Find(const CPubKey&)`: index of the first entry with the
service key, counted from `i`. -/
def findByPubKey (pubKeyZeronode : CPubKey) : List CZeronode → Nat → Option Nat
  | [], _ => none
  | mn :: rest, i =>
      if mn.pubKeyZeronode = pubKeyZeronode then some i
      else findByPubKey pubKeyZeronode rest (i + 1)

/-- The method `CZeronodeMan::CheckZeronode(const CPubKey&, fForce)`. -/
def World.CheckZeronodeByKey (env : Env) (w : World) (pubKeyZeronode : CPubKey)
    (fForce : Bool) : World :=
  match findByPubKey pubKeyZeronode w.mnodeman.vZeronodes 0 with
  | none => w
  | some i => w.CheckMn env i fForce

/-- The method `CZeronodeMan::SetZeronodeLastPing`. -/
def World.SetZeronodeLastPing (env : Env) (w : World) (vin : CTxIn) (mnp : CZeronodePing) :
    World :=
  match w.mnodeman.Find vin with
  | none => w
  | some i =>
    match w.mnodeman.vZeronodes[i]? with
    | none => w
    | some mn =>
      let mn1 := { mn with lastPing := mnp }
      { w with mnodeman := { w.mnodeman with
        vZeronodes := w.mnodeman.vZeronodes.set i mn1
        mapSeenZeronodePing := mapInsert w.mnodeman.mapSeenZeronodePing (mnp.GetHash env) mnp
        mapSeenZeronodeBroadcast :=
          updateSeenBroadcastPing w.mnodeman.mapSeenZeronodeBroadcast (mn1.GetHash env) mnp } }

/-- Assignment of `nState` and `strNotCapableReason`. -/
def World.setNotCapable (w : World) (reason : NotCapableReason) : World :=
  { w with activeZeronode := { w.activeZeronode with
    nState := ACTIVE_ZERONODE_NOT_CAPABLE, strNotCapableReason := reason } }

/-- The method `CActiveZeronode::SendZeronodePing`; the answer is dropped by the only
caller. -/
def SendZeronodePing (env : Env) (w : World) : World :=
  if w.activeZeronode.fPingerEnabled = false then w
  else if (w.mnodeman.Find w.activeZeronode.vin).isNone then w.setNotCapable .notInList
  else
    match (CZeronodePing.ofVin env w.activeZeronode.vin).Sign env w.activeZeronode.keyZeronode
        w.activeZeronode.pubKeyZeronode with
    | none => w
    | some mnp =>
      let fPinged : Bool :=
        match w.mnodeman.Find w.activeZeronode.vin with
        | none => false
        | some i =>
          match w.mnodeman.vZeronodes[i]? with
          | none => false
          | some mn => mn.IsPingedWithin env ZERONODE_MIN_MNP_SECONDS mnp.sigTime
      if fPinged then w
      else (w.SetZeronodeLastPing env w.activeZeronode.vin mnp).RelayInv
        ⟨.MSG_ZERONODE_PING, mnp.GetHash env⟩

/-- Removal `m.erase(key)` from a `std::map` kept as an association list. -/
def mapErase {κ ν : Type} [DecidableEq κ] (m : List (κ × ν)) (key : κ) : List (κ × ν) :=
  m.filter (fun kv => decide (kv.1 ≠ key))

/-- The default constructor `CZeronodeBroadcast()`. -/
def CZeronodeBroadcast.default (env : Env) : CZeronodeBroadcast :=
  { sigTime := env.nAdjustedTime, nProtocolVersion := env.PROTOCOL_VERSION }

/-- The read `mapSeenZeronodeBroadcast[hash].second`: `operator[]` inserts a
value-initialised pair when the key is missing. -/
def seenBroadcastAt (env : Env) (m : List (uint256 × (Int × CZeronodeBroadcast)))
    (hash : uint256) : CZeronodeBroadcast × List (uint256 × (Int × CZeronodeBroadcast)) :=
  match mapFind m hash with
  | some v => (v.2, m)
  | none => (CZeronodeBroadcast.default env, m ++ [(hash, (0, CZeronodeBroadcast.default env))])

/-- Peer loop of `ManageStateInitial`: `fFoundLocal` and `service` after the loop. -/
def findLocalFromPeers (env : Env) : List CNode → CService → Bool × CService
  | [], service => (false, service)
  | pnode :: rest, service =>
      if pnode.fSuccessfullyConnected = true ∧ env.fIsIPv4 pnode.addr = true then
        match env.GetLocal (some pnode.addr) with
        | none => findLocalFromPeers env rest service
        | some found =>
            if IsValidNetAddr env found then (true, found)
            else findLocalFromPeers env rest found
      else findLocalFromPeers env rest service

/-- The method `CActiveZeronode::ManageStateInitial`. -/
def ManageStateInitial (env : Env) (w : World) : World :=
  if env.fListen = false then w.setNotCapable .mustAcceptConnections
  else
    let service1 := (env.GetLocal none).getD w.activeZeronode.service
    let fFound1 : Bool := (env.GetLocal none).isSome && IsValidNetAddr env service1
    let w1 : World := { w with activeZeronode := { w.activeZeronode with service := service1 } }
    if fFound1 = false ∧ env.vNodes.isEmpty = true then
      w1.setNotCapable .noExternalAddressRetry
    else
      let r := if fFound1 then (true, service1) else findLocalFromPeers env env.vNodes service1
      let w2 : World := { w with activeZeronode := { w.activeZeronode with service := r.2 } }
      if r.1 = false then w2.setNotCapable .noExternalAddress
      else if env.fMainNet = true ∧ r.2.port ≠ env.mainnetDefaultPort then
        w2.setNotCapable (.invalidPortMainnet r.2.port)
      else if env.fMainNet = false ∧ r.2.port = env.mainnetDefaultPort then
        w2.setNotCapable (.invalidPortOther r.2.port)
      else if env.ConnectNode r.2 = false then w2.setNotCapable (.couldNotConnect r.2)
      else
        let w3 : World := { w2 with activeZeronode := { w2.activeZeronode with
          eType := .ZERONODE_REMOTE } }
        if env.fWalletAvailable = false then w3
        else if env.fWalletLocked = true then w3
        else if env.nWalletBalance < ZERONODE_COIN_REQUIRED * env.COIN then w3
        else
          match env.GetZeronodeVinAndKeys with
          | none => w3
          | some (vin, _, _) =>
              { w3 with activeZeronode := { w3.activeZeronode with
                vin := vin, eType := .ZERONODE_LOCAL } }

/-- The method `CActiveZeronode::ManageStateRemote`. -/
def ManageStateRemote (env : Env) (w0 : World) : World :=
  let w := w0.CheckZeronodeByKey env w0.activeZeronode.pubKeyZeronode false
  match findByPubKey w.activeZeronode.pubKeyZeronode w.mnodeman.vZeronodes 0 with
  | none => w.setNotCapable .notInList
  | some i =>
    match w.mnodeman.vZeronodes[i]? with
    | none => w.setNotCapable .notInList
    | some infoMn =>
      if infoMn.nProtocolVersion ≠ env.PROTOCOL_VERSION then
        w.setNotCapable .invalidProtocolVersion
      else if w.activeZeronode.service ≠ infoMn.addr then w.setNotCapable .addressMismatch
      else if IsValidStateForAutoStart infoMn.nActiveState = false then
        w.setNotCapable (.inState infoMn.nActiveState)
      else if w.activeZeronode.nState ≠ ACTIVE_ZERONODE_STARTED then
        { w with activeZeronode := { w.activeZeronode with
          vin := infoMn.vin
          service := infoMn.addr
          fPingerEnabled := true
          nState := ACTIVE_ZERONODE_STARTED } }
      else w

/-- The method `CZeronodeMan::NotifyZeronodeUpdates`. -/
def World.NotifyZeronodeUpdates (w : World) : World :=
  { w with mnodeman := { w.mnodeman with fZeronodesAdded := false, fZeronodesRemoved := false } }

/-- The method `CZeronodeMan::UpdateZeronodeList(mnb)`; `ManageState` as in
`CZeronode.UpdateFromNewBroadcast`. -/
def UpdateZeronodeList (ManageState : World → Option World) (env : Env)
    (mnb : CZeronodeBroadcast) (w : World) : Option World :=
  let w1 : World := { w with mnodeman := { w.mnodeman with
    mapSeenZeronodePing :=
      mapInsert w.mnodeman.mapSeenZeronodePing (mnb.lastPing.GetHash env) mnb.lastPing
    mapSeenZeronodeBroadcast :=
      mapInsert w.mnodeman.mapSeenZeronodeBroadcast (mnb.toCZeronode.GetHash env)
        (env.nTime, mnb) } }
  match w1.mnodeman.Find mnb.vin with
  | none =>
      let r := w1.mnodeman.Add (CZeronode.ofBroadcast mnb)
      let w2 : World := { w1 with mnodeman := r.2 }
      some (if r.1 then w2.AddedZeronodeList env else w2)
  | some i =>
    match w1.mnodeman.vZeronodes[i]? with
    | none => none
    | some mn =>
      let old := seenBroadcastAt env w1.mnodeman.mapSeenZeronodeBroadcast (mn.GetHash env)
      let w2 : World := { w1 with mnodeman := { w1.mnodeman with
        mapSeenZeronodeBroadcast := old.2 } }
      match CZeronode.UpdateFromNewBroadcast ManageState env i mnb w2 with
      | none => none
      | some (true, w3) =>
          let w4 := w3.AddedZeronodeList env
          some { w4 with mnodeman := { w4.mnodeman with
            mapSeenZeronodeBroadcast :=
              mapErase w4.mnodeman.mapSeenZeronodeBroadcast (old.1.toCZeronode.GetHash env) } }
      | some (false, w3) => some w3

/-- The method `CActiveZeronode::ManageStateLocal`; `ManageState` as in
`CZeronode.UpdateFromNewBroadcast`. -/
def ManageStateLocal (ManageState : World → Option World) (env : Env) (w : World) :
    Option World :=
  if w.activeZeronode.nState = ACTIVE_ZERONODE_STARTED then some w
  else
    match env.GetZeronodeVinAndKeys with
    | none => some w
    | some (vin, pubKeyCollateral, keyCollateral) =>
      let w1 : World := { w with activeZeronode := { w.activeZeronode with vin := vin } }
      let nInputAge := env.GetInputAge vin
      if nInputAge < env.nZeronodeMinimumConfirmations then
        some { w1 with activeZeronode := { w1.activeZeronode with
          nState := ACTIVE_ZERONODE_INPUT_TOO_NEW
          strNotCapableReason := .inputTooNew nInputAge } }
      else
        match CZeronodeBroadcast.Create env vin w1.activeZeronode.service keyCollateral
            pubKeyCollateral w1.activeZeronode.keyZeronode w1.activeZeronode.pubKeyZeronode with
        | none => some (w1.setNotCapable .errorCreatingBroadcast)
        | some mnb =>
          let w2 : World := { w1 with activeZeronode := { w1.activeZeronode with
            fPingerEnabled := true, nState := ACTIVE_ZERONODE_STARTED } }
          match UpdateZeronodeList ManageState env mnb w2 with
          | none => none
          | some w3 => some (mnb.RelayZNode env w3.NotifyZeronodeUpdates)

/-- The test `NetworkIDString() != REGTEST && !zeronodeSync.IsBlockchainSynced()` at the
start of `CActiveZeronode::ManageState`, with the sync object after it: on regtest
`IsBlockchainSynced` is not called. -/
def syncInProcess (env : Env) (s : CZeronodeSync) : Bool × CZeronodeSync :=
  if env.fRegTest = false then
    let r := s.IsBlockchainSynced env false
    (!r.1, r.2)
  else (false, s)

/-- The statements of `CActiveZeronode::ManageState` between the sync test and the
dispatch on `eType`: leave `SYNC_IN_PROCESS`, and find out the type if it is unknown. -/
def ManageStateType (env : Env) (w1 : World) : World :=
  let w2 : World :=
    if w1.activeZeronode.nState = ACTIVE_ZERONODE_SYNC_IN_PROCESS then
      { w1 with activeZeronode := { w1.activeZeronode with
        nState := ACTIVE_ZERONODE_INITIAL } }
    else w1
  if w2.activeZeronode.eType = .ZERONODE_UNKNOWN then ManageStateInitial env w2 else w2

/-- The dispatch on `eType` in `CActiveZeronode::ManageState`; `ManageState` as in
`CZeronode.UpdateFromNewBroadcast`. -/
def ManageStateByType (ManageState : World → Option World) (env : Env) (w3 : World) :
    Option World :=
  if w3.activeZeronode.eType = .ZERONODE_REMOTE then some (ManageStateRemote env w3)
  else if w3.activeZeronode.eType = .ZERONODE_LOCAL then
    let w' := ManageStateRemote env w3
    if w'.activeZeronode.nState ≠ ACTIVE_ZERONODE_STARTED then
      ManageStateLocal ManageState env w'
    else some w'
  else some w3

/-- Body of `CActiveZeronode::ManageState`; `ManageState` stands for the nested call
of the same method from `CZeronode::UpdateFromNewBroadcast`. -/
def ManageStateBody (ManageState : World → Option World) (env : Env) (w : World) :
    Option World :=
  if env.fZNode = false then some w
  else
    let r := syncInProcess env w.zeronodeSync
    let w1 : World := { w with zeronodeSync := r.2 }
    if r.1 = true then
      some { w1 with activeZeronode := { w1.activeZeronode with
        nState := ACTIVE_ZERONODE_SYNC_IN_PROCESS } }
    else
      match ManageStateByType ManageState env (ManageStateType env w1) with
      | none => none
      | some w5 => some (SendZeronodePing env w5)

/-- The method `CActiveZeronode::ManageState`, unfolded `depth` times: a call nested
deeper gives `none`. Two levels are enough for every world (`ManageState_total`). -/
def ManageState (env : Env) : Nat → World → Option World
  | 0 => fun _ => none
  | depth + 1 => ManageStateBody (ManageState env depth) env

/-! ## Specification-side definitions for the PoSe score -/

/-- The score of the entry lies in `[-5, +5]`. -/
def CZeronode.scoreInRange (mn : CZeronode) : Prop :=
  -ZERONODE_POSE_BAN_MAX_SCORE ≤ mn.nPoSeBanScore ∧ mn.nPoSeBanScore ≤ ZERONODE_POSE_BAN_MAX_SCORE

/-- No entry is lost from `l` to `l'`, and every position whose entry had its score in
range in `l` still has it in `l'`. -/
def RangeStep (l l' : List CZeronode) : Prop :=
  l.length ≤ l'.length ∧
  ∀ i : Nat, (∀ mn : CZeronode, l[i]? = some mn → mn.scoreInRange) →
    ∀ mn : CZeronode, l'[i]? = some mn → mn.scoreInRange

/-- The members of an entry that the lookup by outpoint and the staleness test of
`CZeronode::UpdateFromNewBroadcast` read: collateral outpoint and signing time. -/
def CZeronode.regKey (mn : CZeronode) : COutPoint × Int := (mn.vin.prevout, mn.sigTime)

/-- The entry that `CZeronodeMan::Find` gives for the collateral of the wallet, if both
exist, carries a signing time that is not before the adjusted clock: this is the state
of the registry right after the local node has announced itself. -/
def localAnnounced (env : Env) (l : List CZeronode) : Prop :=
  ∀ (vin : CTxIn) (pubKey : CPubKey) (key : CKey),
    env.GetZeronodeVinAndKeys = some (vin, pubKey, key) →
    ∀ (i : Nat) (mn : CZeronode), findByVin vin l 0 = some i → l[i]? = some mn →
      env.nAdjustedTime ≤ mn.sigTime

/-! ## Locals of `CZeronode::Check`, for stating its branches -/

/-- The local `fOurZeronode` of `CZeronode::Check`. -/
def CZeronode.fOurZeronode (env : Env) (w : World) (mn : CZeronode) : Bool :=
  env.fZNode ∧ w.activeZeronode.pubKeyZeronode = mn.pubKeyZeronode

/-- The local `fRequireUpdate` of `CZeronode::Check`. -/
def CZeronode.fRequireUpdate (env : Env) (w : World) (mn : CZeronode) : Bool :=
  mn.nProtocolVersion < GetMinZeronodePaymentsProto env ∨
    (mn.fOurZeronode env w = true ∧ mn.nProtocolVersion < env.PROTOCOL_VERSION)

/-- The local `fWaitForPing` of `CZeronode::Check`. -/
def CZeronode.fWaitForPing (env : Env) (w : World) (mn : CZeronode) : Bool :=
  !w.zeronodeSync.IsZeronodeListSynced && !mn.IsPingedWithin env ZERONODE_MIN_MNP_SECONDS (-1)

/-- The local `fWatchdogExpired` of `CZeronode::Check`. -/
def CZeronode.fWatchdogExpired (env : Env) (w : World) (mn : CZeronode) : Bool :=
  (w.zeronodeSync.IsSynced && w.mnodeman.IsWatchdogActive env) = true ∧
    env.nTime - mn.nTimeLastWatchdogVote > ZERONODE_WATCHDOG_MAX_SECONDS


/-! ## Announce ingest by the registry (`CZeronodeMan::CheckMnbAndUpdateZeronodeList`) -/

/-- The method `CZeronodeBroadcast::SimpleCheck(nDos)`: the answer, `nDos`, and the
announce, whose `nActiveState` the method may set. -/
def CZeronodeBroadcast.SimpleCheck (env : Env) (mnb : CZeronodeBroadcast) :
    Bool × Int × CZeronodeBroadcast :=
  if IsValidNetAddr env mnb.addr = false then (false, 0, mnb)
  else if mnb.sigTime > env.nAdjustedTime + 60 * 60 then (false, 1, mnb)
  else
    let r : Int × CZeronodeBroadcast :=
      if mnb.lastPing.isNull = true then (0, { mnb with nActiveState := ZERONODE_EXPIRED })
      else if (mnb.lastPing.SimpleCheck env).1 = false then
        ((mnb.lastPing.SimpleCheck env).2, { mnb with nActiveState := ZERONODE_EXPIRED })
      else ((mnb.lastPing.SimpleCheck env).2, mnb)
    if r.2.nProtocolVersion < GetMinZeronodePaymentsProto env then (false, r.1, r.2)
    else if (env.GetScriptForDestination r.2.pubKeyCollateralAddress).length ≠ 25 then
      (false, 100, r.2)
    else if (env.GetScriptForDestination r.2.pubKeyZeronode).length ≠ 25 then (false, 100, r.2)
    else if r.2.vin.scriptSig ≠ [] then (false, 100, r.2)
    else if env.fMainNet = true then
      if r.2.addr.port ≠ env.mainnetDefaultPort then (false, r.1, r.2) else (true, r.1, r.2)
    else if r.2.addr.port = env.mainnetDefaultPort then (false, r.1, r.2)
    else (true, r.1, r.2)

/-- The statement `mnodeman.mapSeenZeronodeBroadcast.erase(hash)`. -/
def World.eraseSeenBroadcast (w : World) (hash : uint256) : World :=
  { w with mnodeman := { w.mnodeman with
    mapSeenZeronodeBroadcast := mapErase w.mnodeman.mapSeenZeronodeBroadcast hash } }

/-- The method `CZeronodeBroadcast::CheckOutpoint(nDos)`: the answer, `nDos` (the value
passed in stays when the method returns before `CheckSignature`) and the world. -/
def CZeronodeBroadcast.CheckOutpoint (env : Env) (mnb : CZeronodeBroadcast) (nDos : Int)
    (w : World) : Bool × Int × World :=
  if env.fZNode = true ∧ mnb.vin.prevout = w.activeZeronode.vin.prevout ∧
      mnb.pubKeyZeronode = w.activeZeronode.pubKeyZeronode then (false, nDos, w)
  else if (mnb.CheckSignature env).1 = false then (false, (mnb.CheckSignature env).2, w)
  else if env.fLockMain = false then
    (false, 0, w.eraseSeenBroadcast (mnb.toCZeronode.GetHash env))
  else if env.utxoExists mnb.vin.prevout = false then (false, 0, w)
  else if env.utxoValue mnb.vin.prevout ≠ ZERONODE_COIN_REQUIRED * env.COIN then (false, 0, w)
  else if env.nChainHeight - env.utxoHeight mnb.vin.prevout + 1 <
      env.nZeronodeMinimumConfirmations then
    (false, 0, w.eraseSeenBroadcast (mnb.toCZeronode.GetHash env))
  else if env.IsVinAssociatedWithPubkey mnb.vin mnb.pubKeyCollateralAddress = false then
    (false, 33, w)
  else
    match env.mapBlockIndex (env.GetTransactionBlock mnb.vin.prevout.hash) with
    | some nHeight =>
        if env.chainBlockTime (nHeight + env.nZeronodeMinimumConfirmations - 1) > mnb.sigTime
        then (false, 0, w)
        else (true, 0, w)
    | none => (true, 0, w)

/-- The branch `mapSeenZeronodeBroadcast.count(hash) && !mnb.fRecovery` of
`CheckMnbAndUpdateZeronodeList`, entered with the cached pair `seen`: bump the sync
timer for an old cache entry and book a reply to a recovery request. -/
def seenBroadcast (env : Env) (pfrom : Option CNode) (mnb : CZeronodeBroadcast)
    (hash : uint256) (seen : Int × CZeronodeBroadcast) (w : World) : World :=
  let w1 : World :=
    if env.nTime - seen.1 > ZERONODE_NEW_START_REQUIRED_SECONDS - ZERONODE_MIN_MNP_SECONDS * 2
    then
      ({ w with mnodeman := { w.mnodeman with
        mapSeenZeronodeBroadcast :=
          mapSet w.mnodeman.mapSeenZeronodeBroadcast hash (env.nTime, seen.2) } }
        ).AddedZeronodeList env
    else w
  match pfrom, mapFind w1.mnodeman.mMnbRecoveryRequests hash with
  | some node, some req =>
      if env.nTime < req.1 ∧ node.addr.ip ∈ req.2 then
        let w2 : World := { w1 with mnodeman := { w1.mnodeman with
          mMnbRecoveryRequests :=
            mapSet w1.mnodeman.mMnbRecoveryRequests hash
              (req.1, req.2.filter (fun a => decide (a ≠ node.addr.ip))) } }
        if mnb.lastPing.sigTime > seen.2.lastPing.sigTime ∧
            IsValidStateForAutoStart (mnb.toCZeronode.Check env w2 false).nActiveState = true
        then
          { w2 with mnodeman := { w2.mnodeman with
            mMnbRecoveryGoodReplies :=
              mapSet w2.mnodeman.mMnbRecoveryGoodReplies hash
                (((mapFind w2.mnodeman.mMnbRecoveryGoodReplies hash).getD []) ++ [mnb]) } }
        else w2
      else w1
  | _, _ => w1

/-- End of `CheckMnbAndUpdateZeronodeList`, from `mnb.CheckOutpoint(nDos)` on. The
entry that `Add(mnb)` stores is the `CZeronode` part of the announce. -/
def checkOutpointAndAdd (ManageState : World → Option World) (env : Env)
    (mnb : CZeronodeBroadcast) (nDos : Int) (w : World) : Option (Bool × Int × World) :=
  let r := mnb.CheckOutpoint env nDos w
  if r.1 = true then
    let a := r.2.2.mnodeman.Add mnb.toCZeronode
    let w1 : World := ({ r.2.2 with mnodeman := a.2 } : World).AddedZeronodeList env
    if env.fZNode = true ∧ mnb.pubKeyZeronode = w1.activeZeronode.pubKeyZeronode then
      if mnb.nProtocolVersion = env.PROTOCOL_VERSION then
        match ManageState w1 with
        | none => none
        | some w2 => some (true, r.2.1, mnb.RelayZNode env w2)
      else some (false, r.2.1, w1)
    else some (true, r.2.1, mnb.RelayZNode env w1)
  else some (false, r.2.1, r.2.2)

/-- The method `CZeronodeMan::CheckMnbAndUpdateZeronodeList(pfrom, mnb, nDos)`: the
answer, `nDos` and the world; `none` when the nested `ManageState` gives none.
`ManageState` as in `CZeronode.UpdateFromNewBroadcast`. -/
def CheckMnbAndUpdateZeronodeList (ManageState : World → Option World) (env : Env)
    (pfrom : Option CNode) (mnb : CZeronodeBroadcast) (w : World) :
    Option (Bool × Int × World) :=
  let hash := mnb.toCZeronode.GetHash env
  match (if mnb.fRecovery = false then mapFind w.mnodeman.mapSeenZeronodeBroadcast hash
         else none) with
  | some seen => some (true, 0, seenBroadcast env pfrom mnb hash seen w)
  | none =>
    let w1 : World := { w with mnodeman := { w.mnodeman with
      mapSeenZeronodeBroadcast :=
        mapInsert w.mnodeman.mapSeenZeronodeBroadcast hash (env.nTime, mnb) } }
    let c := mnb.SimpleCheck env
    if c.1 = false then some (false, c.2.1, w1)
    else
      match w1.mnodeman.Find c.2.2.vin with
      | none => checkOutpointAndAdd ManageState env c.2.2 c.2.1 w1
      | some i =>
        match w1.mnodeman.vZeronodes[i]? with
        | none => none
        | some mn =>
          let old := seenBroadcastAt env w1.mnodeman.mapSeenZeronodeBroadcast (mn.GetHash env)
          let w2 : World := { w1 with mnodeman := { w1.mnodeman with
            mapSeenZeronodeBroadcast := old.2 } }
          match c.2.2.Update ManageState env i w2 with
          | none => none
          | some (false, nDos, w3) => some (false, nDos, w3)
          | some (true, nDos, w3) =>
              let w4 : World :=
                if hash ≠ old.1.toCZeronode.GetHash env then
                  w3.eraseSeenBroadcast (old.1.toCZeronode.GetHash env)
                else w3
              checkOutpointAndAdd ManageState env c.2.2 nDos w4

/-! ## Specification-side definitions for the outpoints of the registry -/

/-- The collateral outpoints of the entries, in registry order. -/
def outpoints (l : List CZeronode) : List COutPoint := l.map (fun e => e.vin.prevout)

/-- From `l` to `l'` every entry keeps its outpoint and its place, and the entries that
`l'` has in addition carry outpoints that `l` does not have. -/
def VinStep (l l' : List CZeronode) : Prop :=
  ∃ ext : List COutPoint, outpoints l' = outpoints l ++ ext ∧ ∀ o ∈ ext, o ∉ outpoints l

/-! ## What an announce serialises and what its hash covers (`zeronode.h`) -/

/-- The members that `CZeronodeBroadcast::SerializationOp` reads and writes, in its
order. -/
def CZeronodeBroadcast.serialized (mnb : CZeronodeBroadcast) :
    CTxIn × CService × CPubKey × CPubKey × List Nat × Int × Int × CZeronodePing :=
  (mnb.vin, mnb.addr, mnb.pubKeyCollateralAddress, mnb.pubKeyZeronode, mnb.vchSig, mnb.sigTime,
    mnb.nProtocolVersion, mnb.lastPing)

/-- The members that `CZeronodeBroadcast::GetHash` writes to its hash writer, in its
order: `ss << vin; ss << pubKeyCollateralAddress; ss << sigTime`. -/
def CZeronodeBroadcast.hashed (mnb : CZeronodeBroadcast) : CTxIn × CPubKey × Int :=
  (mnb.vin, mnb.pubKeyCollateralAddress, mnb.sigTime)

/-! ## Proof-of-service verification (`zeronodeman.cpp`) -/

/-- The constant `CZeronodeMan::MIN_POSE_PROTO_VERSION`. -/
def MIN_POSE_PROTO_VERSION : Int := 70203

/-- The constant `CZeronodeMan::MAX_POSE_CONNECTIONS`. -/
def MAX_POSE_CONNECTIONS : Int := 10

/-- The constant `CZeronodeMan::MAX_POSE_RANK`. -/
def MAX_POSE_RANK : Int := 10

/-- The constant `CZeronodeMan::MAX_POSE_BLOCKS`. -/
def MAX_POSE_BLOCKS : Int := 10

/-- The method `CZeronodeVerification::GetHash`. -/
def CZeronodeVerification.GetHash (env : Env) (mnv : CZeronodeVerification) : uint256 :=
  env.HashVerification mnv.vin1 mnv.vin2 mnv.addr mnv.nonce mnv.nBlockHeight

/-- The method `CZeronodeVerification::Relay`. -/
def CZeronodeVerification.Relay (env : Env) (mnv : CZeronodeVerification) (w : World) : World :=
  w.RelayInv ⟨.MSG_ZERONODE_VERIFY, mnv.GetHash env⟩

/-- The comparator `CompareScoreMN`. -/
def CompareScoreMN (t1 t2 : Int × CZeronode) : Bool :=
  if t1.1 ≠ t2.1 then t1.1 < t2.1 else t1.2.vin.lt t2.2.vin

/-- Last loop of `CZeronodeMan::GetZeronodeRank`: the place, counted from 1, of the
first pair with the outpoint, or `-1`. -/
def rankLoop (vin : CTxIn) : List (Int × CZeronode) → Int → Int
  | [], _ => -1
  | scorePair :: rest, nRank =>
      if scorePair.2.vin.prevout = vin.prevout then nRank + 1
      else rankLoop vin rest (nRank + 1)

/-- The method `CZeronodeMan::GetZeronodeRank`; `sort(rbegin, rend, comp)` leaves the
vector in descending order. -/
def GetZeronodeRank (env : Env) (w : World) (vin : CTxIn) (nBlockHeight : Int)
    (nMinProtocol : Int) (fOnlyActive : Bool) : Int :=
  match env.GetBlockHash nBlockHeight with
  | none => -1
  | some blockHash =>
    let vecZeronodeScores : List (Int × CZeronode) :=
      w.mnodeman.vZeronodes.filterMap (fun mn =>
        if mn.nProtocolVersion < nMinProtocol then none
        else if fOnlyActive = true ∧ mn.IsEnabled = false then none
        else if fOnlyActive = false ∧ mn.IsValidForPayment = false then none
        else some (env.GetCompact (mn.CalculateScore env blockHash), mn))
    rankLoop vin (stdSort CompareScoreMN vecZeronodeScores).reverse 0

/-- Last loop of `ProcessVerifyBroadcast`: raise the score of every entry with the
verified address and another outpoint. -/
def banSameAddr (mnv : CZeronodeVerification) (l : List CZeronode) : List CZeronode :=
  l.map (fun mn =>
    if mn.addr ≠ mnv.addr ∨ mn.vin.prevout = mnv.vin1.prevout then mn
    else mn.IncreasePoSeBanScore)

/-- The method `CZeronodeMan::ProcessVerifyBroadcast(pnode, mnv)`: the world afterwards
and the scores passed to `Misbehaving` for the peer. The answer is `none` when
`pCurrentBlockIndex`, which the method dereferences unchecked, is null. -/
def ProcessVerifyBroadcast (env : Env) (mnv : CZeronodeVerification) (w : World) :
    Option (World × List Int) :=
  if (mapFind w.mnodeman.mapSeenZeronodeVerification (mnv.GetHash env)).isSome then
    some (w, [])
  else
    let w1 : World := { w with mnodeman := { w.mnodeman with
      mapSeenZeronodeVerification :=
        mapSet w.mnodeman.mapSeenZeronodeVerification (mnv.GetHash env) mnv } }
    match w1.mnodeman.pCurrentBlockIndex with
    | none => none
    | some nHeight =>
      if mnv.nBlockHeight < nHeight - MAX_POSE_BLOCKS then some (w1, [])
      else if mnv.vin1.prevout = mnv.vin2.prevout then some (w1, [100])
      else
        match env.GetBlockHash mnv.nBlockHeight with
        | none => some (w1, [])
        | some blockHash =>
          let nRank := GetZeronodeRank env w1 mnv.vin2 mnv.nBlockHeight MIN_POSE_PROTO_VERSION
            true
          if nRank = -1 then some (w1, [])
          else if nRank > MAX_POSE_RANK then some (w1, [])
          else
            match w1.mnodeman.Find mnv.vin1, w1.mnodeman.Find mnv.vin2 with
            | some i1, some i2 =>
              match w1.mnodeman.vZeronodes[i1]?, w1.mnodeman.vZeronodes[i2]? with
              | some pmn1, some pmn2 =>
                if pmn1.addr ≠ mnv.addr then some (w1, [])
                else if env.VerifyMessage pmn1.pubKeyZeronode mnv.vchSig1
                    (.verify1 mnv.addr mnv.nonce blockHash) = true then some (w1, [])
                else if env.VerifyMessage pmn2.pubKeyZeronode mnv.vchSig2
                    (.verify2 mnv.addr mnv.nonce blockHash mnv.vin1.prevout mnv.vin2.prevout) =
                      true then some (w1, [])
                else
                  let w2 : World :=
                    if pmn1.IsPoSeVerified = false then w1.setMn i1 pmn1.DecreasePoSeBanScore
                    else w1
                  let w3 := mnv.Relay env w2
                  some ({ w3 with mnodeman := { w3.mnodeman with
                    vZeronodes := banSameAddr mnv w3.mnodeman.vZeronodes } }, [])
              | _, _ => some (w1, [])
            | _, _ => some (w1, [])

/-! ## Duplicate addresses (`CZeronodeMan::CheckSameAddr`) -/

/-- One pass of the loop of `CheckSameAddr` over `vSortedByAddr`. The state is
`pprevZeronode`, `pverifiedZeronode` and `vBan`; a pointer is kept as the index of the
entry together with the entry. -/
def sameAddrStep
    (st : Option (Nat × CZeronode) × Option (Nat × CZeronode) × List Nat)
    (pmn : Nat × CZeronode) :
    Option (Nat × CZeronode) × Option (Nat × CZeronode) × List Nat :=
  if pmn.2.IsEnabled = false ∧ pmn.2.IsPreEnabled = false then st
  else
    match st.1 with
    | none => (some pmn, if pmn.2.IsPoSeVerified = true then some pmn else none, st.2.2)
    | some pprev =>
      if pmn.2.addr = pprev.2.addr then
        if st.2.1.isSome = true then (some pmn, st.2.1, st.2.2 ++ [pmn.1])
        else if pmn.2.IsPoSeVerified = true then (some pmn, some pmn, st.2.2 ++ [pprev.1])
        else (some pmn, st.2.1, st.2.2)
      else (some pmn, if pmn.2.IsPoSeVerified = true then some pmn else none, st.2.2)

/-- The pointers of `vSortedByAddr` in the order `order`, each with its entry. -/
def pointersInOrder (l : List CZeronode) (order : List Nat) : List (Nat × CZeronode) :=
  order.filterMap (fun i => (l[i]?).map (fun mn => (i, mn)))

/-- The vector `vBan` that the loop of `CheckSameAddr` builds. -/
def sameAddrBans (l : List CZeronode) (order : List Nat) : List Nat :=
  ((pointersInOrder l order).foldl sameAddrStep (none, none, [])).2.2

/-- The method `CZeronodeMan::CheckSameAddr`. The call `sort(..., CompareByAddr())` is
not stable and the order `operator<` of `CService` is declared outside the sources at
hand: the order in which the sorted vector lists the entries is the parameter `order`,
a rearrangement of the indices of `vZeronodes`. -/
def CheckSameAddr (order : List Nat) (w : World) : World :=
  if w.zeronodeSync.IsSynced = false ∨ w.mnodeman.vZeronodes.isEmpty = true then w
  else
    { w with mnodeman := { w.mnodeman with
      vZeronodes := (sameAddrBans w.mnodeman.vZeronodes order).foldl
        (fun l i => l.modify CZeronode.IncreasePoSeBanScore i) w.mnodeman.vZeronodes } }

/-! ## Payment votes (`CZeronodePayments::ProcessMessage`) -/

/-- The constant `CZeronodeMan::DSEG_UPDATE_SECONDS`. -/
def DSEG_UPDATE_SECONDS : Int := 3 * 60 * 60

/-- The method `CZeronodeSync::IsWinnersListSynced`. -/
def CZeronodeSync.IsWinnersListSynced (s : CZeronodeSync) : Bool :=
  s.nRequestedZeronodeAssets > ZERONODE_SYNC_MNW

/-- The method `CZeronodeSync::AddedPaymentVote`. -/
def CZeronodeSync.AddedPaymentVote (env : Env) (s : CZeronodeSync) : CZeronodeSync :=
  { s with nTimeLastPaymentVote := env.nTime }

/-- The method `CZeronodePaymentVote::GetHash`. -/
def CZeronodePaymentVote.GetHash (env : Env) (vote : CZeronodePaymentVote) : uint256 :=
  env.HashVote vote.payee vote.nBlockHeight vote.vinZeronode.prevout

/-- The method `CZeronodePaymentVote::IsVerified`. -/
def CZeronodePaymentVote.IsVerified (vote : CZeronodePaymentVote) : Bool := vote.vchSig ≠ []

/-- The method `CZeronodePaymentVote::MarkAsNotVerified`. -/
def CZeronodePaymentVote.MarkAsNotVerified (vote : CZeronodePaymentVote) :
    CZeronodePaymentVote :=
  { vote with vchSig := [] }

/-- The method `CZeronodeMan::AskForMN(pnode, vin)`. -/
def AskForMN (env : Env) (pnode : Option CNode) (vin : CTxIn) (w : World) : World :=
  match pnode with
  | none => w
  | some node =>
    let asked := (mapFind w.mnodeman.mWeAskedForZeronodeListEntry vin.prevout).getD []
    if (match mapFind asked node.addr.ip with
        | some t => decide (env.nTime < t)
        | none => false) = true then w
    else
      { w with
        mnodeman := { w.mnodeman with
          mWeAskedForZeronodeListEntry :=
            mapSet w.mnodeman.mWeAskedForZeronodeListEntry vin.prevout
              (mapSet asked node.addr.ip (env.nTime + DSEG_UPDATE_SECONDS)) }
        vPushed := w.vPushed ++ [(node.id, .dseg vin)] }

/-- The method `CZeronodePaymentVote::IsValid(pnode, nValidationHeight, strError)`: the
answer, the world (a missing entry may be asked for) and the scores passed to
`Misbehaving`. -/
def CZeronodePaymentVote.IsValid (env : Env) (vote : CZeronodePaymentVote) (pnode : CNode)
    (nValidationHeight : Int) (w : World) : Bool × World × List Int :=
  match (w.mnodeman.Find vote.vinZeronode).bind (fun i => w.mnodeman.vZeronodes[i]?) with
  | none =>
      (false,
        if w.zeronodeSync.IsZeronodeListSynced = true then
          AskForMN env (some pnode) vote.vinZeronode w
        else w, [])
  | some pmn =>
    let nMinRequiredProtocol : Int :=
      if vote.nBlockHeight ≥ nValidationHeight then GetMinZeronodePaymentsProto env
      else MIN_ZERONODE_PAYMENT_PROTO_VERSION_1
    if pmn.nProtocolVersion < nMinRequiredProtocol then (false, w, [])
    else if env.fZNode = false ∧ vote.nBlockHeight < nValidationHeight then (true, w, [])
    else
      let nRank := GetZeronodeRank env w vote.vinZeronode (vote.nBlockHeight - 101)
        nMinRequiredProtocol false
      if nRank = -1 then (false, w, [])
      else if nRank > MNPAYMENTS_SIGNATURES_TOTAL then
        if nRank > MNPAYMENTS_SIGNATURES_TOTAL * 2 ∧ vote.nBlockHeight > nValidationHeight then
          (false, w, [20])
        else (false, w, [])
      else (true, w, [])

/-- The method `CZeronodePaymentVote::CheckSignature`: the answer and `nDos`. -/
def CZeronodePaymentVote.CheckSignature (env : Env) (vote : CZeronodePaymentVote)
    (pubKeyZeronode : CPubKey) (nValidationHeight : Int) (w : World) : Bool × Int :=
  if env.VerifyMessage pubKeyZeronode vote.vchSig
      (.paymentVote vote.vinZeronode.prevout vote.nBlockHeight vote.payee) = true then (true, 0)
  else if w.zeronodeSync.IsZeronodeListSynced = true ∧ vote.nBlockHeight > nValidationHeight
  then (false, 20)
  else (false, 0)

/-- Loop of `CZeronodeBlockPayees::AddPayee`: add the hash to the first bucket of the
payee; `none` when there is no such bucket. -/
def addVoteHash (payee : CScript) (hash : uint256) :
    List CZeronodePayee → Option (List CZeronodePayee)
  | [] => none
  | p :: rest =>
      if p.GetPayee = payee then some ({ p with vecVoteHashes := p.vecVoteHashes ++ [hash] } :: rest)
      else (addVoteHash payee hash rest).map (fun r => p :: r)

/-- The method `CZeronodeBlockPayees::AddPayee`. -/
def CZeronodeBlockPayees.AddPayee (env : Env) (bp : CZeronodeBlockPayees)
    (vote : CZeronodePaymentVote) : CZeronodeBlockPayees :=
  match addVoteHash vote.payee (vote.GetHash env) bp.vecPayees with
  | some l => { bp with vecPayees := l }
  | none => { bp with vecPayees := bp.vecPayees ++ [⟨vote.payee, [vote.GetHash env]⟩] }

/-- The method `CZeronodePayments::HasVerifiedPaymentVote`. -/
def CZeronodePayments.HasVerifiedPaymentVote (pay : CZeronodePayments) (hashIn : uint256) :
    Bool :=
  match mapFind pay.mapZeronodePaymentVotes hashIn with
  | some vote => vote.IsVerified
  | none => false

/-- The method `CZeronodePayments::AddPaymentVote`: the answer and the object
afterwards. -/
def CZeronodePayments.AddPaymentVote (env : Env) (pay : CZeronodePayments)
    (vote : CZeronodePaymentVote) : Bool × CZeronodePayments :=
  if env.GetBlockHash (vote.nBlockHeight - 101) = none then (false, pay)
  else if pay.HasVerifiedPaymentVote (vote.GetHash env) = true then (false, pay)
  else
    let blocks :=
      if (mapFind pay.mapZeronodeBlocks vote.nBlockHeight).isSome then pay.mapZeronodeBlocks
      else mapSet pay.mapZeronodeBlocks vote.nBlockHeight ⟨vote.nBlockHeight, []⟩
    (true, { pay with
      mapZeronodePaymentVotes := mapSet pay.mapZeronodePaymentVotes (vote.GetHash env) vote
      mapZeronodeBlocks :=
        match mapFind blocks vote.nBlockHeight with
        | some bp => mapSet blocks vote.nBlockHeight (bp.AddPayee env vote)
        | none => blocks })

/-- The method `CZeronodePaymentVote::Relay`. -/
def CZeronodePaymentVote.Relay (env : Env) (vote : CZeronodePaymentVote) (w : World) : World :=
  if w.zeronodeSync.IsWinnersListSynced = false then w
  else w.RelayInv ⟨.MSG_ZERONODE_PAYMENT_VOTE, vote.GetHash env⟩

/-- The method `CZeronodePayments::Sync(pnode)`. -/
def CZeronodePayments.Sync (pnode : CNode) (w : World) : World :=
  match w.mnpayments.pCurrentBlockIndex with
  | none => w
  | some nHeight =>
    let hashes : List uint256 :=
      (List.range 20).flatMap (fun k =>
        match mapFind w.mnpayments.mapZeronodeBlocks (nHeight + (k : Int)) with
        | none => []
        | some bp =>
            bp.vecPayees.flatMap (fun payee =>
              payee.vecVoteHashes.filter (fun hash => w.mnpayments.HasVerifiedPaymentVote hash)))
    { w with vPushed := w.vPushed ++
        hashes.map (fun hash => (pnode.id, .inv ⟨.MSG_ZERONODE_PAYMENT_VOTE, hash⟩)) ++
        [(pnode.id, .syncStatusCount ZERONODE_SYNC_MNW hashes.length)] }

/-- The messages that `CZeronodePayments::ProcessMessage` looks at, with the content
read from the stream; any other command is `other`. -/
inductive PaymentsMessage where
  | ZERONODEPAYMENTSYNC (nCountNeeded : Int)
  | ZERONODEPAYMENTVOTE (vote : CZeronodePaymentVote)
  | other
deriving DecidableEq, Repr

/-- End of the vote branch of `CZeronodePayments::ProcessMessage`:
`if (AddPaymentVote(vote)) { vote.Relay(); zeronodeSync.AddedPaymentVote(); }`. -/
def addVoteAndRelay (env : Env) (vote : CZeronodePaymentVote) (w : World) : World :=
  let a := w.mnpayments.AddPaymentVote env vote
  let w3 : World := { w with mnpayments := a.2 }
  if a.1 = true then
    let w4 := vote.Relay env w3
    { w4 with zeronodeSync := w4.zeronodeSync.AddedPaymentVote env }
  else w3

/-- Part of the vote branch of `CZeronodePayments::ProcessMessage` from
`mnodeman.GetZeronodeInfo` on: the world afterwards and the scores passed to
`Misbehaving`. -/
def checkVoteSignature (env : Env) (pfrom : CNode) (vote : CZeronodePaymentVote)
    (nHeight : Int) (w : World) : World × List Int :=
  match (w.mnodeman.Find vote.vinZeronode).bind (fun i => w.mnodeman.vZeronodes[i]?) with
  | none => (AskForMN env (some pfrom) vote.vinZeronode w, [])
  | some pmn =>
    let s := vote.CheckSignature env pmn.pubKeyZeronode nHeight w
    if s.1 = false then
      (AskForMN env (some pfrom) vote.vinZeronode w, if s.2 ≠ 0 then [s.2] else [])
    else (addVoteAndRelay env vote w, [])

/-- Part of the vote branch of `CZeronodePayments::ProcessMessage` after the range
test, from `vote.IsValid` on. -/
def processVoteInRange (env : Env) (pfrom : CNode) (vote : CZeronodePaymentVote)
    (nHeight : Int) (w : World) : World × List Int :=
  let v := vote.IsValid env pfrom nHeight w
  if v.1 = false then (v.2.1, v.2.2)
  else
    let w1 := v.2.1
    let c := CanVote w1.mnpayments.mapZeronodesLastVote vote.vinZeronode.prevout
      vote.nBlockHeight
    let w2 : World := { w1 with mnpayments := { w1.mnpayments with mapZeronodesLastVote := c.2 } }
    if c.1 = false then (w2, v.2.2)
    else
      let r := checkVoteSignature env pfrom vote nHeight w2
      (r.1, v.2.2 ++ r.2)

/-- The method `CZeronodePayments::ProcessMessage(pfrom, strCommand, vRecv)`: the world
afterwards and the scores passed to `Misbehaving` for the peer. The erasure from
`pfrom->setAskFor` is not kept. -/
def CZeronodePayments.ProcessMessage (env : Env) (pfrom : CNode) (msg : PaymentsMessage)
    (w : World) : World × List Int :=
  if w.zeronodeSync.IsZeronodeListSynced = false then (w, [])
  else if env.fLiteMode = true then (w, [])
  else
    match msg with
    | .ZERONODEPAYMENTSYNC _ =>
        if w.zeronodeSync.IsSynced = false then (w, [])
        else if env.HasFulfilledRequest pfrom.addr .paymentSync = true then (w, [20])
        else
          (CZeronodePayments.Sync pfrom
            { w with vFulfilled := w.vFulfilled ++ [(pfrom.addr, .paymentSync)] }, [])
    | .ZERONODEPAYMENTVOTE vote =>
        if pfrom.nVersion < GetMinZeronodePaymentsProto env then (w, [])
        else
          match w.mnpayments.pCurrentBlockIndex with
          | none => (w, [])
          | some nHeight =>
            if (mapFind w.mnpayments.mapZeronodePaymentVotes (vote.GetHash env)).isSome then
              (w, [])
            else
              let w1 : World := { w with mnpayments := { w.mnpayments with
                mapZeronodePaymentVotes :=
                  mapSet w.mnpayments.mapZeronodePaymentVotes (vote.GetHash env)
                    vote.MarkAsNotVerified } }
              let nFirstBlock := nHeight - env.GetStorageLimit w1.mnodeman.size
              if vote.nBlockHeight < nFirstBlock ∨ vote.nBlockHeight > nHeight + 20 then (w1, [])
              else processVoteInRange env pfrom vote nHeight w1
    | .other => (w, [])

/-- What a step of the vote branch keeps: the tip, the registry entries, and every stored
vote is an old one or the incoming vote itself. -/
def VoteStep (env : Env) (vote : CZeronodePaymentVote) (w w' : World) : Prop :=
  w'.mnpayments.pCurrentBlockIndex = w.mnpayments.pCurrentBlockIndex ∧
  w'.mnodeman.vZeronodes = w.mnodeman.vZeronodes ∧
  ∀ e ∈ w'.mnpayments.mapZeronodePaymentVotes,
    e ∈ w.mnpayments.mapZeronodePaymentVotes ∨ e = (vote.GetHash env, vote)


/-! ## Messages to the registry (`CZeronodeMan::ProcessMessage`) -/

/-- The method `CZeronodeMan::SendVerifyReply(pnode, mnv)`: the world afterwards and the
scores passed to `Misbehaving` for the peer. -/
def SendVerifyReply (env : Env) (pnode : CNode) (mnv : CZeronodeVerification) (w : World) :
    World × List Int :=
  if env.fZNode = false then (w, [])
  else if env.HasFulfilledRequest pnode.addr .mnverifyReply = true then (w, [20])
  else
    match env.GetBlockHash mnv.nBlockHeight with
    | none => (w, [])
    | some blockHash =>
      match env.SignMessage w.activeZeronode.keyZeronode
          (.verify1 w.activeZeronode.service mnv.nonce blockHash) with
      | none => (w, [])
      | some vchSig1 =>
        if env.VerifyMessage w.activeZeronode.pubKeyZeronode vchSig1
            (.verify1 w.activeZeronode.service mnv.nonce blockHash) = false then (w, [])
        else
          ({ w with
            vPushed := w.vPushed ++ [(pnode.id, .mnverify { mnv with vchSig1 := vchSig1 })]
            vFulfilled := w.vFulfilled ++ [(pnode.addr, .mnverifyReply)] }, [])

/-- State of the loop of `ProcessVerifyReply`: the world, the message `mnv` (the loop
writes to it), `prealZeronode` and `vpZeronodesToBan`, pointers kept as indices. -/
structure VerifyReplyState where
  w : World
  mnv : CZeronodeVerification
  prealZeronode : Option Nat := none
  vpZeronodesToBan : List Nat := []
deriving DecidableEq, Repr

/-- How the loop of `ProcessVerifyReply` ends: the method returns from inside the loop,
or the loop runs to the end of `vZeronodes`. -/
inductive VerifyReplyEnd where
  | returned (w : World)
  | finished (st : VerifyReplyState)
deriving DecidableEq, Repr

/-- The `while` loop of `ProcessVerifyReply` over the positions still to visit. The
answer is `none` when the loop does not end: on `activeZeronode.vin == CTxIn()` the body
runs `continue` without having advanced `it`, so the same entry is visited again, for
ever. -/
def verifyReplyLoop (env : Env) (pnode : CNode) (blockHash : uint256) :
    List Nat → VerifyReplyState → Option VerifyReplyEnd
  | [], st => some (.finished st)
  | i :: rest, st =>
    match st.w.mnodeman.vZeronodes[i]? with
    | none => verifyReplyLoop env pnode blockHash rest st
    | some mn =>
      if mn.addr ≠ pnode.addr then verifyReplyLoop env pnode blockHash rest st
      else if env.VerifyMessage mn.pubKeyZeronode st.mnv.vchSig1
          (.verify1 pnode.addr st.mnv.nonce blockHash) = false then
        verifyReplyLoop env pnode blockHash rest
          { st with vpZeronodesToBan := st.vpZeronodesToBan ++ [i] }
      else
        let mn1 := if mn.IsPoSeVerified = false then mn.DecreasePoSeBanScore else mn
        let w1 : World :=
          { st.w.setMn i mn1 with
            vFulfilled := (st.w.setMn i mn1).vFulfilled ++ [(pnode.addr, .mnverifyDone)] }
        if w1.activeZeronode.vin = CTxIn.null then none
        else
          let mnv1 : CZeronodeVerification :=
            { st.mnv with addr := mn1.addr, vin1 := mn1.vin, vin2 := w1.activeZeronode.vin }
          match env.SignMessage w1.activeZeronode.keyZeronode
              (.verify2 mnv1.addr mnv1.nonce blockHash mnv1.vin1.prevout mnv1.vin2.prevout) with
          | none => some (.returned w1)
          | some vchSig2 =>
            if env.VerifyMessage w1.activeZeronode.pubKeyZeronode vchSig2
                (.verify2 mnv1.addr mnv1.nonce blockHash mnv1.vin1.prevout mnv1.vin2.prevout)
                  = false then some (.returned w1)
            else
              let mnv2 : CZeronodeVerification := { mnv1 with vchSig2 := vchSig2 }
              let w2 : World := { w1 with mnodeman := { w1.mnodeman with
                mWeAskedForVerification :=
                  mapSet w1.mnodeman.mWeAskedForVerification pnode.addr.ip mnv2 } }
              verifyReplyLoop env pnode blockHash rest
                { st with w := mnv2.Relay env w2, mnv := mnv2, prealZeronode := some i }

/-- The method `CZeronodeMan::ProcessVerifyReply(pnode, mnv)`: the world afterwards and
the scores passed to `Misbehaving` for the peer; `none` when the loop does not end. The
reads `mWeAskedForVerification[pnode->addr]` insert a default value for a missing key. -/
def ProcessVerifyReply (env : Env) (pnode : CNode) (mnv : CZeronodeVerification) (w : World) :
    Option (World × List Int) :=
  if env.HasFulfilledRequest pnode.addr .mnverifyRequest = false then some (w, [20])
  else
    let asked : CZeronodeVerification :=
      (mapFind w.mnodeman.mWeAskedForVerification pnode.addr.ip).getD {}
    let w1 : World := { w with mnodeman := { w.mnodeman with
      mWeAskedForVerification :=
        mapInsert w.mnodeman.mWeAskedForVerification pnode.addr.ip {} } }
    if asked.nonce ≠ mnv.nonce then some (w1, [20])
    else if asked.nBlockHeight ≠ mnv.nBlockHeight then some (w1, [20])
    else
      match env.GetBlockHash mnv.nBlockHeight with
      | none => some (w1, [])
      | some blockHash =>
        if env.HasFulfilledRequest pnode.addr .mnverifyDone = true then some (w1, [20])
        else
          match verifyReplyLoop env pnode blockHash (List.range w1.mnodeman.vZeronodes.length)
              { w := w1, mnv := mnv } with
          | none => none
          | some (.returned w2) => some (w2, [])
          | some (.finished st) =>
            match st.prealZeronode with
            | none => some (st.w, [20])
            | some _ =>
              some ({ st.w with mnodeman := { st.w.mnodeman with
                vZeronodes := st.vpZeronodesToBan.foldl
                  (fun l i => l.modify CZeronode.IncreasePoSeBanScore i)
                  st.w.mnodeman.vZeronodes } }, [])

/-- The loop of the `DSEG` branch over `vZeronodes`: the world, `nInvCount`, and whether
the method returned from inside the loop. -/
def dsegLoop (env : Env) (pfrom : CNode) (vin : CTxIn) :
    List CZeronode → World → Int → World × Int × Bool
  | [], w, nInvCount => (w, nInvCount, false)
  | mn :: rest, w, nInvCount =>
    if vin ≠ CTxIn.null ∧ vin ≠ mn.vin then dsegLoop env pfrom vin rest w nInvCount
    else if env.fIsLocalAddr mn.addr = true then dsegLoop env pfrom vin rest w nInvCount
    else if mn.IsUpdateRequired = true then dsegLoop env pfrom vin rest w nInvCount
    else
      let w1 : World :=
        { w with
          vPushed := w.vPushed ++
            [(pfrom.id, .inv ⟨.MSG_ZERONODE_ANNOUNCE, mn.GetHash env⟩),
             (pfrom.id, .inv ⟨.MSG_ZERONODE_PING, mn.lastPing.GetHash env⟩)]
          mnodeman := { w.mnodeman with
            mapSeenZeronodeBroadcast :=
              mapInsert w.mnodeman.mapSeenZeronodeBroadcast (mn.GetHash env)
                (env.nTime, { toCZeronode := mn, fRecovery := false }) } }
      if vin = mn.vin then (w1, nInvCount + 1, true)
      else dsegLoop env pfrom vin rest w1 (nInvCount + 1)

/-- The test of the `DSEG` branch that ends in `Misbehaving(pfrom->GetId(), 34)`: a
request for the whole list, from a peer that is not local, on the main network, before
the time kept for the peer in `mAskedUsForZeronodeList`. -/
def dsegTooSoon (env : Env) (pfrom : CNode) (vin : CTxIn) (w : World) : Bool :=
  decide (vin = CTxIn.null) && !(env.fIsLocalAddr pfrom.addr) && env.fMainNet &&
    (match mapFind w.mnodeman.mAskedUsForZeronodeList pfrom.addr.ip with
     | some t => decide (env.nTime < t)
     | none => false)

/-- The `DSEG` branch of `CZeronodeMan::ProcessMessage`. -/
def processDseg (env : Env) (pfrom : CNode) (vin : CTxIn) (w : World) : World × List Int :=
  if w.zeronodeSync.IsSynced = false then (w, [])
  else if dsegTooSoon env pfrom vin w = true then (w, [34])
  else
    let w1 : World :=
      if vin = CTxIn.null ∧ env.fIsLocalAddr pfrom.addr = false ∧ env.fMainNet = true then
        { w with mnodeman := { w.mnodeman with
          mAskedUsForZeronodeList :=
            mapSet w.mnodeman.mAskedUsForZeronodeList pfrom.addr.ip
              (env.nTime + DSEG_UPDATE_SECONDS) } }
      else w
    let r := dsegLoop env pfrom vin w1.mnodeman.vZeronodes w1 0
    if r.2.2 = true then (r.1, [])
    else if vin = CTxIn.null then
      ({ r.1 with vPushed := r.1.vPushed ++
          [(pfrom.id, .syncStatusCount ZERONODE_SYNC_LIST r.2.1)] }, [])
    else (r.1, [])

/-- The `MNPING` branch of `CZeronodeMan::ProcessMessage`. -/
def processMnping (env : Env) (pfrom : CNode) (mnp : CZeronodePing) (w : World) :
    World × List Int :=
  if (mapFind w.mnodeman.mapSeenZeronodePing (mnp.GetHash env)).isSome then (w, [])
  else
    let w1 : World := { w with mnodeman := { w.mnodeman with
      mapSeenZeronodePing :=
        mapInsert w.mnodeman.mapSeenZeronodePing (mnp.GetHash env) mnp } }
    let pmn := w1.mnodeman.Find mnp.vin
    if (match pmn.bind (fun i => w1.mnodeman.vZeronodes[i]?) with
        | some mn => mn.IsNewStartRequired
        | none => false) = true then (w1, [])
    else
      let r := mnp.CheckAndUpdate env pmn false w1
      if r.1 = true then (r.2.2, [])
      else if r.2.1 > 0 then (AskForMN env (some pfrom) mnp.vin r.2.2, [r.2.1])
      else if pmn.isSome then (r.2.2, [])
      else (AskForMN env (some pfrom) mnp.vin r.2.2, [])

/-- The `MNANNOUNCE` branch of `CZeronodeMan::ProcessMessage`; `ManageState` as in
`CZeronode.UpdateFromNewBroadcast`. The call `addrman.Add` is not kept. -/
def processMnannounce (ManageState : World → Option World) (env : Env) (pfrom : CNode)
    (mnb : CZeronodeBroadcast) (w : World) : Option (World × List Int) :=
  match CheckMnbAndUpdateZeronodeList ManageState env (some pfrom) mnb w with
  | none => none
  | some r =>
    let w1 : World :=
      if r.2.2.mnodeman.fZeronodesAdded = true then r.2.2.NotifyZeronodeUpdates else r.2.2
    some (w1, if r.1 = false ∧ r.2.1 > 0 then [r.2.1] else [])

/-- The messages that `CZeronodeMan::ProcessMessage` looks at, with the content read
from the stream; any other command is `other`. -/
inductive RegistryMessage where
  | MNANNOUNCE (mnb : CZeronodeBroadcast)
  | MNPING (mnp : CZeronodePing)
  | DSEG (vin : CTxIn)
  | MNVERIFY (mnv : CZeronodeVerification)
  | other
deriving DecidableEq, Repr

/-- The method `CZeronodeMan::ProcessMessage(pfrom, strCommand, vRecv)`: the world
afterwards and the scores passed to `Misbehaving` for the peer; `none` when a callee
gives none. The erasure from `pfrom->setAskFor` is not kept. -/
def CZeronodeMan.ProcessMessage (ManageState : World → Option World) (env : Env)
    (pfrom : CNode) (msg : RegistryMessage) (w : World) : Option (World × List Int) :=
  if env.fLiteMode = true then some (w, [])
  else
    let b := w.zeronodeSync.IsBlockchainSynced env false
    let w0 : World := { w with zeronodeSync := b.2 }
    if b.1 = false then some (w0, [])
    else
      match msg with
      | .MNANNOUNCE mnb => processMnannounce ManageState env pfrom mnb w0
      | .MNPING mnp => some (processMnping env pfrom mnp w0)
      | .DSEG vin => some (processDseg env pfrom vin w0)
      | .MNVERIFY mnv =>
          if mnv.vchSig1 = [] then some (SendVerifyReply env pfrom mnv w0)
          else if mnv.vchSig2 = [] then ProcessVerifyReply env pfrom mnv w0
          else ProcessVerifyBroadcast env mnv w0
      | .other => some (w0, [])

/-! ## Sync stages (`CZeronodeSync::SwitchToNextAsset`) -/

/-- The method `CZeronodeSync::SwitchToNextAsset`: the `std::runtime_error` that it
throws, if any, and the object afterwards. `ClearFulfilledRequests()` touches
`netfulfilledman` alone and is not kept. -/
def CZeronodeSync.SwitchToNextAsset (env : Env) (s : CZeronodeSync) :
    Option String × CZeronodeSync :=
  if s.nRequestedZeronodeAssets = ZERONODE_SYNC_FAILED then
    (some "Can't switch to next asset from failed, should use Reset() first!", s)
  else
    let s1 : CZeronodeSync :=
      if s.nRequestedZeronodeAssets = ZERONODE_SYNC_INITIAL then
        { s with nRequestedZeronodeAssets := ZERONODE_SYNC_SPORKS }
      else if s.nRequestedZeronodeAssets = ZERONODE_SYNC_SPORKS then
        { s with nTimeLastZeronodeList := env.nTime
                 nRequestedZeronodeAssets := ZERONODE_SYNC_LIST }
      else if s.nRequestedZeronodeAssets = ZERONODE_SYNC_LIST then
        { s with nTimeLastPaymentVote := env.nTime
                 nRequestedZeronodeAssets := ZERONODE_SYNC_MNW }
      else if s.nRequestedZeronodeAssets = ZERONODE_SYNC_MNW then
        { s with nTimeLastGovernanceItem := env.nTime
                 nRequestedZeronodeAssets := ZERONODE_SYNC_FINISHED }
      else s
    (none, { s1 with nRequestedZeronodeAttempt := 0, nTimeAssetSyncStarted := env.nTime })

/-! ## Specification-side definition for the best payee -/

/-- The bucket `q` is the first bucket of `l` with the highest vote count: every bucket
before it has fewer votes, no bucket after it has more. -/
def firstMaxBucket (l : List CZeronodePayee) (q : CZeronodePayee) : Prop :=
  ∃ l1 l2, l = l1 ++ q :: l2 ∧
    (∀ p ∈ l1, p.GetVoteCount < q.GetVoteCount) ∧
    (∀ p ∈ l2, p.GetVoteCount ≤ q.GetVoteCount)

/-! ## Filling the payee of a new block (`CZeronodePayments::FillBlockPayee`) -/

/-- The method `CZeronodePayments::GetBlockPayee`; `none` is the answer `false`. -/
def CZeronodePayments.GetBlockPayee (pay : CZeronodePayments) (nBlockHeight : Int) :
    Option CScript :=
  match mapFind pay.mapZeronodeBlocks nBlockHeight with
  | some bp => bp.GetBestPayee
  | none => none

/-- The constructor `CTxOut()`: the null output. -/
def CTxOut.null : CTxOut := ⟨-1, []⟩

/-- The method `CZeronodePayments::FillBlockPayee(txNew, nBlockHeight, zeronodePayment,
txoutZeronodeRet)`: the transaction and `txoutZeronodeRet` afterwards, and the world
(the election may fill collateral caches of the registry). -/
def FillBlockPayee (env : Env) (w : World) (txNew : CTransaction) (nBlockHeight : Int)
    (zeronodePayment : CAmount) : CTransaction × CTxOut × World :=
  match w.mnpayments.GetBlockPayee nBlockHeight with
  | some payee =>
      ({ txNew with vout := txNew.vout ++ [⟨zeronodePayment, payee⟩] },
        ⟨zeronodePayment, payee⟩, w)
  | none =>
    let r := GetNextZeronodeInQueueForPayment env w nBlockHeight true
    match r.1 with
    | none => (txNew, CTxOut.null, r.2.2)
    | some winningNode =>
      let payee := env.GetScriptForDestination winningNode.pubKeyCollateralAddress
      ({ txNew with vout := txNew.vout ++ [⟨zeronodePayment, payee⟩] },
        ⟨zeronodePayment, payee⟩, r.2.2)

/-! ## The entry of a service key -/

/-- The method `CZeronodeMan::Find(const CPubKey&)` with the entry it points to: the
first entry with the service key; `none` is `NULL`. -/
def CZeronodeMan.FindPubKey (m : CZeronodeMan) (pubKeyZeronode : CPubKey) :
    Option CZeronode :=
  (findByPubKey pubKeyZeronode m.vZeronodes 0).bind (fun i => m.vZeronodes[i]?)

/-! ## Lookup by rank (`CZeronodeMan::GetZeronodeByRank`) -/

/-- Last loop of `CZeronodeMan::GetZeronodeByRank`: the entry at place `nRank`, counted
from 1, or `NULL`. -/
def byRankLoop (nRank : Int) : List (Int × CZeronode) → Int → Option CZeronode
  | [], _ => none
  | s :: rest, rank =>
      if rank + 1 = nRank then some s.2 else byRankLoop nRank rest (rank + 1)

/-- The method `CZeronodeMan::GetZeronodeByRank`; `none` is `NULL`. -/
def GetZeronodeByRank (env : Env) (w : World) (nRank : Int) (nBlockHeight : Int)
    (nMinProtocol : Int) (fOnlyActive : Bool) : Option CZeronode :=
  match env.GetBlockHash nBlockHeight with
  | none => none
  | some blockHash =>
    let vecZeronodeScores : List (Int × CZeronode) :=
      w.mnodeman.vZeronodes.filterMap (fun mn =>
        if mn.nProtocolVersion < nMinProtocol then none
        else if fOnlyActive = true ∧ mn.IsEnabled = false then none
        else some (env.GetCompact (mn.CalculateScore env blockHash), mn))
    byRankLoop nRank (stdSort CompareScoreMN vecZeronodeScores).reverse 0

/-! ## Specification-side definition for the last ping of an entry -/

/-- The member `lastPing` of the entry at position `i` of the registry. -/
def World.lastPingAt (w : World) (i : Nat) : Option CZeronodePing :=
  (w.mnodeman.vZeronodes[i]?).map (fun mn => mn.lastPing)

/-- The last ping `x` of an entry after an operation that brought the ping `p`, `old`
being the last ping before: `old` was kept, or `p` was installed and is signed at least
`ZERONODE_MIN_MNP_SECONDS - 60` seconds after `old`. -/
def pingKeptOrNewer (old p : CZeronodePing) (x : Option CZeronodePing) : Prop :=
  x = some old ∨ (x = some p ∧ old.sigTime + (ZERONODE_MIN_MNP_SECONDS - 60) ≤ p.sigTime)

/-! ## The scan of `ProcessVerifyReply`, step by step -/

/-- How one run of the body of the `while` loop of `ProcessVerifyReply` ends: the method
returns, or the loop condition is tested again with the iterator at position `it`. -/
inductive VerifyReplyStep where
  | returned (w : World)
  | next (it : Nat) (st : VerifyReplyState)
deriving DecidableEq, Repr

/-- One run of the body of the `while` loop of `ProcessVerifyReply`, with the iterator
`it` before the end of `vZeronodes`. The statement `++it` stands at the end of the body;
the `continue` for `activeZeronode.vin == CTxIn()` jumps to the loop condition and skips
it. -/
def verifyReplyBody (env : Env) (pnode : CNode) (blockHash : uint256) (it : Nat)
    (st : VerifyReplyState) : VerifyReplyStep :=
  match st.w.mnodeman.vZeronodes[it]? with
  | none => .next (it + 1) st
  | some mn =>
    if mn.addr ≠ pnode.addr then .next (it + 1) st
    else if env.VerifyMessage mn.pubKeyZeronode st.mnv.vchSig1
        (.verify1 pnode.addr st.mnv.nonce blockHash) = false then
      .next (it + 1) { st with vpZeronodesToBan := st.vpZeronodesToBan ++ [it] }
    else
      let mn1 := if mn.IsPoSeVerified = false then mn.DecreasePoSeBanScore else mn
      let w1 : World :=
        { st.w.setMn it mn1 with
          vFulfilled := (st.w.setMn it mn1).vFulfilled ++ [(pnode.addr, .mnverifyDone)] }
      if w1.activeZeronode.vin = CTxIn.null then
        .next it { st with w := w1, prealZeronode := some it }
      else
        let mnv1 : CZeronodeVerification :=
          { st.mnv with addr := mn1.addr, vin1 := mn1.vin, vin2 := w1.activeZeronode.vin }
        match env.SignMessage w1.activeZeronode.keyZeronode
            (.verify2 mnv1.addr mnv1.nonce blockHash mnv1.vin1.prevout mnv1.vin2.prevout) with
        | none => .returned w1
        | some vchSig2 =>
          if env.VerifyMessage w1.activeZeronode.pubKeyZeronode vchSig2
              (.verify2 mnv1.addr mnv1.nonce blockHash mnv1.vin1.prevout mnv1.vin2.prevout)
                = false then .returned w1
          else
            let mnv2 : CZeronodeVerification := { mnv1 with vchSig2 := vchSig2 }
            let w2 : World := { w1 with mnodeman := { w1.mnodeman with
              mWeAskedForVerification :=
                mapSet w1.mnodeman.mWeAskedForVerification pnode.addr.ip mnv2 } }
            .next (it + 1)
              { st with w := mnv2.Relay env w2, mnv := mnv2, prealZeronode := some it }

/-- The `while (it != vZeronodes.end())` loop of `ProcessVerifyReply`, run for at most
`fuel` tests of its condition; `none` when it has not ended by then. -/
def verifyReplyWhile (env : Env) (pnode : CNode) (blockHash : uint256) :
    Nat → Nat → VerifyReplyState → Option VerifyReplyEnd
  | 0, _, _ => none
  | fuel + 1, it, st =>
    if it ≥ st.w.mnodeman.vZeronodes.length then some (.finished st)
    else
      match verifyReplyBody env pnode blockHash it st with
      | .returned w => some (.returned w)
      | .next it' st' => verifyReplyWhile env pnode blockHash fuel it' st'

/-- The entry at the iterator holds the loop of `ProcessVerifyReply` for ever: it has
the address of the peer, the signature of the reply verifies under its service key, and
the local node has no activated collateral. -/
def stuckAt (env : Env) (pnode : CNode) (blockHash : uint256) (it : Nat)
    (st : VerifyReplyState) : Prop :=
  ∃ mn, st.w.mnodeman.vZeronodes[it]? = some mn ∧ mn.addr = pnode.addr ∧
    env.VerifyMessage mn.pubKeyZeronode st.mnv.vchSig1
      (.verify1 pnode.addr st.mnv.nonce blockHash) = true ∧
    st.w.activeZeronode.vin = CTxIn.null

/-! ## Theorems -/

theorem maxSignatures_lt (l : List CZeronodePayee) (m : Int) :
    maxSignatures l m < 6 ↔ m < 6 ∧ ∀ p ∈ l, p.GetVoteCount < 6 := by
  induction l generalizing m with
  | nil => simp [maxSignatures]
  | cons p rest ih =>
    simp only [maxSignatures, ih, List.mem_cons, forall_eq_or_imp]
    by_cases h : p.GetVoteCount ≥ m
    · simp only [h, if_true]
      constructor
      · rintro ⟨h1, h2⟩
        exact ⟨by omega, h1, h2⟩
      · rintro ⟨_, h1, h2⟩
        exact ⟨h1, h2⟩
    · simp only [h, if_false]
      constructor
      · rintro ⟨h1, h2⟩
        exact ⟨h1, by omega, h2⟩
      · rintro ⟨h1, _, h2⟩
        exact ⟨h1, h2⟩

theorem hasRequiredOutput_iff (payee : CScript) (a : CAmount) (vout : List CTxOut) :
    hasRequiredOutput payee a vout = true ↔
      ∃ o ∈ vout, payee = o.scriptPubKey ∧ a = o.nValue := by
  induction vout with
  | nil => simp [hasRequiredOutput]
  | cons o rest ih =>
    simp only [hasRequiredOutput, List.mem_cons, exists_eq_or_imp]
    by_cases h : payee = o.scriptPubKey ∧ a = o.nValue
    · simp [h]
    · simp only [h, if_false, ih, false_or]

theorem scanPayees_fst (a : CAmount) (vout : List CTxOut) (l : List CZeronodePayee)
    (b : Bool) :
    (scanPayees a vout l b).1 = true ↔
      ∃ p ∈ l, p.GetVoteCount ≥ 6 ∧ hasRequiredOutput p.GetPayee a vout = true := by
  induction l generalizing b with
  | nil => simp [scanPayees]
  | cons p rest ih =>
    simp only [scanPayees, MNPAYMENTS_SIGNATURES_REQUIRED, List.mem_cons, exists_eq_or_imp]
    by_cases h : p.GetVoteCount ≥ 6
    · by_cases h2 : hasRequiredOutput p.GetPayee a vout = true
      · simp [h, h2]
      · simp only [h, h2, if_true, if_false, ih, Bool.false_eq_true, and_false, and_true,
          false_or, true_and]
    · simp only [h, if_false, ih, false_and, false_or]

theorem scanPayees_snd (a : CAmount) (vout : List CTxOut) (l : List CZeronodePayee)
    (b : Bool) (hf : (scanPayees a vout l b).1 = false) :
    (scanPayees a vout l b).2 = true ↔ (b = true ∨ ∃ p ∈ l, p.GetVoteCount ≥ 6) := by
  induction l generalizing b with
  | nil => simp [scanPayees]
  | cons p rest ih =>
    simp only [scanPayees, MNPAYMENTS_SIGNATURES_REQUIRED] at hf ⊢
    by_cases h : p.GetVoteCount ≥ 6
    · by_cases h2 : hasRequiredOutput p.GetPayee a vout = true
      · simp [h, h2] at hf
      · simp only [h, h2, if_true, if_false, Bool.false_eq_true] at hf ⊢
        rw [ih true hf]
        simp [h]
    · simp only [h, if_false] at hf ⊢
      rw [ih b hf]
      simp [h]

/-- C1: `CZeronodeBlockPayees::IsTransactionValid` accepts `tx` exactly when no bucket
has 6 votes, or some bucket with at least 6 votes is paid by an output of `tx` whose
value is `GetZeronodePayment(h, tx.GetValueOut())`. With a single bucket of 6 votes for
script `S`, a transaction with the single output `(a, s)` is accepted exactly when
`s = S` and `a` is the required amount. -/
theorem C1_IsTransactionValid_iff (GetZeronodePayment : Int → CAmount → CAmount)
    (bp : CZeronodeBlockPayees) (tx : CTransaction)
    (h : Int) (S s : CScript) (votes : List uint256) (a : CAmount)
    (hvotes : votes.length = 6) :
    (bp.IsTransactionValid GetZeronodePayment tx = true ↔
      ((∀ p ∈ bp.vecPayees, p.GetVoteCount < 6) ∨
        ∃ p ∈ bp.vecPayees, p.GetVoteCount ≥ 6 ∧
          ∃ o ∈ tx.vout, p.GetPayee = o.scriptPubKey ∧
            o.nValue = GetZeronodePayment bp.nBlockHeight tx.GetValueOut)) ∧
    (CZeronodeBlockPayees.IsTransactionValid GetZeronodePayment
        ⟨h, [⟨S, votes⟩]⟩ ⟨[⟨a, s⟩]⟩ = true ↔
      (s = S ∧ a = GetZeronodePayment h a)) := by
  have key : ∀ (bp : CZeronodeBlockPayees) (tx : CTransaction),
      (bp.IsTransactionValid GetZeronodePayment tx = true ↔
      ((∀ p ∈ bp.vecPayees, p.GetVoteCount < 6) ∨
        ∃ p ∈ bp.vecPayees, p.GetVoteCount ≥ 6 ∧
          ∃ o ∈ tx.vout, p.GetPayee = o.scriptPubKey ∧
            o.nValue = GetZeronodePayment bp.nBlockHeight tx.GetValueOut)) := by
    intro bp tx
    unfold CZeronodeBlockPayees.IsTransactionValid
    simp only [MNPAYMENTS_SIGNATURES_REQUIRED]
    by_cases hmax : maxSignatures bp.vecPayees 0 < 6
    · simp only [hmax, if_true, true_iff]
      exact Or.inl ((maxSignatures_lt _ _).1 hmax).2
    · simp only [hmax, if_false]
      have hex : ∃ p ∈ bp.vecPayees, p.GetVoteCount ≥ 6 := by
        by_contra hno
        push_neg at hno
        exact hmax ((maxSignatures_lt _ _).2 ⟨by decide, hno⟩)
      have hnall : ¬ ∀ p ∈ bp.vecPayees, p.GetVoteCount < 6 := by
        obtain ⟨p, hp, hc⟩ := hex
        intro hall
        have := hall p hp
        omega
      cases hscan : scanPayees (GetZeronodePayment bp.nBlockHeight tx.GetValueOut) tx.vout
          bp.vecPayees false with
      | mk fst snd =>
        have h1 := scanPayees_fst (GetZeronodePayment bp.nBlockHeight tx.GetValueOut)
          tx.vout bp.vecPayees false
        rw [hscan] at h1
        cases fst with
        | true =>
          simp only [true_iff]
          obtain ⟨p, hp, hc, ho⟩ := h1.1 rfl
          obtain ⟨o, hoin, e1, e2⟩ := (hasRequiredOutput_iff _ _ _).1 ho
          exact Or.inr ⟨p, hp, hc, o, hoin, e1, e2.symm⟩
        | false =>
          have h2 := scanPayees_snd (GetZeronodePayment bp.nBlockHeight tx.GetValueOut)
            tx.vout bp.vecPayees false (by rw [hscan])
          rw [hscan] at h2
          have hsnd : snd = true := h2.2 (Or.inr hex)
          subst hsnd
          simp only [Bool.not_true, Bool.false_eq_true, if_false, false_iff]
          rintro (hall | ⟨p, hp, hc, o, hoin, e1, e2⟩)
          · exact hnall hall
          · have : (false : Bool) = true :=
              h1.2 ⟨p, hp, hc, (hasRequiredOutput_iff _ _ _).2 ⟨o, hoin, e1, e2.symm⟩⟩
            exact Bool.noConfusion this
  refine ⟨key bp tx, ?_⟩
  rw [key]
  simp only [List.mem_singleton, forall_eq, exists_eq_left, CZeronodePayee.GetVoteCount,
    CZeronodePayee.GetPayee, CTransaction.GetValueOut, hvotes, List.map_cons, List.map_nil,
    List.sum_cons, List.sum_nil, add_zero]
  constructor
  · rintro (hlt | ⟨_, e1, e2⟩)
    · exact absurd hlt (by decide)
    · exact ⟨e1.symm, e2⟩
  · rintro ⟨e1, e2⟩
    exact Or.inr ⟨by decide, e1.symm, e2⟩

/-- C1, evaluated: six votes for script `[7]`, payment function `fun _ v => v`; the
coinbase paying `50` to `[7]` is accepted. -/
theorem C1_IsTransactionValid_witness :
    CZeronodeBlockPayees.IsTransactionValid (fun _ v => v)
        ⟨100, [⟨[7], [[1], [2], [3], [4], [5], [6]]⟩]⟩ ⟨[⟨50, [7]⟩]⟩ = true :=
  ((C1_IsTransactionValid_iff (fun _ v => v) ⟨100, []⟩ ⟨[]⟩ 100 [7] [7]
      [[1], [2], [3], [4], [5], [6]] 50 rfl).2).2 ⟨rfl, rfl⟩

theorem mapFind_mapSet_same {κ ν : Type} [DecidableEq κ] (m : List (κ × ν)) (k : κ) (v : ν) :
    mapFind (mapSet m k v) k = some v := by
  induction m with
  | nil => simp [mapSet, mapFind]
  | cons kv rest ih =>
    obtain ⟨k0, v0⟩ := kv
    by_cases h : k0 = k
    · simp [mapSet, mapFind, h]
    · simp [mapSet, mapFind, h, ih]

theorem mapFind_mapSet_other {κ ν : Type} [DecidableEq κ] (m : List (κ × ν)) (k k' : κ)
    (v : ν) (hne : k ≠ k') : mapFind (mapSet m k v) k' = mapFind m k' := by
  induction m with
  | nil => simp [mapSet, mapFind, hne]
  | cons kv rest ih =>
    obtain ⟨k0, v0⟩ := kv
    by_cases h : k0 = k
    · subst h
      simp [mapSet, mapFind, hne]
    · by_cases h2 : k0 = k'
      · subst h2
        simp [mapSet, mapFind, h]
      · simp [mapSet, mapFind, h, h2, ih]

theorem CanVote_records (m : List (COutPoint × Int)) (o : COutPoint) (h : Int) :
    mapFind (CanVote m o h).2 o = some h := by
  unfold CanVote
  split
  · next hc => exact hc.2
  · exact mapFind_mapSet_same m o h

theorem CanVote_keeps (m : List (COutPoint × Int)) (o o' : COutPoint) (h h' : Int)
    (hrec : mapFind m o = some h) (hsame : o' = o → h' = h) :
    mapFind (CanVote m o' h').2 o = some h := by
  by_cases ho : o' = o
  · subst ho
    rw [hsame rfl]
    exact CanVote_records m o' h
  · unfold CanVote
    split
    · exact hrec
    · rw [mapFind_mapSet_other m o' o h' ho]
      exact hrec

theorem runCanVote_keeps (calls : List (COutPoint × Int)) (m : List (COutPoint × Int))
    (o : COutPoint) (h : Int) (hrec : mapFind m o = some h)
    (hcalls : ∀ c ∈ calls, c.1 = o → c.2 = h) :
    mapFind (runCanVote m calls).2 o = some h := by
  induction calls generalizing m with
  | nil => simpa [runCanVote] using hrec
  | cons c rest ih =>
    obtain ⟨o', h'⟩ := c
    simp only [runCanVote]
    apply ih
    · exact CanVote_keeps m o o' h h' hrec (hcalls (o', h') (List.mem_cons_self _ _))
    · intro c hc
      exact hcalls c (List.mem_cons_of_mem _ hc)

theorem runCanVote_append (xs ys : List (COutPoint × Int)) (m : List (COutPoint × Int)) :
    runCanVote m (xs ++ ys) =
      ((runCanVote m xs).1 ++ (runCanVote (runCanVote m xs).2 ys).1,
        (runCanVote (runCanVote m xs).2 ys).2) := by
  induction xs generalizing m with
  | nil => simp [runCanVote]
  | cons c rest ih =>
    obtain ⟨o', h'⟩ := c
    have hcons : (o', h') :: rest ++ ys = (o', h') :: (rest ++ ys) := rfl
    rw [hcons]
    simp only [runCanVote, ih, List.cons_append]

/-- C4 as stated fails: from the empty last-vote map, the calls `CanVote(o, 1)`,
`CanVote(o, 2)`, `CanVote(o, 1)` all answer `true`, so the pair `(o, 1)` is accepted
twice. -/
theorem C4_CanVote_counterexample :
    (runCanVote [] [(⟨[1], 0⟩, 1), (⟨[1], 0⟩, 2), (⟨[1], 0⟩, 1)]).1 = [true, true, true] := by
  decide

/-- C4 amended: after a call `CanVote(o, h)`, a later call with the same pair answers
`false` whenever every call in between that names the outpoint `o` also names the
height `h` (calls for other outpoints are arbitrary). -/
theorem C4_CanVote_repeat_rejected (m0 : List (COutPoint × Int))
    (before between : List (COutPoint × Int)) (o : COutPoint) (h : Int)
    (hbetween : ∀ c ∈ between, c.1 = o → c.2 = h) :
    (runCanVote m0 (before ++ (o, h) :: (between ++ [(o, h)]))).1 =
      (runCanVote m0 (before ++ (o, h) :: between)).1 ++ [false] := by
  have hsplit : before ++ (o, h) :: (between ++ [(o, h)]) =
      (before ++ (o, h) :: between) ++ [(o, h)] := by simp
  rw [hsplit, runCanVote_append]
  simp only [List.append_cancel_left_eq]
  have hrec : mapFind (runCanVote m0 (before ++ (o, h) :: between)).2 o = some h := by
    rw [runCanVote_append]
    simp only [runCanVote]
    exact runCanVote_keeps between _ o h (CanVote_records _ o h) hbetween
  simp [runCanVote, CanVote, hrec]

/-- C4 amended, evaluated: votes of another outpoint in between do not reopen the pair. -/
theorem C4_CanVote_repeat_rejected_witness :
    (runCanVote [] ([] ++ ((⟨[1], 0⟩ : COutPoint), (5 : Int)) ::
        ([(⟨[2], 0⟩, 6)] ++ [(⟨[1], 0⟩, 5)]))).1 =
      (runCanVote [] ([] ++ ((⟨[1], 0⟩ : COutPoint), (5 : Int)) :: [(⟨[2], 0⟩, 6)])).1 ++
        [false] :=
  C4_CanVote_repeat_rejected [] [] [(⟨[2], 0⟩, 6)] ⟨[1], 0⟩ 5 (by decide)

theorem findByVin_eq_none (vin : CTxIn) (l : List CZeronode) (i : Nat) :
    findByVin vin l i = none ↔ ∀ e ∈ l, e.vin.prevout ≠ vin.prevout := by
  induction l generalizing i with
  | nil => simp [findByVin]
  | cons mn rest ih =>
    by_cases h : mn.vin.prevout = vin.prevout
    · simp [findByVin, h]
    · simp [findByVin, h, ih]

/-- C6: `CZeronodeMan::Add` keeps the collateral outpoints of `vZeronodes` pairwise
distinct; it answers `false` and changes nothing when an entry with the outpoint
exists, and otherwise appends the entry and answers `true`. -/
theorem C6_Add_keeps_outpoints_unique (m : CZeronodeMan) (mn : CZeronode)
    (hunique : (m.vZeronodes.map (fun e => e.vin.prevout)).Nodup) :
    (((m.Add mn).2.vZeronodes.map (fun e => e.vin.prevout)).Nodup) ∧
    ((∃ e ∈ m.vZeronodes, e.vin.prevout = mn.vin.prevout) →
      (m.Add mn).1 = false ∧ (m.Add mn).2 = m) ∧
    ((¬ ∃ e ∈ m.vZeronodes, e.vin.prevout = mn.vin.prevout) →
      (m.Add mn).1 = true ∧ (m.Add mn).2.vZeronodes = m.vZeronodes ++ [mn]) := by
  unfold CZeronodeMan.Add CZeronodeMan.Find
  cases hfind : findByVin mn.vin m.vZeronodes 0 with
  | none =>
    have hall := (findByVin_eq_none mn.vin m.vZeronodes 0).1 hfind
    refine ⟨?_, ?_, ?_⟩
    · simp only [List.map_append, List.map_cons, List.map_nil]
      rw [List.nodup_append]
      refine ⟨hunique, List.nodup_singleton _, ?_⟩
      intro a ha hb
      rw [List.mem_singleton] at hb
      rw [List.mem_map] at ha
      obtain ⟨e, he, hea⟩ := ha
      exact hall e he (hea.trans hb)
    · rintro ⟨e, he, heq⟩
      exact absurd heq (hall e he)
    · intro _
      exact ⟨rfl, rfl⟩
  | some i =>
    refine ⟨hunique, ?_, ?_⟩
    · intro _
      exact ⟨rfl, rfl⟩
    · intro hno
      have : findByVin mn.vin m.vZeronodes 0 = none := by
        rw [findByVin_eq_none]
        intro e he heq
        exact hno ⟨e, he, heq⟩
      rw [this] at hfind
      exact Option.noConfusion hfind

/-- C6, evaluated: adding a second outpoint to a one-entry registry. -/
theorem C6_Add_keeps_outpoints_unique_witness :
    ((((({ vZeronodes := [{ vin := ⟨⟨[1], 0⟩, [], 0⟩ }] } : CZeronodeMan).Add
        { vin := ⟨⟨[2], 0⟩, [], 0⟩ }).2.vZeronodes.map (fun e => e.vin.prevout)).Nodup)) :=
  (C6_Add_keeps_outpoints_unique { vZeronodes := [{ vin := ⟨⟨[1], 0⟩, [], 0⟩ }] }
    { vin := ⟨⟨[2], 0⟩, [], 0⟩ } (by decide)).1

theorem CheckEnabled_eq (mn : CZeronode) :
    mn.CheckEnabled = { mn with nActiveState := mn.CheckEnabled.nActiveState } := by
  unfold CZeronode.CheckEnabled
  split <;> rfl

theorem CheckEnabled_state (mn : CZeronode) :
    mn.CheckEnabled.nActiveState = ZERONODE_PRE_ENABLED ∨
      mn.CheckEnabled.nActiveState = ZERONODE_ENABLED := by
  unfold CZeronode.CheckEnabled
  split
  · exact Or.inl rfl
  · exact Or.inr rfl

theorem CheckUsual_eq (env : Env) (w : World) (mn : CZeronode) :
    mn.CheckUsual env w = { mn with nActiveState := (mn.CheckUsual env w).nActiveState } := by
  unfold CZeronode.CheckUsual
  simp only
  split_ifs <;> first | rfl | exact CheckEnabled_eq mn

theorem CheckUsual_not_banned (env : Env) (w : World) (mn : CZeronode)
    (hban : mn.nActiveState = ZERONODE_POSE_BAN) :
    (mn.CheckUsual env w).nActiveState ≠ ZERONODE_POSE_BAN := by
  have hen : mn.CheckEnabled.nActiveState ≠ ZERONODE_POSE_BAN := by
    rcases CheckEnabled_state mn with h | h <;> rw [h] <;> decide
  unfold CZeronode.CheckUsual
  simp only [CZeronode.IsExpired, CZeronode.IsWatchdogExpired, CZeronode.IsNewStartRequired,
    hban]
  split_ifs <;> first | exact hen | simp_all

/-- C9: when the node is not shutting down, the chain lock is taken and the collateral
output of a (non unit-test) entry exists, a forced `CZeronode::Check` of an entry that
is neither `OUTPOINT_SPENT` nor `POSE_BAN` and has `nPoSeBanScore >= 5` sets the state
to `POSE_BAN` and `nPoSeBanHeight` to the tip height plus the registry size, whatever
the protocol version and the ping times are. -/
theorem C9_Check_bans_at_max_score (env : Env) (w : World) (mn : CZeronode)
    (hrun : env.fShutdownRequested = false) (hlock : env.fLockMain = true)
    (hunit : mn.fUnitTest = false) (hutxo : env.utxoExists mn.vin.prevout = true)
    (hspent : mn.nActiveState ≠ ZERONODE_OUTPOINT_SPENT)
    (hban : mn.nActiveState ≠ ZERONODE_POSE_BAN)
    (hscore : mn.nPoSeBanScore ≥ 5) :
    (mn.Check env w true).nActiveState = ZERONODE_POSE_BAN ∧
      (mn.Check env w true).nPoSeBanHeight =
        env.nChainHeight + (w.mnodeman.vZeronodes.length : Int) := by
  unfold CZeronode.Check
  simp [hrun, hlock, hunit, hutxo, hspent, hban, hscore, CZeronode.IsOutpointSpent,
    CZeronode.IsPoSeBanned, ZERONODE_POSE_BAN_MAX_SCORE, CZeronodeMan.size]

/-- C9, evaluated: an `ENABLED` entry with score 5 in a registry of two entries at
tip height 100 is banned until height 102. -/
theorem C9_Check_bans_at_max_score_witness :
    (CZeronode.Check { nChainHeight := 100 }
        { mnodeman := { vZeronodes := [{ nPoSeBanScore := 5 }, {}] } }
        { nPoSeBanScore := 5 } true).nActiveState = ZERONODE_POSE_BAN ∧
      (CZeronode.Check { nChainHeight := 100 }
        { mnodeman := { vZeronodes := [{ nPoSeBanScore := 5 }, {}] } }
        { nPoSeBanScore := 5 } true).nPoSeBanHeight = 100 + ((2 : Nat) : Int) :=
  C9_Check_bans_at_max_score { nChainHeight := 100 }
    { mnodeman := { vZeronodes := [{ nPoSeBanScore := 5 }, {}] } }
    { nPoSeBanScore := 5 } rfl rfl rfl rfl (by decide) (by decide) (by decide)

/-- C10 as stated fails: a banned entry whose score was already brought down to `-5`
keeps that score when the forced check lifts the ban at tip height 10. -/
theorem C10_Check_unban_counterexample :
    (({ nActiveState := ZERONODE_POSE_BAN, nPoSeBanScore := -5, nPoSeBanHeight := 7 } :
        CZeronode).nPoSeBanHeight ≤ ({ nChainHeight := 10 } : Env).nChainHeight) ∧
      (CZeronode.Check { nChainHeight := 10 } {}
        { nActiveState := ZERONODE_POSE_BAN, nPoSeBanScore := -5, nPoSeBanHeight := 7 }
        true).nPoSeBanScore = -5 := by
  decide

theorem Check_forced_banned (env : Env) (w : World) (mn : CZeronode)
    (hrun : env.fShutdownRequested = false) (hlock : env.fLockMain = true)
    (hunit : mn.fUnitTest = false) (hutxo : env.utxoExists mn.vin.prevout = true)
    (hban : mn.nActiveState = ZERONODE_POSE_BAN) :
    mn.Check env w true =
      if env.nChainHeight < mn.nPoSeBanHeight then { mn with nTimeLastChecked := env.nTime }
      else CZeronode.CheckUsual env w
        (CZeronode.DecreasePoSeBanScore { mn with nTimeLastChecked := env.nTime }) := by
  unfold CZeronode.Check
  simp [hrun, hlock, hunit, hutxo, hban, CZeronode.IsOutpointSpent, CZeronode.IsPoSeBanned]

/-- C10 amended: for a banned entry whose collateral output exists, a forced check
changes neither state nor score while the tip is below `nPoSeBanHeight`; from
`nPoSeBanHeight` on it lowers the score by one, except that a score of `-5` or less
stays as it is, and the resulting state is not `POSE_BAN`. -/
theorem C10_Check_unban (env : Env) (w : World) (mn : CZeronode)
    (hrun : env.fShutdownRequested = false) (hlock : env.fLockMain = true)
    (hunit : mn.fUnitTest = false) (hutxo : env.utxoExists mn.vin.prevout = true)
    (hban : mn.nActiveState = ZERONODE_POSE_BAN) :
    (env.nChainHeight < mn.nPoSeBanHeight →
      (mn.Check env w true).nActiveState = mn.nActiveState ∧
        (mn.Check env w true).nPoSeBanScore = mn.nPoSeBanScore) ∧
    (mn.nPoSeBanHeight ≤ env.nChainHeight →
      (mn.Check env w true).nPoSeBanScore =
          (if mn.nPoSeBanScore > -5 then mn.nPoSeBanScore - 1 else mn.nPoSeBanScore) ∧
        (mn.Check env w true).nActiveState ≠ ZERONODE_POSE_BAN) := by
  rw [Check_forced_banned env w mn hrun hlock hunit hutxo hban]
  constructor
  · intro hlt
    simp [hlt]
  · intro hge
    have hnlt : ¬ env.nChainHeight < mn.nPoSeBanHeight := not_lt.mpr hge
    simp only [hnlt, if_false]
    constructor
    · rw [CheckUsual_eq]
      simp only [CZeronode.DecreasePoSeBanScore, ZERONODE_POSE_BAN_MAX_SCORE]
      split_ifs <;> rfl
    · apply CheckUsual_not_banned
      simp only [CZeronode.DecreasePoSeBanScore]
      split_ifs <;> exact hban

/-- C10 amended, evaluated: a banned entry with score 5 at tip height 10, past its ban
height 7, comes back with score 4. -/
theorem C10_Check_unban_witness :
    (CZeronode.Check { nChainHeight := 10 } {}
        { nActiveState := ZERONODE_POSE_BAN, nPoSeBanScore := 5, nPoSeBanHeight := 7 }
        true).nPoSeBanScore = (if (5 : Int) > -5 then 5 - 1 else 5) ∧
      (CZeronode.Check { nChainHeight := 10 } {}
        { nActiveState := ZERONODE_POSE_BAN, nPoSeBanScore := 5, nPoSeBanHeight := 7 }
        true).nActiveState ≠ ZERONODE_POSE_BAN :=
  (C10_Check_unban { nChainHeight := 10 } {}
    { nActiveState := ZERONODE_POSE_BAN, nPoSeBanScore := 5, nPoSeBanHeight := 7 }
    rfl rfl rfl rfl rfl).2 (by decide)

/-! ### Election: order and sorting -/

theorem CompareLastPaidBlock_iff (a b : Int × CZeronode) :
    CompareLastPaidBlock a b = true ↔ lastPaidKey a < lastPaidKey b := by
  unfold CompareLastPaidBlock lastPaidKey CTxIn.lt COutPoint.lt
  rw [Prod.Lex.lt_iff]
  simp only [Prod.Lex.lt_iff]
  by_cases h : a.1 = b.1
  · simp [h]
  · simp only [ne_eq, h, not_false_eq_true, if_true, decide_eq_true_eq, false_and, or_false]

theorem sortRel_iff (a b : Int × CZeronode) :
    CompareLastPaidBlock b a = false ↔ lastPaidKey a ≤ lastPaidKey b := by
  rw [← not_lt, ← CompareLastPaidBlock_iff]
  simp

theorem lastPaidKey_eq (a b : Int × CZeronode) (h : lastPaidKey a = lastPaidKey b) :
    a.1 = b.1 ∧ a.2.vin.prevout = b.2.vin.prevout := by
  unfold lastPaidKey at h
  have h1 := congrArg (fun k => (ofLex k).1) h
  have h2 := congrArg (fun k => (ofLex (ofLex k).2).1) h
  have h3 := congrArg (fun k => (ofLex (ofLex k).2).2) h
  simp only [ofLex_toLex] at h1 h2 h3
  refine ⟨h1, ?_⟩
  cases hp : a.2.vin.prevout with
  | mk ha na =>
    cases hq : b.2.vin.prevout with
    | mk hb nb =>
      rw [hp] at h2 h3
      rw [hq] at h2 h3
      simp only at h2 h3
      rw [h2, h3]

theorem stdSort_perm {α : Type} (comp : α → α → Bool) (l : List α) :
    (stdSort comp l).Perm l :=
  List.perm_insertionSort _ l

theorem stdSort_sorted (l : List (Int × CZeronode)) :
    (stdSort CompareLastPaidBlock l).Sorted (fun a b => CompareLastPaidBlock b a = false) := by
  unfold stdSort
  refine @List.sorted_insertionSort _ (fun a b => CompareLastPaidBlock b a = false) _ ⟨?_⟩ ⟨?_⟩ l
  · intro a b
    rw [sortRel_iff, sortRel_iff]
    exact le_total _ _
  · intro a b c hab hbc
    rw [sortRel_iff] at hab hbc ⊢
    exact le_trans hab hbc

theorem sorted_perm_unique {α : Type} (r : α → α → Prop) :
    ∀ (l₁ l₂ : List α), (∀ a ∈ l₁, ∀ b ∈ l₁, r a b → r b a → a = b) →
      l₁.Perm l₂ → l₁.Sorted r → l₂.Sorted r → l₁ = l₂
  | [], l₂, _, hp, _, _ => (List.Perm.nil_eq hp)
  | a :: t₁, [], _, hp, _, _ => absurd hp.symm (List.not_perm_nil_cons _ _)
  | a :: t₁, b :: t₂, hanti, hp, hs₁, hs₂ => by
    have hs₁' := List.sorted_cons.1 hs₁
    have hs₂' := List.sorted_cons.1 hs₂
    have ha₂ : a ∈ b :: t₂ := hp.mem_iff.1 (List.mem_cons_self _ _)
    have hb₁ : b ∈ a :: t₁ := hp.mem_iff.2 (List.mem_cons_self _ _)
    have hab : a = b := by
      rcases List.mem_cons.1 ha₂ with h | h
      · exact h
      · rcases List.mem_cons.1 hb₁ with h' | h'
        · exact h'.symm
        · exact hanti a (List.mem_cons_self _ _) b hb₁ (hs₁'.1 b h') (hs₂'.1 a h)
    subst hab
    have hp' : t₁.Perm t₂ := hp.cons_inv
    have ht := sorted_perm_unique r t₁ t₂
      (fun x hx y hy => hanti x (List.mem_cons_of_mem _ hx) y (List.mem_cons_of_mem _ hy))
      hp' hs₁'.2 hs₂'.2
    rw [ht]

/-! ### Election: the two loops -/

theorem lastPaidLoop_fst (env : Env) (pay : CZeronodePayments) (h : Int) (f : Bool) (n : Int)
    (l : List CZeronode) :
    (lastPaidLoop env pay h f n l).1 = l.map (fun mn => (GetNotQualifyReason env pay mn h f n).2) := by
  induction l with
  | nil => rfl
  | cons mn rest ih =>
    simp only [lastPaidLoop, List.map_cons]
    cases (GetNotQualifyReason env pay mn h f n).1 <;> simp [ih]

theorem lastPaidLoop_snd (env : Env) (pay : CZeronodePayments) (h : Int) (f : Bool) (n : Int)
    (l : List CZeronode) :
    (lastPaidLoop env pay h f n l).2 = l.filterMap (fun mn =>
      let r := GetNotQualifyReason env pay mn h f n
      if r.1 = none then some (r.2.GetLastPaidBlock, r.2) else none) := by
  induction l with
  | nil => rfl
  | cons mn rest ih =>
    simp only [lastPaidLoop, List.filterMap_cons]
    cases hr : (GetNotQualifyReason env pay mn h f n).1 <;> simp [ih]

theorem GetCollateralAge_again (env : Env) (mn : CZeronode) :
    CZeronode.GetCollateralAge env (mn.GetCollateralAge env).2 = mn.GetCollateralAge env := by
  unfold CZeronode.GetCollateralAge
  by_cases h1 : env.fLockMain = false ∨ env.fHasTip = false
  · simp [h1]
  · simp only [h1, if_false]
    by_cases h2 : mn.nCacheCollateralBlock = 0
    · simp only [h2, if_true]
      by_cases h3 : env.GetInputAge mn.vin > 0
      · simp only [h3, if_true]
        by_cases h4 : env.nChainHeight - env.GetInputAge mn.vin = 0
        · simp [h4, h3]
        · simp [h4]
      · simp [h3, h2]
    · simp [h2]

theorem GetCollateralAge_keeps (env : Env) (mn : CZeronode) :
    (mn.GetCollateralAge env).2 =
      { mn with nCacheCollateralBlock := (mn.GetCollateralAge env).2.nCacheCollateralBlock } := by
  unfold CZeronode.GetCollateralAge
  dsimp only
  split_ifs <;> rfl

theorem GetNotQualifyReason_keeps (env : Env) (pay : CZeronodePayments) (mn : CZeronode)
    (h : Int) (f : Bool) (n : Int) :
    (GetNotQualifyReason env pay mn h f n).2 =
      { mn with nCacheCollateralBlock :=
          (GetNotQualifyReason env pay mn h f n).2.nCacheCollateralBlock } := by
  unfold GetNotQualifyReason
  dsimp only
  split_ifs <;> first | rfl | exact GetCollateralAge_keeps env mn

theorem IsScheduled_congr (env : Env) (pay : CZeronodePayments) (mn mn' : CZeronode)
    (h : Int) (hk : mn'.pubKeyCollateralAddress = mn.pubKeyCollateralAddress) :
    IsScheduled env pay mn' h = IsScheduled env pay mn h := by
  unfold IsScheduled
  rw [hk]

/-- The retry pass sees entries whose cache the first pass may have filled; its verdicts
and results are those of a pass with the filter off on the original entries. -/
theorem GetNotQualifyReason_again (env : Env) (pay : CZeronodePayments) (mn : CZeronode)
    (h : Int) (f : Bool) (n : Int) :
    GetNotQualifyReason env pay (GetNotQualifyReason env pay mn h f n).2 h false n =
      GetNotQualifyReason env pay mn h false n := by
  unfold GetNotQualifyReason
  by_cases h1 : (!mn.IsValidForPayment) = true
  · simp [h1]
  · by_cases h2 : mn.nProtocolVersion < GetMinZeronodePaymentsProto env
    · simp [h1, h2]
    · by_cases h3 : IsScheduled env pay mn h = true
      · simp [h1, h2, h3]
      · by_cases h4 : (f && env.fSigTimeTooNew mn.sigTime n) = true
        · simp [h1, h2, h3, h4]
        · have hk := GetCollateralAge_keeps env mn
          have hv : CZeronode.IsValidForPayment (mn.GetCollateralAge env).2 =
              mn.IsValidForPayment := by rw [hk]; rfl
          have hp : (mn.GetCollateralAge env).2.nProtocolVersion = mn.nProtocolVersion := by
            rw [hk]
          have hs : IsScheduled env pay (mn.GetCollateralAge env).2 h =
              IsScheduled env pay mn h := by
            apply IsScheduled_congr
            rw [hk]
          by_cases h5 : (mn.GetCollateralAge env).1 < n
          · simp [h1, h2, h3, h4, h5, hv, hp, hs, GetCollateralAge_again]
          · simp [h1, h2, h3, h4, h5, hv, hp, hs, GetCollateralAge_again]

theorem bestOfTenthLoop_eq (env : Env) (bh : uint256) (n : Int) :
    ∀ (l : List (Int × CZeronode)) (c : Int) (hi : Nat) (best : Option CZeronode),
      bestOfTenthLoop env bh n l c hi best =
        pickBest env bh (l.take (max 1 (n - c)).toNat) hi best
  | [], c, hi, best => by simp [bestOfTenthLoop, pickBest]
  | s :: rest, c, hi, best => by
    unfold bestOfTenthLoop
    by_cases hc : c + 1 ≥ n
    · have hk : (max 1 (n - c)).toNat = 1 := by
        rw [max_eq_left (by omega)]
        rfl
      simp only [hc, if_true, hk, List.take_succ_cons, List.take_zero, pickBest]
    · have hk : (max 1 (n - c)).toNat = (max 1 (n - (c + 1))).toNat + 1 := by
        rw [max_eq_right (by omega), max_eq_right (by omega)]
        omega
      simp only [hc, if_false, hk, List.take_succ_cons, pickBest]
      rw [bestOfTenthLoop_eq env bh n rest (c + 1)]
      split_ifs <;> rfl

theorem pickBest_spec (env : Env) (bh : uint256) :
    ∀ (l : List (Int × CZeronode)) (hi : Nat) (best : Option CZeronode),
      (pickBest env bh l hi best = best ∧ ∀ y ∈ l, y.2.CalculateScore env bh ≤ hi) ∨
      (∃ x ∈ l, pickBest env bh l hi best = some x.2 ∧ x.2.CalculateScore env bh > hi ∧
        ∀ y ∈ l, y.2.CalculateScore env bh ≤ x.2.CalculateScore env bh)
  | [], hi, best => by simp [pickBest]
  | s :: rest, hi, best => by
    unfold pickBest
    by_cases hs : s.2.CalculateScore env bh > hi
    · simp only [hs, if_true]
      rcases pickBest_spec env bh rest (s.2.CalculateScore env bh) (some s.2) with
        ⟨h1, h2⟩ | ⟨x, hx, h1, h2, h3⟩
      · refine Or.inr ⟨s, List.mem_cons_self _ _, h1, hs, ?_⟩
        intro y hy
        rcases List.mem_cons.1 hy with rfl | hy
        · exact le_refl _
        · exact h2 y hy
      · refine Or.inr ⟨x, List.mem_cons_of_mem _ hx, h1, by omega, ?_⟩
        intro y hy
        rcases List.mem_cons.1 hy with rfl | hy
        · omega
        · exact h3 y hy
    · simp only [hs, if_false]
      rcases pickBest_spec env bh rest hi best with ⟨h1, h2⟩ | ⟨x, hx, h1, h2, h3⟩
      · refine Or.inl ⟨h1, ?_⟩
        intro y hy
        rcases List.mem_cons.1 hy with rfl | hy
        · omega
        · exact h2 y hy
      · refine Or.inr ⟨x, List.mem_cons_of_mem _ hx, h1, h2, ?_⟩
        intro y hy
        rcases List.mem_cons.1 hy with rfl | hy
        · omega
        · exact h3 y hy

/-! ### Election: the whole function -/

theorem countEnabledLoop_map (p : Int) (g : CZeronode → CZeronode)
    (hp : ∀ mn, (g mn).nProtocolVersion = mn.nProtocolVersion)
    (hs : ∀ mn, (g mn).nActiveState = mn.nActiveState) (l : List CZeronode) :
    countEnabledLoop p (l.map g) = countEnabledLoop p l := by
  induction l with
  | nil => rfl
  | cons mn rest ih =>
    simp only [List.map_cons, countEnabledLoop, CZeronode.IsEnabled, hp, hs, ih]

theorem GetNotQualifyReason_proto (env : Env) (pay : CZeronodePayments) (mn : CZeronode)
    (h : Int) (f : Bool) (n : Int) :
    (GetNotQualifyReason env pay mn h f n).2.nProtocolVersion = mn.nProtocolVersion := by
  rw [GetNotQualifyReason_keeps]

theorem GetNotQualifyReason_state (env : Env) (pay : CZeronodePayments) (mn : CZeronode)
    (h : Int) (f : Bool) (n : Int) :
    (GetNotQualifyReason env pay mn h f n).2.nActiveState = mn.nActiveState := by
  rw [GetNotQualifyReason_keeps]

theorem GetNotQualifyReason_vin (env : Env) (pay : CZeronodePayments) (mn : CZeronode)
    (h : Int) (f : Bool) (n : Int) :
    (GetNotQualifyReason env pay mn h f n).2.vin = mn.vin := by
  rw [GetNotQualifyReason_keeps]

/-- World after the first loop of the election: the entries carry their caches. -/
theorem CountEnabled_after_pass (env : Env) (w : World) (h : Int) (f : Bool) (n : Int) :
    CountEnabled env
      { w with mnodeman := { w.mnodeman with
          vZeronodes := (lastPaidLoop env w.mnpayments h f n w.mnodeman.vZeronodes).1 } } (-1) =
      CountEnabled env w (-1) := by
  unfold CountEnabled
  simp only [lastPaidLoop_fst]
  exact countEnabledLoop_map _ _ (fun mn => GetNotQualifyReason_proto env _ mn h f n)
    (fun mn => GetNotQualifyReason_state env _ mn h f n) _

theorem survivorPairs_after_pass (env : Env) (w : World) (h : Int) (f : Bool) :
    survivorPairs env
      { w with mnodeman := { w.mnodeman with
          vZeronodes := (lastPaidLoop env w.mnpayments h f (CountEnabled env w (-1))
            w.mnodeman.vZeronodes).1 } } h false =
      survivorPairs env w h false := by
  unfold survivorPairs
  rw [CountEnabled_after_pass]
  simp only [lastPaidLoop_fst, List.filterMap_map]
  congr 1
  funext mn
  simp only [Function.comp, GetNotQualifyReason_again]

theorem queueForPaymentBody_direct (retry : World → Option CZeronode × Int × World)
    (env : Env) (w : World) (h : Int) (f : Bool)
    (hno : ¬ (f = true ∧
      ((survivorPairs env w h f).length : Int) < CountEnabled env w (-1) / 3)) :
    (queueForPaymentBody retry env w h f).1 =
      match env.GetBlockHash (h - 101) with
      | none => none
      | some bh =>
          pickBest env bh ((stdSort CompareLastPaidBlock (survivorPairs env w h f)).take
            (max 1 (CountEnabled env w (-1) / 10)).toNat) 0 none := by
  unfold queueForPaymentBody
  simp only [lastPaidLoop_snd]
  unfold survivorPairs at hno ⊢
  simp only [hno, if_false]
  cases env.GetBlockHash (h - 101) with
  | none => rfl
  | some bh => simp only [bestOfTenthLoop_eq, sub_zero]

theorem queueForPaymentBody_retry (retry : World → Option CZeronode × Int × World)
    (env : Env) (w : World) (h : Int) (f : Bool)
    (hyes : f = true ∧
      ((survivorPairs env w h f).length : Int) < CountEnabled env w (-1) / 3) :
    queueForPaymentBody retry env w h f =
      retry { w with mnodeman := { w.mnodeman with
          vZeronodes := (lastPaidLoop env w.mnpayments h f (CountEnabled env w (-1))
            w.mnodeman.vZeronodes).1 } } := by
  obtain ⟨hf, hlt⟩ := hyes
  subst hf
  unfold queueForPaymentBody
  simp only [lastPaidLoop_snd]
  unfold survivorPairs at hlt
  exact if_pos ⟨trivial, hlt⟩

/-- The election in one formula: the best score among the first `max 1 (nMnCount / 10)`
sorted survivors, the survivors being taken with the filter that the retry rule leaves
in force. -/
theorem GetNextZeronodeInQueueForPayment_eq (env : Env) (w : World) (h : Int) (f : Bool) :
    (GetNextZeronodeInQueueForPayment env w h f).1 =
      match env.GetBlockHash (h - 101) with
      | none => none
      | some bh =>
          pickBest env bh
            ((stdSort CompareLastPaidBlock
              (survivorPairs env w h (effectiveFilter env w h f))).take
              (max 1 (CountEnabled env w (-1) / 10)).toNat) 0 none := by
  unfold GetNextZeronodeInQueueForPayment
  by_cases hretry : f = true ∧
      ((survivorPairs env w h f).length : Int) < CountEnabled env w (-1) / 3
  · rw [queueForPaymentBody_retry _ env w h f hretry]
    rw [queueForPaymentBody_direct _ env _ h false (by simp)]
    rw [survivorPairs_after_pass, CountEnabled_after_pass]
    have he : effectiveFilter env w h f = false := by
      obtain ⟨hf, hlt⟩ := hretry
      subst hf
      unfold effectiveFilter
      simp [hlt]
    rw [he]
  · rw [queueForPaymentBody_direct _ env w h f hretry]
    have he : effectiveFilter env w h f = f := by
      unfold effectiveFilter
      cases f with
      | false => rfl
      | true =>
        have : ¬ ((survivorPairs env w h true).length : Int) < CountEnabled env w (-1) / 3 :=
          fun hlt => hretry ⟨rfl, hlt⟩
        simp [this]
    rw [he]

/-- C2 as stated fails. In `exampleWorld` 20 entries are enabled and 10 of them
qualify (the others have too young a collateral). The first `10 / 10 = 1` sorted
survivors are the entry with outpoint `(txidOfByte 1, 0)` alone, yet the election
returns the entry `(txidOfByte 2, 0)`: the loop looks at `CountEnabled() / 10 = 2`
survivors, and the second one has the larger score. -/
theorem C2_election_counterexample :
    (GetNextZeronodeInQueueForPayment exampleEnv exampleWorld 1000 true).1.map
        (fun x => x.vin.prevout) = some ⟨txidOfByte 2, 0⟩ ∧
      ((sortedSurvivors exampleEnv exampleWorld 1000 true).take
        ((sortedSurvivors exampleEnv exampleWorld 1000 true).length / 10)).map
          (fun x => x.vin.prevout) = [⟨txidOfByte 1, 0⟩] := by
  decide

/-- C2 amended: with a known block hash at `h - 101`, the election returns an entry of
the window made of the first `max 1 (CountEnabled() / 10)` survivors, sorted by
last-paid block and then outpoint; its score is positive and no entry of the window
has a larger one. It returns none exactly when every score in the window is zero (in
particular when there is no survivor). -/
theorem C2_election_winner (env : Env) (w : World) (h : Int) (f : Bool) (bh : uint256)
    (hbh : env.GetBlockHash (h - 101) = some bh) :
    (∀ x, (GetNextZeronodeInQueueForPayment env w h f).1 = some x →
      x ∈ electionWindow env w h f ∧ 0 < x.CalculateScore env bh ∧
        ∀ y ∈ electionWindow env w h f, y.CalculateScore env bh ≤ x.CalculateScore env bh) ∧
    ((GetNextZeronodeInQueueForPayment env w h f).1 = none ↔
      ∀ y ∈ electionWindow env w h f, y.CalculateScore env bh = 0) := by
  rw [GetNextZeronodeInQueueForPayment_eq, hbh]
  have hwin : electionWindow env w h f =
      ((stdSort CompareLastPaidBlock (survivorPairs env w h (effectiveFilter env w h f))).take
        (max 1 (CountEnabled env w (-1) / 10)).toNat).map (fun s => s.2) := by
    unfold electionWindow sortedSurvivors
    rw [List.map_take]
  rw [hwin]
  generalize (stdSort CompareLastPaidBlock
    (survivorPairs env w h (effectiveFilter env w h f))).take
      (max 1 (CountEnabled env w (-1) / 10)).toNat = top
  simp only
  rcases pickBest_spec env bh top 0 none with ⟨h1, h2⟩ | ⟨x, hx, h1, h2, h3⟩
  · rw [h1]
    constructor
    · intro x hx
      exact Option.noConfusion hx
    · simp only [true_iff]
      intro y hy
      obtain ⟨s, hs, rfl⟩ := List.mem_map.1 hy
      exact Nat.le_zero.1 (h2 s hs)
  · rw [h1]
    constructor
    · intro x' hx'
      have hxx : x.2 = x' := Option.some.inj hx'
      subst hxx
      refine ⟨List.mem_map.2 ⟨x, hx, rfl⟩, h2, ?_⟩
      intro y hy
      obtain ⟨s, hs, rfl⟩ := List.mem_map.1 hy
      exact h3 s hs
    · constructor
      · intro hnone
        exact Option.noConfusion hnone
      · intro hall
        have := hall x.2 (List.mem_map.2 ⟨x, hx, rfl⟩)
        omega

/-- C2 amended, evaluated on `exampleWorld`, where the block hash at height 899 is
known. -/
theorem C2_election_winner_witness :
    (∀ x, (GetNextZeronodeInQueueForPayment exampleEnv exampleWorld 1000 true).1 = some x →
      x ∈ electionWindow exampleEnv exampleWorld 1000 true ∧
        0 < x.CalculateScore exampleEnv uint256.null ∧
        ∀ y ∈ electionWindow exampleEnv exampleWorld 1000 true,
          y.CalculateScore exampleEnv uint256.null ≤ x.CalculateScore exampleEnv uint256.null) ∧
    ((GetNextZeronodeInQueueForPayment exampleEnv exampleWorld 1000 true).1 = none ↔
      ∀ y ∈ electionWindow exampleEnv exampleWorld 1000 true,
        y.CalculateScore exampleEnv uint256.null = 0) :=
  C2_election_winner exampleEnv exampleWorld 1000 true uint256.null rfl

theorem countEnabledLoop_perm (p : Int) {l₁ l₂ : List CZeronode} (h : l₁.Perm l₂) :
    countEnabledLoop p l₁ = countEnabledLoop p l₂ := by
  induction h with
  | nil => rfl
  | cons x _ ih => simp only [countEnabledLoop, ih]
  | swap x y l =>
    simp only [countEnabledLoop]
    split_ifs <;> rfl
  | trans _ _ ih₁ ih₂ => exact ih₁.trans ih₂

theorem CountEnabled_perm (env : Env) (w : World) {l₁ l₂ : List CZeronode}
    (h : l₁.Perm l₂) (p : Int) :
    CountEnabled env (w.withEntries l₁) p = CountEnabled env (w.withEntries l₂) p := by
  unfold CountEnabled World.withEntries
  exact countEnabledLoop_perm _ h

theorem survivorPairs_perm (env : Env) (w : World) {l₁ l₂ : List CZeronode}
    (h : l₁.Perm l₂) (nBlockHeight : Int) (f : Bool) :
    (survivorPairs env (w.withEntries l₁) nBlockHeight f).Perm
      (survivorPairs env (w.withEntries l₂) nBlockHeight f) := by
  unfold survivorPairs
  rw [CountEnabled_perm env w h]
  exact List.Perm.filterMap _ h

theorem survivorPairs_distinct (env : Env) (w : World) (l : List CZeronode)
    (hdistinct : (l.map (fun e => e.vin.prevout)).Nodup) (nBlockHeight : Int) (f : Bool)
    (a b : Int × CZeronode)
    (ha : a ∈ survivorPairs env (w.withEntries l) nBlockHeight f)
    (hb : b ∈ survivorPairs env (w.withEntries l) nBlockHeight f)
    (hab : CompareLastPaidBlock b a = false) (hba : CompareLastPaidBlock a b = false) :
    a = b := by
  have hkey : lastPaidKey a = lastPaidKey b :=
    le_antisymm ((sortRel_iff a b).1 hab) ((sortRel_iff b a).1 hba)
  have hout := (lastPaidKey_eq a b hkey).2
  unfold survivorPairs World.withEntries at ha hb
  simp only [List.mem_filterMap] at ha hb
  obtain ⟨ma, hma, hea⟩ := ha
  obtain ⟨mb, hmb, heb⟩ := hb
  split_ifs at hea heb
  have hea' := Option.some.inj hea
  have heb' := Option.some.inj heb
  have hva : a.2.vin = ma.vin := by rw [← hea']; exact GetNotQualifyReason_vin _ _ _ _ _ _
  have hvb : b.2.vin = mb.vin := by rw [← heb']; exact GetNotQualifyReason_vin _ _ _ _ _ _
  have hmm : ma = mb := by
    apply List.inj_on_of_nodup_map hdistinct hma hmb
    show ma.vin.prevout = mb.vin.prevout
    rw [← hva, ← hvb, hout]
  rw [← hea', ← heb', hmm]

/-- C3: the election does not depend on the order in which the registry stores its
entries. Two registries with the same entries, of pairwise distinct collateral
outpoints, give the same winner (the same outpoint, or none in both) for the same
height, chain view, vote schedule and clock. -/
theorem C3_election_deterministic (env : Env) (w : World) (l₁ l₂ : List CZeronode)
    (hperm : l₁.Perm l₂) (hdistinct : (l₁.map (fun e => e.vin.prevout)).Nodup)
    (nBlockHeight : Int) (fFilterSigTime : Bool) :
    (GetNextZeronodeInQueueForPayment env (w.withEntries l₁) nBlockHeight
        fFilterSigTime).1.map (fun x => x.vin.prevout) =
      (GetNextZeronodeInQueueForPayment env (w.withEntries l₂) nBlockHeight
        fFilterSigTime).1.map (fun x => x.vin.prevout) := by
  rw [GetNextZeronodeInQueueForPayment_eq, GetNextZeronodeInQueueForPayment_eq]
  have hcount := CountEnabled_perm env w hperm (-1)
  have heff : effectiveFilter env (w.withEntries l₁) nBlockHeight fFilterSigTime =
      effectiveFilter env (w.withEntries l₂) nBlockHeight fFilterSigTime := by
    unfold effectiveFilter
    rw [hcount, (survivorPairs_perm env w hperm nBlockHeight fFilterSigTime).length_eq]
  have hsorted : stdSort CompareLastPaidBlock (survivorPairs env (w.withEntries l₁) nBlockHeight
        (effectiveFilter env (w.withEntries l₁) nBlockHeight fFilterSigTime)) =
      stdSort CompareLastPaidBlock (survivorPairs env (w.withEntries l₂) nBlockHeight
        (effectiveFilter env (w.withEntries l₂) nBlockHeight fFilterSigTime)) := by
    rw [← heff]
    apply sorted_perm_unique (fun a b => CompareLastPaidBlock b a = false)
    · intro a ha b hb hab hba
      exact survivorPairs_distinct env w l₁ hdistinct nBlockHeight _ a b
        ((stdSort_perm _ _).mem_iff.1 ha) ((stdSort_perm _ _).mem_iff.1 hb) hab hba
    · exact ((stdSort_perm _ _).trans (survivorPairs_perm env w hperm nBlockHeight _)).trans
        (stdSort_perm _ _).symm
    · exact stdSort_sorted _
    · exact stdSort_sorted _
  rw [hsorted, hcount]

/-- C3, evaluated: `exampleRegistry` and its reverse elect the same outpoint. -/
theorem C3_election_deterministic_witness :
    (GetNextZeronodeInQueueForPayment exampleEnv (exampleWorld.withEntries exampleRegistry)
        1000 true).1.map (fun x => x.vin.prevout) =
      (GetNextZeronodeInQueueForPayment exampleEnv
        (exampleWorld.withEntries exampleRegistry.reverse) 1000 true).1.map
          (fun x => x.vin.prevout) :=
  C3_election_deterministic exampleEnv exampleWorld exampleRegistry exampleRegistry.reverse
    (List.reverse_perm exampleRegistry).symm (by decide) 1000 true

/-! ### Announce ingest -/

/-- The lifecycle check writes four members only. -/
theorem Check_touch (env : Env) (w : World) (mn : CZeronode) (fForce : Bool) :
    ∃ (t : Int) (s : state) (score height : Int),
      mn.Check env w fForce =
        { mn with nTimeLastChecked := t, nActiveState := s, nPoSeBanScore := score,
                  nPoSeBanHeight := height } := by
  unfold CZeronode.Check
  dsimp only
  split_ifs
  all_goals
    first
      | exact ⟨_, _, _, _, rfl⟩
      | (rw [CheckUsual_eq]
         first
           | exact ⟨_, _, _, _, rfl⟩
           | (unfold CZeronode.DecreasePoSeBanScore
              split_ifs <;> exact ⟨_, _, _, _, rfl⟩))

theorem Check_announced (env : Env) (w : World) (mn : CZeronode) (fForce : Bool) :
    (mn.Check env w fForce).announced = mn.announced := by
  obtain ⟨t, s, score, height, h⟩ := Check_touch env w mn fForce
  rw [h]
  rfl

/-- C7: an announce with `fRecovery = false` whose `sigTime` is not above that of the
entry makes `CZeronodeBroadcast::Update` answer `false` with `nDos = 0`; the entry and
everything else stay as they were. -/
theorem C7_Update_rejects_stale (ManageState : World → Option World) (env : Env)
    (mnb : CZeronodeBroadcast) (i : Nat) (w : World) (mn : CZeronode)
    (hmn : w.mnodeman.vZeronodes[i]? = some mn)
    (hrecovery : mnb.fRecovery = false) (hstale : mnb.sigTime ≤ mn.sigTime) :
    mnb.Update ManageState env i w = some (false, 0, w) := by
  unfold CZeronodeBroadcast.Update
  rw [hmn]
  dsimp only
  by_cases heq : mn.sigTime = mnb.sigTime
  · exact if_pos ⟨heq, hrecovery⟩
  · rw [if_neg (fun h => heq h.1)]
    exact if_pos (by omega)

/-- C7, evaluated: entry signed at 1000000, announce signed at 999999. -/
theorem C7_Update_rejects_stale_witness :
    CZeronodeBroadcast.Update (fun w => some w) {} { sigTime := 999999 } 0
        { mnodeman := { vZeronodes := [{ sigTime := 1000000 }] } } =
      some (false, 0, { mnodeman := { vZeronodes := [{ sigTime := 1000000 }] } }) :=
  C7_Update_rejects_stale (fun w => some w) {} { sigTime := 999999 } 0
    { mnodeman := { vZeronodes := [{ sigTime := 1000000 }] } } { sigTime := 1000000 }
    rfl rfl (by decide)

theorem getElem?_lt {α : Type} {l : List α} {i : Nat} {a : α} (h : l[i]? = some a) :
    i < l.length := by
  obtain ⟨hlt, _⟩ := List.getElem?_eq_some.1 h
  exact hlt

theorem announcedAt_setMn (w : World) (i : Nat) (mn : CZeronode)
    (hlt : i < w.mnodeman.vZeronodes.length) :
    (w.setMn i mn).announcedAt i = some mn.announced := by
  unfold World.announcedAt World.setMn
  simp only [List.getElem?_set_self hlt, Option.map_some']

theorem announcedAt_modify (l : List CZeronode) (i : Nat) (g : CZeronode → CZeronode)
    (hg : ∀ e, (g e).announced = e.announced) :
    ((l.modify g i)[i]?).map CZeronode.announced = (l[i]?).map CZeronode.announced := by
  rw [List.getElem?_modify_eq]
  cases l[i]? with
  | none => rfl
  | some e => simp only [Option.map_eq_map, Option.map_some', hg]

theorem announcedAt_takeLastPing (env : Env) (w : World) (i : Nat) (ping : CZeronodePing) :
    (w.takeLastPing env i ping).announcedAt i = w.announcedAt i :=
  announcedAt_modify w.mnodeman.vZeronodes i (fun e => { e with lastPing := ping })
    (fun _ => rfl)

theorem announcedAt_markVerified (w : World) (i : Nat) :
    (w.markVerified i).announcedAt i = w.announcedAt i :=
  announcedAt_modify w.mnodeman.vZeronodes i
    (fun e => { e with nPoSeBanScore := -ZERONODE_POSE_BAN_MAX_SCORE }) (fun _ => rfl)

theorem announcedAt_CheckMn (env : Env) (w : World) (i : Nat) (fForce : Bool) :
    (w.CheckMn env i fForce).announcedAt i = w.announcedAt i :=
  announcedAt_modify w.mnodeman.vZeronodes i (fun e => e.Check env w fForce)
    (fun e => Check_announced env w e fForce)

theorem storeAndCheck_announcedAt (env : Env) (p : CZeronodePing) (i : Nat) (mn : CZeronode)
    (w : World) (hmn : w.mnodeman.vZeronodes[i]? = some mn) :
    (p.storeAndCheck env i mn w).2.2.announcedAt i = some mn.announced := by
  have hlt := getElem?_lt hmn
  unfold CZeronodePing.storeAndCheck
  dsimp only
  have key : ∀ (w1 : World), w1.mnodeman.vZeronodes = w.mnodeman.vZeronodes →
      ∀ (m : List (uint256 × (Int × CZeronodeBroadcast))) (e : CZeronode),
      e.announced = mn.announced →
      (World.setMn { w1 with mnodeman := { w1.mnodeman with
          vZeronodes := w1.mnodeman.vZeronodes.set i { mn with lastPing := p }
          mapSeenZeronodeBroadcast := m } } i e).announcedAt i = some mn.announced := by
    intro w1 hw1 m e he
    rw [announcedAt_setMn _ _ _ (by simp [hw1, hlt]), he]
  split_ifs
  all_goals exact key _ rfl _ _ (by rw [Check_announced]; rfl)

theorem storeAndCheck_active (env : Env) (p : CZeronodePing) (i : Nat) (mn : CZeronode)
    (w : World) :
    (p.storeAndCheck env i mn w).2.2.activeZeronode = w.activeZeronode := by
  unfold CZeronodePing.storeAndCheck
  dsimp only
  split_ifs <;> rfl

theorem CheckAndUpdate_announcedAt (env : Env) (p : CZeronodePing) (i : Nat) (b : Bool)
    (w : World) :
    (p.CheckAndUpdate env (some i) b w).2.2.announcedAt i = w.announcedAt i := by
  unfold CZeronodePing.CheckAndUpdate
  cases hmn : w.mnodeman.vZeronodes[i]? with
  | none =>
    simp only [hmn]
    split_ifs <;> rfl
  | some mn =>
    simp only [hmn]
    have hw : w.announcedAt i = some mn.announced := by
      unfold World.announcedAt
      rw [hmn]
      rfl
    split_ifs
    all_goals
      first
        | rfl
        | (rw [hw]; exact storeAndCheck_announcedAt env p i mn w hmn)

theorem CheckAndUpdate_active (env : Env) (p : CZeronodePing) (pmn : Option Nat) (b : Bool)
    (w : World) :
    (p.CheckAndUpdate env pmn b w).2.2.activeZeronode = w.activeZeronode := by
  unfold CZeronodePing.CheckAndUpdate
  cases pmn with
  | none =>
    dsimp only
    split_ifs <;> rfl
  | some i =>
    cases hmn : w.mnodeman.vZeronodes[i]? with
    | none =>
      simp only [hmn]
      split_ifs <;> rfl
    | some mn =>
      simp only [hmn]
      split_ifs
      all_goals
        first
          | rfl
          | exact storeAndCheck_active env p i mn w

theorem UpdateFromNewBroadcast_not_own (ManageState : World → Option World) (env : Env)
    (i : Nat) (mnb : CZeronodeBroadcast) (w : World) (mn : CZeronode)
    (hmn : w.mnodeman.vZeronodes[i]? = some mn)
    (hnewer : ¬ (mnb.sigTime ≤ mn.sigTime ∧ mnb.fRecovery = false))
    (hnotown : ¬ (env.fZNode = true ∧ mnb.pubKeyZeronode = w.activeZeronode.pubKeyZeronode)) :
    ∃ w2, CZeronode.UpdateFromNewBroadcast ManageState env i mnb w = some (true, w2) ∧
      w2.announcedAt i = some mnb.toCZeronode.announced ∧
      w2.activeZeronode = w.activeZeronode := by
  have hlt := getElem?_lt hmn
  unfold CZeronode.UpdateFromNewBroadcast
  simp only [hmn, hnewer, if_false]
  have hset : (w.setMn i (mn.takeBroadcast mnb)).announcedAt i =
      some mnb.toCZeronode.announced := announcedAt_setMn w i _ hlt
  have hact0 : (w.setMn i (mn.takeBroadcast mnb)).activeZeronode = w.activeZeronode := rfl
  generalize w.setMn i (mn.takeBroadcast mnb) = w1 at hset hact0 ⊢
  have hr : ∀ r : Bool × Int × World,
      r = (if mnb.lastPing.isNull = true then (true, 0, w1)
        else mnb.lastPing.CheckAndUpdate env (some i) true w1) →
      r.2.2.announcedAt i = some mnb.toCZeronode.announced ∧
        r.2.2.activeZeronode = w.activeZeronode := by
    intro r hr
    subst hr
    split_ifs
    · exact ⟨hset, hact0⟩
    · exact ⟨(CheckAndUpdate_announcedAt env _ i true w1).trans hset,
        (CheckAndUpdate_active env _ (some i) true w1).trans hact0⟩
  obtain ⟨h1, h2⟩ := hr _ rfl
  generalize (if mnb.lastPing.isNull = true then (true, 0, w1)
        else mnb.lastPing.CheckAndUpdate env (some i) true w1) = r at h1 h2 ⊢
  by_cases hok : r.1 = true
  · have h2' : (r.2.2.takeLastPing env i mnb.lastPing).activeZeronode = w.activeZeronode := h2
    simp only [hok, if_true, h2', hnotown, if_false]
    exact ⟨_, rfl, (announcedAt_takeLastPing env _ i _).trans h1, h2'⟩
  · simp only [hok, Bool.false_eq_true, if_false, h2, hnotown]
    exact ⟨_, rfl, h1, h2⟩

/-- C8 as stated fails: the entry was announced at 1000, the clock shows 1100 (less
than 300 s later), and a correctly signed announce with the same keys and
`sigTime = 1001` arrives at a node that runs no zeronode. `Update` answers `true`, and
the entry keeps `sigTime = 1000`. -/
theorem C8_Update_counterexample :
    (CZeronodeBroadcast.Update (fun w => some w) { nAdjustedTime := 1100 }
        { sigTime := 1001, addr := ⟨[1, 2, 3, 4], 8168⟩ } 0
        { mnodeman := { vZeronodes := [{ sigTime := 1000 }] } }).map
      (fun r => (r.1, r.2.2.mnodeman.vZeronodes.map (fun e => e.sigTime))) =
      some (true, [1000]) := by
  decide

/-- C8 amended: let an announce with a strictly larger `sigTime` reach an entry, the
announce not carrying the service key of the local zeronode. When
`CZeronodeBroadcast::Update` answers `true`, the entry's `sigTime`, address, service
key, signature and protocol version are those of the announce if the entry's own
announce is at least 300 s (`ZERONODE_MIN_MNB_SECONDS`) old, and are unchanged if it is
younger. -/
theorem C8_Update_newer_announce (ManageState : World → Option World) (env : Env)
    (mnb : CZeronodeBroadcast) (i : Nat) (w w' : World) (mn : CZeronode) (nDos : Int)
    (hmn : w.mnodeman.vZeronodes[i]? = some mn)
    (hnewer : mn.sigTime < mnb.sigTime)
    (hnotown : ¬ (env.fZNode = true ∧ mnb.pubKeyZeronode = w.activeZeronode.pubKeyZeronode))
    (hret : mnb.Update ManageState env i w = some (true, nDos, w')) :
    (env.nAdjustedTime - mn.sigTime ≥ 300 →
      w'.announcedAt i =
        some (mnb.sigTime, mnb.addr, mnb.pubKeyZeronode, mnb.vchSig, mnb.nProtocolVersion)) ∧
    (env.nAdjustedTime - mn.sigTime < 300 →
      w'.announcedAt i =
        some (mn.sigTime, mn.addr, mn.pubKeyZeronode, mn.vchSig, mn.nProtocolVersion)) := by
  have hlt := getElem?_lt hmn
  unfold CZeronodeBroadcast.Update at hret
  have hne : ¬ (mn.sigTime = mnb.sigTime ∧ mnb.fRecovery = false) := fun h => by omega
  have hngt : ¬ mn.sigTime > mnb.sigTime := by omega
  simp only [hmn, hne, hngt, if_false] at hret
  have hann : (mn.Check env w false).announced = mn.announced := Check_announced env w mn false
  have hsig : (mn.Check env w false).sigTime = mn.sigTime := congrArg (fun t => t.1) hann
  have hw1 : (w.setMn i (mn.Check env w false)).announcedAt i = some mn.announced := by
    rw [announcedAt_setMn w i _ hlt, hann]
  have hw1mn : (w.setMn i (mn.Check env w false)).mnodeman.vZeronodes[i]? =
      some (mn.Check env w false) := by
    simp only [World.setMn]
    exact List.getElem?_set_self hlt
  have hact : (w.setMn i (mn.Check env w false)).activeZeronode = w.activeZeronode := rfl
  generalize w.setMn i (mn.Check env w false) = w1 at hret hw1 hw1mn hact
  have hown1 : ¬ (env.fZNode = true ∧ mnb.pubKeyZeronode = w1.activeZeronode.pubKeyZeronode) := by
    rw [hact]
    exact hnotown
  by_cases hban : (mn.Check env w false).IsPoSeBanned = true
  · simp [hban] at hret
  · simp only [hban, Bool.false_eq_true, if_false] at hret
    by_cases hkey : (mn.Check env w false).pubKeyCollateralAddress ≠ mnb.pubKeyCollateralAddress
    · simp [hkey] at hret
    · simp only [hkey, if_false] at hret
      by_cases hsign : (mnb.CheckSignature env).1 = false
      · simp [hsign] at hret
      · simp only [hsign, if_false] at hret
        unfold CZeronode.IsBroadcastedWithin at hret
        rw [hsig] at hret
        simp only [ZERONODE_MIN_MNB_SECONDS, hown1, or_false, decide_eq_false_iff_not] at hret
        by_cases hold : env.nAdjustedTime - mn.sigTime < 5 * 60
        · simp only [hold, not_true_eq_false, if_false] at hret
          have hw' : w1 = w' := by
            have := Option.some.inj hret
            exact (Prod.mk.inj (Prod.mk.inj this).2).2
          subst hw'
          exact ⟨fun h => by omega, fun _ => hw1⟩
        · simp only [hold, not_false_eq_true, if_true] at hret
          obtain ⟨w2, h1, h2, _⟩ := UpdateFromNewBroadcast_not_own ManageState env i mnb w1
            (mn.Check env w false) hw1mn (by rw [hsig]; intro h; omega) hown1
          rw [h1] at hret
          simp only at hret
          have hw' : (mnb.RelayZNode env (w2.CheckMn env i false)).AddedZeronodeList env = w' := by
            have := Option.some.inj hret
            exact (Prod.mk.inj (Prod.mk.inj this).2).2
          subst hw'
          refine ⟨fun _ => ?_, fun h => by omega⟩
          exact (announcedAt_CheckMn env w2 i false).trans h2

/-- C8 amended, evaluated: the entry was announced at 1000, the clock shows 2000, the
announce is signed at 1001 and carries the address `1.2.3.4:8168`; `Update` answers
`true` and the entry carries the members of the announce. -/
theorem C8_Update_newer_announce_witness :
    ∃ w', CZeronodeBroadcast.Update (fun w => some w) { nAdjustedTime := 2000 }
        { sigTime := 1001, addr := ⟨[1, 2, 3, 4], 8168⟩ } 0
        { mnodeman := { vZeronodes := [{ sigTime := 1000 }] } } = some (true, 0, w') ∧
      w'.announcedAt 0 = some (1001, ⟨[1, 2, 3, 4], 8168⟩, [], [], 0) :=
  ⟨(CZeronodeBroadcast.RelayZNode { nAdjustedTime := 2000 }
      { sigTime := 1001, addr := ⟨[1, 2, 3, 4], 8168⟩ }
      (World.CheckMn { nAdjustedTime := 2000 }
        { mnodeman := { vZeronodes := [{ sigTime := 1001, addr := ⟨[1, 2, 3, 4], 8168⟩ }]
                        mapSeenZeronodePing := [(uint256.null, {})] } } 0 false)).AddedZeronodeList
      { nAdjustedTime := 2000 },
    by decide,
    (C8_Update_newer_announce (fun w => some w) { nAdjustedTime := 2000 }
      { sigTime := 1001, addr := ⟨[1, 2, 3, 4], 8168⟩ } 0
      { mnodeman := { vZeronodes := [{ sigTime := 1000 }] } } _ { sigTime := 1000 } 0
      rfl (by decide) (by decide) (by decide)).1 (by decide)⟩

/-! ### The PoSe score stays in range -/

theorem RangeStep.refl (l : List CZeronode) : RangeStep l l :=
  ⟨Nat.le_refl _, fun _ h => h⟩

theorem RangeStep.trans {l₁ l₂ l₃ : List CZeronode} (h₁ : RangeStep l₁ l₂)
    (h₂ : RangeStep l₂ l₃) : RangeStep l₁ l₃ :=
  ⟨Nat.le_trans h₁.1 h₂.1, fun i h => h₂.2 i (h₁.2 i h)⟩

theorem RangeStep.of_eq {l l' : List CZeronode} (h : l' = l) : RangeStep l l' := by
  subst h
  exact RangeStep.refl _

theorem RangeStep.set (l : List CZeronode) (j : Nat) (v : CZeronode)
    (hv : (∀ mn, l[j]? = some mn → mn.scoreInRange) → v.scoreInRange) :
    RangeStep l (l.set j v) := by
  refine ⟨by rw [List.length_set], ?_⟩
  intro i hi mn hmn
  rw [List.getElem?_set] at hmn
  by_cases hij : j = i
  · subst hij
    simp only [if_true] at hmn
    split_ifs at hmn
    have := Option.some.inj hmn
    subst this
    exact hv hi
  · simp only [hij, if_false] at hmn
    exact hi mn hmn

theorem RangeStep.modify (l : List CZeronode) (j : Nat) (g : CZeronode → CZeronode)
    (hg : ∀ e, e.scoreInRange → (g e).scoreInRange) : RangeStep l (l.modify g j) := by
  refine ⟨by rw [List.length_modify], ?_⟩
  intro i hi mn hmn
  rw [List.getElem?_modify] at hmn
  cases hl : l[i]? with
  | none => simp [hl] at hmn
  | some e =>
    simp only [hl, Option.map_eq_map, Option.map_some', Option.some.injEq] at hmn
    subst hmn
    split_ifs
    · exact hg e (hi e hl)
    · exact hi e hl

theorem RangeStep.append (l : List CZeronode) (v : CZeronode) (hv : v.scoreInRange) :
    RangeStep l (l ++ [v]) := by
  refine ⟨by simp, ?_⟩
  intro i hi mn hmn
  rw [List.getElem?_append] at hmn
  split_ifs at hmn with hlt
  · exact hi mn hmn
  · have : i - l.length = 0 := by
      by_contra hne
      have : ([v] : List CZeronode)[i - l.length]? = none := by
        apply List.getElem?_eq_none
        simp only [List.length_singleton]
        omega
      rw [this] at hmn
      exact Option.noConfusion hmn
    rw [this] at hmn
    have := Option.some.inj hmn
    subst this
    exact hv

theorem IncreasePoSeBanScore_inRange (mn : CZeronode) (h : mn.scoreInRange) :
    mn.IncreasePoSeBanScore.scoreInRange := by
  unfold CZeronode.scoreInRange CZeronode.IncreasePoSeBanScore ZERONODE_POSE_BAN_MAX_SCORE at *
  split_ifs
  · constructor <;> simp only <;> omega
  · exact h

theorem DecreasePoSeBanScore_inRange (mn : CZeronode) (h : mn.scoreInRange) :
    mn.DecreasePoSeBanScore.scoreInRange := by
  unfold CZeronode.scoreInRange CZeronode.DecreasePoSeBanScore ZERONODE_POSE_BAN_MAX_SCORE at *
  split_ifs
  · constructor <;> simp only <;> omega
  · exact h

theorem CheckUsual_score (env : Env) (w : World) (mn : CZeronode) :
    (mn.CheckUsual env w).nPoSeBanScore = mn.nPoSeBanScore := by
  rw [CheckUsual_eq]

theorem Check_inRange (env : Env) (w : World) (mn : CZeronode) (fForce : Bool)
    (h : mn.scoreInRange) : (mn.Check env w fForce).scoreInRange := by
  unfold CZeronode.Check
  dsimp only
  split_ifs
  all_goals
    first
      | exact h
      | (unfold CZeronode.scoreInRange
         rw [CheckUsual_score]
         first
           | exact h
           | exact DecreasePoSeBanScore_inRange _ h)

theorem storeAndCheck_range (env : Env) (p : CZeronodePing) (i : Nat) (mn : CZeronode)
    (w : World) (hmn : w.mnodeman.vZeronodes[i]? = some mn) :
    RangeStep w.mnodeman.vZeronodes (p.storeAndCheck env i mn w).2.2.mnodeman.vZeronodes := by
  have hlt := getElem?_lt hmn
  have key : ∀ (w2 : World),
      RangeStep w.mnodeman.vZeronodes
        ((w.mnodeman.vZeronodes.set i { mn with lastPing := p }).set i
          (CZeronode.Check env w2 { mn with lastPing := p } true)) := by
    intro w2
    refine RangeStep.trans (RangeStep.set _ i _ (fun h => ?_)) (RangeStep.set _ i _ (fun h => ?_))
    · exact h mn hmn
    · exact Check_inRange env w2 _ true (h _ (List.getElem?_set_self hlt))
  unfold CZeronodePing.storeAndCheck
  dsimp only
  split_ifs
  all_goals exact key _

theorem CheckAndUpdate_range (env : Env) (p : CZeronodePing) (pmn : Option Nat) (b : Bool)
    (w : World) :
    RangeStep w.mnodeman.vZeronodes
      (p.CheckAndUpdate env pmn b w).2.2.mnodeman.vZeronodes := by
  unfold CZeronodePing.CheckAndUpdate
  cases pmn with
  | none =>
    dsimp only
    split_ifs <;> exact RangeStep.refl _
  | some i =>
    cases hmn : w.mnodeman.vZeronodes[i]? with
    | none =>
      simp only [hmn]
      split_ifs <;> exact RangeStep.refl _
    | some mn =>
      simp only [hmn]
      split_ifs
      all_goals
        first
          | exact RangeStep.refl _
          | exact storeAndCheck_range env p i mn w hmn

theorem takeLastPing_range (env : Env) (w : World) (i : Nat) (ping : CZeronodePing) :
    RangeStep w.mnodeman.vZeronodes (w.takeLastPing env i ping).mnodeman.vZeronodes :=
  RangeStep.modify _ i _ (fun _ h => h)

theorem markVerified_range (w : World) (i : Nat) :
    RangeStep w.mnodeman.vZeronodes (w.markVerified i).mnodeman.vZeronodes :=
  RangeStep.modify _ i _ (fun _ _ => by
    unfold CZeronode.scoreInRange ZERONODE_POSE_BAN_MAX_SCORE
    constructor <;> simp only <;> omega)

theorem CheckMn_range (env : Env) (w : World) (i : Nat) (fForce : Bool) :
    RangeStep w.mnodeman.vZeronodes (w.CheckMn env i fForce).mnodeman.vZeronodes :=
  RangeStep.modify _ i _ (fun e h => Check_inRange env w e fForce h)

theorem takeBroadcast_inRange (mn : CZeronode) (mnb : CZeronodeBroadcast) :
    (mn.takeBroadcast mnb).scoreInRange := by
  unfold CZeronode.scoreInRange CZeronode.takeBroadcast ZERONODE_POSE_BAN_MAX_SCORE
  constructor <;> simp only <;> omega

/-- The update from a newer announce keeps every score in range, provided the nested
call of the local node does. -/
theorem UpdateFromNewBroadcast_range (ManageState : World → Option World) (env : Env)
    (hM : ∀ w w', ManageState w = some w' →
      RangeStep w.mnodeman.vZeronodes w'.mnodeman.vZeronodes)
    (i : Nat) (mnb : CZeronodeBroadcast) (w : World) (r : Bool × World)
    (hr : CZeronode.UpdateFromNewBroadcast ManageState env i mnb w = some r) :
    RangeStep w.mnodeman.vZeronodes r.2.mnodeman.vZeronodes := by
  unfold CZeronode.UpdateFromNewBroadcast at hr
  cases hmn : w.mnodeman.vZeronodes[i]? with
  | none => simp [hmn] at hr
  | some mn =>
    simp only [hmn] at hr
    by_cases hold : mnb.sigTime ≤ mn.sigTime ∧ mnb.fRecovery = false
    · simp only [hold, and_self, if_true, Option.some.injEq] at hr
      subst hr
      exact RangeStep.refl _
    · simp only [hold, if_false] at hr
      have h1 : RangeStep w.mnodeman.vZeronodes
          (w.setMn i (mn.takeBroadcast mnb)).mnodeman.vZeronodes :=
        RangeStep.set _ i _ (fun _ => takeBroadcast_inRange mn mnb)
      generalize w.setMn i (mn.takeBroadcast mnb) = w1 at hr h1
      have h2 : RangeStep w1.mnodeman.vZeronodes
          (if mnb.lastPing.isNull = true then (true, 0, w1)
            else mnb.lastPing.CheckAndUpdate env (some i) true w1).2.2.mnodeman.vZeronodes := by
        split_ifs
        · exact RangeStep.refl _
        · exact CheckAndUpdate_range env _ _ _ w1
      generalize (if mnb.lastPing.isNull = true then (true, (0 : Int), w1)
            else mnb.lastPing.CheckAndUpdate env (some i) true w1) = rr at hr h2
      have h3 : RangeStep rr.2.2.mnodeman.vZeronodes
          (if rr.1 = true then rr.2.2.takeLastPing env i mnb.lastPing
            else rr.2.2).mnodeman.vZeronodes := by
        split_ifs
        · exact takeLastPing_range env _ i _
        · exact RangeStep.refl _
      generalize (if rr.1 = true then rr.2.2.takeLastPing env i mnb.lastPing
            else rr.2.2) = w2 at hr h3
      have h12 := (h1.trans h2).trans h3
      split_ifs at hr with hown hver
      · cases hm : ManageState (w2.markVerified i) with
        | none => simp [hm] at hr
        | some w4 =>
          simp only [hm, Option.some.injEq] at hr
          subst hr
          exact (h12.trans (markVerified_range w2 i)).trans (hM _ _ hm)
      · simp only [Option.some.injEq] at hr
        subst hr
        exact h12.trans (markVerified_range w2 i)
      · simp only [Option.some.injEq] at hr
        subst hr
        exact h12

theorem setNotCapable_mnodeman (w : World) (reason : NotCapableReason) :
    (w.setNotCapable reason).mnodeman = w.mnodeman := rfl

theorem ite_mnodeman (m : CZeronodeMan) (c : Prop) [Decidable c] (a b : World)
    (ha : a.mnodeman = m) (hb : b.mnodeman = m) : (if c then a else b).mnodeman = m := by
  split <;> assumption

theorem ManageStateInitial_mnodeman (env : Env) (w : World) :
    (ManageStateInitial env w).mnodeman = w.mnodeman := by
  unfold ManageStateInitial
  repeat (first | rfl | apply ite_mnodeman)
  cases env.GetZeronodeVinAndKeys with
  | none => rfl
  | some t =>
    rcases t with ⟨a, b, c⟩
    rfl

theorem CheckZeronodeByKey_range (env : Env) (w : World) (key : CPubKey) (fForce : Bool) :
    RangeStep w.mnodeman.vZeronodes
      (w.CheckZeronodeByKey env key fForce).mnodeman.vZeronodes := by
  unfold World.CheckZeronodeByKey
  cases findByPubKey key w.mnodeman.vZeronodes 0 with
  | none => exact RangeStep.refl _
  | some i => exact CheckMn_range env w i fForce

theorem ManageStateRemote_mnodeman (env : Env) (w : World) :
    (ManageStateRemote env w).mnodeman =
      (w.CheckZeronodeByKey env w.activeZeronode.pubKeyZeronode false).mnodeman := by
  unfold ManageStateRemote
  dsimp only
  split
  · rfl
  · split
    · rfl
    · split_ifs <;> rfl

theorem ManageStateRemote_range (env : Env) (w : World) :
    RangeStep w.mnodeman.vZeronodes (ManageStateRemote env w).mnodeman.vZeronodes := by
  rw [ManageStateRemote_mnodeman]
  exact CheckZeronodeByKey_range env w _ false

theorem SetZeronodeLastPing_range (env : Env) (w : World) (vin : CTxIn) (mnp : CZeronodePing) :
    RangeStep w.mnodeman.vZeronodes (w.SetZeronodeLastPing env vin mnp).mnodeman.vZeronodes := by
  unfold World.SetZeronodeLastPing
  split
  · exact RangeStep.refl _
  · split
    · exact RangeStep.refl _
    · next mn hmn => exact RangeStep.set _ _ _ (fun h => h mn hmn)

theorem SendZeronodePing_range (env : Env) (w : World) :
    RangeStep w.mnodeman.vZeronodes (SendZeronodePing env w).mnodeman.vZeronodes := by
  unfold SendZeronodePing
  split_ifs
  · exact RangeStep.refl _
  · exact RangeStep.refl _
  · split
    · exact RangeStep.refl _
    · dsimp only
      split_ifs
      · exact RangeStep.refl _
      · exact SetZeronodeLastPing_range env w _ _

theorem ofBroadcast_inRange (mnb : CZeronodeBroadcast) :
    (CZeronode.ofBroadcast mnb).scoreInRange := by
  unfold CZeronode.scoreInRange CZeronode.ofBroadcast ZERONODE_POSE_BAN_MAX_SCORE
  constructor <;> simp only <;> omega

theorem Add_range (m : CZeronodeMan) (mn : CZeronode) (h : mn.scoreInRange) :
    RangeStep m.vZeronodes (m.Add mn).2.vZeronodes := by
  unfold CZeronodeMan.Add
  cases m.Find mn.vin with
  | none => exact RangeStep.append _ _ h
  | some i => exact RangeStep.refl _

theorem UpdateZeronodeList_range (ManageState : World → Option World) (env : Env)
    (hM : ∀ w w', ManageState w = some w' →
      RangeStep w.mnodeman.vZeronodes w'.mnodeman.vZeronodes)
    (mnb : CZeronodeBroadcast) (w w' : World)
    (hr : UpdateZeronodeList ManageState env mnb w = some w') :
    RangeStep w.mnodeman.vZeronodes w'.mnodeman.vZeronodes := by
  unfold UpdateZeronodeList at hr
  dsimp only at hr
  split at hr
  · simp only [Option.some.injEq] at hr
    subst hr
    have h := Add_range
      { w.mnodeman with
        mapSeenZeronodePing :=
          mapInsert w.mnodeman.mapSeenZeronodePing (mnb.lastPing.GetHash env) mnb.lastPing
        mapSeenZeronodeBroadcast :=
          mapInsert w.mnodeman.mapSeenZeronodeBroadcast (mnb.toCZeronode.GetHash env)
            (env.nTime, mnb) } _ (ofBroadcast_inRange mnb)
    split_ifs
    all_goals exact h
  · split at hr
    · exact Option.noConfusion hr
    · split at hr
      · exact Option.noConfusion hr
      · next w3 hu =>
        simp only [Option.some.injEq] at hr
        subst hr
        exact UpdateFromNewBroadcast_range ManageState env hM _ mnb _ _ hu
      · next w3 hu =>
        simp only [Option.some.injEq] at hr
        subst hr
        exact UpdateFromNewBroadcast_range ManageState env hM _ mnb _ _ hu

theorem ManageStateLocal_range (ManageState : World → Option World) (env : Env)
    (hM : ∀ w w', ManageState w = some w' →
      RangeStep w.mnodeman.vZeronodes w'.mnodeman.vZeronodes)
    (w w' : World) (hr : ManageStateLocal ManageState env w = some w') :
    RangeStep w.mnodeman.vZeronodes w'.mnodeman.vZeronodes := by
  unfold ManageStateLocal at hr
  split_ifs at hr
  · simp only [Option.some.injEq] at hr
    subst hr
    exact RangeStep.refl _
  · split at hr
    · simp only [Option.some.injEq] at hr
      subst hr
      exact RangeStep.refl _
    · dsimp only at hr
      split_ifs at hr
      · simp only [Option.some.injEq] at hr
        subst hr
        exact RangeStep.refl _
      · split at hr
        · simp only [Option.some.injEq] at hr
          subst hr
          exact RangeStep.refl _
        · split at hr
          · exact Option.noConfusion hr
          · next w3 hu =>
            simp only [Option.some.injEq] at hr
            subst hr
            have h := UpdateZeronodeList_range ManageState env hM _ _ _ hu
            exact h

theorem ManageStateType_mnodeman (env : Env) (w : World) :
    (ManageStateType env w).mnodeman = w.mnodeman := by
  unfold ManageStateType
  dsimp only
  split_ifs
  all_goals
    first
      | rfl
      | exact ManageStateInitial_mnodeman env _

theorem ManageStateByType_range (ManageState : World → Option World) (env : Env)
    (hM : ∀ w w', ManageState w = some w' →
      RangeStep w.mnodeman.vZeronodes w'.mnodeman.vZeronodes)
    (w w' : World) (hr : ManageStateByType ManageState env w = some w') :
    RangeStep w.mnodeman.vZeronodes w'.mnodeman.vZeronodes := by
  unfold ManageStateByType at hr
  dsimp only at hr
  split_ifs at hr
  · simp only [Option.some.injEq] at hr
    subst hr
    exact ManageStateRemote_range env w
  · exact (ManageStateRemote_range env w).trans
      (ManageStateLocal_range ManageState env hM _ _ hr)
  · simp only [Option.some.injEq] at hr
    subst hr
    exact ManageStateRemote_range env w
  · simp only [Option.some.injEq] at hr
    subst hr
    exact RangeStep.refl _

theorem ManageStateBody_range (ManageState : World → Option World) (env : Env)
    (hM : ∀ w w', ManageState w = some w' →
      RangeStep w.mnodeman.vZeronodes w'.mnodeman.vZeronodes)
    (w w' : World) (hr : ManageStateBody ManageState env w = some w') :
    RangeStep w.mnodeman.vZeronodes w'.mnodeman.vZeronodes := by
  unfold ManageStateBody at hr
  dsimp only at hr
  split_ifs at hr
  · simp only [Option.some.injEq] at hr
    subst hr
    exact RangeStep.refl _
  · simp only [Option.some.injEq] at hr
    subst hr
    exact RangeStep.refl _
  · split at hr
    · exact Option.noConfusion hr
    · next w5 h5 =>
      simp only [Option.some.injEq] at hr
      subst hr
      have h1 := ManageStateByType_range ManageState env hM _ _ h5
      rw [ManageStateType_mnodeman] at h1
      exact h1.trans (SendZeronodePing_range env w5)

theorem ManageState_range (env : Env) (depth : Nat) (w w' : World)
    (hr : ManageState env depth w = some w') :
    RangeStep w.mnodeman.vZeronodes w'.mnodeman.vZeronodes := by
  induction depth generalizing w w' with
  | zero => exact Option.noConfusion hr
  | succ n ih => exact ManageStateBody_range (ManageState env n) env ih w w' hr

/-! ### The nested call of the local node returns -/

theorem regKey_set (l : List CZeronode) (i : Nat) (mn v : CZeronode)
    (hmn : l[i]? = some mn) (hv : v.regKey = mn.regKey) :
    (l.set i v).map CZeronode.regKey = l.map CZeronode.regKey := by
  induction l generalizing i with
  | nil => rfl
  | cons a rest ih =>
    cases i with
    | zero =>
      simp only [List.getElem?_cons_zero, Option.some.injEq] at hmn
      subst hmn
      simp only [List.set_cons_zero, List.map_cons, hv]
    | succ n =>
      simp only [List.getElem?_cons_succ] at hmn
      simp only [List.set_cons_succ, List.map_cons, ih n hmn]

theorem regKey_modify (l : List CZeronode) (i : Nat) (g : CZeronode → CZeronode)
    (hg : ∀ e, (g e).regKey = e.regKey) :
    (l.modify g i).map CZeronode.regKey = l.map CZeronode.regKey := by
  apply List.ext_getElem?
  intro j
  rw [List.getElem?_map, List.getElem?_map, List.getElem?_modify]
  cases l[j]? with
  | none => rfl
  | some e =>
    simp only [Option.map_eq_map, Option.map_some', Option.some.injEq]
    split_ifs
    · exact hg e
    · rfl

theorem Check_regKey (env : Env) (w : World) (mn : CZeronode) (fForce : Bool) :
    (mn.Check env w fForce).regKey = mn.regKey := by
  obtain ⟨t, s, score, height, h⟩ := Check_touch env w mn fForce
  rw [h]
  rfl

theorem storeAndCheck_keys (env : Env) (p : CZeronodePing) (i : Nat) (mn : CZeronode)
    (w : World) (hmn : w.mnodeman.vZeronodes[i]? = some mn) :
    (p.storeAndCheck env i mn w).2.2.mnodeman.vZeronodes.map CZeronode.regKey =
      w.mnodeman.vZeronodes.map CZeronode.regKey := by
  have hlt := getElem?_lt hmn
  have key : ∀ (w2 : World),
      ((w.mnodeman.vZeronodes.set i { mn with lastPing := p }).set i
          (CZeronode.Check env w2 { mn with lastPing := p } true)).map CZeronode.regKey =
        w.mnodeman.vZeronodes.map CZeronode.regKey := by
    intro w2
    rw [regKey_set _ i { mn with lastPing := p } _ (List.getElem?_set_self hlt)
      (Check_regKey env w2 _ true)]
    exact regKey_set _ i mn _ hmn rfl
  unfold CZeronodePing.storeAndCheck
  dsimp only
  split_ifs
  all_goals exact key _

theorem CheckAndUpdate_keys (env : Env) (p : CZeronodePing) (pmn : Option Nat) (b : Bool)
    (w : World) :
    (p.CheckAndUpdate env pmn b w).2.2.mnodeman.vZeronodes.map CZeronode.regKey =
      w.mnodeman.vZeronodes.map CZeronode.regKey := by
  unfold CZeronodePing.CheckAndUpdate
  cases pmn with
  | none =>
    dsimp only
    split_ifs <;> rfl
  | some i =>
    cases hmn : w.mnodeman.vZeronodes[i]? with
    | none =>
      simp only [hmn]
      split_ifs <;> rfl
    | some mn =>
      simp only [hmn]
      split_ifs
      all_goals
        first
          | rfl
          | exact storeAndCheck_keys env p i mn w hmn

theorem takeLastPing_keys (env : Env) (w : World) (i : Nat) (ping : CZeronodePing) :
    (w.takeLastPing env i ping).mnodeman.vZeronodes.map CZeronode.regKey =
      w.mnodeman.vZeronodes.map CZeronode.regKey :=
  regKey_modify _ i _ (fun _ => rfl)

theorem markVerified_keys (w : World) (i : Nat) :
    (w.markVerified i).mnodeman.vZeronodes.map CZeronode.regKey =
      w.mnodeman.vZeronodes.map CZeronode.regKey :=
  regKey_modify _ i _ (fun _ => rfl)

theorem CheckMn_keys (env : Env) (w : World) (i : Nat) (fForce : Bool) :
    (w.CheckMn env i fForce).mnodeman.vZeronodes.map CZeronode.regKey =
      w.mnodeman.vZeronodes.map CZeronode.regKey :=
  regKey_modify _ i _ (fun e => Check_regKey env w e fForce)

theorem ManageStateRemote_keys (env : Env) (w : World) :
    (ManageStateRemote env w).mnodeman.vZeronodes.map CZeronode.regKey =
      w.mnodeman.vZeronodes.map CZeronode.regKey := by
  rw [ManageStateRemote_mnodeman]
  unfold World.CheckZeronodeByKey
  split
  · rfl
  · exact CheckMn_keys env w _ false

theorem findByVin_congr (vin : CTxIn) (l l' : List CZeronode) (n : Nat)
    (h : l.map CZeronode.regKey = l'.map CZeronode.regKey) :
    findByVin vin l n = findByVin vin l' n := by
  induction l generalizing l' n with
  | nil =>
    cases l' with
    | nil => rfl
    | cons b rest' => simp at h
  | cons a rest ih =>
    cases l' with
    | nil => simp at h
    | cons b rest' =>
      simp only [List.map_cons, List.cons.injEq] at h
      have hp : a.vin.prevout = b.vin.prevout := congrArg Prod.fst h.1
      simp only [findByVin, hp, ih rest' (n + 1) h.2]

theorem findByVin_bound (vin : CTxIn) (l : List CZeronode) (n i : Nat)
    (h : findByVin vin l n = some i) : n ≤ i ∧ i < n + l.length := by
  induction l generalizing n with
  | nil => simp [findByVin] at h
  | cons a rest ih =>
    unfold findByVin at h
    split_ifs at h
    · simp only [Option.some.injEq] at h
      subst h
      simp
    · have := ih (n + 1) h
      simp only [List.length_cons]
      omega

theorem localAnnounced_congr (env : Env) (l l' : List CZeronode)
    (h : l.map CZeronode.regKey = l'.map CZeronode.regKey) (hl : localAnnounced env l) :
    localAnnounced env l' := by
  intro vin pubKey key hw i mn hfind hget
  rw [← findByVin_congr vin l l' 0 h] at hfind
  have h1 : (l'.map CZeronode.regKey)[i]? = some mn.regKey := by
    rw [List.getElem?_map, hget]
    rfl
  rw [← h, List.getElem?_map] at h1
  cases hmn : l[i]? with
  | none => simp [hmn] at h1
  | some e =>
    simp only [hmn, Option.map_some', Option.some.injEq] at h1
    have hs : e.sigTime = mn.sigTime := congrArg Prod.snd h1
    rw [← hs]
    exact hl vin pubKey key hw i e hfind hmn

theorem Sign_facts (env : Env) (mnb mnb' : CZeronodeBroadcast) (key : CKey)
    (h : CZeronodeBroadcast.Sign env mnb key = some mnb') :
    mnb'.vin = mnb.vin ∧ mnb'.sigTime = env.nAdjustedTime ∧ mnb'.fRecovery = mnb.fRecovery := by
  unfold CZeronodeBroadcast.Sign at h
  dsimp only at h
  split at h
  · exact Option.noConfusion h
  · split_ifs at h
    simp only [Option.some.injEq] at h
    subst h
    exact ⟨rfl, rfl, rfl⟩

theorem Create_facts (env : Env) (txin : CTxIn) (service : CService) (k1 : CKey)
    (p1 : CPubKey) (k2 : CKey) (p2 : CPubKey) (mnb : CZeronodeBroadcast)
    (h : CZeronodeBroadcast.Create env txin service k1 p1 k2 p2 = some mnb) :
    mnb.vin = txin ∧ mnb.sigTime = env.nAdjustedTime ∧ mnb.fRecovery = false := by
  unfold CZeronodeBroadcast.Create at h
  split_ifs at h
  split at h
  · exact Option.noConfusion h
  · dsimp only at h
    split_ifs at h
    exact Sign_facts env _ _ _ h

/-- The update from an announce returns; the nested call of the local node is reached
only after the entry took the signing time of the announce. -/
theorem UpdateFromNewBroadcast_isSome (ManageState : World → Option World) (env : Env)
    (i : Nat) (mnb : CZeronodeBroadcast) (w : World) (mn : CZeronode)
    (hmn : w.mnodeman.vZeronodes[i]? = some mn)
    (hm : ¬ (mnb.sigTime ≤ mn.sigTime ∧ mnb.fRecovery = false) → ∀ w3 : World,
      w3.mnodeman.vZeronodes.map CZeronode.regKey =
        (w.mnodeman.vZeronodes.set i (mn.takeBroadcast mnb)).map CZeronode.regKey →
      (ManageState w3).isSome = true) :
    (CZeronode.UpdateFromNewBroadcast ManageState env i mnb w).isSome = true := by
  unfold CZeronode.UpdateFromNewBroadcast
  simp only [hmn]
  by_cases hold : mnb.sigTime ≤ mn.sigTime ∧ mnb.fRecovery = false
  · simp only [hold, and_self, if_true, Option.isSome_some]
  · simp only [hold, if_false]
    have hm1 := hm hold
    have h1 : (w.setMn i (mn.takeBroadcast mnb)).mnodeman.vZeronodes.map CZeronode.regKey =
        (w.mnodeman.vZeronodes.set i (mn.takeBroadcast mnb)).map CZeronode.regKey := rfl
    generalize w.setMn i (mn.takeBroadcast mnb) = w1 at h1 ⊢
    have h2 : (if mnb.lastPing.isNull = true then (true, 0, w1)
            else mnb.lastPing.CheckAndUpdate env (some i) true
              w1).2.2.mnodeman.vZeronodes.map CZeronode.regKey =
          w1.mnodeman.vZeronodes.map CZeronode.regKey := by
      split_ifs
      · rfl
      · exact CheckAndUpdate_keys env _ _ _ w1
    generalize (if mnb.lastPing.isNull = true then (true, (0 : Int), w1)
          else mnb.lastPing.CheckAndUpdate env (some i) true w1) = rr at h2 ⊢
    have h3 : (if rr.1 = true then rr.2.2.takeLastPing env i mnb.lastPing
          else rr.2.2).mnodeman.vZeronodes.map CZeronode.regKey =
        rr.2.2.mnodeman.vZeronodes.map CZeronode.regKey := by
      split_ifs
      · exact takeLastPing_keys env _ i _
      · rfl
    generalize (if rr.1 = true then rr.2.2.takeLastPing env i mnb.lastPing
          else rr.2.2) = w2 at h3 ⊢
    split_ifs
    · have h4 := hm1 (w2.markVerified i)
        ((((markVerified_keys w2 i).trans h3).trans h2).trans h1)
      cases hms : ManageState (w2.markVerified i) with
      | none =>
        rw [hms] at h4
        exact Bool.noConfusion h4
      | some w4 => rfl
    · rfl
    · rfl

theorem localAnnounced_set (env : Env) (l : List CZeronode) (i : Nat) (mn : CZeronode)
    (mnb : CZeronodeBroadcast) (vin : CTxIn) (pubKey : CPubKey) (key : CKey)
    (hw : env.GetZeronodeVinAndKeys = some (vin, pubKey, key))
    (hfind : findByVin vin l 0 = some i) (hmn : l[i]? = some mn)
    (hsig : mnb.sigTime = env.nAdjustedTime) :
    localAnnounced env (l.set i (mn.takeBroadcast mnb)) := by
  intro vin2 pubKey2 key2 hw2 j mn2 hfind2 hget2
  rw [hw] at hw2
  simp only [Option.some.injEq, Prod.mk.injEq] at hw2
  obtain ⟨hv, _, _⟩ := hw2
  subst hv
  have hpre : findByVin vin (l.set i (mn.takeBroadcast mnb)) 0 = findByVin vin l 0 := by
    have hlt := getElem?_lt hmn
    clear hfind hfind2 hget2
    generalize (0 : Nat) = n
    induction l generalizing i n with
    | nil => rfl
    | cons a rest ih =>
      cases i with
      | zero =>
        simp only [List.getElem?_cons_zero, Option.some.injEq] at hmn
        subst hmn
        rfl
      | succ k =>
        simp only [List.getElem?_cons_succ] at hmn
        simp only [List.set_cons_succ, findByVin]
        rw [ih k hmn (getElem?_lt hmn) (n + 1)]
  rw [hpre, hfind] at hfind2
  simp only [Option.some.injEq] at hfind2
  subst hfind2
  rw [List.getElem?_set_self (getElem?_lt hmn)] at hget2
  simp only [Option.some.injEq] at hget2
  subst hget2
  show env.nAdjustedTime ≤ mnb.sigTime
  rw [hsig]

/-- The list update of the local node returns when either the registry already holds
the fresh announce of the local node, or the nested call returns on such registries. -/
theorem UpdateZeronodeList_isSome (ManageState : World → Option World) (env : Env)
    (mnb : CZeronodeBroadcast) (w : World) (vin : CTxIn) (pubKey : CPubKey) (key : CKey)
    (hw : env.GetZeronodeVinAndKeys = some (vin, pubKey, key))
    (hvin : mnb.vin = vin) (hsig : mnb.sigTime = env.nAdjustedTime)
    (hrec : mnb.fRecovery = false)
    (h : localAnnounced env w.mnodeman.vZeronodes ∨
      ∀ w3 : World, localAnnounced env w3.mnodeman.vZeronodes →
        (ManageState w3).isSome = true) :
    (UpdateZeronodeList ManageState env mnb w).isSome = true := by
  unfold UpdateZeronodeList
  dsimp only
  split
  · rfl
  · next i hfind =>
    have hfind1 : findByVin vin w.mnodeman.vZeronodes 0 = some i := by
      rw [← hvin]
      exact hfind
    have hlt := (findByVin_bound vin _ 0 i hfind1).2
    rw [Nat.zero_add] at hlt
    split
    · next hnone =>
      have hget : w.mnodeman.vZeronodes[i]? = none := hnone
      rw [List.getElem?_eq_none_iff] at hget
      omega
    · next mn hmn0 =>
      have hmn : w.mnodeman.vZeronodes[i]? = some mn := hmn0
      have hU := UpdateFromNewBroadcast_isSome ManageState env i mnb
        { w with mnodeman := { w.mnodeman with
            mapSeenZeronodePing :=
              mapInsert w.mnodeman.mapSeenZeronodePing (mnb.lastPing.GetHash env) mnb.lastPing
            mapSeenZeronodeBroadcast :=
              (seenBroadcastAt env
                (mapInsert w.mnodeman.mapSeenZeronodeBroadcast (mnb.toCZeronode.GetHash env)
                  (env.nTime, mnb)) (mn.GetHash env)).2 } } mn hmn
        (by
          intro hold w3 hk
          rcases h with h | h
          · exfalso
            apply hold
            refine ⟨?_, hrec⟩
            rw [hsig]
            exact h vin pubKey key hw i mn hfind1 hmn
          · apply h
            exact localAnnounced_congr env _ _ hk.symm
              (localAnnounced_set env _ i mn mnb vin pubKey key hw hfind1 hmn hsig))
      split
      · next hu =>
        rw [hu] at hU
        exact Bool.noConfusion hU
      · rfl
      · rfl

theorem ManageStateLocal_isSome (ManageState : World → Option World) (env : Env) (w : World)
    (h : localAnnounced env w.mnodeman.vZeronodes ∨
      ∀ w3 : World, localAnnounced env w3.mnodeman.vZeronodes →
        (ManageState w3).isSome = true) :
    (ManageStateLocal ManageState env w).isSome = true := by
  unfold ManageStateLocal
  split_ifs
  · rfl
  · split
    · rfl
    · next vin pubKeyCollateral keyCollateral hw =>
      dsimp only
      split_ifs
      · rfl
      · split
        · rfl
        · next mnb hc =>
          obtain ⟨hvin, hsig, hrec⟩ := Create_facts env _ _ _ _ _ _ mnb hc
          have hU := UpdateZeronodeList_isSome ManageState env mnb
            { w with activeZeronode := { w.activeZeronode with
                vin := vin, fPingerEnabled := true, nState := ACTIVE_ZERONODE_STARTED } }
            vin pubKeyCollateral keyCollateral hw hvin hsig hrec h
          split
          · next hu =>
            rw [hu] at hU
            exact Bool.noConfusion hU
          · rfl

theorem ManageStateByType_isSome (ManageState : World → Option World) (env : Env) (w : World)
    (h : localAnnounced env w.mnodeman.vZeronodes ∨
      ∀ w3 : World, localAnnounced env w3.mnodeman.vZeronodes →
        (ManageState w3).isSome = true) :
    (ManageStateByType ManageState env w).isSome = true := by
  unfold ManageStateByType
  dsimp only
  split_ifs
  · rfl
  · apply ManageStateLocal_isSome
    rcases h with h | h
    · exact Or.inl (localAnnounced_congr env _ _ (ManageStateRemote_keys env w).symm h)
    · exact Or.inr h
  · rfl
  · rfl

theorem ManageStateBody_isSome (ManageState : World → Option World) (env : Env) (w : World)
    (h : localAnnounced env w.mnodeman.vZeronodes ∨
      ∀ w3 : World, localAnnounced env w3.mnodeman.vZeronodes →
        (ManageState w3).isSome = true) :
    (ManageStateBody ManageState env w).isSome = true := by
  unfold ManageStateBody
  dsimp only
  split_ifs
  · rfl
  · rfl
  · have hB := ManageStateByType_isSome ManageState env
      (ManageStateType env { w with zeronodeSync := (syncInProcess env w.zeronodeSync).2 })
      (by
        rw [ManageStateType_mnodeman]
        exact h)
    split
    · next hu =>
      rw [hu] at hB
      exact Bool.noConfusion hB
    · rfl

/-- On a registry that holds the fresh announce of the local node, one level of
`CActiveZeronode::ManageState` returns without a nested call. -/
theorem ManageState_announced (env : Env) (depth : Nat) (w : World)
    (h : localAnnounced env w.mnodeman.vZeronodes) :
    (ManageState env (depth + 1) w).isSome = true :=
  ManageStateBody_isSome (ManageState env depth) env w (Or.inl h)

/-- Two levels of `CActiveZeronode::ManageState` are enough for every world: the method
returns, and so it does with any larger bound on the nesting. -/
theorem ManageState_total (env : Env) (depth : Nat) (w : World) :
    (ManageState env (depth + 2) w).isSome = true :=
  ManageStateBody_isSome (ManageState env (depth + 1)) env w
    (Or.inr (fun w3 h3 => ManageState_announced env depth w3 h3))

/-- C5: for every entry whose `nPoSeBanScore` lies in `[-5, +5]` the score still lies in
`[-5, +5]` after `IncreasePoSeBanScore`, after `DecreasePoSeBanScore` and after `Check`;
`IncreasePoSeBanScore` at `+5` and `DecreasePoSeBanScore` at `-5` leave the entry as it
is; and when the entry sits at index `i` of the registry, `UpdateFromNewBroadcast`
returns (the nested `CActiveZeronode::ManageState` needs two levels at most), the entry
is still at index `i` with its score in `[-5, +5]`, and so is every other entry of the
registry whose score was in that range before. -/
theorem C5_PoSe_score_in_range (env : Env) (w : World) (mn : CZeronode)
    (h : mn.scoreInRange) :
    mn.IncreasePoSeBanScore.scoreInRange ∧
    mn.DecreasePoSeBanScore.scoreInRange ∧
    (∀ fForce : Bool, (mn.Check env w fForce).scoreInRange) ∧
    (mn.nPoSeBanScore = 5 → mn.IncreasePoSeBanScore = mn) ∧
    (mn.nPoSeBanScore = -5 → mn.DecreasePoSeBanScore = mn) ∧
    (∀ (i : Nat) (mnb : CZeronodeBroadcast) (depth : Nat),
      w.mnodeman.vZeronodes[i]? = some mn →
      ∃ (b : Bool) (w' : World) (mn' : CZeronode),
        CZeronode.UpdateFromNewBroadcast (ManageState env (depth + 2)) env i mnb w =
          some (b, w') ∧
        w'.mnodeman.vZeronodes[i]? = some mn' ∧ mn'.scoreInRange ∧
        ((∀ e ∈ w.mnodeman.vZeronodes, e.scoreInRange) →
          ∀ e ∈ w'.mnodeman.vZeronodes, e.scoreInRange)) := by
  refine ⟨IncreasePoSeBanScore_inRange mn h, DecreasePoSeBanScore_inRange mn h,
    fun fForce => Check_inRange env w mn fForce h, ?_, ?_, ?_⟩
  · intro h5
    unfold CZeronode.IncreasePoSeBanScore ZERONODE_POSE_BAN_MAX_SCORE
    rw [if_neg (by omega)]
  · intro h5
    unfold CZeronode.DecreasePoSeBanScore ZERONODE_POSE_BAN_MAX_SCORE
    rw [if_neg (by omega)]
  · intro i mnb depth hmn
    have hsome := UpdateFromNewBroadcast_isSome (ManageState env (depth + 2)) env i mnb w mn
      hmn (fun _ w3 _ => ManageState_total env depth w3)
    cases hr : CZeronode.UpdateFromNewBroadcast (ManageState env (depth + 2)) env i mnb w with
    | none =>
      rw [hr] at hsome
      exact Bool.noConfusion hsome
    | some r =>
      have hstep := UpdateFromNewBroadcast_range (ManageState env (depth + 2)) env
        (fun w1 w2 h12 => ManageState_range env (depth + 2) w1 w2 h12) i mnb w r hr
      have hlt : i < r.2.mnodeman.vZeronodes.length :=
        Nat.lt_of_lt_of_le (getElem?_lt hmn) hstep.1
      refine ⟨r.1, r.2, r.2.mnodeman.vZeronodes[i], rfl, List.getElem?_eq_getElem hlt, ?_, ?_⟩
      · apply hstep.2 i _ _ (List.getElem?_eq_getElem hlt)
        intro e he
        rw [hmn] at he
        have := Option.some.inj he
        subst this
        exact h
      · intro hall e he
        obtain ⟨j, hj⟩ := List.getElem?_of_mem he
        exact hstep.2 j (fun e0 he0 => hall e0 (List.getElem?_mem he0)) e hj

/-- C5, evaluated: the node runs as a zeronode, the entry at index 0 has the score `+5`
and receives a newer announce that carries the service key of the node itself, so the
nested `ManageState` runs; the update returns and the score is in range. -/
theorem C5_PoSe_score_in_range_witness :
    ∃ (b : Bool) (w' : World) (mn' : CZeronode),
      CZeronode.UpdateFromNewBroadcast
          (ManageState { nAdjustedTime := 2000, fZNode := true } 2)
          { nAdjustedTime := 2000, fZNode := true } 0
          { sigTime := 1001, nProtocolVersion := 90024 }
          { mnodeman := { vZeronodes := [{ sigTime := 1000, nPoSeBanScore := 5 }] } } =
        some (b, w') ∧
      w'.mnodeman.vZeronodes[0]? = some mn' ∧ mn'.scoreInRange ∧
      ((∀ e ∈ [({ sigTime := 1000, nPoSeBanScore := 5 } : CZeronode)], e.scoreInRange) →
        ∀ e ∈ w'.mnodeman.vZeronodes, e.scoreInRange) :=
  (C5_PoSe_score_in_range { nAdjustedTime := 2000, fZNode := true }
    { mnodeman := { vZeronodes := [{ sigTime := 1000, nPoSeBanScore := 5 }] } }
    { sigTime := 1000, nPoSeBanScore := 5 } ⟨by decide, by decide⟩).2.2.2.2.2
      0 { sigTime := 1001, nProtocolVersion := 90024 } 0 rfl

/-! ### The lifecycle check: expiry, enabling, spent outpoints -/

/-- C13: for an entry in state `OUTPOINT_SPENT`, `CZeronode::Check`, forced or not and
whatever clock, chain and registry are, gives the entry back with `nTimeLastChecked`
as the only member that can differ; the state stays `OUTPOINT_SPENT`. -/
theorem C13_OutpointSpent_terminal (env : Env) (w : World) (mn : CZeronode) (fForce : Bool)
    (hspent : mn.nActiveState = ZERONODE_OUTPOINT_SPENT) :
    (mn.Check env w fForce).nActiveState = ZERONODE_OUTPOINT_SPENT ∧
      ∃ t : Int, mn.Check env w fForce = { mn with nTimeLastChecked := t } := by
  have hs : CZeronode.IsOutpointSpent { mn with nTimeLastChecked := env.nTime } = true := by
    simp only [CZeronode.IsOutpointSpent, hspent, decide_True]
  unfold CZeronode.Check
  simp only [hs, if_true]
  split_ifs
  · exact ⟨hspent, mn.nTimeLastChecked, rfl⟩
  · exact ⟨hspent, mn.nTimeLastChecked, rfl⟩
  · exact ⟨hspent, env.nTime, rfl⟩

/-- C13, evaluated: a spent entry checked at time 50 with the collateral output back in
the UTXO set stays spent. -/
theorem C13_OutpointSpent_terminal_witness :
    (CZeronode.Check { nTime := 50 } {} { nActiveState := ZERONODE_OUTPOINT_SPENT }
        true).nActiveState = ZERONODE_OUTPOINT_SPENT ∧
      ∃ t : Int, CZeronode.Check { nTime := 50 } {}
          { nActiveState := ZERONODE_OUTPOINT_SPENT } true =
        { ({ nActiveState := ZERONODE_OUTPOINT_SPENT } : CZeronode) with
          nTimeLastChecked := t } :=
  C13_OutpointSpent_terminal { nTime := 50 } {} { nActiveState := ZERONODE_OUTPOINT_SPENT }
    true rfl

/-- A forced check that runs on an entry that is neither spent nor banned and has a
score below the maximum goes on to the usual checks. -/
theorem Check_forced_usual (env : Env) (w : World) (mn : CZeronode)
    (hrun : env.fShutdownRequested = false) (hlock : env.fLockMain = true)
    (hutxo : env.utxoExists mn.vin.prevout = true)
    (hspent : mn.nActiveState ≠ ZERONODE_OUTPOINT_SPENT)
    (hban : mn.nActiveState ≠ ZERONODE_POSE_BAN)
    (hscore : mn.nPoSeBanScore < 5) :
    mn.Check env w true = CZeronode.CheckUsual env w { mn with nTimeLastChecked := env.nTime } := by
  have hs : ¬ mn.nPoSeBanScore ≥ 5 := by omega
  unfold CZeronode.Check
  simp [hrun, hlock, hutxo, hspent, hban, hs, CZeronode.IsOutpointSpent,
    CZeronode.IsPoSeBanned, ZERONODE_POSE_BAN_MAX_SCORE]

/-- The state that the usual checks of `CZeronode::Check` assign, branch by branch. -/
theorem CheckUsual_state (env : Env) (w : World) (mn : CZeronode) :
    (mn.CheckUsual env w).nActiveState =
      if mn.fRequireUpdate env w = true then ZERONODE_UPDATE_REQUIRED
      else if (mn.fWaitForPing env w && !mn.fOurZeronode env w) &&
          (mn.IsExpired || mn.IsWatchdogExpired || mn.IsNewStartRequired) then mn.nActiveState
      else if (!mn.fWaitForPing env w || mn.fOurZeronode env w) = true then
        if mn.IsPingedWithin env ZERONODE_NEW_START_REQUIRED_SECONDS (-1) = false then
          ZERONODE_NEW_START_REQUIRED
        else if mn.fWatchdogExpired env w = true then ZERONODE_WATCHDOG_EXPIRED
        else if mn.IsPingedWithin env ZERONODE_EXPIRATION_SECONDS (-1) = false then
          ZERONODE_EXPIRED
        else mn.CheckEnabled.nActiveState
      else mn.CheckEnabled.nActiveState := by
  unfold CZeronode.CheckUsual CZeronode.fRequireUpdate CZeronode.fWaitForPing
    CZeronode.fWatchdogExpired CZeronode.fOurZeronode
  simp only [Bool.not_eq_true', Bool.not_eq_true]
  split_ifs <;> simp_all

/-- The locals of the check do not read `nTimeLastChecked`. -/
theorem CheckUsual_touched (env : Env) (w : World) (mn : CZeronode) (t : Int) :
    (CZeronode.CheckUsual env w { mn with nTimeLastChecked := t }).nActiveState =
      (mn.CheckUsual env w).nActiveState := by
  have h1 : CZeronode.fRequireUpdate env w { mn with nTimeLastChecked := t } =
      mn.fRequireUpdate env w := rfl
  have h2 : CZeronode.fWaitForPing env w { mn with nTimeLastChecked := t } =
      mn.fWaitForPing env w := rfl
  have h3 : CZeronode.fOurZeronode env w { mn with nTimeLastChecked := t } =
      mn.fOurZeronode env w := rfl
  have h4 : CZeronode.fWatchdogExpired env w { mn with nTimeLastChecked := t } =
      mn.fWatchdogExpired env w := rfl
  have h5 : ∀ n, CZeronode.IsPingedWithin env { mn with nTimeLastChecked := t } n (-1) =
      mn.IsPingedWithin env n (-1) := fun _ => rfl
  have h6 : (CZeronode.CheckEnabled { mn with nTimeLastChecked := t }).nActiveState =
      mn.CheckEnabled.nActiveState := by
    unfold CZeronode.CheckEnabled
    split_ifs <;> rfl
  rw [CheckUsual_state, CheckUsual_state, h1, h2, h3, h4, h5, h5, h6]
  rfl

/-- C11 as stated fails: an entry in state `OUTPOINT_SPENT` whose collateral output
exists (again), with score 0, a current protocol version, the list synced, no watchdog
expiry and no ping at all keeps its state in a forced check; it does not become
`NEW_START_REQUIRED`. -/
theorem C11_Check_expires_counterexample :
    ({} : Env).utxoExists
        ({ nActiveState := ZERONODE_OUTPOINT_SPENT, nProtocolVersion := 90024 } :
          CZeronode).vin.prevout = true ∧
      ({ nActiveState := ZERONODE_OUTPOINT_SPENT, nProtocolVersion := 90024 } :
        CZeronode).nPoSeBanScore < 5 ∧
      ({ nActiveState := ZERONODE_OUTPOINT_SPENT, nProtocolVersion := 90024 } :
        CZeronode).nActiveState ≠ ZERONODE_POSE_BAN ∧
      CZeronode.fRequireUpdate {} { zeronodeSync := { nRequestedZeronodeAssets := 999 } }
        { nActiveState := ZERONODE_OUTPOINT_SPENT, nProtocolVersion := 90024 } = false ∧
      ({ nRequestedZeronodeAssets := 999 } : CZeronodeSync).IsZeronodeListSynced = true ∧
      CZeronode.fWatchdogExpired {} { zeronodeSync := { nRequestedZeronodeAssets := 999 } }
        { nActiveState := ZERONODE_OUTPOINT_SPENT, nProtocolVersion := 90024 } = false ∧
      ({ nActiveState := ZERONODE_OUTPOINT_SPENT, nProtocolVersion := 90024 } :
        CZeronode).lastPing.isNull = true ∧
      (CZeronode.Check {} { zeronodeSync := { nRequestedZeronodeAssets := 999 } }
        { nActiveState := ZERONODE_OUTPOINT_SPENT, nProtocolVersion := 90024 }
        true).nActiveState = ZERONODE_OUTPOINT_SPENT := by
  decide

/-- C11 amended: let a forced `CZeronode::Check` run (no shutdown, chain lock taken) on
an entry that is not in state `OUTPOINT_SPENT` and not banned, with an existing
collateral output, a score below 5, a protocol version that needs no update and the
node list synced. Without a ping, or with a last ping at least 10800 s old, the state
becomes `NEW_START_REQUIRED`; without watchdog expiry and with a last ping at least
3900 s but less than 10800 s old it becomes `EXPIRED`. -/
theorem C11_Check_expires (env : Env) (w : World) (mn : CZeronode)
    (hrun : env.fShutdownRequested = false) (hlock : env.fLockMain = true)
    (hutxo : env.utxoExists mn.vin.prevout = true)
    (hspent : mn.nActiveState ≠ ZERONODE_OUTPOINT_SPENT)
    (hban : mn.nActiveState ≠ ZERONODE_POSE_BAN)
    (hscore : mn.nPoSeBanScore < 5)
    (hproto : mn.fRequireUpdate env w = false)
    (hsync : w.zeronodeSync.IsZeronodeListSynced = true) :
    ((mn.lastPing.isNull = true ∨ env.nAdjustedTime - mn.lastPing.sigTime ≥ 10800) →
      (mn.Check env w true).nActiveState = ZERONODE_NEW_START_REQUIRED) ∧
    (mn.fWatchdogExpired env w = false → mn.lastPing.isNull = false →
      3900 ≤ env.nAdjustedTime - mn.lastPing.sigTime →
      env.nAdjustedTime - mn.lastPing.sigTime < 10800 →
      (mn.Check env w true).nActiveState = ZERONODE_EXPIRED) := by
  rw [Check_forced_usual env w mn hrun hlock hutxo hspent hban hscore, CheckUsual_touched,
    CheckUsual_state]
  have hwait : mn.fWaitForPing env w = false := by
    unfold CZeronode.fWaitForPing
    rw [hsync]
    rfl
  simp only [hproto, hwait, Bool.false_eq_true, if_false, Bool.false_and, Bool.not_false,
    Bool.true_or, if_true]
  constructor
  · intro hold
    have hnp : mn.IsPingedWithin env ZERONODE_NEW_START_REQUIRED_SECONDS (-1) = false := by
      unfold CZeronode.IsPingedWithin ZERONODE_NEW_START_REQUIRED_SECONDS
      rcases hold with h | h
      · simp [h]
      · by_cases hn : mn.lastPing.isNull = true
        · simp [hn]
        · simp [hn]
          omega
    simp only [hnp, if_true]
  · intro hwd hping hge hlt
    have hnp : mn.IsPingedWithin env ZERONODE_NEW_START_REQUIRED_SECONDS (-1) = true := by
      unfold CZeronode.IsPingedWithin ZERONODE_NEW_START_REQUIRED_SECONDS
      simp [hping]
      omega
    have hne : mn.IsPingedWithin env ZERONODE_EXPIRATION_SECONDS (-1) = false := by
      unfold CZeronode.IsPingedWithin ZERONODE_EXPIRATION_SECONDS
      simp [hping]
      omega
    simp only [hnp, hwd, hne, Bool.true_eq_false, Bool.false_eq_true, if_false, if_true]

/-- C11 amended, evaluated: 66 x 60 s after the last ping the state is `EXPIRED`, and
without any ping, or 180 x 60 s after it, the state is `NEW_START_REQUIRED`. -/
theorem C11_Check_expires_witness :
    (CZeronode.Check { nAdjustedTime := 1003960 }
        { zeronodeSync := { nRequestedZeronodeAssets := 999 } }
        { vin := ⟨⟨[1], 0⟩, [], 0⟩, nProtocolVersion := 90024, sigTime := 1000000
          lastPing := { vin := ⟨⟨[1], 0⟩, [], 0⟩, sigTime := 1000000 } }
        true).nActiveState = ZERONODE_EXPIRED :=
  (C11_Check_expires { nAdjustedTime := 1003960 }
    { zeronodeSync := { nRequestedZeronodeAssets := 999 } }
    { vin := ⟨⟨[1], 0⟩, [], 0⟩, nProtocolVersion := 90024, sigTime := 1000000
      lastPing := { vin := ⟨⟨[1], 0⟩, [], 0⟩, sigTime := 1000000 } }
    rfl rfl rfl (by decide) (by decide) (by decide) (by decide) (by decide)).2
      (by decide) (by decide) (by decide) (by decide)

/-- C12 as stated fails: the node list is not synced yet, the entry is `EXPIRED`, was
announced at 1000000 and pinged at 1000700, 20 minutes before the clock (1001900), and
is not the local node; all conditions of the claim hold, yet the forced check leaves the
state `EXPIRED` instead of setting `ENABLED`. -/
theorem C12_Check_enables_counterexample :
    ({ nAdjustedTime := 1001900 } : Env).utxoExists (⟨[1], 0⟩ : COutPoint) = true ∧
      CZeronode.fRequireUpdate { nAdjustedTime := 1001900 } {}
        { vin := ⟨⟨[1], 0⟩, [], 0⟩, nProtocolVersion := 90024, sigTime := 1000000
          nActiveState := ZERONODE_EXPIRED
          lastPing := { vin := ⟨⟨[1], 0⟩, [], 0⟩, sigTime := 1000700 } } = false ∧
      CZeronode.fWatchdogExpired { nAdjustedTime := 1001900 } {}
        { vin := ⟨⟨[1], 0⟩, [], 0⟩, nProtocolVersion := 90024, sigTime := 1000000
          nActiveState := ZERONODE_EXPIRED
          lastPing := { vin := ⟨⟨[1], 0⟩, [], 0⟩, sigTime := 1000700 } } = false ∧
      ({ vin := ⟨⟨[1], 0⟩, [], 0⟩, sigTime := 1000700 } : CZeronodePing).isNull = false ∧
      (1001900 : Int) - 1000700 < 3900 ∧ ¬ ((1000700 : Int) - 1000000 < 600) ∧
      (CZeronode.Check { nAdjustedTime := 1001900 } {}
        { vin := ⟨⟨[1], 0⟩, [], 0⟩, nProtocolVersion := 90024, sigTime := 1000000
          nActiveState := ZERONODE_EXPIRED
          lastPing := { vin := ⟨⟨[1], 0⟩, [], 0⟩, sigTime := 1000700 } }
        true).nActiveState = ZERONODE_EXPIRED := by
  decide

/-- C12 amended: let a forced `CZeronode::Check` run (no shutdown, chain lock taken) on
an entry that is not in state `OUTPOINT_SPENT` and not banned, with an existing
collateral output, a score below 5, a protocol version that needs no update, no
watchdog expiry and a last ping younger than 3900 s. If the node list is synced, or the
ping is younger than 600 s, or the entry is the local node, or the state is none of
`EXPIRED`, `WATCHDOG_EXPIRED`, `NEW_START_REQUIRED`, the state becomes `PRE_ENABLED`
when `lastPing.sigTime - sigTime < 600` and `ENABLED` otherwise. In the remaining case
(list not synced, ping at least 600 s old, not the local node, state one of the three)
the state stays as it is. -/
theorem C12_Check_enables (env : Env) (w : World) (mn : CZeronode)
    (hrun : env.fShutdownRequested = false) (hlock : env.fLockMain = true)
    (hutxo : env.utxoExists mn.vin.prevout = true)
    (hspent : mn.nActiveState ≠ ZERONODE_OUTPOINT_SPENT)
    (hban : mn.nActiveState ≠ ZERONODE_POSE_BAN)
    (hscore : mn.nPoSeBanScore < 5)
    (hproto : mn.fRequireUpdate env w = false)
    (hwd : mn.fWatchdogExpired env w = false)
    (hping : mn.lastPing.isNull = false)
    (hyoung : env.nAdjustedTime - mn.lastPing.sigTime < 3900) :
    ((w.zeronodeSync.IsZeronodeListSynced = true ∨
        env.nAdjustedTime - mn.lastPing.sigTime < 600 ∨ mn.fOurZeronode env w = true ∨
        (mn.nActiveState ≠ ZERONODE_EXPIRED ∧ mn.nActiveState ≠ ZERONODE_WATCHDOG_EXPIRED ∧
          mn.nActiveState ≠ ZERONODE_NEW_START_REQUIRED)) →
      (mn.Check env w true).nActiveState =
        if mn.lastPing.sigTime - mn.sigTime < 600 then ZERONODE_PRE_ENABLED
        else ZERONODE_ENABLED) ∧
    (w.zeronodeSync.IsZeronodeListSynced = false →
      600 ≤ env.nAdjustedTime - mn.lastPing.sigTime → mn.fOurZeronode env w = false →
      (mn.nActiveState = ZERONODE_EXPIRED ∨ mn.nActiveState = ZERONODE_WATCHDOG_EXPIRED ∨
        mn.nActiveState = ZERONODE_NEW_START_REQUIRED) →
      (mn.Check env w true).nActiveState = mn.nActiveState) := by
  rw [Check_forced_usual env w mn hrun hlock hutxo hspent hban hscore, CheckUsual_touched,
    CheckUsual_state]
  have hnp : mn.IsPingedWithin env ZERONODE_NEW_START_REQUIRED_SECONDS (-1) = true := by
    unfold CZeronode.IsPingedWithin ZERONODE_NEW_START_REQUIRED_SECONDS
    simp [hping]
    omega
  have hne : mn.IsPingedWithin env ZERONODE_EXPIRATION_SECONDS (-1) = true := by
    unfold CZeronode.IsPingedWithin ZERONODE_EXPIRATION_SECONDS
    simp [hping]
    omega
  have hen : mn.CheckEnabled.nActiveState =
      if mn.lastPing.sigTime - mn.sigTime < 600 then ZERONODE_PRE_ENABLED
      else ZERONODE_ENABLED := by
    unfold CZeronode.CheckEnabled ZERONODE_MIN_MNP_SECONDS
    split_ifs <;> first | rfl | omega
  have hmin : mn.IsPingedWithin env ZERONODE_MIN_MNP_SECONDS (-1) =
      decide (env.nAdjustedTime - mn.lastPing.sigTime < 600) := by
    unfold CZeronode.IsPingedWithin ZERONODE_MIN_MNP_SECONDS
    simp [hping]
  simp only [hproto, hnp, hwd, hne, hen, Bool.false_eq_true, Bool.true_eq_false, if_false]
  unfold CZeronode.fWaitForPing
  rw [hmin]
  unfold CZeronode.IsExpired CZeronode.IsWatchdogExpired CZeronode.IsNewStartRequired
  constructor
  · intro h
    rcases h with h | h | h | ⟨h1, h2, h3⟩
    · simp [h]
    · simp [h]
    · simp [h]
    · simp [h1, h2, h3]
  · intro hs hold hown hst
    have hold2 : ¬ env.nAdjustedTime - mn.lastPing.sigTime < 600 := by omega
    have hst2 : (decide (mn.nActiveState = ZERONODE_EXPIRED) ||
        decide (mn.nActiveState = ZERONODE_WATCHDOG_EXPIRED) ||
        decide (mn.nActiveState = ZERONODE_NEW_START_REQUIRED)) = true := by
      rcases hst with h | h | h <;> simp [h]
    simp [hs, hold2, hown, hst2]

/-- C12 amended, evaluated: an announce signed at 1000000 followed by a ping signed at
1000700, checked at 1000800 with the list synced, yields `ENABLED`. -/
theorem C12_Check_enables_witness :
    (CZeronode.Check { nAdjustedTime := 1000800 }
        { zeronodeSync := { nRequestedZeronodeAssets := 999 } }
        { vin := ⟨⟨[1], 0⟩, [], 0⟩, nProtocolVersion := 90024, sigTime := 1000000
          lastPing := { vin := ⟨⟨[1], 0⟩, [], 0⟩, sigTime := 1000700 } }
        true).nActiveState =
      if (1000700 : Int) - 1000000 < 600 then ZERONODE_PRE_ENABLED else ZERONODE_ENABLED :=
  (C12_Check_enables { nAdjustedTime := 1000800 }
    { zeronodeSync := { nRequestedZeronodeAssets := 999 } }
    { vin := ⟨⟨[1], 0⟩, [], 0⟩, nProtocolVersion := 90024, sigTime := 1000000
      lastPing := { vin := ⟨⟨[1], 0⟩, [], 0⟩, sigTime := 1000700 } }
    rfl rfl rfl (by decide) (by decide) (by decide) (by decide) (by decide) (by decide)
    (by decide)).1 (Or.inl (by decide))

/-! ### Announce ingest by the registry -/

theorem mapFind_mapErase {κ ν : Type} [DecidableEq κ] (m : List (κ × ν)) (key : κ) :
    mapFind (mapErase m key) key = none := by
  induction m with
  | nil => rfl
  | cons kv rest ih =>
    obtain ⟨k, v⟩ := kv
    unfold mapErase at ih ⊢
    by_cases h : k = key
    · simp only [List.filter, h, ne_eq, not_true_eq_false, decide_False]
      rw [← h] at ih ⊢
      exact ih
    · simp only [List.filter, h, ne_eq, not_false_eq_true, decide_True, mapFind, if_false]
      exact ih

/-- C19 as stated fails: the collateral output of the announce is unknown to the node.
The first delivery is answered `false` with `nDos = 0`, but the hash stays in
`mapSeenZeronodeBroadcast`; the redelivered copy is answered `true` from the cache
without being checked again, and the registry stays empty. The tuple lists: answer and
`nDos` of the first delivery, whether the hash is cached after it, answer of the second
delivery, registry after it. -/
theorem C19_CheckOutpoint_counterexample :
    (CheckMnbAndUpdateZeronodeList (ManageState { utxoExists := fun _ => false } 2)
        { utxoExists := fun _ => false } none
        { vin := ⟨⟨[7], 0⟩, [], 0⟩, addr := ⟨[1, 2, 3, 4], 8168⟩, nProtocolVersion := 90024
          pubKeyCollateralAddress := List.replicate 25 1
          pubKeyZeronode := List.replicate 25 2 } {}).bind
      (fun r1 =>
        (CheckMnbAndUpdateZeronodeList (ManageState { utxoExists := fun _ => false } 2)
          { utxoExists := fun _ => false } none
          { vin := ⟨⟨[7], 0⟩, [], 0⟩, addr := ⟨[1, 2, 3, 4], 8168⟩, nProtocolVersion := 90024
            pubKeyCollateralAddress := List.replicate 25 1
            pubKeyZeronode := List.replicate 25 2 } r1.2.2).map
        (fun r2 =>
          (r1.1, r1.2.1,
            (mapFind r1.2.2.mnodeman.mapSeenZeronodeBroadcast
              (({ utxoExists := fun _ => false } : Env).HashBroadcast ⟨⟨[7], 0⟩, [], 0⟩
                (List.replicate 25 1) 0)).isSome,
            r2.1, r2.2.2.mnodeman.vZeronodes))) =
      some (false, 0, true, true, []) := by
  decide

/-- C19 amended: let `CZeronodeBroadcast::CheckOutpoint` get past its first two tests
(the announce is not the one of the local node, the signature is valid). If the chain
lock cannot be taken, or the collateral output exists with the required value but has
fewer than the minimum confirmations, the answer is `false` with `nDos = 0` and the
hash of the announce is no longer in `mapSeenZeronodeBroadcast`. If the collateral
output is unknown, the answer is `false` with `nDos = 0` and the world, the cache
included, is unchanged. -/
theorem C19_CheckOutpoint_transient (env : Env) (mnb : CZeronodeBroadcast) (nDos : Int)
    (w : World)
    (hown : ¬ (env.fZNode = true ∧ mnb.vin.prevout = w.activeZeronode.vin.prevout ∧
      mnb.pubKeyZeronode = w.activeZeronode.pubKeyZeronode))
    (hsig : (mnb.CheckSignature env).1 = true) :
    (env.fLockMain = false ∨
        (env.fLockMain = true ∧ env.utxoExists mnb.vin.prevout = true ∧
          env.utxoValue mnb.vin.prevout = ZERONODE_COIN_REQUIRED * env.COIN ∧
          env.nChainHeight - env.utxoHeight mnb.vin.prevout + 1 <
            env.nZeronodeMinimumConfirmations) →
      (mnb.CheckOutpoint env nDos w).1 = false ∧ (mnb.CheckOutpoint env nDos w).2.1 = 0 ∧
        mapFind (mnb.CheckOutpoint env nDos w).2.2.mnodeman.mapSeenZeronodeBroadcast
          (mnb.toCZeronode.GetHash env) = none) ∧
    (env.fLockMain = true → env.utxoExists mnb.vin.prevout = false →
      mnb.CheckOutpoint env nDos w = (false, 0, w)) := by
  unfold CZeronodeBroadcast.CheckOutpoint
  simp only [hown, hsig, if_false, Bool.true_eq_false]
  constructor
  · intro h
    rcases h with h | ⟨h1, h2, h3, h4⟩
    · simp only [h, if_true]
      exact ⟨trivial, trivial, mapFind_mapErase _ _⟩
    · simp only [h1, h2, h3, h4, Bool.true_eq_false, if_false, if_true, ne_eq,
        not_true_eq_false]
      exact ⟨trivial, trivial, mapFind_mapErase _ _⟩
  · intro h1 h2
    simp only [h1, h2, Bool.true_eq_false, if_false, if_true]

/-- C19 amended, evaluated: with the chain lock not available the announce cached under
its hash is dropped from the cache. -/
theorem C19_CheckOutpoint_transient_witness :
    (CZeronodeBroadcast.CheckOutpoint { fLockMain := false } { vin := ⟨⟨[7], 0⟩, [], 0⟩ } 0
        { mnodeman := { mapSeenZeronodeBroadcast :=
            [(uint256.null, (0, { vin := ⟨⟨[7], 0⟩, [], 0⟩ }))] } }).1 = false ∧
      (CZeronodeBroadcast.CheckOutpoint { fLockMain := false } { vin := ⟨⟨[7], 0⟩, [], 0⟩ } 0
        { mnodeman := { mapSeenZeronodeBroadcast :=
            [(uint256.null, (0, { vin := ⟨⟨[7], 0⟩, [], 0⟩ }))] } }).2.1 = 0 ∧
      mapFind (CZeronodeBroadcast.CheckOutpoint { fLockMain := false }
        { vin := ⟨⟨[7], 0⟩, [], 0⟩ } 0
        { mnodeman := { mapSeenZeronodeBroadcast :=
            [(uint256.null, (0, { vin := ⟨⟨[7], 0⟩, [], 0⟩ }))] } }
        ).2.2.mnodeman.mapSeenZeronodeBroadcast
          (CZeronode.GetHash { fLockMain := false }
            ({ vin := ⟨⟨[7], 0⟩, [], 0⟩ } : CZeronodeBroadcast).toCZeronode) = none :=
  (C19_CheckOutpoint_transient { fLockMain := false } { vin := ⟨⟨[7], 0⟩, [], 0⟩ } 0
    { mnodeman := { mapSeenZeronodeBroadcast :=
        [(uint256.null, (0, { vin := ⟨⟨[7], 0⟩, [], 0⟩ }))] } }
    (by decide) (by decide)).1 (Or.inl rfl)

/-! ### The outpoints of the registry are kept -/

theorem VinStep.of_outpoints {l l' : List CZeronode} (h : outpoints l' = outpoints l) :
    VinStep l l' :=
  ⟨[], by rw [h, List.append_nil], fun _ ho => by cases ho⟩

theorem VinStep.same (l : List CZeronode) : VinStep l l := VinStep.of_outpoints rfl

theorem VinStep.then {l₁ l₂ l₃ : List CZeronode} (h₁ : VinStep l₁ l₂)
    (h₂ : VinStep l₂ l₃) : VinStep l₁ l₃ := by
  obtain ⟨e1, h1, d1⟩ := h₁
  obtain ⟨e2, h2, d2⟩ := h₂
  refine ⟨e1 ++ e2, by rw [h2, h1, List.append_assoc], ?_⟩
  intro o ho
  rcases List.mem_append.1 ho with ho | ho
  · exact d1 o ho
  · intro hin
    apply d2 o ho
    rw [h1]
    exact List.mem_append_left _ hin

theorem VinStep.of_keys {l l' : List CZeronode}
    (h : l'.map CZeronode.regKey = l.map CZeronode.regKey) : VinStep l l' := by
  apply VinStep.of_outpoints
  have := congrArg (List.map Prod.fst) h
  simpa [outpoints, List.map_map, Function.comp, CZeronode.regKey] using this

theorem outpoints_set (l : List CZeronode) (i : Nat) (mn v : CZeronode)
    (hmn : l[i]? = some mn) (hv : v.vin.prevout = mn.vin.prevout) :
    outpoints (l.set i v) = outpoints l := by
  unfold outpoints
  induction l generalizing i with
  | nil => rfl
  | cons a rest ih =>
    cases i with
    | zero =>
      simp only [List.getElem?_cons_zero, Option.some.injEq] at hmn
      subst hmn
      simp only [List.set_cons_zero, List.map_cons, hv]
    | succ n =>
      simp only [List.getElem?_cons_succ] at hmn
      simp only [List.set_cons_succ, List.map_cons, ih n hmn]

theorem VinStep.added (l : List CZeronode) (v : CZeronode)
    (hv : findByVin v.vin l 0 = none) : VinStep l (l ++ [v]) := by
  refine ⟨[v.vin.prevout], by simp [outpoints], ?_⟩
  intro o ho hin
  simp only [List.mem_singleton] at ho
  subst ho
  rw [findByVin_eq_none] at hv
  obtain ⟨e, he, hp⟩ := List.mem_map.1 hin
  exact hv e he hp

/-- An outpoint that the registry holds once is held once after a step. -/
theorem VinStep.count_one {l l' : List CZeronode} (h : VinStep l l') (o : COutPoint)
    (hone : (outpoints l).count o = 1) : (outpoints l').count o = 1 := by
  obtain ⟨ext, he, hd⟩ := h
  rw [he, List.count_append, hone]
  have : ext.count o = 0 := by
    rw [List.count_eq_zero]
    intro ho
    apply hd o ho
    rw [← List.count_pos_iff]
    omega
  omega

theorem UpdateFromNewBroadcast_vin (ManageState : World → Option World) (env : Env)
    (hM : ∀ w w', ManageState w = some w' →
      VinStep w.mnodeman.vZeronodes w'.mnodeman.vZeronodes)
    (i : Nat) (mnb : CZeronodeBroadcast) (w : World) (r : Bool × World)
    (hr : CZeronode.UpdateFromNewBroadcast ManageState env i mnb w = some r) :
    VinStep w.mnodeman.vZeronodes r.2.mnodeman.vZeronodes := by
  unfold CZeronode.UpdateFromNewBroadcast at hr
  cases hmn : w.mnodeman.vZeronodes[i]? with
  | none => simp [hmn] at hr
  | some mn =>
    simp only [hmn] at hr
    by_cases hold : mnb.sigTime ≤ mn.sigTime ∧ mnb.fRecovery = false
    · simp only [hold, and_self, if_true, Option.some.injEq] at hr
      subst hr
      exact VinStep.same _
    · simp only [hold, if_false] at hr
      have h1 : VinStep w.mnodeman.vZeronodes
          (w.setMn i (mn.takeBroadcast mnb)).mnodeman.vZeronodes :=
        VinStep.of_outpoints (outpoints_set _ i mn _ hmn rfl)
      generalize w.setMn i (mn.takeBroadcast mnb) = w1 at hr h1
      have h2 : VinStep w1.mnodeman.vZeronodes
          (if mnb.lastPing.isNull = true then (true, 0, w1)
            else mnb.lastPing.CheckAndUpdate env (some i) true w1).2.2.mnodeman.vZeronodes := by
        split_ifs
        · exact VinStep.same _
        · exact VinStep.of_keys (CheckAndUpdate_keys env _ _ _ w1)
      generalize (if mnb.lastPing.isNull = true then (true, (0 : Int), w1)
            else mnb.lastPing.CheckAndUpdate env (some i) true w1) = rr at hr h2
      have h3 : VinStep rr.2.2.mnodeman.vZeronodes
          (if rr.1 = true then rr.2.2.takeLastPing env i mnb.lastPing
            else rr.2.2).mnodeman.vZeronodes := by
        split_ifs
        · exact VinStep.of_keys (takeLastPing_keys env _ i _)
        · exact VinStep.same _
      generalize (if rr.1 = true then rr.2.2.takeLastPing env i mnb.lastPing
            else rr.2.2) = w2 at hr h3
      have h12 := (h1.then h2).then h3
      have h4 : VinStep w2.mnodeman.vZeronodes (w2.markVerified i).mnodeman.vZeronodes :=
        VinStep.of_keys (markVerified_keys w2 i)
      split_ifs at hr with hown hver
      · cases hm : ManageState (w2.markVerified i) with
        | none => simp [hm] at hr
        | some w4 =>
          simp only [hm, Option.some.injEq] at hr
          subst hr
          exact (h12.then h4).then (hM _ _ hm)
      · simp only [Option.some.injEq] at hr
        subst hr
        exact h12.then h4
      · simp only [Option.some.injEq] at hr
        subst hr
        exact h12

theorem Add_vin (m : CZeronodeMan) (mn : CZeronode) :
    VinStep m.vZeronodes (m.Add mn).2.vZeronodes := by
  unfold CZeronodeMan.Add
  cases hf : m.Find mn.vin with
  | none => exact VinStep.added _ _ hf
  | some i => exact VinStep.same _

theorem SetZeronodeLastPing_vin (env : Env) (w : World) (vin : CTxIn) (mnp : CZeronodePing) :
    VinStep w.mnodeman.vZeronodes (w.SetZeronodeLastPing env vin mnp).mnodeman.vZeronodes := by
  unfold World.SetZeronodeLastPing
  split
  · exact VinStep.same _
  · split
    · exact VinStep.same _
    · next mn hmn => exact VinStep.of_outpoints (outpoints_set _ _ mn _ hmn rfl)

theorem SendZeronodePing_vin (env : Env) (w : World) :
    VinStep w.mnodeman.vZeronodes (SendZeronodePing env w).mnodeman.vZeronodes := by
  unfold SendZeronodePing
  split_ifs
  · exact VinStep.same _
  · exact VinStep.same _
  · split
    · exact VinStep.same _
    · dsimp only
      split_ifs
      · exact VinStep.same _
      · exact SetZeronodeLastPing_vin env w _ _

theorem UpdateZeronodeList_vin (ManageState : World → Option World) (env : Env)
    (hM : ∀ w w', ManageState w = some w' →
      VinStep w.mnodeman.vZeronodes w'.mnodeman.vZeronodes)
    (mnb : CZeronodeBroadcast) (w w' : World)
    (hr : UpdateZeronodeList ManageState env mnb w = some w') :
    VinStep w.mnodeman.vZeronodes w'.mnodeman.vZeronodes := by
  unfold UpdateZeronodeList at hr
  dsimp only at hr
  split at hr
  · simp only [Option.some.injEq] at hr
    subst hr
    have h := Add_vin
      { w.mnodeman with
        mapSeenZeronodePing :=
          mapInsert w.mnodeman.mapSeenZeronodePing (mnb.lastPing.GetHash env) mnb.lastPing
        mapSeenZeronodeBroadcast :=
          mapInsert w.mnodeman.mapSeenZeronodeBroadcast (mnb.toCZeronode.GetHash env)
            (env.nTime, mnb) } (CZeronode.ofBroadcast mnb)
    split_ifs
    all_goals exact h
  · split at hr
    · exact Option.noConfusion hr
    · split at hr
      · exact Option.noConfusion hr
      · next w3 hu =>
        simp only [Option.some.injEq] at hr
        subst hr
        exact UpdateFromNewBroadcast_vin ManageState env hM _ mnb _ _ hu
      · next w3 hu =>
        simp only [Option.some.injEq] at hr
        subst hr
        exact UpdateFromNewBroadcast_vin ManageState env hM _ mnb _ _ hu

theorem ManageStateLocal_vin (ManageState : World → Option World) (env : Env)
    (hM : ∀ w w', ManageState w = some w' →
      VinStep w.mnodeman.vZeronodes w'.mnodeman.vZeronodes)
    (w w' : World) (hr : ManageStateLocal ManageState env w = some w') :
    VinStep w.mnodeman.vZeronodes w'.mnodeman.vZeronodes := by
  unfold ManageStateLocal at hr
  split_ifs at hr
  · simp only [Option.some.injEq] at hr
    subst hr
    exact VinStep.same _
  · split at hr
    · simp only [Option.some.injEq] at hr
      subst hr
      exact VinStep.same _
    · dsimp only at hr
      split_ifs at hr
      · simp only [Option.some.injEq] at hr
        subst hr
        exact VinStep.same _
      · split at hr
        · simp only [Option.some.injEq] at hr
          subst hr
          exact VinStep.same _
        · split at hr
          · exact Option.noConfusion hr
          · next w3 hu =>
            simp only [Option.some.injEq] at hr
            subst hr
            have h := UpdateZeronodeList_vin ManageState env hM _ _ _ hu
            exact h

theorem ManageStateRemote_vin (env : Env) (w : World) :
    VinStep w.mnodeman.vZeronodes (ManageStateRemote env w).mnodeman.vZeronodes :=
  VinStep.of_keys (ManageStateRemote_keys env w)

theorem ManageStateByType_vin (ManageState : World → Option World) (env : Env)
    (hM : ∀ w w', ManageState w = some w' →
      VinStep w.mnodeman.vZeronodes w'.mnodeman.vZeronodes)
    (w w' : World) (hr : ManageStateByType ManageState env w = some w') :
    VinStep w.mnodeman.vZeronodes w'.mnodeman.vZeronodes := by
  unfold ManageStateByType at hr
  dsimp only at hr
  split_ifs at hr
  · simp only [Option.some.injEq] at hr
    subst hr
    exact ManageStateRemote_vin env w
  · exact (ManageStateRemote_vin env w).then
      (ManageStateLocal_vin ManageState env hM _ _ hr)
  · simp only [Option.some.injEq] at hr
    subst hr
    exact ManageStateRemote_vin env w
  · simp only [Option.some.injEq] at hr
    subst hr
    exact VinStep.same _

theorem ManageStateBody_vin (ManageState : World → Option World) (env : Env)
    (hM : ∀ w w', ManageState w = some w' →
      VinStep w.mnodeman.vZeronodes w'.mnodeman.vZeronodes)
    (w w' : World) (hr : ManageStateBody ManageState env w = some w') :
    VinStep w.mnodeman.vZeronodes w'.mnodeman.vZeronodes := by
  unfold ManageStateBody at hr
  dsimp only at hr
  split_ifs at hr
  · simp only [Option.some.injEq] at hr
    subst hr
    exact VinStep.same _
  · simp only [Option.some.injEq] at hr
    subst hr
    exact VinStep.same _
  · split at hr
    · exact Option.noConfusion hr
    · next w5 h5 =>
      simp only [Option.some.injEq] at hr
      subst hr
      have h1 := ManageStateByType_vin ManageState env hM _ _ h5
      rw [ManageStateType_mnodeman] at h1
      exact h1.then (SendZeronodePing_vin env w5)

theorem ManageState_vin (env : Env) (depth : Nat) (w w' : World)
    (hr : ManageState env depth w = some w') :
    VinStep w.mnodeman.vZeronodes w'.mnodeman.vZeronodes := by
  induction depth generalizing w w' with
  | zero => exact Option.noConfusion hr
  | succ n ih => exact ManageStateBody_vin (ManageState env n) env ih w w' hr

theorem SimpleCheck_eq (env : Env) (mnb : CZeronodeBroadcast)
    (hok : (mnb.SimpleCheck env).1 = true) :
    (mnb.SimpleCheck env).2.2 =
      { mnb with nActiveState :=
        if mnb.lastPing.isNull = true ∨ (mnb.lastPing.SimpleCheck env).1 = false then
          ZERONODE_EXPIRED
        else mnb.nActiveState } := by
  unfold CZeronodeBroadcast.SimpleCheck at hok ⊢
  by_cases h1 : IsValidNetAddr env mnb.addr = false
  · rw [if_pos h1] at hok
    exact Bool.noConfusion hok
  · rw [if_neg h1] at hok ⊢
    by_cases h2 : mnb.sigTime > env.nAdjustedTime + 60 * 60
    · rw [if_pos h2] at hok
      exact Bool.noConfusion hok
    · rw [if_neg h2] at hok ⊢
      have hr : (if mnb.lastPing.isNull = true then
            ((0 : Int), ({ mnb with nActiveState := ZERONODE_EXPIRED } : CZeronodeBroadcast))
          else if (mnb.lastPing.SimpleCheck env).1 = false then
            ((mnb.lastPing.SimpleCheck env).2, { mnb with nActiveState := ZERONODE_EXPIRED })
          else ((mnb.lastPing.SimpleCheck env).2, mnb)).2 =
          { mnb with nActiveState :=
            if mnb.lastPing.isNull = true ∨ (mnb.lastPing.SimpleCheck env).1 = false then
              ZERONODE_EXPIRED
            else mnb.nActiveState } := by
        by_cases hn : mnb.lastPing.isNull = true
        · rw [if_pos hn, if_pos (Or.inl hn)]
        · by_cases hp : (mnb.lastPing.SimpleCheck env).1 = false
          · rw [if_neg hn, if_pos hp, if_pos (Or.inr hp)]
          · rw [if_neg hn, if_neg hp, if_neg (fun h => h.elim hn hp)]
      dsimp only at hok ⊢
      generalize (if mnb.lastPing.isNull = true then
            ((0 : Int), ({ mnb with nActiveState := ZERONODE_EXPIRED } : CZeronodeBroadcast))
          else if (mnb.lastPing.SimpleCheck env).1 = false then
            ((mnb.lastPing.SimpleCheck env).2, { mnb with nActiveState := ZERONODE_EXPIRED })
          else ((mnb.lastPing.SimpleCheck env).2, mnb)) = r at hok hr ⊢
      rw [← hr]
      split_ifs <;> rfl

theorem CheckOutpoint_frame (env : Env) (mnb : CZeronodeBroadcast) (nDos : Int) (w : World) :
    (mnb.CheckOutpoint env nDos w).2.2.mnodeman.vZeronodes = w.mnodeman.vZeronodes ∧
      (mnb.CheckOutpoint env nDos w).2.2.activeZeronode = w.activeZeronode := by
  unfold CZeronodeBroadcast.CheckOutpoint
  split_ifs
  all_goals
    first
      | exact ⟨rfl, rfl⟩
      | (split <;> (split_ifs <;> exact ⟨rfl, rfl⟩))
      | (split
         · split_ifs <;> exact ⟨rfl, rfl⟩
         · exact ⟨rfl, rfl⟩)

theorem count_outpoints_zero (l : List CZeronode) (vin : CTxIn)
    (h : findByVin vin l 0 = none) : (outpoints l).count vin.prevout = 0 := by
  rw [List.count_eq_zero]
  intro hin
  rw [findByVin_eq_none] at h
  obtain ⟨e, he, hp⟩ := List.mem_map.1 hin
  exact h e he hp

/-- C14 as stated fails: a valid announce off the wire (signed at 1000000, main-net
port, collateral present with 15 confirmations, valid signature and ping) for an
outpoint that the empty registry does not hold is accepted, and the one entry stored
for it is `ENABLED`, not `PRE_ENABLED`. -/
theorem C14_accept_new_announce_counterexample :
    (CheckMnbAndUpdateZeronodeList
        (ManageState { nAdjustedTime := 1000000, nChainHeight := 100
                       utxoHeight := fun _ => 86, mapBlockIndex := fun _ => some 86 } 2)
        { nAdjustedTime := 1000000, nChainHeight := 100
          utxoHeight := fun _ => 86, mapBlockIndex := fun _ => some 86 } none
        { vin := ⟨⟨[7], 0⟩, [], 0⟩, addr := ⟨[1, 2, 3, 4], 8168⟩, nProtocolVersion := 90024
          sigTime := 1000000
          pubKeyCollateralAddress := List.replicate 25 1
          pubKeyZeronode := List.replicate 25 2
          lastPing := { vin := ⟨⟨[7], 0⟩, [], 0⟩, blockHash := [9], sigTime := 1000000 } }
        {}).map
      (fun r => (r.1, r.2.2.mnodeman.vZeronodes.map (fun e => (e.vin.prevout, e.nActiveState)))) =
      some (true, [(⟨[7], 0⟩, ZERONODE_ENABLED)]) := by
  decide

theorem checkOutpointAndAdd_new (env : Env) (depth : Nat) (mnb : CZeronodeBroadcast)
    (nDos : Int) (w : World) (r : Bool × Int × World)
    (hnew : w.mnodeman.Find mnb.vin = none)
    (hret : checkOutpointAndAdd (ManageState env depth) env mnb nDos w = some r)
    (htrue : r.1 = true) :
    (outpoints r.2.2.mnodeman.vZeronodes).count mnb.vin.prevout = 1 ∧
    (¬ (env.fZNode = true ∧ mnb.pubKeyZeronode = w.activeZeronode.pubKeyZeronode) →
      r.2.2.mnodeman.vZeronodes = w.mnodeman.vZeronodes ++ [mnb.toCZeronode]) := by
  unfold checkOutpointAndAdd at hret
  dsimp only at hret
  obtain ⟨hl, hact⟩ := CheckOutpoint_frame env mnb nDos w
  generalize CZeronodeBroadcast.CheckOutpoint env mnb nDos w = co at hret hl hact
  by_cases hco : co.1 = true
  · simp only [hco, if_true] at hret
    have hfind2 : co.2.2.mnodeman.Find mnb.toCZeronode.vin = none := by
      unfold CZeronodeMan.Find
      rw [hl]
      exact hnew
    have hadd : (co.2.2.mnodeman.Add mnb.toCZeronode).2.vZeronodes =
        w.mnodeman.vZeronodes ++ [mnb.toCZeronode] := by
      unfold CZeronodeMan.Add
      simp only [hfind2]
      rw [hl]
    have hcount : (outpoints (w.mnodeman.vZeronodes ++ [mnb.toCZeronode])).count
        mnb.vin.prevout = 1 := by
      unfold outpoints
      rw [List.map_append, List.count_append]
      have h0 := count_outpoints_zero w.mnodeman.vZeronodes mnb.vin hnew
      unfold outpoints at h0
      rw [h0]
      simp
    have hw1 : (World.AddedZeronodeList env
        ({ co.2.2 with mnodeman := (co.2.2.mnodeman.Add mnb.toCZeronode).2 } :
          World)).mnodeman.vZeronodes = w.mnodeman.vZeronodes ++ [mnb.toCZeronode] := hadd
    have ha1 : (World.AddedZeronodeList env
        ({ co.2.2 with mnodeman := (co.2.2.mnodeman.Add mnb.toCZeronode).2 } :
          World)).activeZeronode = w.activeZeronode := hact
    generalize World.AddedZeronodeList env
        ({ co.2.2 with mnodeman := (co.2.2.mnodeman.Add mnb.toCZeronode).2 } : World) = w1
      at hret hw1 ha1
    rw [ha1] at hret
    split_ifs at hret with h1 h2
    · cases hm : ManageState env depth w1 with
      | none =>
        rw [hm] at hret
        exact Option.noConfusion hret
      | some w2 =>
        rw [hm] at hret
        simp only [Option.some.injEq] at hret
        subst hret
        refine ⟨?_, fun hn => absurd h1 hn⟩
        have hstep := ManageState_vin env depth w1 w2 hm
        rw [hw1] at hstep
        exact hstep.count_one _ hcount
    · simp only [Option.some.injEq] at hret
      subst hret
      exact Bool.noConfusion htrue
    · simp only [Option.some.injEq] at hret
      subst hret
      refine ⟨?_, fun _ => hw1⟩
      show (outpoints w1.mnodeman.vZeronodes).count mnb.vin.prevout = 1
      rw [hw1]
      exact hcount
  · rw [if_neg hco] at hret
    simp only [Option.some.injEq] at hret
    subst hret
    exact Bool.noConfusion htrue

/-- C14 amended: let `CheckMnbAndUpdateZeronodeList` answer `true` for an announce that
is not answered from the seen-cache (its hash is not cached, or it is a recovery
announce) and whose outpoint the registry does not hold. Afterwards the registry holds
exactly one entry for that outpoint. Unless the node runs as a zeronode and the
announce carries its own service key, that entry is the announce itself, appended to
the registry: its state is `EXPIRED` when the announce has no ping or the ping fails
`CZeronodePing::SimpleCheck`, and the state that the announce carries otherwise
(`ENABLED` for an announce read off the wire). No branch assigns `PRE_ENABLED`. -/
theorem C14_accept_new_announce (env : Env) (depth : Nat) (pfrom : Option CNode)
    (mnb : CZeronodeBroadcast) (w : World) (r : Bool × Int × World)
    (hnew : w.mnodeman.Find mnb.vin = none)
    (hfresh : mnb.fRecovery = true ∨
      mapFind w.mnodeman.mapSeenZeronodeBroadcast (mnb.toCZeronode.GetHash env) = none)
    (hret : CheckMnbAndUpdateZeronodeList (ManageState env depth) env pfrom mnb w = some r)
    (htrue : r.1 = true) :
    (outpoints r.2.2.mnodeman.vZeronodes).count mnb.vin.prevout = 1 ∧
    (¬ (env.fZNode = true ∧ mnb.pubKeyZeronode = w.activeZeronode.pubKeyZeronode) →
      r.2.2.mnodeman.vZeronodes = w.mnodeman.vZeronodes ++
        [{ mnb.toCZeronode with nActiveState :=
            if mnb.lastPing.isNull = true ∨ (mnb.lastPing.SimpleCheck env).1 = false then
              ZERONODE_EXPIRED
            else mnb.nActiveState }]) := by
  have hseen : (if mnb.fRecovery = false then
      mapFind w.mnodeman.mapSeenZeronodeBroadcast (mnb.toCZeronode.GetHash env)
      else none) = none := by
    rcases hfresh with h | h
    · simp [h]
    · simp [h]
  unfold CheckMnbAndUpdateZeronodeList at hret
  simp only [hseen] at hret
  by_cases hok : (mnb.SimpleCheck env).1 = false
  · simp only [hok, if_true, Option.some.injEq] at hret
    subst hret
    exact Bool.noConfusion htrue
  · simp only [hok, if_false] at hret
    have hok1 : (mnb.SimpleCheck env).1 = true := by
      cases h : (mnb.SimpleCheck env).1 with
      | true => rfl
      | false => exact absurd h hok
    have hc := SimpleCheck_eq env mnb hok1
    have hvin : (mnb.SimpleCheck env).2.2.vin = mnb.vin := by rw [hc]
    have hkey : (mnb.SimpleCheck env).2.2.pubKeyZeronode = mnb.pubKeyZeronode := by rw [hc]
    have hent : (mnb.SimpleCheck env).2.2.toCZeronode =
        { mnb.toCZeronode with nActiveState :=
            if mnb.lastPing.isNull = true ∨ (mnb.lastPing.SimpleCheck env).1 = false then
              ZERONODE_EXPIRED
            else mnb.nActiveState } := by rw [hc]
    have hfind : CZeronodeMan.Find
        { w.mnodeman with
          mapSeenZeronodeBroadcast :=
            mapInsert w.mnodeman.mapSeenZeronodeBroadcast (mnb.toCZeronode.GetHash env)
              (env.nTime, mnb) } (mnb.SimpleCheck env).2.2.vin = none := by
      rw [hvin]
      exact hnew
    simp only [hfind] at hret
    have h := checkOutpointAndAdd_new env depth (mnb.SimpleCheck env).2.2
      (mnb.SimpleCheck env).2.1 _ r (by rw [hvin]; exact hnew) hret htrue
    rw [hvin, hkey, hent] at h
    exact h

/-- C14 amended, evaluated on the announce of the counterexample: one entry for the
outpoint, and the registry is the announce alone. -/
theorem C14_accept_new_announce_witness :
    (outpoints ((CheckMnbAndUpdateZeronodeList
        (ManageState { nAdjustedTime := 1000000, nChainHeight := 100
                       utxoHeight := fun _ => 86, mapBlockIndex := fun _ => some 86 } 2)
        { nAdjustedTime := 1000000, nChainHeight := 100
          utxoHeight := fun _ => 86, mapBlockIndex := fun _ => some 86 } none
        { vin := ⟨⟨[7], 0⟩, [], 0⟩, addr := ⟨[1, 2, 3, 4], 8168⟩, nProtocolVersion := 90024
          sigTime := 1000000
          pubKeyCollateralAddress := List.replicate 25 1
          pubKeyZeronode := List.replicate 25 2
          lastPing := { vin := ⟨⟨[7], 0⟩, [], 0⟩, blockHash := [9], sigTime := 1000000 } }
        {}).get (by decide)).2.2.mnodeman.vZeronodes).count ⟨[7], 0⟩ = 1 :=
  (C14_accept_new_announce
    { nAdjustedTime := 1000000, nChainHeight := 100
      utxoHeight := fun _ => 86, mapBlockIndex := fun _ => some 86 } 2 none
    { vin := ⟨⟨[7], 0⟩, [], 0⟩, addr := ⟨[1, 2, 3, 4], 8168⟩, nProtocolVersion := 90024
      sigTime := 1000000
      pubKeyCollateralAddress := List.replicate 25 1
      pubKeyZeronode := List.replicate 25 2
      lastPing := { vin := ⟨⟨[7], 0⟩, [], 0⟩, blockHash := [9], sigTime := 1000000 } }
    {} _ (by decide) (Or.inr (by decide)) (Option.some_get _).symm (by decide)).1

/-! ### The hash of an announce -/

/-- C20 as stated fails: two announces that differ in address (and could differ in
service key, signature, protocol version or ping as well) serialise differently (their
second serialised member differs), yet `GetHash` writes the same members for both. With a hash that tells different inputs
apart (here: the signing time plus the first byte of the collateral key), the first is
accepted and stored, and the second is answered from the seen-cache: the entry keeps
the address of the first. -/
theorem C20_GetHash_counterexample :
    ({ vin := ⟨⟨[7], 0⟩, [], 0⟩, addr := ⟨[1, 2, 3, 4], 8168⟩, nProtocolVersion := 90024
       pubKeyCollateralAddress := List.replicate 25 1
       pubKeyZeronode := List.replicate 25 2 } : CZeronodeBroadcast).serialized.2.1 ≠
      ({ vin := ⟨⟨[7], 0⟩, [], 0⟩, addr := ⟨[5, 6, 7, 8], 8168⟩, nProtocolVersion := 90024
         pubKeyCollateralAddress := List.replicate 25 1
         pubKeyZeronode := List.replicate 25 2 } : CZeronodeBroadcast).serialized.2.1 ∧
    ({ vin := ⟨⟨[7], 0⟩, [], 0⟩, addr := ⟨[1, 2, 3, 4], 8168⟩, nProtocolVersion := 90024
       pubKeyCollateralAddress := List.replicate 25 1
       pubKeyZeronode := List.replicate 25 2 } : CZeronodeBroadcast).hashed =
      ({ vin := ⟨⟨[7], 0⟩, [], 0⟩, addr := ⟨[5, 6, 7, 8], 8168⟩, nProtocolVersion := 90024
         pubKeyCollateralAddress := List.replicate 25 1
         pubKeyZeronode := List.replicate 25 2 } : CZeronodeBroadcast).hashed ∧
    (CheckMnbAndUpdateZeronodeList
        (ManageState { nChainHeight := 100, HashBroadcast := fun _ k t => [t.toNat, k.headD 0] } 2)
        { nChainHeight := 100, HashBroadcast := fun _ k t => [t.toNat, k.headD 0] } none
        { vin := ⟨⟨[7], 0⟩, [], 0⟩, addr := ⟨[1, 2, 3, 4], 8168⟩, nProtocolVersion := 90024
          pubKeyCollateralAddress := List.replicate 25 1
          pubKeyZeronode := List.replicate 25 2 } {}).bind
      (fun r1 =>
        (CheckMnbAndUpdateZeronodeList
          (ManageState { nChainHeight := 100, HashBroadcast := fun _ k t => [t.toNat, k.headD 0] } 2)
          { nChainHeight := 100, HashBroadcast := fun _ k t => [t.toNat, k.headD 0] } none
          { vin := ⟨⟨[7], 0⟩, [], 0⟩, addr := ⟨[5, 6, 7, 8], 8168⟩, nProtocolVersion := 90024
            pubKeyCollateralAddress := List.replicate 25 1
            pubKeyZeronode := List.replicate 25 2 } r1.2.2).map
        (fun r2 => (r1.1, r2.1, r2.2.2.mnodeman.vZeronodes.map (fun e => e.addr)))) =
      some (true, true, [⟨[1, 2, 3, 4], 8168⟩]) := by
  decide

/-- C20 amended: `CZeronodeBroadcast::GetHash` is computed over `vin`,
`pubKeyCollateralAddress` and `sigTime` only. Two announces are hashed over the same
input exactly when they agree in these three members; then their hashes are equal
whatever their address, service key, signature, protocol version and ping are, and
when one of them is in the seen-cache, the other (not a recovery announce) is answered
`true` from the cache by `CheckMnbAndUpdateZeronodeList` as an already-seen copy. -/
theorem C20_GetHash_members (env : Env) (a b : CZeronodeBroadcast) :
    (a.hashed = b.hashed ↔
      a.vin = b.vin ∧ a.pubKeyCollateralAddress = b.pubKeyCollateralAddress ∧
        a.sigTime = b.sigTime) ∧
    a.toCZeronode.GetHash env = env.HashBroadcast a.hashed.1 a.hashed.2.1 a.hashed.2.2 ∧
    (a.hashed = b.hashed →
      a.toCZeronode.GetHash env = b.toCZeronode.GetHash env ∧
      ∀ (ManageState : World → Option World) (pfrom : Option CNode) (w : World)
        (seen : Int × CZeronodeBroadcast),
        b.fRecovery = false →
        mapFind w.mnodeman.mapSeenZeronodeBroadcast (a.toCZeronode.GetHash env) = some seen →
        CheckMnbAndUpdateZeronodeList ManageState env pfrom b w =
          some (true, 0, seenBroadcast env pfrom b (a.toCZeronode.GetHash env) seen w)) := by
  refine ⟨?_, rfl, ?_⟩
  · unfold CZeronodeBroadcast.hashed
    simp only [Prod.mk.injEq]
  · intro h
    have hh : a.toCZeronode.GetHash env = b.toCZeronode.GetHash env := by
      unfold CZeronodeBroadcast.hashed at h
      simp only [Prod.mk.injEq] at h
      obtain ⟨h1, h2, h3⟩ := h
      unfold CZeronode.GetHash
      rw [h1, h2, h3]
    refine ⟨hh, ?_⟩
    intro ManageState pfrom w seen hrec hseen
    unfold CheckMnbAndUpdateZeronodeList
    simp only [hrec, if_true, ← hh, hseen]

/-- C20 amended, evaluated: the two announces of the counterexample get the same
hash. -/
theorem C20_GetHash_members_witness :
    CZeronode.GetHash { nChainHeight := 100, HashBroadcast := fun _ k t => [t.toNat, k.headD 0] }
        ({ vin := ⟨⟨[7], 0⟩, [], 0⟩, addr := ⟨[1, 2, 3, 4], 8168⟩
           pubKeyCollateralAddress := List.replicate 25 1 } :
          CZeronodeBroadcast).toCZeronode =
      CZeronode.GetHash { nChainHeight := 100, HashBroadcast := fun _ k t => [t.toNat, k.headD 0] }
        ({ vin := ⟨⟨[7], 0⟩, [], 0⟩, addr := ⟨[5, 6, 7, 8], 8168⟩
           pubKeyCollateralAddress := List.replicate 25 1 } :
          CZeronodeBroadcast).toCZeronode :=
  ((C20_GetHash_members { nChainHeight := 100, HashBroadcast := fun _ k t => [t.toNat, k.headD 0] }
    { vin := ⟨⟨[7], 0⟩, [], 0⟩, addr := ⟨[1, 2, 3, 4], 8168⟩
      pubKeyCollateralAddress := List.replicate 25 1 }
    { vin := ⟨⟨[7], 0⟩, [], 0⟩, addr := ⟨[5, 6, 7, 8], 8168⟩
      pubKeyCollateralAddress := List.replicate 25 1 }).2.2 (by decide)).1

/-! ### Proof-of-service verification -/

/-- C15, evaluated at the failing input: the registry holds the verified node (address
`1.2.3.4:8168`), the auditor and a third node on the address of the first. A broadcast
whose two signatures both FAIL `VerifyMessage` lowers the score of the verified node,
raises that of the third node and is relayed; the same broadcast with both signatures
valid is dropped and changes nothing. The tuples list the three scores and the number
of relayed items. -/
theorem C15_ProcessVerifyBroadcast_inverted :
    (ProcessVerifyBroadcast
        { VerifyMessage := fun _ _ _ => false, GetBlockHash := fun _ => some [5] }
        { vin1 := ⟨⟨[1], 0⟩, [], 0⟩, vin2 := ⟨⟨[2], 0⟩, [], 0⟩, addr := ⟨[1, 2, 3, 4], 8168⟩
          nonce := 77, nBlockHeight := 99, vchSig1 := [0], vchSig2 := [0] }
        { mnodeman := { pCurrentBlockIndex := some 100, vZeronodes := [
            { vin := ⟨⟨[1], 0⟩, [], 0⟩, addr := ⟨[1, 2, 3, 4], 8168⟩, nProtocolVersion := 90024 },
            { vin := ⟨⟨[2], 0⟩, [], 0⟩, addr := ⟨[9, 9, 9, 9], 8168⟩, nProtocolVersion := 90024 },
            { vin := ⟨⟨[3], 0⟩, [], 0⟩, addr := ⟨[1, 2, 3, 4], 8168⟩,
              nProtocolVersion := 90024 }] } }).map
      (fun r => (r.1.mnodeman.vZeronodes.map (fun e => e.nPoSeBanScore), r.1.vRelayed.length)) =
      some ([-1, 0, 1], 1) ∧
    (ProcessVerifyBroadcast
        { VerifyMessage := fun _ _ _ => true, GetBlockHash := fun _ => some [5] }
        { vin1 := ⟨⟨[1], 0⟩, [], 0⟩, vin2 := ⟨⟨[2], 0⟩, [], 0⟩, addr := ⟨[1, 2, 3, 4], 8168⟩
          nonce := 77, nBlockHeight := 99, vchSig1 := [0], vchSig2 := [0] }
        { mnodeman := { pCurrentBlockIndex := some 100, vZeronodes := [
            { vin := ⟨⟨[1], 0⟩, [], 0⟩, addr := ⟨[1, 2, 3, 4], 8168⟩, nProtocolVersion := 90024 },
            { vin := ⟨⟨[2], 0⟩, [], 0⟩, addr := ⟨[9, 9, 9, 9], 8168⟩, nProtocolVersion := 90024 },
            { vin := ⟨⟨[3], 0⟩, [], 0⟩, addr := ⟨[1, 2, 3, 4], 8168⟩,
              nProtocolVersion := 90024 }] } }).map
      (fun r => (r.1.mnodeman.vZeronodes.map (fun e => e.nPoSeBanScore), r.1.vRelayed.length)) =
      some ([0, 0, 0], 0) := by
  decide
/-- A verification broadcast whose signatures pass `VerifyMessage` never changes an
entry and is never relayed by `ProcessVerifyBroadcast`. -/
theorem ProcessVerifyBroadcast_valid_dropped (env : Env) (mnv : CZeronodeVerification)
    (w : World) (r : World × List Int)
    (hvalid : ∀ (k : CPubKey) (sig : List Nat) (m : SignedMessage),
      env.VerifyMessage k sig m = true)
    (hr : ProcessVerifyBroadcast env mnv w = some r) :
    r.1.mnodeman.vZeronodes = w.mnodeman.vZeronodes ∧ r.1.vRelayed = w.vRelayed := by
  unfold ProcessVerifyBroadcast at hr
  simp only [hvalid, if_true] at hr
  repeat' (first
    | (simp only [Option.some.injEq] at hr
       subst hr
       exact ⟨rfl, rfl⟩)
    | exact Option.noConfusion hr
    | split at hr)

/-! ### Duplicate addresses -/

/-- C16, evaluated at the failing input: three `ENABLED` entries share the address
`1.2.3.4:8168` and one of them is PoSe-verified (score `-5`). When the sorted vector
lists the verified entry last, `CheckSameAddr` raises the score of the entry right
before it only, and the first entry keeps its score 0; when it lists the verified entry
first, both other entries are raised. -/
theorem C16_CheckSameAddr_misses_entries :
    ((CheckSameAddr [0, 1, 2]
        { zeronodeSync := { nRequestedZeronodeAssets := 999 }
          mnodeman := { vZeronodes := [
            { vin := ⟨⟨[1], 0⟩, [], 0⟩, addr := ⟨[1, 2, 3, 4], 8168⟩ },
            { vin := ⟨⟨[2], 0⟩, [], 0⟩, addr := ⟨[1, 2, 3, 4], 8168⟩ },
            { vin := ⟨⟨[3], 0⟩, [], 0⟩, addr := ⟨[1, 2, 3, 4], 8168⟩
              nPoSeBanScore := -5 }] } }).mnodeman.vZeronodes.map
      (fun e => e.nPoSeBanScore)) = [0, 1, -5] ∧
    ((CheckSameAddr [2, 0, 1]
        { zeronodeSync := { nRequestedZeronodeAssets := 999 }
          mnodeman := { vZeronodes := [
            { vin := ⟨⟨[1], 0⟩, [], 0⟩, addr := ⟨[1, 2, 3, 4], 8168⟩ },
            { vin := ⟨⟨[2], 0⟩, [], 0⟩, addr := ⟨[1, 2, 3, 4], 8168⟩ },
            { vin := ⟨⟨[3], 0⟩, [], 0⟩, addr := ⟨[1, 2, 3, 4], 8168⟩
              nPoSeBanScore := -5 }] } }).mnodeman.vZeronodes.map
      (fun e => e.nPoSeBanScore)) = [1, 1, -5] := by
  decide

/-! ## Payment votes: the window of stored votes -/

theorem mem_mapSet {κ ν : Type} [DecidableEq κ] (m : List (κ × ν)) (k : κ) (v : ν)
    (e : κ × ν) (he : e ∈ mapSet m k v) : e ∈ m ∨ e = (k, v) := by
  induction m with
  | nil =>
      simp only [mapSet, List.mem_singleton] at he
      exact Or.inr he
  | cons a rest ih =>
      obtain ⟨k0, v0⟩ := a
      unfold mapSet at he
      split_ifs at he with h
      · rcases List.mem_cons.mp he with h1 | h1
        · right; rw [h1, h]
        · left; exact List.mem_cons_of_mem _ h1
      · rcases List.mem_cons.mp he with h1 | h1
        · left; rw [h1]; exact List.mem_cons_self _ _
        · rcases ih h1 with h2 | h2
          · left; exact List.mem_cons_of_mem _ h2
          · right; exact h2

theorem AskForMN_frame (env : Env) (pnode : Option CNode) (vin : CTxIn) (w : World) :
    (AskForMN env pnode vin w).mnpayments = w.mnpayments ∧
    (AskForMN env pnode vin w).mnodeman.vZeronodes = w.mnodeman.vZeronodes ∧
    (AskForMN env pnode vin w).vRelayed = w.vRelayed := by
  unfold AskForMN
  cases pnode with
  | none => exact ⟨rfl, rfl, rfl⟩
  | some node =>
      dsimp only
      split_ifs
      · exact ⟨rfl, rfl, rfl⟩
      · exact ⟨rfl, rfl, rfl⟩

theorem IsValid_frame (env : Env) (vote : CZeronodePaymentVote) (pnode : CNode)
    (nValidationHeight : Int) (w : World) :
    (vote.IsValid env pnode nValidationHeight w).2.1.mnpayments = w.mnpayments ∧
    (vote.IsValid env pnode nValidationHeight w).2.1.mnodeman.vZeronodes
      = w.mnodeman.vZeronodes ∧
    (vote.IsValid env pnode nValidationHeight w).2.1.vRelayed = w.vRelayed := by
  unfold CZeronodePaymentVote.IsValid
  split
  · dsimp only
    split_ifs
    · exact AskForMN_frame env _ _ w
    · exact ⟨rfl, rfl, rfl⟩
  · dsimp only
    split_ifs <;> exact ⟨rfl, rfl, rfl⟩

theorem AddPaymentVote_votes (env : Env) (pay : CZeronodePayments)
    (vote : CZeronodePaymentVote) :
    (pay.AddPaymentVote env vote).2.pCurrentBlockIndex = pay.pCurrentBlockIndex ∧
    ∀ e ∈ (pay.AddPaymentVote env vote).2.mapZeronodePaymentVotes,
      e ∈ pay.mapZeronodePaymentVotes ∨ e = (vote.GetHash env, vote) := by
  unfold CZeronodePayments.AddPaymentVote
  by_cases h1 : env.GetBlockHash (vote.nBlockHeight - 101) = none
  · rw [if_pos h1]; exact ⟨rfl, fun e he => Or.inl he⟩
  · rw [if_neg h1]
    by_cases h2 : pay.HasVerifiedPaymentVote (vote.GetHash env) = true
    · rw [if_pos h2]; exact ⟨rfl, fun e he => Or.inl he⟩
    · rw [if_neg h2]; exact ⟨rfl, fun e he => mem_mapSet _ _ _ e he⟩

theorem Relay_frame (env : Env) (vote : CZeronodePaymentVote) (w : World) :
    (vote.Relay env w).mnpayments = w.mnpayments ∧
    (vote.Relay env w).mnodeman = w.mnodeman := by
  unfold CZeronodePaymentVote.Relay World.RelayInv
  split_ifs <;> exact ⟨rfl, rfl⟩

theorem VoteStep.ask (env : Env) (vote : CZeronodePaymentVote) (pnode : Option CNode)
    (vin : CTxIn) (w : World) : VoteStep env vote w (AskForMN env pnode vin w) := by
  obtain ⟨ha1, ha2, -⟩ := AskForMN_frame env pnode vin w
  unfold VoteStep
  rw [ha1, ha2]
  exact ⟨rfl, rfl, fun e he => Or.inl he⟩

theorem addVoteAndRelay_votes (env : Env) (vote : CZeronodePaymentVote) (w : World) :
    VoteStep env vote w (addVoteAndRelay env vote w) := by
  obtain ⟨hp1, hp2⟩ := AddPaymentVote_votes env w.mnpayments vote
  unfold addVoteAndRelay VoteStep
  dsimp only
  split
  · obtain ⟨hr1, hr2⟩ := Relay_frame env vote
      { w with mnpayments := (w.mnpayments.AddPaymentVote env vote).2 }
    rw [hr1, hr2]
    exact ⟨hp1, rfl, hp2⟩
  · exact ⟨hp1, rfl, hp2⟩

theorem checkVoteSignature_votes (env : Env) (pfrom : CNode) (vote : CZeronodePaymentVote)
    (nHeight : Int) (w : World) :
    VoteStep env vote w (checkVoteSignature env pfrom vote nHeight w).1 := by
  unfold checkVoteSignature
  split
  · exact VoteStep.ask env vote _ _ w
  · dsimp only
    split
    · exact VoteStep.ask env vote _ _ w
    · exact addVoteAndRelay_votes env vote w

theorem processVoteInRange_votes (env : Env) (pfrom : CNode) (vote : CZeronodePaymentVote)
    (nHeight : Int) (w : World) :
    VoteStep env vote w (processVoteInRange env pfrom vote nHeight w).1 := by
  obtain ⟨hv1, hv2, -⟩ := IsValid_frame env vote pfrom nHeight w
  unfold processVoteInRange
  dsimp only
  split
  · unfold VoteStep
    rw [hv1, hv2]; exact ⟨rfl, rfl, fun e he => Or.inl he⟩
  · split
    · unfold VoteStep
      dsimp only
      rw [hv1, hv2]; exact ⟨rfl, rfl, fun e he => Or.inl he⟩
    · have h := checkVoteSignature_votes env pfrom vote nHeight
        { (vote.IsValid env pfrom nHeight w).2.1 with mnpayments :=
          { (vote.IsValid env pfrom nHeight w).2.1.mnpayments with mapZeronodesLastVote :=
            (CanVote (vote.IsValid env pfrom nHeight w).2.1.mnpayments.mapZeronodesLastVote
              vote.vinZeronode.prevout vote.nBlockHeight).2 } }
      unfold VoteStep at h ⊢
      dsimp only at h ⊢
      obtain ⟨h1, h2, h3⟩ := h
      refine ⟨h1.trans (by rw [hv1]), h2.trans hv2, fun e he => ?_⟩
      have h4 := h3 e he
      rw [hv1] at h4
      exact h4

/-- Claim C17, counterexample: at tip 10000 with storage limit 5000 and no stored vote, a
vote for height 20000 is handled; afterwards `mapZeronodePaymentVotes` holds it (with its
signature cleared), outside the window 5000..10020. -/
theorem C17_vote_window_counterexample :
    let env : Env := {}
    let w : World :=
      { zeronodeSync := { nRequestedZeronodeAssets := ZERONODE_SYNC_FINISHED }
        mnpayments := { pCurrentBlockIndex := some 10000 } }
    let vote : CZeronodePaymentVote := { nBlockHeight := 20000, payee := [7], vchSig := [1] }
    let r := CZeronodePayments.ProcessMessage env { nVersion := 90024 }
      (.ZERONODEPAYMENTVOTE vote) w
    (∀ e ∈ w.mnpayments.mapZeronodePaymentVotes,
      10000 - env.GetStorageLimit w.mnodeman.size ≤ e.2.nBlockHeight ∧
        e.2.nBlockHeight ≤ 10000 + 20) ∧
    r.1.mnpayments.mapZeronodePaymentVotes
      = [(vote.GetHash env, { vote with vchSig := [] })] ∧
    ¬ (∀ e ∈ r.1.mnpayments.mapZeronodePaymentVotes,
      10000 - env.GetStorageLimit r.1.mnodeman.size ≤ e.2.nBlockHeight ∧
        e.2.nBlockHeight ≤ 10000 + 20) := by
  decide

/-- Claim C17, amended: verified stored votes stay inside the window. If at tip height
`t` every stored vote with a signature has its height between `t - L` and `t + 20`, with
`L` the storage limit, then after `CZeronodePayments::ProcessMessage` has handled a
payment vote the same holds (tip and registry size are unchanged); a vote whose height is
outside the window changes neither `mapZeronodeBlocks` nor the relayed items, gets no
misbehaviour score, and is stored only as a copy marked not verified. -/
theorem C17_verified_votes_in_window (env : Env) (pfrom : CNode)
    (vote : CZeronodePaymentVote) (w : World) (t : Int)
    (ht : w.mnpayments.pCurrentBlockIndex = some t)
    (hinv : ∀ e ∈ w.mnpayments.mapZeronodePaymentVotes, e.2.IsVerified = true →
      t - env.GetStorageLimit w.mnodeman.size ≤ e.2.nBlockHeight ∧ e.2.nBlockHeight ≤ t + 20) :
    (CZeronodePayments.ProcessMessage env pfrom (.ZERONODEPAYMENTVOTE vote)
        w).1.mnpayments.pCurrentBlockIndex = some t ∧
    (CZeronodePayments.ProcessMessage env pfrom (.ZERONODEPAYMENTVOTE vote)
        w).1.mnodeman.size = w.mnodeman.size ∧
    (∀ e ∈ (CZeronodePayments.ProcessMessage env pfrom (.ZERONODEPAYMENTVOTE vote)
        w).1.mnpayments.mapZeronodePaymentVotes, e.2.IsVerified = true →
      t - env.GetStorageLimit w.mnodeman.size ≤ e.2.nBlockHeight ∧
        e.2.nBlockHeight ≤ t + 20) ∧
    ((vote.nBlockHeight < t - env.GetStorageLimit w.mnodeman.size ∨
        vote.nBlockHeight > t + 20) →
      (CZeronodePayments.ProcessMessage env pfrom (.ZERONODEPAYMENTVOTE vote)
          w).1.mnpayments.mapZeronodeBlocks = w.mnpayments.mapZeronodeBlocks ∧
      (CZeronodePayments.ProcessMessage env pfrom (.ZERONODEPAYMENTVOTE vote)
          w).1.vRelayed = w.vRelayed ∧
      (CZeronodePayments.ProcessMessage env pfrom (.ZERONODEPAYMENTVOTE vote) w).2 = [] ∧
      ∀ e ∈ (CZeronodePayments.ProcessMessage env pfrom (.ZERONODEPAYMENTVOTE vote)
          w).1.mnpayments.mapZeronodePaymentVotes,
        e ∈ w.mnpayments.mapZeronodePaymentVotes ∨
          e = (vote.GetHash env, vote.MarkAsNotVerified)) := by
  have hold : ∀ e ∈ w.mnpayments.mapZeronodePaymentVotes,
      e ∈ w.mnpayments.mapZeronodePaymentVotes ∨
        e = (vote.GetHash env, vote.MarkAsNotVerified) := fun e he => Or.inl he
  unfold CZeronodePayments.ProcessMessage
  split
  · exact ⟨ht, rfl, hinv, fun _ => ⟨rfl, rfl, rfl, hold⟩⟩
  split
  · exact ⟨ht, rfl, hinv, fun _ => ⟨rfl, rfl, rfl, hold⟩⟩
  dsimp only
  split
  · exact ⟨ht, rfl, hinv, fun _ => ⟨rfl, rfl, rfl, hold⟩⟩
  split
  · next hnone => rw [ht] at hnone; exact Option.noConfusion hnone
  next nHeight hsome =>
  have hn : t = nHeight := by
    rw [ht] at hsome; exact Option.some.inj hsome
  subst hn
  split
  · exact ⟨ht, rfl, hinv, fun _ => ⟨rfl, rfl, rfl, hold⟩⟩
  have hmark : ∀ e ∈ mapSet w.mnpayments.mapZeronodePaymentVotes (vote.GetHash env)
      vote.MarkAsNotVerified, e.2.IsVerified = true →
      t - env.GetStorageLimit w.mnodeman.size ≤ e.2.nBlockHeight ∧
        e.2.nBlockHeight ≤ t + 20 := by
    intro e he hver
    rcases mem_mapSet _ _ _ e he with h | h
    · exact hinv e h hver
    · rw [h] at hver
      exact absurd hver (by simp [CZeronodePaymentVote.IsVerified,
          CZeronodePaymentVote.MarkAsNotVerified])
  split
  · exact ⟨ht, rfl, hmark, fun _ => ⟨rfl, rfl, rfl, fun e he => mem_mapSet _ _ _ e he⟩⟩
  · next hwin =>
    obtain ⟨h1, h2, h3⟩ := processVoteInRange_votes env pfrom vote t
      { w with mnpayments := { w.mnpayments with
        mapZeronodePaymentVotes :=
          mapSet w.mnpayments.mapZeronodePaymentVotes (vote.GetHash env)
            vote.MarkAsNotVerified } }
    dsimp only at h1 h2 h3
    refine ⟨h1.trans ht, ?_, ?_, fun hout => absurd hout hwin⟩
    · unfold CZeronodeMan.size
      rw [h2]
    · intro e he hver
      rcases h3 e he with h | h
      · exact hmark e h hver
      · rw [h]
        dsimp only
        constructor
        · exact not_lt.mp (fun hlt => hwin (Or.inl hlt))
        · exact not_lt.mp (fun hlt => hwin (Or.inr hlt))

/-- Claim C17, witness: at tip 10000 with a verified vote for height 10005 stored, a
vote for height 20000 arrives. -/
theorem C17_verified_votes_in_window_witness :
    (CZeronodePayments.ProcessMessage {} { nVersion := 90024 }
        (.ZERONODEPAYMENTVOTE { nBlockHeight := 20000, payee := [7], vchSig := [1] })
        { zeronodeSync := { nRequestedZeronodeAssets := ZERONODE_SYNC_FINISHED }
          mnpayments := { pCurrentBlockIndex := some 10000
                          mapZeronodePaymentVotes :=
                            [([1], { nBlockHeight := 10005, vchSig := [2] })] } }
        ).1.mnpayments.pCurrentBlockIndex = some 10000 :=
  (C17_verified_votes_in_window {} { nVersion := 90024 }
    { nBlockHeight := 20000, payee := [7], vchSig := [1] }
    { zeronodeSync := { nRequestedZeronodeAssets := ZERONODE_SYNC_FINISHED }
      mnpayments := { pCurrentBlockIndex := some 10000
                      mapZeronodePaymentVotes :=
                        [([1], { nBlockHeight := 10005, vchSig := [2] })] } }
    10000 rfl (by decide)).1

/-! ## Misbehaviour scores -/

theorem pingSimpleCheck_nDos (env : Env) (p : CZeronodePing) :
    (p.SimpleCheck env).2 = 0 ∨ (p.SimpleCheck env).2 = 1 := by
  unfold CZeronodePing.SimpleCheck
  split_ifs
  · exact Or.inr rfl
  · exact Or.inl rfl
  · exact Or.inl rfl

theorem ite_cases {α : Type} (P : α → Prop) {c : Prop} [Decidable c] {a b : α}
    (ha : P a) (hb : P b) : P (if c then a else b) := by
  split
  · exact ha
  · exact hb

theorem storeAndCheck_nDos (env : Env) (p : CZeronodePing) (i : Nat) (mn : CZeronode)
    (w : World) : (p.storeAndCheck env i mn w).2.1 = 0 := by
  unfold CZeronodePing.storeAndCheck
  exact ite_cases (fun r : Bool × Int × World => r.2.1 = 0) rfl rfl

theorem CheckAndUpdate_nDos (env : Env) (p : CZeronodePing) (pmn : Option Nat)
    (fFromNewBroadcast : Bool) (w : World) :
    (p.CheckAndUpdate env pmn fFromNewBroadcast w).2.1 ∈ ([0, 1, 33] : List Int) := by
  unfold CZeronodePing.CheckAndUpdate
  split
  · rcases pingSimpleCheck_nDos env p with h | h <;> simp [h]
  · split
    · simp
    · split
      · simp
      · split
        · simp
        · split
          · simp
          · split
            · simp
            · split
              · simp
              · split
                · unfold CZeronodePing.CheckSignature
                  split <;> simp
                · rw [storeAndCheck_nDos]; simp

theorem mnbCheckSignature_nDos (env : Env) (mnb : CZeronodeBroadcast) :
    (mnb.CheckSignature env).2 = 0 ∨ (mnb.CheckSignature env).2 = 100 := by
  unfold CZeronodeBroadcast.CheckSignature
  split
  · exact Or.inl rfl
  · exact Or.inr rfl

theorem mnbSimpleCheck_nDos (env : Env) (mnb : CZeronodeBroadcast) :
    (mnb.SimpleCheck env).2.1 ∈ ([0, 1, 100] : List Int) := by
  unfold CZeronodeBroadcast.SimpleCheck
  split
  · simp
  · split
    · simp
    · have hr : ∀ r : Int × CZeronodeBroadcast,
          r = (if mnb.lastPing.isNull = true then
                (0, { mnb with nActiveState := ZERONODE_EXPIRED })
              else if (mnb.lastPing.SimpleCheck env).1 = false then
                ((mnb.lastPing.SimpleCheck env).2, { mnb with nActiveState := ZERONODE_EXPIRED })
              else ((mnb.lastPing.SimpleCheck env).2, mnb)) →
          r.1 = 0 ∨ r.1 = 1 := by
        intro r hr
        rw [hr]
        split
        · exact Or.inl rfl
        · split
          · exact pingSimpleCheck_nDos env _
          · exact pingSimpleCheck_nDos env _
      dsimp only
      generalize hg : (if mnb.lastPing.isNull = true then
                (0, { mnb with nActiveState := ZERONODE_EXPIRED })
              else if (mnb.lastPing.SimpleCheck env).1 = false then
                ((mnb.lastPing.SimpleCheck env).2, { mnb with nActiveState := ZERONODE_EXPIRED })
              else ((mnb.lastPing.SimpleCheck env).2, mnb) : Int × CZeronodeBroadcast) = r
      have h01 := hr r hg.symm
      split_ifs <;> rcases h01 with h | h <;> simp [h]
theorem Update_nDos (ManageState : World → Option World) (env : Env)
    (mnb : CZeronodeBroadcast) (i : Nat) (w : World) (r : Bool × Int × World)
    (h : mnb.Update ManageState env i w = some r) :
    r.2.1 ∈ ([0, 33, 100] : List Int) ∧ (r.1 = true → r.2.1 = 0) := by
  unfold CZeronodeBroadcast.Update at h
  repeat' (first
    | (simp only [Option.some.injEq] at h; subst h; simp; done)
    | (simp only [Option.some.injEq] at h; subst h
       rcases mnbCheckSignature_nDos env mnb with h1 | h1 <;> simp [h1])
    | exact Option.noConfusion h
    | split at h
    | dsimp only at h)

theorem CheckOutpoint_nDos (env : Env) (mnb : CZeronodeBroadcast) (nDos : Int) (w : World)
    (hn : nDos ∈ ([0, 1, 33, 100] : List Int)) :
    (mnb.CheckOutpoint env nDos w).2.1 ∈ ([0, 1, 33, 100] : List Int) := by
  unfold CZeronodeBroadcast.CheckOutpoint
  repeat' (first
    | exact hn
    | (simp; done)
    | (rcases mnbCheckSignature_nDos env mnb with h1 | h1 <;> simp [h1]; done)
    | split)

theorem checkOutpointAndAdd_nDos (ManageState : World → Option World) (env : Env)
    (mnb : CZeronodeBroadcast) (nDos : Int) (w : World) (r : Bool × Int × World)
    (hn : nDos ∈ ([0, 1, 33, 100] : List Int))
    (h : checkOutpointAndAdd ManageState env mnb nDos w = some r) :
    r.2.1 ∈ ([0, 1, 33, 100] : List Int) := by
  have hc := CheckOutpoint_nDos env mnb nDos w hn
  unfold checkOutpointAndAdd at h
  generalize mnb.CheckOutpoint env nDos w = c at h hc
  dsimp only at h
  repeat' (first
    | (simp only [Option.some.injEq] at h; subst h; exact hc)
    | exact Option.noConfusion h
    | split at h)

theorem CheckMnbAndUpdateZeronodeList_nDos (ManageState : World → Option World) (env : Env)
    (pfrom : Option CNode) (mnb : CZeronodeBroadcast) (w : World) (r : Bool × Int × World)
    (h : CheckMnbAndUpdateZeronodeList ManageState env pfrom mnb w = some r) :
    r.2.1 ∈ ([0, 1, 33, 100] : List Int) := by
  have hs := mnbSimpleCheck_nDos env mnb
  have hs4 : (mnb.SimpleCheck env).2.1 ∈ ([0, 1, 33, 100] : List Int) := by
    simp only [List.mem_cons, List.mem_singleton, List.not_mem_nil, or_false] at hs ⊢
    rcases hs with h1 | h1 | h1 <;> simp [h1]
  unfold CheckMnbAndUpdateZeronodeList at h
  dsimp only at h
  split at h
  · simp only [Option.some.injEq] at h; subst h; simp
  · split at h
    · simp only [Option.some.injEq] at h; subst h; exact hs4
    · split at h
      · exact checkOutpointAndAdd_nDos _ _ _ _ _ _ hs4 h
      · split at h
        · exact Option.noConfusion h
        · split at h
          · exact Option.noConfusion h
          · next nDos w3 hu =>
            have h3 := (Update_nDos _ _ _ _ _ _ hu).1
            simp only [Option.some.injEq] at h; subst h
            simp only [List.mem_cons, List.mem_singleton, List.not_mem_nil, or_false] at h3 ⊢
            rcases h3 with h1 | h1 | h1 <;> simp [h1]
          · next nDos w3 hu =>
            have h3 := (Update_nDos _ _ _ _ _ _ hu).1
            refine checkOutpointAndAdd_nDos _ _ _ _ _ _ ?_ h
            simp only [List.mem_cons, List.mem_singleton, List.not_mem_nil, or_false] at h3 ⊢
            rcases h3 with h1 | h1 | h1 <;> simp [h1]
theorem processMnannounce_scores (ManageState : World → Option World) (env : Env)
    (pfrom : CNode) (mnb : CZeronodeBroadcast) (w : World) (r : World × List Int)
    (h : processMnannounce ManageState env pfrom mnb w = some r) :
    ∀ s ∈ r.2, s ∈ ([1, 20, 33, 34, 100] : List Int) := by
  unfold processMnannounce at h
  split at h
  · exact Option.noConfusion h
  · next c hc =>
    have hn := CheckMnbAndUpdateZeronodeList_nDos _ _ _ _ _ _ hc
    simp only [Option.some.injEq] at h; subst h
    intro s hs
    dsimp only at hs
    split at hs
    · next hpos =>
      simp only [List.mem_singleton] at hs
      subst hs
      simp only [List.mem_cons, List.mem_singleton, List.not_mem_nil, or_false] at hn ⊢
      rcases hn with h1 | h1 | h1 | h1
      · rw [h1] at hpos; exact absurd hpos.2 (by decide)
      · exact Or.inl h1
      · exact Or.inr (Or.inr (Or.inl h1))
      · exact Or.inr (Or.inr (Or.inr (Or.inr h1)))
    · exact absurd hs (List.not_mem_nil s)

theorem processMnping_scores (env : Env) (pfrom : CNode) (mnp : CZeronodePing) (w : World) :
    ∀ s ∈ (processMnping env pfrom mnp w).2, s ∈ ([1, 20, 33, 34, 100] : List Int) := by
  intro s hs
  unfold processMnping at hs
  dsimp only at hs
  split at hs
  · exact absurd hs (List.not_mem_nil s)
  · split at hs
    · exact absurd hs (List.not_mem_nil s)
    · split at hs
      · exact absurd hs (List.not_mem_nil s)
      · split at hs
        · next hpos =>
          simp only [List.mem_singleton] at hs
          have hn : s ∈ ([0, 1, 33] : List Int) := by
            rw [hs]; exact CheckAndUpdate_nDos _ _ _ _ _
          rw [← hs] at hpos
          simp only [List.mem_cons, List.mem_singleton, List.not_mem_nil, or_false] at hn ⊢
          rcases hn with h1 | h1 | h1
          · rw [h1] at hpos; exact absurd hpos (by decide)
          · exact Or.inl h1
          · exact Or.inr (Or.inr (Or.inl h1))
        · split at hs
          · exact absurd hs (List.not_mem_nil s)
          · exact absurd hs (List.not_mem_nil s)

theorem processDseg_scores (env : Env) (pfrom : CNode) (vin : CTxIn) (w : World) :
    (processDseg env pfrom vin w).2 = [] ∨ (processDseg env pfrom vin w).2 = [34] := by
  unfold processDseg
  repeat' (first | exact Or.inl rfl | exact Or.inr rfl | split | dsimp only)

theorem SendVerifyReply_scores (env : Env) (pnode : CNode) (mnv : CZeronodeVerification)
    (w : World) :
    (SendVerifyReply env pnode mnv w).2 = [] ∨ (SendVerifyReply env pnode mnv w).2 = [20] := by
  unfold SendVerifyReply
  repeat' (first | exact Or.inl rfl | exact Or.inr rfl | split)

theorem ProcessVerifyReply_scores (env : Env) (pnode : CNode) (mnv : CZeronodeVerification)
    (w : World) (r : World × List Int) (h : ProcessVerifyReply env pnode mnv w = some r) :
    r.2 = [] ∨ r.2 = [20] := by
  unfold ProcessVerifyReply at h
  repeat' (first
    | (simp only [Option.some.injEq] at h; subst h; exact Or.inl rfl)
    | (simp only [Option.some.injEq] at h; subst h; exact Or.inr rfl)
    | exact Option.noConfusion h
    | split at h
    | dsimp only at h)

theorem ProcessVerifyBroadcast_scores (env : Env) (mnv : CZeronodeVerification)
    (w : World) (r : World × List Int) (h : ProcessVerifyBroadcast env mnv w = some r) :
    r.2 = [] ∨ r.2 = [100] := by
  unfold ProcessVerifyBroadcast at h
  repeat' (first
    | (simp only [Option.some.injEq] at h; subst h; exact Or.inl rfl)
    | (simp only [Option.some.injEq] at h; subst h; exact Or.inr rfl)
    | exact Option.noConfusion h
    | split at h
    | dsimp only at h)

theorem IsValid_scores (env : Env) (vote : CZeronodePaymentVote) (pnode : CNode)
    (nValidationHeight : Int) (w : World) :
    (vote.IsValid env pnode nValidationHeight w).2.2 = [] ∨
      (vote.IsValid env pnode nValidationHeight w).2.2 = [20] := by
  unfold CZeronodePaymentVote.IsValid
  repeat' (first | exact Or.inl rfl | exact Or.inr rfl | split | dsimp only)

theorem checkVoteSignature_scores (env : Env) (pfrom : CNode) (vote : CZeronodePaymentVote)
    (nHeight : Int) (w : World) :
    (checkVoteSignature env pfrom vote nHeight w).2 = [] ∨
      (checkVoteSignature env pfrom vote nHeight w).2 = [20] := by
  unfold checkVoteSignature
  split
  · exact Or.inl rfl
  · dsimp only
    split
    · unfold CZeronodePaymentVote.CheckSignature
      split
      · exact Or.inl rfl
      · split
        · exact Or.inr rfl
        · exact Or.inl rfl
    · exact Or.inl rfl

theorem processVoteInRange_scores (env : Env) (pfrom : CNode) (vote : CZeronodePaymentVote)
    (nHeight : Int) (w : World) :
    ∀ s ∈ (processVoteInRange env pfrom vote nHeight w).2, s = 20 := by
  have hv := IsValid_scores env vote pfrom nHeight w
  intro s hs
  unfold processVoteInRange at hs
  dsimp only at hs
  split at hs
  · rcases hv with h1 | h1 <;> rw [h1] at hs <;> simp at hs
    exact hs
  · split at hs
    · rcases hv with h1 | h1 <;> rw [h1] at hs <;> simp at hs
      exact hs
    · rcases List.mem_append.mp hs with h2 | h2
      · rcases hv with h1 | h1 <;> rw [h1] at h2 <;> simp at h2
        exact h2
      · have key : ∀ w2 : World,
            s ∈ (checkVoteSignature env pfrom vote nHeight w2).2 → s = 20 := by
          intro w2 hw
          rcases checkVoteSignature_scores env pfrom vote nHeight w2 with h1 | h1 <;>
            rw [h1] at hw <;> simp at hw
          exact hw
        exact key _ h2

theorem paymentsProcessMessage_scores (env : Env) (pfrom : CNode) (msg : PaymentsMessage)
    (w : World) : ∀ s ∈ (CZeronodePayments.ProcessMessage env pfrom msg w).2, s = 20 := by
  intro s hs
  unfold CZeronodePayments.ProcessMessage at hs
  repeat' (first
    | exact absurd hs (List.not_mem_nil s)
    | exact List.mem_singleton.mp hs
    | exact processVoteInRange_scores _ _ _ _ _ s hs
    | split at hs
    | dsimp only at hs)
/-- Claim C18, counterexample: a synced node on the main network is asked twice by the
same peer, which is not local, for the whole list (`DSEG` with an empty input) at time
1000. The first request is served without a score; the second one is scored 34, which
is none of 1, 20, 33, 100. -/
theorem C18_misbehaviour_scores_counterexample :
    ((CZeronodeMan.ProcessMessage
        (ManageState { nTime := 1000, pindexBestHeader := some (100, 0) } 2)
        { nTime := 1000, pindexBestHeader := some (100, 0) } { addr := ⟨[1, 2, 3, 4], 8168⟩ }
        (.DSEG CTxIn.null)
        { zeronodeSync := { nRequestedZeronodeAssets := ZERONODE_SYNC_FINISHED
                            pCurrentBlockIndex := some (100, 0)
                            fBlockchainSynced := true } }).bind
      (fun r1 =>
        (CZeronodeMan.ProcessMessage
          (ManageState { nTime := 1000, pindexBestHeader := some (100, 0) } 2)
          { nTime := 1000, pindexBestHeader := some (100, 0) } { addr := ⟨[1, 2, 3, 4], 8168⟩ }
          (.DSEG CTxIn.null) r1.1).map (fun r2 => (r1.2, r2.2))))
      = some ([], [34]) ∧
    (34 : Int) ∉ ([1, 20, 33, 100] : List Int) := by
  decide

/-- Claim C18, amended: every misbehaviour score that `CZeronodeMan::ProcessMessage`
(announces, pings, list requests, verifications) and `CZeronodePayments::ProcessMessage`
(payment sync requests and votes) assign to the peer is one of 1, 20, 33, 34 or 100;
34 is the score of a repeated request for the whole list. The payments handler assigns
only 20. Holds for any behaviour of the nested `ManageState` call. -/
theorem C18_misbehaviour_scores (ManageState : World → Option World) (env : Env)
    (pfrom : CNode) (w : World) :
    (∀ (msg : RegistryMessage) (r : World × List Int),
      CZeronodeMan.ProcessMessage ManageState env pfrom msg w = some r →
        ∀ s ∈ r.2, s ∈ ([1, 20, 33, 34, 100] : List Int)) ∧
    (∀ (msg : PaymentsMessage),
      ∀ s ∈ (CZeronodePayments.ProcessMessage env pfrom msg w).2,
        s ∈ ([1, 20, 33, 34, 100] : List Int)) := by
  constructor
  · intro msg r h s hs
    have hnil : ∀ l : List Int, (l = [] ∨ l = [20]) → s ∈ l →
        s ∈ ([1, 20, 33, 34, 100] : List Int) := by
      intro l hl hm
      rcases hl with h1 | h1 <;> rw [h1] at hm <;> simp at hm
      rw [hm]; simp
    unfold CZeronodeMan.ProcessMessage at h
    split at h
    · simp only [Option.some.injEq] at h; subst h; exact absurd hs (List.not_mem_nil s)
    · dsimp only at h
      split at h
      · simp only [Option.some.injEq] at h; subst h; exact absurd hs (List.not_mem_nil s)
      · split at h
        · exact processMnannounce_scores _ _ _ _ _ _ h s hs
        · simp only [Option.some.injEq] at h; subst h
          exact processMnping_scores _ _ _ _ s hs
        · simp only [Option.some.injEq] at h; subst h
          rcases processDseg_scores env pfrom _ _ with h1 | h1 <;> rw [h1] at hs <;>
            simp at hs
          rw [hs]; simp
        · split at h
          · simp only [Option.some.injEq] at h; subst h
            exact hnil _ (SendVerifyReply_scores _ _ _ _) hs
          · split at h
            · exact hnil _ (ProcessVerifyReply_scores _ _ _ _ _ h) hs
            · rcases ProcessVerifyBroadcast_scores _ _ _ _ h with h1 | h1 <;>
                rw [h1] at hs <;> simp at hs
              rw [hs]; simp
        · simp only [Option.some.injEq] at h; subst h; exact absurd hs (List.not_mem_nil s)
  · intro msg s hs
    rw [paymentsProcessMessage_scores env pfrom msg w s hs]
    simp

/-- Claim C18, witness: the second list request of the counterexample, from the world
that the first one leaves; its score 34 is in the amended set. -/
theorem C18_misbehaviour_scores_witness :
    ((CZeronodeMan.ProcessMessage
        (ManageState { nTime := 1000, pindexBestHeader := some (100, 0) } 2)
        { nTime := 1000, pindexBestHeader := some (100, 0) } { addr := ⟨[1, 2, 3, 4], 8168⟩ }
        (.DSEG CTxIn.null)
        { zeronodeSync := { nRequestedZeronodeAssets := ZERONODE_SYNC_FINISHED
                            pCurrentBlockIndex := some (100, 0)
                            fBlockchainSynced := true }
          mnodeman := { mAskedUsForZeronodeList := [([1, 2, 3, 4], 11800)] } }).get
        (by decide)).2 = [34] ∧
    (34 : Int) ∈ ([1, 20, 33, 34, 100] : List Int) :=
  ⟨by decide,
   (C18_misbehaviour_scores
      (ManageState { nTime := 1000, pindexBestHeader := some (100, 0) } 2)
      { nTime := 1000, pindexBestHeader := some (100, 0) } { addr := ⟨[1, 2, 3, 4], 8168⟩ }
      { zeronodeSync := { nRequestedZeronodeAssets := ZERONODE_SYNC_FINISHED
                          pCurrentBlockIndex := some (100, 0)
                          fBlockchainSynced := true }
        mnodeman := { mAskedUsForZeronodeList := [([1, 2, 3, 4], 11800)] } }).1
      (.DSEG CTxIn.null) _ (Option.some_get (by decide)).symm 34 (by decide)⟩

/-! ## Sync stages -/

/-- Claim C24: `SwitchToNextAsset` throws exactly when the stage is Failed, and then the
object is unchanged; otherwise the attempt counter is 0 afterwards, the stage identifier
is not lowered, each of Initial, Sporks, List, Votes moves to the next stage of
Initial, Sporks, List, Votes, Finished, and Finished (as every other identifier) stays. -/
theorem C24_SwitchToNextAsset (env : Env) (s : CZeronodeSync) :
    (s.nRequestedZeronodeAssets = ZERONODE_SYNC_FAILED →
      (s.SwitchToNextAsset env).1.isSome = true ∧ (s.SwitchToNextAsset env).2 = s) ∧
    (s.nRequestedZeronodeAssets ≠ ZERONODE_SYNC_FAILED →
      (s.SwitchToNextAsset env).1 = none ∧
      (s.SwitchToNextAsset env).2.nRequestedZeronodeAttempt = 0 ∧
      s.nRequestedZeronodeAssets ≤ (s.SwitchToNextAsset env).2.nRequestedZeronodeAssets ∧
      (s.nRequestedZeronodeAssets = ZERONODE_SYNC_INITIAL →
        (s.SwitchToNextAsset env).2.nRequestedZeronodeAssets = ZERONODE_SYNC_SPORKS) ∧
      (s.nRequestedZeronodeAssets = ZERONODE_SYNC_SPORKS →
        (s.SwitchToNextAsset env).2.nRequestedZeronodeAssets = ZERONODE_SYNC_LIST) ∧
      (s.nRequestedZeronodeAssets = ZERONODE_SYNC_LIST →
        (s.SwitchToNextAsset env).2.nRequestedZeronodeAssets = ZERONODE_SYNC_MNW) ∧
      (s.nRequestedZeronodeAssets = ZERONODE_SYNC_MNW →
        (s.SwitchToNextAsset env).2.nRequestedZeronodeAssets = ZERONODE_SYNC_FINISHED) ∧
      (s.nRequestedZeronodeAssets = ZERONODE_SYNC_FINISHED →
        (s.SwitchToNextAsset env).2.nRequestedZeronodeAssets = ZERONODE_SYNC_FINISHED) ∧
      ((s.nRequestedZeronodeAssets ≠ ZERONODE_SYNC_INITIAL ∧
        s.nRequestedZeronodeAssets ≠ ZERONODE_SYNC_SPORKS ∧
        s.nRequestedZeronodeAssets ≠ ZERONODE_SYNC_LIST ∧
        s.nRequestedZeronodeAssets ≠ ZERONODE_SYNC_MNW) →
        (s.SwitchToNextAsset env).2.nRequestedZeronodeAssets = s.nRequestedZeronodeAssets)) := by
  unfold CZeronodeSync.SwitchToNextAsset
  constructor
  · intro hf
    rw [if_pos hf]
    exact ⟨rfl, rfl⟩
  · intro hf
    rw [if_neg hf]
    refine ⟨rfl, rfl, ?_⟩
    dsimp only
    by_cases h0 : s.nRequestedZeronodeAssets = ZERONODE_SYNC_INITIAL
    · rw [if_pos h0]
      simp [h0, ZERONODE_SYNC_INITIAL, ZERONODE_SYNC_SPORKS, ZERONODE_SYNC_LIST,
        ZERONODE_SYNC_MNW, ZERONODE_SYNC_FINISHED]
    rw [if_neg h0]
    by_cases h1 : s.nRequestedZeronodeAssets = ZERONODE_SYNC_SPORKS
    · rw [if_pos h1]
      simp [h1, ZERONODE_SYNC_INITIAL, ZERONODE_SYNC_SPORKS, ZERONODE_SYNC_LIST,
        ZERONODE_SYNC_MNW, ZERONODE_SYNC_FINISHED]
    rw [if_neg h1]
    by_cases h2 : s.nRequestedZeronodeAssets = ZERONODE_SYNC_LIST
    · rw [if_pos h2]
      simp [h2, ZERONODE_SYNC_INITIAL, ZERONODE_SYNC_SPORKS, ZERONODE_SYNC_LIST,
        ZERONODE_SYNC_MNW, ZERONODE_SYNC_FINISHED]
    rw [if_neg h2]
    by_cases h3 : s.nRequestedZeronodeAssets = ZERONODE_SYNC_MNW
    · rw [if_pos h3]
      simp [h3, ZERONODE_SYNC_INITIAL, ZERONODE_SYNC_SPORKS, ZERONODE_SYNC_LIST,
        ZERONODE_SYNC_MNW, ZERONODE_SYNC_FINISHED]
    rw [if_neg h3]
    refine ⟨le_refl _, fun h => absurd h h0, fun h => absurd h h1, fun h => absurd h h2,
      fun h => absurd h h3, fun h => h, fun _ => rfl⟩

/-- Claim C24, witness: from stage List the method moves to Votes and does not throw. -/
theorem C24_SwitchToNextAsset_witness :
    (({ nRequestedZeronodeAssets := ZERONODE_SYNC_LIST, nRequestedZeronodeAttempt := 4 } :
        CZeronodeSync).SwitchToNextAsset {}).1 = none ∧
    (({ nRequestedZeronodeAssets := ZERONODE_SYNC_LIST, nRequestedZeronodeAttempt := 4 } :
        CZeronodeSync).SwitchToNextAsset {}).2.nRequestedZeronodeAttempt = 0 ∧
    (({ nRequestedZeronodeAssets := ZERONODE_SYNC_LIST, nRequestedZeronodeAttempt := 4 } :
        CZeronodeSync).SwitchToNextAsset {}).2.nRequestedZeronodeAssets = ZERONODE_SYNC_MNW :=
  have h := (C24_SwitchToNextAsset {}
    { nRequestedZeronodeAssets := ZERONODE_SYNC_LIST, nRequestedZeronodeAttempt := 4 }).2
      (by decide)
  ⟨h.1, h.2.1, h.2.2.2.2.2.1 rfl⟩

/-! ## The best payee of a block -/

theorem GetVoteCount_nonneg (p : CZeronodePayee) : 0 ≤ p.GetVoteCount := by
  unfold CZeronodePayee.GetVoteCount
  exact Int.natCast_nonneg _

theorem bestPayeeLoop_spec (l : List CZeronodePayee) :
    ∀ (pre : List CZeronodePayee) (acc : CScript × Int),
      ((pre = [] ∧ acc.2 = -1) ∨
        ∃ q, firstMaxBucket pre q ∧ acc = (q.GetPayee, q.GetVoteCount)) →
      ((pre ++ l = [] ∧ (bestPayeeLoop l acc).2 = -1) ∨
        ∃ q, firstMaxBucket (pre ++ l) q ∧
          bestPayeeLoop l acc = (q.GetPayee, q.GetVoteCount)) := by
  induction l with
  | nil =>
    intro pre acc h
    simp only [List.append_nil, bestPayeeLoop]
    exact h
  | cons p rest ih =>
    intro pre acc h
    obtain ⟨payeeRet, nVotes⟩ := acc
    have happ : pre ++ p :: rest = (pre ++ [p]) ++ rest := by simp
    rw [happ]
    unfold bestPayeeLoop
    have hp0 := GetVoteCount_nonneg p
    split
    · next hgt =>
      apply ih
      right
      refine ⟨p, ⟨pre, [], rfl, ?_, ?_⟩, rfl⟩
      · intro x hx
        rcases h with ⟨hnil, _⟩ | ⟨q, ⟨l1, l2, hl, h1, h2⟩, hacc⟩
        · rw [hnil] at hx; exact absurd hx (List.not_mem_nil x)
        · have hv : nVotes = q.GetVoteCount := congrArg Prod.snd hacc
          rw [hv] at hgt
          rw [hl] at hx
          rcases List.mem_append.mp hx with hx1 | hx1
          · exact lt_trans (h1 x hx1) hgt
          · rcases List.mem_cons.mp hx1 with hx2 | hx2
            · rw [hx2]; exact hgt
            · exact lt_of_le_of_lt (h2 x hx2) hgt
      · intro x hx; exact absurd hx (List.not_mem_nil x)
    · next hle =>
      apply ih
      right
      rcases h with ⟨_, hm⟩ | ⟨q, ⟨l1, l2, hl, h1, h2⟩, hacc⟩
      · exfalso
        simp only at hm
        rw [hm] at hle
        exact hle (lt_of_lt_of_le (by decide) hp0)
      · have hv : nVotes = q.GetVoteCount := congrArg Prod.snd hacc
        refine ⟨q, ⟨l1, l2 ++ [p], ?_, h1, ?_⟩, hacc⟩
        · rw [hl]; simp
        · intro x hx
          rcases List.mem_append.mp hx with hx1 | hx1
          · exact h2 x hx1
          · rw [List.mem_singleton.mp hx1, ← hv]
            exact not_lt.mp hle

/-- Claim C22: `GetBestPayee` answers `false` exactly when the block has no bucket;
otherwise it answers `true` with the payee of the first bucket that has the highest
vote count (no bucket has more votes, every bucket added before it has fewer). -/
theorem C22_GetBestPayee (bp : CZeronodeBlockPayees) :
    (bp.GetBestPayee = none ↔ bp.vecPayees = []) ∧
    (∀ payee, bp.GetBestPayee = some payee →
      ∃ q, firstMaxBucket bp.vecPayees q ∧ payee = q.GetPayee) := by
  have h := bestPayeeLoop_spec bp.vecPayees [] ([], -1) (Or.inl ⟨rfl, rfl⟩)
  simp only [List.nil_append] at h
  unfold CZeronodeBlockPayees.GetBestPayee
  by_cases hnil : bp.vecPayees = []
  · rw [hnil]
    simp
  · have hlen : ¬ bp.vecPayees.length = 0 := fun h0 => hnil (List.length_eq_zero.mp h0)
    rw [if_neg hlen]
    rcases h with ⟨h1, _⟩ | ⟨q, hq, hres⟩
    · exact absurd h1 hnil
    · dsimp only
      rw [hres]
      have hpos : q.GetVoteCount > -1 := lt_of_lt_of_le (by decide) (GetVoteCount_nonneg q)
      rw [if_pos hpos]
      constructor
      · constructor
        · intro hn; exact Option.noConfusion hn
        · intro hn; exact absurd hn hnil
      · intro payee hpay
        exact ⟨q, hq, (Option.some.inj hpay).symm⟩

/-- Claim C22, witness: three buckets with 1, 2 and 2 votes; the answer is the payee of
the second bucket, the first one with two votes. -/
theorem C22_GetBestPayee_witness :
    (⟨7, [⟨[1], [[1]]⟩, ⟨[2], [[2], [3]]⟩, ⟨[3], [[4], [5]]⟩]⟩ :
        CZeronodeBlockPayees).GetBestPayee = some [2] ∧
    ∃ q, firstMaxBucket [⟨[1], [[1]]⟩, ⟨[2], [[2], [3]]⟩, ⟨[3], [[4], [5]]⟩] q ∧
      ([2] : CScript) = q.GetPayee :=
  ⟨by decide,
   (C22_GetBestPayee ⟨7, [⟨[1], [[1]]⟩, ⟨[2], [[2], [3]]⟩, ⟨[3], [[4], [5]]⟩]⟩).2 [2]
     (by decide)⟩

/-! ## A locally filled block passes the payee check -/

theorem IsTransactionValid_of_paid (GetZeronodePayment : Int → CAmount → CAmount)
    (bp : CZeronodeBlockPayees) (tx : CTransaction) (q : CZeronodePayee)
    (hq : q ∈ bp.vecPayees) (hmax : ∀ p ∈ bp.vecPayees, p.GetVoteCount ≤ q.GetVoteCount)
    (hout : ∃ o ∈ tx.vout, q.GetPayee = o.scriptPubKey ∧
      GetZeronodePayment bp.nBlockHeight tx.GetValueOut = o.nValue) :
    bp.IsTransactionValid GetZeronodePayment tx = true := by
  unfold CZeronodeBlockPayees.IsTransactionValid
  simp only [MNPAYMENTS_SIGNATURES_REQUIRED]
  by_cases h6 : maxSignatures bp.vecPayees 0 < 6
  · simp only [h6, if_true]
  · simp only [h6, if_false]
    have hq6 : q.GetVoteCount ≥ 6 := by
      by_contra hlt
      apply h6
      refine (maxSignatures_lt _ _).2 ⟨by decide, fun p hp => ?_⟩
      exact lt_of_le_of_lt (hmax p hp) (not_le.mp hlt)
    have hfst := (scanPayees_fst (GetZeronodePayment bp.nBlockHeight tx.GetValueOut) tx.vout
      bp.vecPayees false).2 ⟨q, hq, hq6, (hasRequiredOutput_iff _ _ _).2 hout⟩
    cases hscan : scanPayees (GetZeronodePayment bp.nBlockHeight tx.GetValueOut) tx.vout
        bp.vecPayees false with
    | mk fst snd =>
      rw [hscan] at hfst
      simp only at hfst
      subst hfst
      rfl

theorem firstMaxBucket_mem (l : List CZeronodePayee) (q : CZeronodePayee)
    (h : firstMaxBucket l q) : q ∈ l ∧ ∀ p ∈ l, p.GetVoteCount ≤ q.GetVoteCount := by
  obtain ⟨l1, l2, hl, h1, h2⟩ := h
  subst hl
  refine ⟨by simp, fun p hp => ?_⟩
  rcases List.mem_append.mp hp with hp1 | hp1
  · exact le_of_lt (h1 p hp1)
  · rcases List.mem_cons.mp hp1 with hp2 | hp2
    · rw [hp2]
    · exact h2 p hp2

theorem GetBestPayee_firstMax (bp : CZeronodeBlockPayees) (hne : bp.vecPayees ≠ []) :
    ∃ q, firstMaxBucket bp.vecPayees q ∧ bp.GetBestPayee = some q.GetPayee := by
  have h := bestPayeeLoop_spec bp.vecPayees [] ([], -1) (Or.inl ⟨rfl, rfl⟩)
  simp only [List.nil_append] at h
  rcases h with ⟨h1, _⟩ | ⟨q, hq, hres⟩
  · exact absurd h1 hne
  · refine ⟨q, hq, ?_⟩
    unfold CZeronodeBlockPayees.GetBestPayee
    have hlen : ¬ bp.vecPayees.length = 0 := fun h0 => hne (List.length_eq_zero.mp h0)
    rw [if_neg hlen]
    dsimp only
    rw [hres]
    exact if_pos (lt_of_lt_of_le (by decide) (GetVoteCount_nonneg q))

/-- The only writer of `mapZeronodeBlocks`, `AddPaymentVote`, files every block-payee set
under its own height. -/
theorem AddPaymentVote_heights (env : Env) (pay : CZeronodePayments)
    (vote : CZeronodePaymentVote)
    (h : ∀ e ∈ pay.mapZeronodeBlocks, e.2.nBlockHeight = e.1) :
    ∀ e ∈ (pay.AddPaymentVote env vote).2.mapZeronodeBlocks, e.2.nBlockHeight = e.1 := by
  unfold CZeronodePayments.AddPaymentVote
  by_cases h1 : env.GetBlockHash (vote.nBlockHeight - 101) = none
  · rw [if_pos h1]; exact h
  rw [if_neg h1]
  by_cases h2 : pay.HasVerifiedPaymentVote (vote.GetHash env) = true
  · rw [if_pos h2]; exact h
  rw [if_neg h2]
  dsimp only
  have hb : ∀ e ∈ (if (mapFind pay.mapZeronodeBlocks vote.nBlockHeight).isSome = true then
        pay.mapZeronodeBlocks
      else mapSet pay.mapZeronodeBlocks vote.nBlockHeight ⟨vote.nBlockHeight, []⟩),
      e.2.nBlockHeight = e.1 := by
    intro e he
    split at he
    · exact h e he
    · rcases mem_mapSet _ _ _ e he with h3 | h3
      · exact h e h3
      · rw [h3]
  generalize (if (mapFind pay.mapZeronodeBlocks vote.nBlockHeight).isSome = true then
        pay.mapZeronodeBlocks
      else mapSet pay.mapZeronodeBlocks vote.nBlockHeight ⟨vote.nBlockHeight, []⟩) = blocks
    at hb ⊢
  intro e he
  split at he
  · next bp hbp =>
    rcases mem_mapSet _ _ _ e he with h3 | h3
    · exact hb e h3
    · rw [h3]
      have hmem : (vote.nBlockHeight, bp) ∈ blocks := by
        clear he h3 hb
        induction blocks with
        | nil => simp [mapFind] at hbp
        | cons a rest ih =>
          obtain ⟨k, v⟩ := a
          unfold mapFind at hbp
          split at hbp
          · next hk =>
            rw [← hk, ← Option.some.inj hbp]
            exact List.mem_cons_self _ _
          · exact List.mem_cons_of_mem _ (ih hbp)
      have := hb _ hmem
      unfold CZeronodeBlockPayees.AddPayee
      split <;> exact this
  · exact hb e he

/-- Claim C30: for a height `h` whose block-payee set `bp` (filed under its own height)
has a bucket, `FillBlockPayee(tx, h, amount)` gives `tx` with the one output
`(amount, best payee)` appended and leaves the world as it was, and the result passes
`CZeronodePayments::IsTransactionValid` at `h` whenever `amount` is
`GetZeronodePayment(h, value-out of the result)`. -/
theorem C30_FillBlockPayee_valid (GetZeronodePayment : Int → CAmount → CAmount)
    (env : Env) (w : World) (tx : CTransaction) (h : Int) (amount : CAmount)
    (bp : CZeronodeBlockPayees)
    (hbp : mapFind w.mnpayments.mapZeronodeBlocks h = some bp)
    (hkey : bp.nBlockHeight = h) (hne : bp.vecPayees ≠ []) :
    ∃ payee, bp.GetBestPayee = some payee ∧
      FillBlockPayee env w tx h amount =
        (⟨tx.vout ++ [⟨amount, payee⟩]⟩, ⟨amount, payee⟩, w) ∧
      (amount = GetZeronodePayment h (FillBlockPayee env w tx h amount).1.GetValueOut →
        paymentsIsTransactionValid GetZeronodePayment w.mnpayments.mapZeronodeBlocks
          (FillBlockPayee env w tx h amount).1 h = true) := by
  obtain ⟨q, hq, hbest⟩ := GetBestPayee_firstMax bp hne
  have hfill : FillBlockPayee env w tx h amount =
      (⟨tx.vout ++ [⟨amount, q.GetPayee⟩]⟩, ⟨amount, q.GetPayee⟩, w) := by
    unfold FillBlockPayee CZeronodePayments.GetBlockPayee
    rw [hbp]
    dsimp only
    rw [hbest]
  refine ⟨q.GetPayee, hbest, hfill, ?_⟩
  rw [hfill]
  intro hamount
  unfold paymentsIsTransactionValid
  rw [hbp]
  dsimp only
  obtain ⟨hmem, hmax⟩ := firstMaxBucket_mem _ _ hq
  refine IsTransactionValid_of_paid GetZeronodePayment bp _ q hmem hmax
    ⟨⟨amount, q.GetPayee⟩, by simp, rfl, ?_⟩
  rw [hkey]
  exact hamount.symm

/-- Claim C30, witness: height 7 with buckets of 1 and 6 votes, a transaction with one
output of value 10, the amount 5 and a payment rule that always asks for 5: the output
`(5, [2])` is appended and the result is accepted. -/
theorem C30_FillBlockPayee_valid_witness :
    ∃ payee,
      (⟨7, [⟨[1], [[1]]⟩, ⟨[2], [[2], [3], [4], [5], [6], [7]]⟩]⟩ :
        CZeronodeBlockPayees).GetBestPayee = some payee ∧
      FillBlockPayee {}
          { mnpayments := { mapZeronodeBlocks :=
              [(7, ⟨7, [⟨[1], [[1]]⟩, ⟨[2], [[2], [3], [4], [5], [6], [7]]⟩]⟩)] } }
          ⟨[⟨10, [9]⟩]⟩ 7 5 =
        (⟨[⟨10, [9]⟩] ++ [⟨5, payee⟩]⟩, ⟨5, payee⟩,
          { mnpayments := { mapZeronodeBlocks :=
              [(7, ⟨7, [⟨[1], [[1]]⟩, ⟨[2], [[2], [3], [4], [5], [6], [7]]⟩]⟩)] } }) ∧
      paymentsIsTransactionValid (fun _ _ => 5)
        [(7, ⟨7, [⟨[1], [[1]]⟩, ⟨[2], [[2], [3], [4], [5], [6], [7]]⟩]⟩)]
        (FillBlockPayee {}
          { mnpayments := { mapZeronodeBlocks :=
              [(7, ⟨7, [⟨[1], [[1]]⟩, ⟨[2], [[2], [3], [4], [5], [6], [7]]⟩]⟩)] } }
          ⟨[⟨10, [9]⟩]⟩ 7 5).1 7 = true :=
  (C30_FillBlockPayee_valid (fun _ _ => 5) {}
    { mnpayments := { mapZeronodeBlocks :=
        [(7, ⟨7, [⟨[1], [[1]]⟩, ⟨[2], [[2], [3], [4], [5], [6], [7]]⟩]⟩)] } }
    ⟨[⟨10, [9]⟩]⟩ 7 5 ⟨7, [⟨[1], [[1]]⟩, ⟨[2], [[2], [3], [4], [5], [6], [7]]⟩]⟩
    (by decide) rfl (by decide)).elim
    (fun payee h => ⟨payee, h.1, h.2.1, h.2.2 rfl⟩)

/-! ## The remote start of the local node -/

theorem CheckZeronodeByKey_active (env : Env) (w : World) (key : CPubKey) (fForce : Bool) :
    (w.CheckZeronodeByKey env key fForce).activeZeronode = w.activeZeronode := by
  unfold World.CheckZeronodeByKey
  split <;> rfl

theorem ManageStateRemote_cases (env : Env) (w1 : World) (key : CPubKey) (service : CService)
    (r : World)
    (hkey : w1.activeZeronode.pubKeyZeronode = key)
    (hservice : w1.activeZeronode.service = service)
    (hr : r =
      match findByPubKey w1.activeZeronode.pubKeyZeronode w1.mnodeman.vZeronodes 0 with
      | none => w1.setNotCapable .notInList
      | some i =>
        match w1.mnodeman.vZeronodes[i]? with
        | none => w1.setNotCapable .notInList
        | some infoMn =>
          if infoMn.nProtocolVersion ≠ env.PROTOCOL_VERSION then
            w1.setNotCapable .invalidProtocolVersion
          else if w1.activeZeronode.service ≠ infoMn.addr then
            w1.setNotCapable .addressMismatch
          else if IsValidStateForAutoStart infoMn.nActiveState = false then
            w1.setNotCapable (.inState infoMn.nActiveState)
          else if w1.activeZeronode.nState ≠ ACTIVE_ZERONODE_STARTED then
            { w1 with activeZeronode := { w1.activeZeronode with
              vin := infoMn.vin
              service := infoMn.addr
              fPingerEnabled := true
              nState := ACTIVE_ZERONODE_STARTED } }
          else w1) :
    (r.activeZeronode.nState = ACTIVE_ZERONODE_STARTED ↔
      ∃ mn, w1.mnodeman.FindPubKey key = some mn ∧
        mn.nProtocolVersion = env.PROTOCOL_VERSION ∧ mn.addr = service ∧
        IsValidStateForAutoStart mn.nActiveState = true) ∧
    (r.activeZeronode.nState ≠ ACTIVE_ZERONODE_STARTED →
      r.activeZeronode.nState = ACTIVE_ZERONODE_NOT_CAPABLE) ∧
    (w1.activeZeronode.nState ≠ ACTIVE_ZERONODE_STARTED →
      r.activeZeronode.nState = ACTIVE_ZERONODE_STARTED →
      r.activeZeronode.fPingerEnabled = true ∧
      ∃ mn, w1.mnodeman.FindPubKey key = some mn ∧ r.activeZeronode.vin = mn.vin) := by
  have hbad : ∀ reason, (w1.setNotCapable reason).activeZeronode.nState
      = ACTIVE_ZERONODE_STARTED → False := fun _ h => by
    have h34 : ACTIVE_ZERONODE_NOT_CAPABLE ≠ ACTIVE_ZERONODE_STARTED := by decide
    exact h34 h
  unfold CZeronodeMan.FindPubKey
  rw [hkey] at hr
  subst hservice
  cases hf : findByPubKey key w1.mnodeman.vZeronodes 0 with
  | none =>
    rw [hf] at hr
    dsimp only at hr
    subst hr
    simp only [Option.bind]
    exact ⟨⟨fun h => (hbad _ h).elim, fun ⟨_, h, _⟩ => Option.noConfusion h⟩,
      fun _ => rfl, fun _ h => (hbad _ h).elim⟩
  | some i =>
    rw [hf] at hr
    dsimp only at hr
    simp only [Option.bind]
    cases hg : w1.mnodeman.vZeronodes[i]? with
    | none =>
      rw [hg] at hr
      dsimp only at hr
      subst hr
      exact ⟨⟨fun h => (hbad _ h).elim, fun ⟨_, h, _⟩ => Option.noConfusion h⟩,
        fun _ => rfl, fun _ h => (hbad _ h).elim⟩
    | some infoMn =>
      rw [hg] at hr
      dsimp only at hr
      by_cases h1 : infoMn.nProtocolVersion ≠ env.PROTOCOL_VERSION
      · rw [if_pos h1] at hr
        subst hr
        refine ⟨⟨fun h => (hbad _ h).elim, fun ⟨mn, h, hp, _⟩ => ?_⟩,
          fun _ => rfl, fun _ h => (hbad _ h).elim⟩
        rw [← Option.some.inj h] at hp
        exact absurd hp h1
      rw [if_neg h1] at hr
      by_cases h2 : w1.activeZeronode.service ≠ infoMn.addr
      · rw [if_pos h2] at hr
        subst hr
        refine ⟨⟨fun h => (hbad _ h).elim, fun ⟨mn, h, _, ha, _⟩ => ?_⟩,
          fun _ => rfl, fun _ h => (hbad _ h).elim⟩
        rw [← Option.some.inj h] at ha
        exact absurd ha.symm h2
      rw [if_neg h2] at hr
      by_cases h3 : IsValidStateForAutoStart infoMn.nActiveState = false
      · rw [if_pos h3] at hr
        subst hr
        refine ⟨⟨fun h => (hbad _ h).elim, fun ⟨mn, h, _, _, hs⟩ => ?_⟩,
          fun _ => rfl, fun _ h => (hbad _ h).elim⟩
        rw [← Option.some.inj h, h3] at hs
        exact Bool.noConfusion hs
      rw [if_neg h3] at hr
      have hok : ∃ mn, some infoMn = some mn ∧
          mn.nProtocolVersion = env.PROTOCOL_VERSION ∧ mn.addr = w1.activeZeronode.service ∧
          IsValidStateForAutoStart mn.nActiveState = true :=
        ⟨infoMn, rfl, not_not.mp h1, (not_not.mp h2).symm, by
          cases hv : IsValidStateForAutoStart infoMn.nActiveState with
          | true => rfl
          | false => exact absurd hv h3⟩
      by_cases h4 : w1.activeZeronode.nState ≠ ACTIVE_ZERONODE_STARTED
      · rw [if_pos h4] at hr
        subst hr
        exact ⟨⟨fun _ => hok, fun _ => rfl⟩, fun h => absurd rfl h,
          fun _ _ => ⟨rfl, infoMn, rfl, rfl⟩⟩
      · rw [if_neg h4] at hr
        subst hr
        exact ⟨⟨fun _ => hok, fun _ => not_not.mp h4⟩, fun h => absurd (not_not.mp h4) h,
          fun h => absurd h h4⟩

theorem findByPubKey_first (key : CPubKey) (l : List CZeronode) (i : Nat) (mn : CZeronode) :
    ((findByPubKey key l i).bind (fun j => l[j - i]?) = some mn ↔
      ∃ l1 l2, l = l1 ++ mn :: l2 ∧ mn.pubKeyZeronode = key ∧
        ∀ x ∈ l1, x.pubKeyZeronode ≠ key) := by
  induction l generalizing i with
  | nil =>
    constructor
    · intro h
      exact Option.noConfusion h
    · rintro ⟨l1, l2, h, _⟩
      cases l1 <;> exact List.noConfusion h
  | cons a rest ih =>
    unfold findByPubKey
    by_cases ha : a.pubKeyZeronode = key
    · rw [if_pos ha]
      simp only [Option.some_bind, Nat.sub_self, List.getElem?_cons_zero, Option.some.injEq]
      constructor
      · intro h
        subst h
        exact ⟨[], rest, rfl, ha, fun _ hx => absurd hx (List.not_mem_nil _)⟩
      · rintro ⟨l1, l2, h, _, hall⟩
        cases l1 with
        | nil => exact (List.cons.inj h).1
        | cons b l1 =>
          have hb := (List.cons.inj h).1
          subst hb
          exact absurd ha (hall a (List.mem_cons_self _ _))
    · rw [if_neg ha]
      have hstep : (findByPubKey key rest (i + 1)).bind (fun j => (a :: rest)[j - i]?) =
          (findByPubKey key rest (i + 1)).bind (fun j => rest[j - (i + 1)]?) := by
        have hge : ∀ (l : List CZeronode) (s j : Nat), findByPubKey key l s = some j → s ≤ j := by
          intro l
          induction l with
          | nil => intro s j h; exact Option.noConfusion h
          | cons b l ihl =>
            intro s j h
            unfold findByPubKey at h
            by_cases hb : b.pubKeyZeronode = key
            · rw [if_pos hb] at h
              exact le_of_eq (Option.some.inj h)
            · rw [if_neg hb] at h
              exact Nat.le_of_succ_le (ihl (s + 1) j h)
        cases hf : findByPubKey key rest (i + 1) with
        | none => rfl
        | some j =>
          have hj := hge rest (i + 1) j hf
          simp only [Option.some_bind]
          have : j - i = (j - (i + 1)) + 1 := by omega
          rw [this, List.getElem?_cons_succ]
      rw [hstep, ih (i + 1)]
      constructor
      · rintro ⟨l1, l2, h, hk, hall⟩
        refine ⟨a :: l1, l2, by rw [h]; rfl, hk, fun x hx => ?_⟩
        rcases List.mem_cons.mp hx with hx | hx
        · rw [hx]; exact ha
        · exact hall x hx
      · rintro ⟨l1, l2, h, hk, hall⟩
        cases l1 with
        | nil =>
          have hb := (List.cons.inj h).1
          subst hb
          exact absurd hk ha
        | cons b l1 =>
          exact ⟨l1, l2, (List.cons.inj h).2, hk,
            fun x hx => hall x (List.mem_cons_of_mem _ hx)⟩

/-- The entry `CZeronodeMan::Find(const CPubKey&)` points to is the first entry of the
registry that carries the service key. -/
theorem FindPubKey_first (m : CZeronodeMan) (key : CPubKey) (mn : CZeronode) :
    (m.FindPubKey key = some mn ↔
      ∃ l1 l2, m.vZeronodes = l1 ++ mn :: l2 ∧ mn.pubKeyZeronode = key ∧
        ∀ x ∈ l1, x.pubKeyZeronode ≠ key) := by
  unfold CZeronodeMan.FindPubKey
  exact findByPubKey_first key m.vZeronodes 0 mn

/-- Claim C25, counterexample: two registry entries carry the local service key; the
first one was announced at another address, the second one has the protocol version of
the build, the local service address and state Enabled. The registry holds a matching
entry before and after `ManageStateRemote`, yet the lookup by key returns the first
entry and the local state is NotCapable. -/
theorem C25_ManageStateRemote_counterexample :
    (∃ mn ∈ (ManageStateRemote { nTime := 100, nAdjustedTime := 100 }
        { activeZeronode := { pubKeyZeronode := [5], service := ⟨[1, 2, 3, 4], 8168⟩ }
          mnodeman := { vZeronodes :=
            [{ vin := ⟨⟨[6], 0⟩, [], 0⟩, addr := ⟨[9, 9, 9, 9], 8168⟩, pubKeyZeronode := [5]
               nProtocolVersion := 90024, sigTime := 100
               lastPing := { vin := ⟨⟨[6], 0⟩, [], 0⟩, blockHash := [9], sigTime := 100 } },
             { vin := ⟨⟨[7], 0⟩, [], 0⟩, addr := ⟨[1, 2, 3, 4], 8168⟩, pubKeyZeronode := [5]
               nProtocolVersion := 90024, sigTime := 100
               lastPing := { vin := ⟨⟨[7], 0⟩, [], 0⟩, blockHash := [9], sigTime := 100 } }] }
        }).mnodeman.vZeronodes,
      mn.pubKeyZeronode = [5] ∧
      mn.nProtocolVersion = ({ nTime := 100, nAdjustedTime := 100 } : Env).PROTOCOL_VERSION ∧
      mn.addr = ⟨[1, 2, 3, 4], 8168⟩ ∧ mn.nActiveState = .ZERONODE_ENABLED) ∧
    (ManageStateRemote { nTime := 100, nAdjustedTime := 100 }
        { activeZeronode := { pubKeyZeronode := [5], service := ⟨[1, 2, 3, 4], 8168⟩ }
          mnodeman := { vZeronodes :=
            [{ vin := ⟨⟨[6], 0⟩, [], 0⟩, addr := ⟨[9, 9, 9, 9], 8168⟩, pubKeyZeronode := [5]
               nProtocolVersion := 90024, sigTime := 100
               lastPing := { vin := ⟨⟨[6], 0⟩, [], 0⟩, blockHash := [9], sigTime := 100 } },
             { vin := ⟨⟨[7], 0⟩, [], 0⟩, addr := ⟨[1, 2, 3, 4], 8168⟩, pubKeyZeronode := [5]
               nProtocolVersion := 90024, sigTime := 100
               lastPing := { vin := ⟨⟨[7], 0⟩, [], 0⟩, blockHash := [9], sigTime := 100 } }] }
        }).activeZeronode.nState = ACTIVE_ZERONODE_NOT_CAPABLE := by
  decide

/-- Claim C25, amended: after `ManageStateRemote` the local state is Started exactly when
the first registry entry that carries the local service key, the one
`CZeronodeMan::Find(const CPubKey&)` returns (the registry as the call leaves it, after
its `CheckZeronode`), has protocol version `PROTOCOL_VERSION`, the local service address
and a state valid for auto start; otherwise the state is NotCapable. A later entry with
the same key is not looked at. When the state was not Started before and is Started
after, the pinger is enabled and the local outpoint is that entry's. -/
theorem C25_ManageStateRemote (env : Env) (w : World) :
    ((ManageStateRemote env w).activeZeronode.nState = ACTIVE_ZERONODE_STARTED ↔
      ∃ mn, (ManageStateRemote env w).mnodeman.FindPubKey w.activeZeronode.pubKeyZeronode
          = some mn ∧
        mn.nProtocolVersion = env.PROTOCOL_VERSION ∧ mn.addr = w.activeZeronode.service ∧
        IsValidStateForAutoStart mn.nActiveState = true) ∧
    ((ManageStateRemote env w).activeZeronode.nState ≠ ACTIVE_ZERONODE_STARTED →
      (ManageStateRemote env w).activeZeronode.nState = ACTIVE_ZERONODE_NOT_CAPABLE) ∧
    (w.activeZeronode.nState ≠ ACTIVE_ZERONODE_STARTED →
      (ManageStateRemote env w).activeZeronode.nState = ACTIVE_ZERONODE_STARTED →
      (ManageStateRemote env w).activeZeronode.fPingerEnabled = true ∧
      ∃ mn, (ManageStateRemote env w).mnodeman.FindPubKey w.activeZeronode.pubKeyZeronode
          = some mn ∧
        (ManageStateRemote env w).activeZeronode.vin = mn.vin) := by
  have ha := CheckZeronodeByKey_active env w w.activeZeronode.pubKeyZeronode false
  have h := ManageStateRemote_cases env
    (w.CheckZeronodeByKey env w.activeZeronode.pubKeyZeronode false)
    w.activeZeronode.pubKeyZeronode w.activeZeronode.service (ManageStateRemote env w)
    (by rw [ha]) (by rw [ha]) rfl
  rw [ha] at h
  rw [ManageStateRemote_mnodeman]
  exact h

/-- Claim C25, witness: a registry with one Enabled entry for the local service key, at
the local address and with the protocol version of the build: the local node, in state
Initial before, is Started afterwards, with the pinger on and the entry's outpoint. -/
theorem C25_ManageStateRemote_witness :
    (ManageStateRemote { nTime := 100, nAdjustedTime := 100 }
      { activeZeronode := { pubKeyZeronode := [5], service := ⟨[1, 2, 3, 4], 8168⟩ }
        mnodeman := { vZeronodes :=
          [{ vin := ⟨⟨[7], 0⟩, [], 0⟩, addr := ⟨[1, 2, 3, 4], 8168⟩, pubKeyZeronode := [5]
             nProtocolVersion := 90024, sigTime := 100
             lastPing := { vin := ⟨⟨[7], 0⟩, [], 0⟩, blockHash := [9], sigTime := 100 } }] }
      }).activeZeronode.fPingerEnabled = true :=
  ((C25_ManageStateRemote { nTime := 100, nAdjustedTime := 100 }
      { activeZeronode := { pubKeyZeronode := [5], service := ⟨[1, 2, 3, 4], 8168⟩ }
        mnodeman := { vZeronodes :=
          [{ vin := ⟨⟨[7], 0⟩, [], 0⟩, addr := ⟨[1, 2, 3, 4], 8168⟩, pubKeyZeronode := [5]
             nProtocolVersion := 90024, sigTime := 100
             lastPing := { vin := ⟨⟨[7], 0⟩, [], 0⟩, blockHash := [9], sigTime := 100 } }] }
      }).2.2 (by decide) (by decide)).1

/-! ## The retry of the election -/

theorem lastPaidLoop_after_pass (env : Env) (pay : CZeronodePayments) (h : Int) (f : Bool)
    (n : Int) (l : List CZeronode) :
    lastPaidLoop env pay h false n (lastPaidLoop env pay h f n l).1 =
      lastPaidLoop env pay h false n l := by
  induction l with
  | nil => rfl
  | cons mn rest ih =>
    have h1 : (lastPaidLoop env pay h f n (mn :: rest)).1 =
        (GetNotQualifyReason env pay mn h f n).2 :: (lastPaidLoop env pay h f n rest).1 := by
      simp only [lastPaidLoop_fst, List.map_cons]
    rw [h1]
    unfold lastPaidLoop
    rw [GetNotQualifyReason_again]
    dsimp only
    rw [ih]

theorem queueForPaymentBody_false (retry retry' : World → Option CZeronode × Int × World)
    (env : Env) (w : World) (h : Int) :
    queueForPaymentBody retry env w h false = queueForPaymentBody retry' env w h false := by
  unfold queueForPaymentBody
  dsimp only
  rw [if_neg (fun hc => Bool.noConfusion hc.1), if_neg (fun hc => Bool.noConfusion hc.1)]

/-- Claim C26, counterexample: a registry of nine entries of which three are Enabled
(six are Expired), all with old enough collateral; two of the Enabled ones are too new
for the sig-time filter. With the filter the election has one candidate, fewer than
`9 / 3 = 3`, yet it does not retry (`1 < CountEnabled() / 3 = 1` is false): its
candidate count is 1, that of the call with the filter disabled is 3. -/
theorem C26_retry_counterexample :
    ((survivorPairs
        { nChainHeight := 1000, GetBlockHash := fun _ => some uint256.null
          GetInputAge := fun _ => 100
          fSigTimeTooNew := fun sigTime _ => decide (sigTime > 500) }
        { mnodeman := { vZeronodes := (List.range 9).map (fun k =>
            { vin := ⟨⟨txidOfByte (k + 1), 0⟩, [], 4294967295⟩, nProtocolVersion := 90024
              sigTime := if k = 0 then 100 else 1000
              nActiveState := if k < 3 then ZERONODE_ENABLED else ZERONODE_EXPIRED }) } }
        1000 true).length : Int) <
      ({ mnodeman := { vZeronodes := (List.range 9).map (fun k =>
          { vin := ⟨⟨txidOfByte (k + 1), 0⟩, [], 4294967295⟩, nProtocolVersion := 90024
            sigTime := if k = 0 then 100 else 1000
            nActiveState := if k < 3 then ZERONODE_ENABLED else ZERONODE_EXPIRED }) } } :
        World).mnodeman.size / 3 ∧
    (GetNextZeronodeInQueueForPayment
        { nChainHeight := 1000, GetBlockHash := fun _ => some uint256.null
          GetInputAge := fun _ => 100
          fSigTimeTooNew := fun sigTime _ => decide (sigTime > 500) }
        { mnodeman := { vZeronodes := (List.range 9).map (fun k =>
            { vin := ⟨⟨txidOfByte (k + 1), 0⟩, [], 4294967295⟩, nProtocolVersion := 90024
              sigTime := if k = 0 then 100 else 1000
              nActiveState := if k < 3 then ZERONODE_ENABLED else ZERONODE_EXPIRED }) } }
        1000 true).2.1 = 1 ∧
    (GetNextZeronodeInQueueForPayment
        { nChainHeight := 1000, GetBlockHash := fun _ => some uint256.null
          GetInputAge := fun _ => 100
          fSigTimeTooNew := fun sigTime _ => decide (sigTime > 500) }
        { mnodeman := { vZeronodes := (List.range 9).map (fun k =>
            { vin := ⟨⟨txidOfByte (k + 1), 0⟩, [], 4294967295⟩, nProtocolVersion := 90024
              sigTime := if k = 0 then 100 else 1000
              nActiveState := if k < 3 then ZERONODE_ENABLED else ZERONODE_EXPIRED }) } }
        1000 false).2.1 = 3 := by
  decide

/-- Claim C26, amended: when the sig-time filter leaves fewer candidates than a third
of `CountEnabled()` (the entries that are Enabled with at least the minimum payment
protocol), the call with the filter enabled gives what the call with the filter
disabled gives: winner, candidate count and registry afterwards. A call with the filter
disabled does not use its recursive call, whatever that would do, and the function is
the solution of the recursion of the source, in which the recursive call passes
`false`: the retry happens at most once. -/
theorem C26_retry_once (env : Env) (w : World) (h : Int) :
    (((survivorPairs env w h true).length : Int) < CountEnabled env w (-1) / 3 →
      GetNextZeronodeInQueueForPayment env w h true =
        GetNextZeronodeInQueueForPayment env w h false) ∧
    (∀ retry : World → Option CZeronode × Int × World,
      queueForPaymentBody retry env w h false =
        GetNextZeronodeInQueueForPayment env w h false) ∧
    (∀ f : Bool, GetNextZeronodeInQueueForPayment env w h f =
      queueForPaymentBody (fun w1 => GetNextZeronodeInQueueForPayment env w1 h false)
        env w h f) := by
  refine ⟨fun hfew => ?_, fun retry => ?_, fun f => ?_⟩
  · unfold GetNextZeronodeInQueueForPayment
    rw [queueForPaymentBody_retry _ env w h true ⟨rfl, hfew⟩]
    rw [queueForPaymentBody_false _ (fun w2 => (none, 0, w2)) env w h]
    unfold queueForPaymentBody
    dsimp only
    rw [CountEnabled_after_pass, lastPaidLoop_after_pass]
  · unfold GetNextZeronodeInQueueForPayment
    exact queueForPaymentBody_false _ _ env w h
  · unfold GetNextZeronodeInQueueForPayment
    cases f with
    | false => exact queueForPaymentBody_false _ _ env w h
    | true =>
      unfold queueForPaymentBody
      dsimp only
      split
      · rfl
      · rfl

/-- Claim C26, witness: three Enabled entries, all too new for the sig-time filter: the
filter leaves no candidate, `0 < 3 / 3`, and the election with the filter gives what the
election without it gives. -/
theorem C26_retry_once_witness :
    GetNextZeronodeInQueueForPayment
        { nChainHeight := 1000, GetBlockHash := fun _ => some uint256.null
          GetInputAge := fun _ => 100, fSigTimeTooNew := fun _ _ => true }
        { mnodeman := { vZeronodes := (List.range 3).map (fun k =>
            { vin := ⟨⟨txidOfByte (k + 1), 0⟩, [], 4294967295⟩
              nProtocolVersion := 90024 }) } }
        1000 true =
      GetNextZeronodeInQueueForPayment
        { nChainHeight := 1000, GetBlockHash := fun _ => some uint256.null
          GetInputAge := fun _ => 100, fSigTimeTooNew := fun _ _ => true }
        { mnodeman := { vZeronodes := (List.range 3).map (fun k =>
            { vin := ⟨⟨txidOfByte (k + 1), 0⟩, [], 4294967295⟩
              nProtocolVersion := 90024 }) } }
        1000 false :=
  (C26_retry_once
    { nChainHeight := 1000, GetBlockHash := fun _ => some uint256.null
      GetInputAge := fun _ => 100, fSigTimeTooNew := fun _ _ => true }
    { mnodeman := { vZeronodes := (List.range 3).map (fun k =>
        { vin := ⟨⟨txidOfByte (k + 1), 0⟩, [], 4294967295⟩
          nProtocolVersion := 90024 }) } }
    1000).1 (by decide)

/-! ## The rank of a voter -/

theorem rankLoop_range (vin : CTxIn) (l : List (Int × CZeronode)) (n : Int) :
    rankLoop vin l n = -1 ∨ (n < rankLoop vin l n ∧ rankLoop vin l n ≤ n + l.length) := by
  induction l generalizing n with
  | nil => exact Or.inl rfl
  | cons s rest ih =>
    unfold rankLoop
    split
    · right
      simp only [List.length_cons]
      constructor <;> push_cast <;> omega
    · rcases ih (n + 1) with h | ⟨h1, h2⟩
      · exact Or.inl h
      · right
        simp only [List.length_cons]
        constructor
        · omega
        · push_cast; omega

theorem GetZeronodeRank_range (env : Env) (w : World) (vin : CTxIn) (nBlockHeight : Int)
    (nMinProtocol : Int) (fOnlyActive : Bool) :
    GetZeronodeRank env w vin nBlockHeight nMinProtocol fOnlyActive = -1 ∨
      1 ≤ GetZeronodeRank env w vin nBlockHeight nMinProtocol fOnlyActive := by
  unfold GetZeronodeRank
  split
  · exact Or.inl rfl
  · dsimp only
    rcases rankLoop_range vin _ 0 with h | ⟨h1, _⟩
    · exact Or.inl h
    · exact Or.inr (by omega)

/-- Claim C23, counterexample: a node that is not a zeronode checks a vote for height 900
at validation height 1000. The voter is registered and its rank against the block hash
at height 799 is 20, above 10, yet `IsValid` answers `true`. -/
theorem C23_IsValid_rank_counterexample :
    (CZeronodePaymentVote.IsValid exampleEnv
        { vinZeronode := ⟨⟨txidOfByte 1, 0⟩, [], 4294967295⟩, nBlockHeight := 900 }
        {} 1000 exampleWorld).1 = true ∧
    GetZeronodeRank exampleEnv exampleWorld ⟨⟨txidOfByte 1, 0⟩, [], 4294967295⟩ (900 - 101)
      MIN_ZERONODE_PAYMENT_PROTO_VERSION_1 false = 20 := by
  decide

/-- Claim C23, amended: a vote for which `IsValid` answers `true` comes from a registered
voter with at least the required protocol; and when the checking node is a zeronode, or
the vote is for a height not below the validation height, the rank of the voter against
the block hash at `nBlockHeight - 101` is between 1 and 10. (A node that is not a
zeronode does not rank the voters of votes for older heights.) -/
theorem C23_IsValid_rank (env : Env) (vote : CZeronodePaymentVote) (pnode : CNode)
    (nValidationHeight : Int) (w : World)
    (htrue : (vote.IsValid env pnode nValidationHeight w).1 = true) :
    (∃ mn, (w.mnodeman.Find vote.vinZeronode).bind (fun i => w.mnodeman.vZeronodes[i]?)
        = some mn ∧
      (if vote.nBlockHeight ≥ nValidationHeight then GetMinZeronodePaymentsProto env
        else MIN_ZERONODE_PAYMENT_PROTO_VERSION_1) ≤ mn.nProtocolVersion) ∧
    ((env.fZNode = true ∨ vote.nBlockHeight ≥ nValidationHeight) →
      1 ≤ GetZeronodeRank env w vote.vinZeronode (vote.nBlockHeight - 101)
        (if vote.nBlockHeight ≥ nValidationHeight then GetMinZeronodePaymentsProto env
          else MIN_ZERONODE_PAYMENT_PROTO_VERSION_1) false ∧
      GetZeronodeRank env w vote.vinZeronode (vote.nBlockHeight - 101)
        (if vote.nBlockHeight ≥ nValidationHeight then GetMinZeronodePaymentsProto env
          else MIN_ZERONODE_PAYMENT_PROTO_VERSION_1) false ≤ MNPAYMENTS_SIGNATURES_TOTAL) := by
  unfold CZeronodePaymentVote.IsValid at htrue
  split at htrue
  · exact Bool.noConfusion htrue
  · next pmn hpmn =>
    dsimp only at htrue
    generalize (if vote.nBlockHeight ≥ nValidationHeight then GetMinZeronodePaymentsProto env
      else MIN_ZERONODE_PAYMENT_PROTO_VERSION_1) = P at htrue ⊢
    split at htrue
    · exact Bool.noConfusion htrue
    · next hproto =>
      refine ⟨⟨pmn, hpmn, not_lt.mp hproto⟩, fun hcase => ?_⟩
      split at htrue
      · next hskip =>
        exfalso
        rcases hcase with hz | hh
        · rw [hskip.1] at hz; exact Bool.noConfusion hz
        · exact absurd hskip.2 (not_lt.mpr hh)
      · split at htrue
        · exact Bool.noConfusion htrue
        · next hne =>
          split at htrue
          · split at htrue <;> exact Bool.noConfusion htrue
          · next hle =>
            rcases GetZeronodeRank_range env w vote.vinZeronode (vote.nBlockHeight - 101)
              P false with h1 | h1
            · exact absurd h1 hne
            · exact ⟨h1, not_lt.mp hle⟩

/-- Claim C23, witness: the vote of the counterexample checked by a zeronode: the voter
with the highest score has rank 1 and its vote is valid. -/
theorem C23_IsValid_rank_witness :
    1 ≤ GetZeronodeRank { exampleEnv with fZNode := true } exampleWorld
        ⟨⟨txidOfByte 20, 0⟩, [], 4294967295⟩ (900 - 101)
        (if (900 : Int) ≥ 1000 then GetMinZeronodePaymentsProto { exampleEnv with fZNode := true }
          else MIN_ZERONODE_PAYMENT_PROTO_VERSION_1) false ∧
    GetZeronodeRank { exampleEnv with fZNode := true } exampleWorld
        ⟨⟨txidOfByte 20, 0⟩, [], 4294967295⟩ (900 - 101)
        (if (900 : Int) ≥ 1000 then GetMinZeronodePaymentsProto { exampleEnv with fZNode := true }
          else MIN_ZERONODE_PAYMENT_PROTO_VERSION_1) false ≤ MNPAYMENTS_SIGNATURES_TOTAL :=
  (C23_IsValid_rank { exampleEnv with fZNode := true }
    { vinZeronode := ⟨⟨txidOfByte 20, 0⟩, [], 4294967295⟩, nBlockHeight := 900 }
    {} 1000 exampleWorld (by decide)).2 (Or.inl rfl)

/-! ## Rank and lookup by rank -/

theorem rankLoop_byRankLoop (vin : CTxIn) (l : List (Int × CZeronode)) (n : Int)
    (h : rankLoop vin l n ≠ -1) :
    ∃ s ∈ l, byRankLoop (rankLoop vin l n) l n = some s.2 ∧
      s.2.vin.prevout = vin.prevout := by
  induction l generalizing n with
  | nil => exact absurd rfl h
  | cons s rest ih =>
    unfold rankLoop at h ⊢
    split
    · next hs =>
      refine ⟨s, List.mem_cons_self _ _, ?_, hs⟩
      unfold byRankLoop
      exact if_pos rfl
    · next hs =>
      rw [if_neg hs] at h
      obtain ⟨s', hmem, hby, hout⟩ := ih (n + 1) h
      refine ⟨s', List.mem_cons_of_mem _ hmem, ?_, hout⟩
      unfold byRankLoop
      have hlt : n + 1 < rankLoop vin rest (n + 1) := by
        rcases rankLoop_range vin rest (n + 1) with h1 | ⟨h1, _⟩
        · exact absurd h1 h
        · exact h1
      rw [if_neg (ne_of_lt hlt)]
      exact hby

theorem rankLoop_found (vin : CTxIn) (l : List (Int × CZeronode)) (n : Int) (hn : 0 ≤ n)
    (h : ∃ s ∈ l, s.2.vin.prevout = vin.prevout) : rankLoop vin l n ≠ -1 := by
  induction l generalizing n with
  | nil =>
    obtain ⟨s, hs, _⟩ := h
    exact absurd hs (List.not_mem_nil s)
  | cons s rest ih =>
    unfold rankLoop
    split
    · omega
    · next hs =>
      apply ih (n + 1) (by omega)
      obtain ⟨s', hmem, hout⟩ := h
      rcases List.mem_cons.mp hmem with h1 | h1
      · rw [h1] at hout; exact absurd hout hs
      · exact ⟨s', h1, hout⟩

theorem filterMap_ite {α β : Type} (q : α → Bool) (f : α → β) (l : List α) :
    l.filterMap (fun a => if q a = true then some (f a) else none) = (l.filter q).map f := by
  induction l with
  | nil => rfl
  | cons a rest ih =>
    simp only [List.filterMap_cons, List.filter_cons]
    cases hq : q a with
    | true => simp only [if_true, List.map_cons, ih]
    | false => simp only [Bool.false_eq_true, if_false, ih]

theorem rankVector_eq (env : Env) (bh : uint256) (p : Int) (l : List CZeronode) :
    l.filterMap (fun mn =>
        if mn.nProtocolVersion < p then none
        else if true = true ∧ mn.IsEnabled = false then none
        else if true = false ∧ mn.IsValidForPayment = false then none
        else some (env.GetCompact (mn.CalculateScore env bh), mn)) =
      (l.filter (fun mn => decide (p ≤ mn.nProtocolVersion) && mn.IsEnabled)).map
        (fun mn => (env.GetCompact (mn.CalculateScore env bh), mn)) := by
  rw [← filterMap_ite]
  congr 1
  funext mn
  by_cases h1 : mn.nProtocolVersion < p
  · have h1' : ¬ p ≤ mn.nProtocolVersion := not_le.mpr h1
    simp [h1, h1']
  · have h1' : p ≤ mn.nProtocolVersion := not_lt.mp h1
    cases h2 : mn.IsEnabled <;> simp [h1, h1']

theorem byRankVector_eq (env : Env) (bh : uint256) (p : Int) (l : List CZeronode) :
    l.filterMap (fun mn =>
        if mn.nProtocolVersion < p then none
        else if true = true ∧ mn.IsEnabled = false then none
        else some (env.GetCompact (mn.CalculateScore env bh), mn)) =
      (l.filter (fun mn => decide (p ≤ mn.nProtocolVersion) && mn.IsEnabled)).map
        (fun mn => (env.GetCompact (mn.CalculateScore env bh), mn)) := by
  rw [← filterMap_ite]
  congr 1
  funext mn
  by_cases h1 : mn.nProtocolVersion < p
  · have h1' : ¬ p ≤ mn.nProtocolVersion := not_le.mpr h1
    simp [h1, h1']
  · have h1' : p ≤ mn.nProtocolVersion := not_lt.mp h1
    cases h2 : mn.IsEnabled <;> simp [h1, h1']

/-- Claim C29: if `GetZeronodeRank(vin, h, p, true)` gives a rank `r` other than `-1`,
then `r` lies between 1 and the number of eligible entries (Enabled, protocol at least
`p`), `GetZeronodeByRank(r, h, p, true)` gives a registry entry with the outpoint of
`vin`, and no other outpoint has the rank `r`; every eligible entry has a rank. So
eligible entries with distinct outpoints get distinct ranks. The outpoints of the
registry are pairwise distinct, which makes the sorted order of the scores the only
one. -/
theorem C29_rank_inverse (env : Env) (w : World) (vin : CTxIn) (h : Int) (p : Int)
    (_hdistinct : (outpoints w.mnodeman.vZeronodes).Nodup)
    (hr : GetZeronodeRank env w vin h p true ≠ -1) :
    1 ≤ GetZeronodeRank env w vin h p true ∧
    GetZeronodeRank env w vin h p true ≤
      ((w.mnodeman.vZeronodes.filter
        (fun mn => decide (p ≤ mn.nProtocolVersion) && mn.IsEnabled)).length : Int) ∧
    (∃ mn ∈ w.mnodeman.vZeronodes,
      GetZeronodeByRank env w (GetZeronodeRank env w vin h p true) h p true = some mn ∧
        mn.vin.prevout = vin.prevout) ∧
    (∀ vin' : CTxIn, GetZeronodeRank env w vin' h p true = GetZeronodeRank env w vin h p true →
      vin'.prevout = vin.prevout) ∧
    (∀ mn ∈ w.mnodeman.vZeronodes,
      (decide (p ≤ mn.nProtocolVersion) && mn.IsEnabled) = true →
        GetZeronodeRank env w mn.vin h p true ≠ -1) := by
  cases hbh : env.GetBlockHash h with
  | none =>
    exfalso
    apply hr
    unfold GetZeronodeRank
    rw [hbh]
  | some bh =>
    have hrank : ∀ v : CTxIn, GetZeronodeRank env w v h p true =
        rankLoop v (stdSort CompareScoreMN
          ((w.mnodeman.vZeronodes.filter
            (fun mn => decide (p ≤ mn.nProtocolVersion) && mn.IsEnabled)).map
            (fun mn => (env.GetCompact (mn.CalculateScore env bh), mn)))).reverse 0 := by
      intro v
      unfold GetZeronodeRank
      rw [hbh]
      dsimp only
      rw [rankVector_eq]
    have hby : ∀ r : Int, GetZeronodeByRank env w r h p true =
        byRankLoop r (stdSort CompareScoreMN
          ((w.mnodeman.vZeronodes.filter
            (fun mn => decide (p ≤ mn.nProtocolVersion) && mn.IsEnabled)).map
            (fun mn => (env.GetCompact (mn.CalculateScore env bh), mn)))).reverse 0 := by
      intro r
      unfold GetZeronodeByRank
      rw [hbh]
      dsimp only
      rw [byRankVector_eq]
    have hmem : ∀ s : Int × CZeronode,
        s ∈ (stdSort CompareScoreMN
          ((w.mnodeman.vZeronodes.filter
            (fun mn => decide (p ≤ mn.nProtocolVersion) && mn.IsEnabled)).map
            (fun mn => (env.GetCompact (mn.CalculateScore env bh), mn)))).reverse ↔
        s ∈ (w.mnodeman.vZeronodes.filter
            (fun mn => decide (p ≤ mn.nProtocolVersion) && mn.IsEnabled)).map
            (fun mn => (env.GetCompact (mn.CalculateScore env bh), mn)) := by
      intro s
      rw [List.mem_reverse]
      exact (stdSort_perm _ _).mem_iff
    have hlen : (stdSort CompareScoreMN
          ((w.mnodeman.vZeronodes.filter
            (fun mn => decide (p ≤ mn.nProtocolVersion) && mn.IsEnabled)).map
            (fun mn => (env.GetCompact (mn.CalculateScore env bh), mn)))).reverse.length =
        (w.mnodeman.vZeronodes.filter
          (fun mn => decide (p ≤ mn.nProtocolVersion) && mn.IsEnabled)).length := by
      rw [List.length_reverse, (stdSort_perm _ _).length_eq, List.length_map]
    simp only [hrank, hby] at hr ⊢
    generalize (stdSort CompareScoreMN
          ((w.mnodeman.vZeronodes.filter
            (fun mn => decide (p ≤ mn.nProtocolVersion) && mn.IsEnabled)).map
            (fun mn => (env.GetCompact (mn.CalculateScore env bh), mn)))).reverse = L
      at hr hmem hlen ⊢
    obtain ⟨s, hs, hsby, hsout⟩ := rankLoop_byRankLoop vin L 0 hr
    have hsreg : s.2 ∈ w.mnodeman.vZeronodes := by
      obtain ⟨mn, hmn, he⟩ := List.mem_map.mp ((hmem s).mp hs)
      rw [← he]
      exact (List.mem_filter.mp hmn).1
    refine ⟨?_, ?_, ⟨s.2, hsreg, hsby, hsout⟩, ?_, ?_⟩
    · rcases rankLoop_range vin L 0 with h1 | ⟨h1, _⟩
      · exact absurd h1 hr
      · omega
    · rcases rankLoop_range vin L 0 with h1 | ⟨_, h2⟩
      · exact absurd h1 hr
      · rw [← hlen]; omega
    · intro vin' heq
      have hr' : rankLoop vin' L 0 ≠ -1 := by rw [heq]; exact hr
      obtain ⟨s', _, hsby', hsout'⟩ := rankLoop_byRankLoop vin' L 0 hr'
      rw [heq, hsby] at hsby'
      rw [← hsout', ← Option.some.inj hsby']
      exact hsout
    · intro mn hmn helig
      apply rankLoop_found mn.vin L 0 (le_refl 0)
      refine ⟨(env.GetCompact (mn.CalculateScore env bh), mn), (hmem _).mpr ?_, rfl⟩
      exact List.mem_map.mpr ⟨mn, List.mem_filter.mpr ⟨hmn, helig⟩, rfl⟩

/-- Claim C29, witness: in the example registry the entry with the highest score has
rank 1, and the lookup of rank 1 gives an entry with its outpoint. -/
theorem C29_rank_inverse_witness :
    ∃ mn ∈ exampleWorld.mnodeman.vZeronodes,
      GetZeronodeByRank exampleEnv exampleWorld
        (GetZeronodeRank exampleEnv exampleWorld ⟨⟨txidOfByte 20, 0⟩, [], 4294967295⟩ 899
          90023 true) 899 90023 true = some mn ∧
        mn.vin.prevout = (⟨⟨txidOfByte 20, 0⟩, [], 4294967295⟩ : CTxIn).prevout :=
  (C29_rank_inverse exampleEnv exampleWorld ⟨⟨txidOfByte 20, 0⟩, [], 4294967295⟩ 899 90023
    (by decide) (by decide)).2.2.1

/-! ## The last ping of an entry -/

theorem Check_lastPing (env : Env) (w : World) (mn : CZeronode) (fForce : Bool) :
    (mn.Check env w fForce).lastPing = mn.lastPing := by
  obtain ⟨t, s, score, height, h⟩ := Check_touch env w mn fForce
  rw [h]

theorem lastPingAt_set (w : World) (l : List CZeronode) (i j : Nat) (e : CZeronode)
    (hl : w.mnodeman.vZeronodes = l.set i e) (hlt : i < l.length) :
    w.lastPingAt j = if j = i then some e.lastPing else (l[j]?).map (fun mn => mn.lastPing) := by
  unfold World.lastPingAt
  rw [hl]
  by_cases hji : j = i
  · subst hji
    rw [if_pos rfl, List.getElem?_set_self hlt]
    rfl
  · rw [if_neg hji, List.getElem?_set_ne (fun h => hji h.symm)]

theorem storeAndCheck_entries (env : Env) (p : CZeronodePing) (i : Nat) (mn : CZeronode)
    (w : World) :
    ∃ e : CZeronode, e.lastPing = p ∧
      (p.storeAndCheck env i mn w).2.2.mnodeman.vZeronodes = w.mnodeman.vZeronodes.set i e ∧
      ((p.storeAndCheck env i mn w).1 = false → e.IsEnabled = false) := by
  unfold CZeronodePing.storeAndCheck
  dsimp only
  have h1 : (if w.zeronodeSync.IsZeronodeListSynced = false ∧
        mn.IsPingedWithin env (ZERONODE_EXPIRATION_SECONDS / 2) (-1) = false then
      w.AddedZeronodeList env else w).mnodeman.vZeronodes = w.mnodeman.vZeronodes := by
    split <;> rfl
  generalize (if w.zeronodeSync.IsZeronodeListSynced = false ∧
        mn.IsPingedWithin env (ZERONODE_EXPIRATION_SECONDS / 2) (-1) = false then
      w.AddedZeronodeList env else w) = w1 at h1 ⊢
  refine ⟨({ mn with lastPing := p } : CZeronode).Check env
    { w1 with mnodeman := { w1.mnodeman with
      vZeronodes := w1.mnodeman.vZeronodes.set i { mn with lastPing := p }
      mapSeenZeronodeBroadcast :=
        updateSeenBroadcastPing w1.mnodeman.mapSeenZeronodeBroadcast
          (({ mn with lastPing := p } : CZeronode).GetHash env) p } } true,
    Check_lastPing _ _ _ _, ?_, ?_⟩
  · split
    · simp only [World.setMn]
      rw [h1, List.set_set]
    · simp only [World.setMn, World.RelayInv]
      rw [h1, List.set_set]
  · intro hf
    split at hf
    · assumption
    · exact Bool.noConfusion hf

theorem storeAndCheck_lastPingAt (env : Env) (p : CZeronodePing) (i : Nat) (mn : CZeronode)
    (w : World) (hmn : w.mnodeman.vZeronodes[i]? = some mn) (j : Nat) :
    (p.storeAndCheck env i mn w).2.2.lastPingAt j =
      if j = i then some p else w.lastPingAt j := by
  obtain ⟨e, he, hl, _⟩ := storeAndCheck_entries env p i mn w
  rw [lastPingAt_set _ _ i j e hl (getElem?_lt hmn), he]
  rfl

theorem Bool.eq_true_of_ne_false_zro {b : Bool} (h : ¬ b = false) : b = true := by
  cases b
  · exact absurd rfl h
  · rfl

theorem CheckAndUpdate_cases (env : Env) (p : CZeronodePing) (pmn : Option Nat)
    (fFromNewBroadcast : Bool) (w : World) :
    ((p.CheckAndUpdate env pmn fFromNewBroadcast w).1 = false ∧
      (p.CheckAndUpdate env pmn fFromNewBroadcast w).2.2 = w) ∨
    ∃ i mn, pmn = some i ∧ w.mnodeman.vZeronodes[i]? = some mn ∧
      (p.SimpleCheck env).1 = true ∧
      mn.IsPingedWithin env (ZERONODE_MIN_MNP_SECONDS - 60) p.sigTime = false ∧
      (p.CheckSignature env mn.pubKeyZeronode).1 = true ∧
      p.CheckAndUpdate env pmn fFromNewBroadcast w = p.storeAndCheck env i mn w := by
  unfold CZeronodePing.CheckAndUpdate
  by_cases h1 : (p.SimpleCheck env).1 = false
  · rw [if_pos h1]; exact Or.inl ⟨rfl, rfl⟩
  rw [if_neg h1]
  cases pmn with
  | none => exact Or.inl ⟨rfl, rfl⟩
  | some i =>
    dsimp only
    cases hmn : w.mnodeman.vZeronodes[i]? with
    | none => exact Or.inl ⟨rfl, rfl⟩
    | some mn =>
      dsimp only
      by_cases h2 : fFromNewBroadcast = false ∧ mn.IsUpdateRequired = true
      · rw [if_pos h2]; exact Or.inl ⟨rfl, rfl⟩
      rw [if_neg h2]
      by_cases h3 : fFromNewBroadcast = false ∧ mn.IsNewStartRequired = true
      · rw [if_pos h3]; exact Or.inl ⟨rfl, rfl⟩
      rw [if_neg h3]
      by_cases h4 : (match env.mapBlockIndex p.blockHash with
            | some nHeight => decide (nHeight < env.nChainHeight - 24)
            | none => false) = true
      · rw [if_pos h4]; exact Or.inl ⟨rfl, rfl⟩
      rw [if_neg h4]
      by_cases h5 : mn.IsPingedWithin env (ZERONODE_MIN_MNP_SECONDS - 60) p.sigTime = true
      · rw [if_pos h5]; exact Or.inl ⟨rfl, rfl⟩
      rw [if_neg h5]
      by_cases h6 : (p.CheckSignature env mn.pubKeyZeronode).1 = false
      · rw [if_pos h6]; exact Or.inl ⟨rfl, rfl⟩
      rw [if_neg h6]
      refine Or.inr ⟨i, mn, rfl, hmn, Bool.eq_true_of_ne_false_zro h1, ?_,
        Bool.eq_true_of_ne_false_zro h6, rfl⟩
      cases hb : mn.IsPingedWithin env (ZERONODE_MIN_MNP_SECONDS - 60) p.sigTime with
      | false => rfl
      | true => exact absurd hb h5

/-- Claim C28, counterexample: an entry announced at time 1000000, in state PreEnabled,
with the ping of its announce; a ping signed 550 s later passes every check and is
stored as the last ping, the forced `Check` leaves the entry PreEnabled (the ping is
less than 600 s after the announce), and `CheckAndUpdate` answers `false`. -/
theorem C28_ping_failure_counterexample :
    (CZeronodePing.CheckAndUpdate
        { nTime := 1000600, nAdjustedTime := 1000600, nChainHeight := 100
          mapBlockIndex := fun _ => some 100 }
        { vin := ⟨⟨[7], 0⟩, [], 0⟩, blockHash := [9], sigTime := 1000550 } (some 0) false
        { mnodeman := { vZeronodes :=
            [{ vin := ⟨⟨[7], 0⟩, [], 0⟩, sigTime := 1000000
               nActiveState := ZERONODE_PRE_ENABLED
               lastPing := { vin := ⟨⟨[7], 0⟩, [], 0⟩, blockHash := [8]
                             sigTime := 1000000 } }] } }).1 = false ∧
    (CZeronodePing.CheckAndUpdate
        { nTime := 1000600, nAdjustedTime := 1000600, nChainHeight := 100
          mapBlockIndex := fun _ => some 100 }
        { vin := ⟨⟨[7], 0⟩, [], 0⟩, blockHash := [9], sigTime := 1000550 } (some 0) false
        { mnodeman := { vZeronodes :=
            [{ vin := ⟨⟨[7], 0⟩, [], 0⟩, sigTime := 1000000
               nActiveState := ZERONODE_PRE_ENABLED
               lastPing := { vin := ⟨⟨[7], 0⟩, [], 0⟩, blockHash := [8]
                             sigTime := 1000000 } }] } }).2.2.lastPingAt 0 =
      some { vin := ⟨⟨[7], 0⟩, [], 0⟩, blockHash := [9], sigTime := 1000550 } ∧
    (some { vin := ⟨⟨[7], 0⟩, [], 0⟩, blockHash := [9], sigTime := 1000550 } :
        Option CZeronodePing) ≠
      some { vin := ⟨⟨[7], 0⟩, [], 0⟩, blockHash := [8], sigTime := 1000000 } := by
  decide

/-- Claim C28, amended: when `CheckAndUpdate` answers `false`, either nothing has
changed (one of its checks failed), or the ping passed every check (simple check, rate,
signature) for a known entry and was stored: the entry has it as last ping, and the
forced `Check` left the entry in a state other than Enabled. -/
theorem C28_ping_failure (env : Env) (p : CZeronodePing) (pmn : Option Nat)
    (fFromNewBroadcast : Bool) (w : World)
    (hfalse : (p.CheckAndUpdate env pmn fFromNewBroadcast w).1 = false) :
    (p.CheckAndUpdate env pmn fFromNewBroadcast w).2.2 = w ∨
    ∃ i mn, pmn = some i ∧ w.mnodeman.vZeronodes[i]? = some mn ∧
      (p.SimpleCheck env).1 = true ∧
      mn.IsPingedWithin env (ZERONODE_MIN_MNP_SECONDS - 60) p.sigTime = false ∧
      (p.CheckSignature env mn.pubKeyZeronode).1 = true ∧
      (p.CheckAndUpdate env pmn fFromNewBroadcast w).2.2.lastPingAt i = some p ∧
      ((p.CheckAndUpdate env pmn fFromNewBroadcast w).2.2.mnodeman.vZeronodes[i]?).map
        CZeronode.IsEnabled = some false := by
  rcases CheckAndUpdate_cases env p pmn fFromNewBroadcast w with ⟨_, h⟩ |
    ⟨i, mn, hp, hmn, hs, hr, hsig, heq⟩
  · exact Or.inl h
  · right
    refine ⟨i, mn, hp, hmn, hs, hr, hsig, ?_, ?_⟩
    · rw [heq, storeAndCheck_lastPingAt env p i mn w hmn i, if_pos rfl]
    · rw [heq] at hfalse ⊢
      obtain ⟨e, _, hl, hen⟩ := storeAndCheck_entries env p i mn w
      rw [hl, List.getElem?_set_self (getElem?_lt hmn)]
      simp only [Option.map_some', hen hfalse]

/-- Claim C28, witness: a ping with a signing time more than an hour ahead of the clock
is refused and nothing changes. -/
theorem C28_ping_failure_witness :
    (CZeronodePing.CheckAndUpdate { nAdjustedTime := 1000 }
        { vin := ⟨⟨[7], 0⟩, [], 0⟩, blockHash := [9], sigTime := 10000 } (some 0) false
        { mnodeman := { vZeronodes := [{ vin := ⟨⟨[7], 0⟩, [], 0⟩ }] } }).2.2 =
      { mnodeman := { vZeronodes := [{ vin := ⟨⟨[7], 0⟩, [], 0⟩ }] } } :=
  (C28_ping_failure { nAdjustedTime := 1000 }
      { vin := ⟨⟨[7], 0⟩, [], 0⟩, blockHash := [9], sigTime := 10000 } (some 0) false
      { mnodeman := { vZeronodes := [{ vin := ⟨⟨[7], 0⟩, [], 0⟩ }] } } (by decide)).elim
    id (fun h => h.elim (fun _ h2 => h2.elim (fun _ h3 => absurd h3.2.2.1 (by decide))))

/-! ## The last ping is not rolled back -/

theorem IsPingedWithin_false (env : Env) (mn : CZeronode) (n t : Int)
    (hnull : mn.lastPing.isNull = false) (ht : t ≠ -1)
    (h : mn.IsPingedWithin env n t = false) : mn.lastPing.sigTime + n ≤ t := by
  unfold CZeronode.IsPingedWithin at h
  rw [hnull] at h
  simp only [Bool.false_eq_true, if_false, ht, decide_eq_false_iff_not, not_lt] at h
  omega

theorem lastPingAt_takeLastPing (env : Env) (w : World) (i : Nat) (ping : CZeronodePing) :
    (w.takeLastPing env i ping).lastPingAt i = (w.lastPingAt i).map (fun _ => ping) := by
  unfold World.lastPingAt World.takeLastPing
  dsimp only
  rw [List.getElem?_modify_eq]
  cases w.mnodeman.vZeronodes[i]? <;> rfl

theorem lastPingAt_markVerified (w : World) (i : Nat) :
    (w.markVerified i).lastPingAt i = w.lastPingAt i := by
  unfold World.lastPingAt World.markVerified
  dsimp only
  rw [List.getElem?_modify_eq]
  cases w.mnodeman.vZeronodes[i]? <;> rfl

theorem CheckAndUpdate_ping (env : Env) (p : CZeronodePing) (pmn : Option Nat)
    (fFromNewBroadcast : Bool) (w : World) (j : Nat) (old : CZeronodePing)
    (hold : w.lastPingAt j = some old) (hnull : old.isNull = false)
    (hsig : p.sigTime ≠ -1) :
    pingKeptOrNewer old p ((p.CheckAndUpdate env pmn fFromNewBroadcast w).2.2.lastPingAt j) ∧
    ((p.CheckAndUpdate env pmn fFromNewBroadcast w).1 = true → pmn = some j →
      old.sigTime + (ZERONODE_MIN_MNP_SECONDS - 60) ≤ p.sigTime) := by
  rcases CheckAndUpdate_cases env p pmn fFromNewBroadcast w with ⟨hf, h⟩ |
    ⟨i, mn, hp, hmn, _, hr, _, heq⟩
  · rw [h]
    refine ⟨Or.inl hold, fun ht _ => ?_⟩
    rw [hf] at ht
    exact Bool.noConfusion ht
  · have hnew : j = i → old.sigTime + (ZERONODE_MIN_MNP_SECONDS - 60) ≤ p.sigTime := by
      intro hji
      subst hji
      have hl : mn.lastPing = old := by
        unfold World.lastPingAt at hold
        rw [hmn] at hold
        exact Option.some.inj hold
      rw [← hl]
      rw [← hl] at hnull
      exact IsPingedWithin_false env mn _ _ hnull hsig hr
    constructor
    · rw [heq, storeAndCheck_lastPingAt env p i mn w hmn j]
      by_cases hji : j = i
      · rw [if_pos hji]
        exact Or.inr ⟨rfl, hnew hji⟩
      · rw [if_neg hji]
        exact Or.inl hold
    · intro _ hpj
      rw [hp] at hpj
      exact hnew (Option.some.inj hpj).symm

theorem UpdateFromNewBroadcast_ping (ManageState : World → Option World) (env : Env)
    (i : Nat) (mnb : CZeronodeBroadcast) (w : World) (old : CZeronodePing)
    (r : Bool × World)
    (hold : w.lastPingAt i = some old) (hnull : old.isNull = false)
    (hsig : mnb.lastPing.sigTime ≠ -1)
    (h : CZeronode.UpdateFromNewBroadcast ManageState env i mnb w = some r) :
    ∃ w3 : World,
      (pingKeptOrNewer old mnb.lastPing (w3.lastPingAt i) ∨
        (w3.lastPingAt i = some mnb.lastPing ∧ mnb.lastPing.isNull = true)) ∧
      (r.2 = w3 ∨ ManageState w3 = some r.2) := by
  unfold CZeronode.UpdateFromNewBroadcast at h
  cases hmn : w.mnodeman.vZeronodes[i]? with
  | none =>
    unfold World.lastPingAt at hold
    rw [hmn] at hold
    exact Option.noConfusion hold
  | some mn =>
    rw [hmn] at h
    dsimp only at h
    have hl : mn.lastPing = old := by
      unfold World.lastPingAt at hold
      rw [hmn] at hold
      exact Option.some.inj hold
    by_cases h1 : mnb.sigTime ≤ mn.sigTime ∧ mnb.fRecovery = false
    · rw [if_pos h1] at h
      rw [← Option.some.inj h]
      exact ⟨w, Or.inl (Or.inl hold), Or.inl rfl⟩
    rw [if_neg h1] at h
    have hw1 : (w.setMn i (mn.takeBroadcast mnb)).lastPingAt i = some old := by
      rw [lastPingAt_set _ w.mnodeman.vZeronodes i i _ rfl (getElem?_lt hmn), if_pos rfl]
      exact congrArg some hl
    generalize w.setMn i (mn.takeBroadcast mnb) = w1 at h hw1
    have hw2 : ∀ w2 : World,
        w2 = (if (if mnb.lastPing.isNull = true then (true, 0, w1)
                  else mnb.lastPing.CheckAndUpdate env (some i) true w1).1 = true then
                (if mnb.lastPing.isNull = true then (true, 0, w1)
                  else mnb.lastPing.CheckAndUpdate env (some i) true w1).2.2.takeLastPing env i
                    mnb.lastPing
              else (if mnb.lastPing.isNull = true then (true, 0, w1)
                  else mnb.lastPing.CheckAndUpdate env (some i) true w1).2.2) →
        (pingKeptOrNewer old mnb.lastPing (w2.lastPingAt i) ∨
          (w2.lastPingAt i = some mnb.lastPing ∧ mnb.lastPing.isNull = true)) := by
      intro w2 hw2
      by_cases hn : mnb.lastPing.isNull = true
      · rw [if_pos hn] at hw2
        dsimp only at hw2
        rw [if_pos rfl] at hw2
        right
        rw [hw2, lastPingAt_takeLastPing, hw1]
        exact ⟨rfl, hn⟩
      · rw [if_neg hn] at hw2
        obtain ⟨hk, hnew⟩ := CheckAndUpdate_ping env mnb.lastPing (some i) true w1 i old hw1
          hnull hsig
        left
        by_cases ht : (mnb.lastPing.CheckAndUpdate env (some i) true w1).1 = true
        · rw [if_pos ht] at hw2
          rw [hw2, lastPingAt_takeLastPing]
          rcases hk with hk1 | ⟨hk1, _⟩ <;> rw [hk1] <;> exact Or.inr ⟨rfl, hnew ht rfl⟩
        · rw [if_neg ht] at hw2
          rw [hw2]
          exact hk
    generalize (if (if mnb.lastPing.isNull = true then (true, 0, w1)
                  else mnb.lastPing.CheckAndUpdate env (some i) true w1).1 = true then
                (if mnb.lastPing.isNull = true then (true, 0, w1)
                  else mnb.lastPing.CheckAndUpdate env (some i) true w1).2.2.takeLastPing env i
                    mnb.lastPing
              else (if mnb.lastPing.isNull = true then (true, 0, w1)
                  else mnb.lastPing.CheckAndUpdate env (some i) true w1).2.2) = w2 at h hw2
    have hq := hw2 w2 rfl
    by_cases h2 : env.fZNode = true ∧ mnb.pubKeyZeronode = w2.activeZeronode.pubKeyZeronode
    · rw [if_pos h2] at h
      have hq3 : pingKeptOrNewer old mnb.lastPing ((w2.markVerified i).lastPingAt i) ∨
          ((w2.markVerified i).lastPingAt i = some mnb.lastPing ∧
            mnb.lastPing.isNull = true) := by
        rw [lastPingAt_markVerified]; exact hq
      by_cases h3 : mnb.nProtocolVersion = env.PROTOCOL_VERSION
      · rw [if_pos h3] at h
        cases hms : ManageState (w2.markVerified i) with
        | none => rw [hms] at h; exact Option.noConfusion h
        | some w4 =>
          rw [hms] at h
          rw [← Option.some.inj h]
          exact ⟨w2.markVerified i, hq3, Or.inr hms⟩
      · rw [if_neg h3] at h
        rw [← Option.some.inj h]
        exact ⟨w2.markVerified i, hq3, Or.inl rfl⟩
    · rw [if_neg h2] at h
      rw [← Option.some.inj h]
      exact ⟨w2, hq, Or.inl rfl⟩

/-- Claim C21, counterexample: an entry announced at 1000000 with a ping of that time
takes a newer announce (signed at 2000000) that carries no ping: `UpdateFromNewBroadcast`
answers `true` and installs the empty ping, whose signing time 0 is not larger than
1000000. -/
theorem C21_lastPing_counterexample :
    ((CZeronode.UpdateFromNewBroadcast (ManageState {} 2) {} 0
        { vin := ⟨⟨[7], 0⟩, [], 0⟩, sigTime := 2000000 }
        { mnodeman := { vZeronodes :=
            [{ vin := ⟨⟨[7], 0⟩, [], 0⟩, sigTime := 1000000
               lastPing := { vin := ⟨⟨[7], 0⟩, [], 0⟩, blockHash := [8]
                             sigTime := 1000000 } }] } }).map
      (fun r => (r.1, r.2.lastPingAt 0))) = some (true, some {}) ∧
    ({ vin := ⟨⟨[7], 0⟩, [], 0⟩, blockHash := [8], sigTime := 1000000 } :
        CZeronodePing).isNull = false ∧
    ¬ ((1000000 : Int) < ({} : CZeronodePing).sigTime) := by
  decide

/-- The default argument `-1` of `IsPingedWithin` meets a signing time: a ping signed at
`-1` is compared with the clock instead, passes the rate test 600 s after the last ping
and replaces a ping signed at 1000000. -/
theorem CheckAndUpdate_sigTime_minus_one :
    (CZeronodePing.CheckAndUpdate
        { nTime := 1000600, nAdjustedTime := 1000600, nChainHeight := 100
          mapBlockIndex := fun _ => some 100 }
        { vin := ⟨⟨[7], 0⟩, [], 0⟩, blockHash := [9], sigTime := -1 } (some 0) false
        { mnodeman := { vZeronodes :=
            [{ vin := ⟨⟨[7], 0⟩, [], 0⟩, sigTime := 1000000
               lastPing := { vin := ⟨⟨[7], 0⟩, [], 0⟩, blockHash := [8]
                             sigTime := 1000000 } }] } }).2.2.lastPingAt 0 =
      some { vin := ⟨⟨[7], 0⟩, [], 0⟩, blockHash := [9], sigTime := -1 } := by
  decide

/-- Claim C21, amended: let `old` be the non-empty last ping of the entry `i`. Ping
ingest (`CheckAndUpdate`, for a ping not signed at `-1`) leaves the entry with `old` or
with the new ping, and then the new ping is signed at least 540 s after `old`.
`UpdateFromNewBroadcast` (for an announce whose ping is not signed at `-1`) leaves the
entry with `old`, or with the ping of the announce, which then is signed at least 540 s
after `old` or is the empty ping; this holds of the world that the method returns or,
when the announce is for the local service key, of the world that it hands to the
local state machine. -/
theorem C21_lastPing_not_rolled_back (ManageState : World → Option World) (env : Env)
    (w : World) (i : Nat) (old : CZeronodePing)
    (hold : w.lastPingAt i = some old) (hnull : old.isNull = false) :
    (∀ (p : CZeronodePing) (pmn : Option Nat) (fFromNewBroadcast : Bool),
      p.sigTime ≠ -1 →
      pingKeptOrNewer old p
        ((p.CheckAndUpdate env pmn fFromNewBroadcast w).2.2.lastPingAt i)) ∧
    (∀ (mnb : CZeronodeBroadcast) (r : Bool × World),
      mnb.lastPing.sigTime ≠ -1 →
      CZeronode.UpdateFromNewBroadcast ManageState env i mnb w = some r →
      ∃ w3 : World,
        (pingKeptOrNewer old mnb.lastPing (w3.lastPingAt i) ∨
          (w3.lastPingAt i = some mnb.lastPing ∧ mnb.lastPing.isNull = true)) ∧
        (r.2 = w3 ∨ ManageState w3 = some r.2)) :=
  ⟨fun p pmn f hsig => (CheckAndUpdate_ping env p pmn f w i old hold hnull hsig).1,
   fun mnb r hsig h =>
     UpdateFromNewBroadcast_ping ManageState env i mnb w old r hold hnull hsig h⟩

/-- Claim C21, witness: the entry and the ping of the counterexample of C28: the ping
signed at 1000550 replaces the ping signed at 1000000. -/
theorem C21_lastPing_not_rolled_back_witness :
    pingKeptOrNewer
      { vin := ⟨⟨[7], 0⟩, [], 0⟩, blockHash := [8], sigTime := 1000000 }
      { vin := ⟨⟨[7], 0⟩, [], 0⟩, blockHash := [9], sigTime := 1000550 }
      ((CZeronodePing.CheckAndUpdate
        { nTime := 1000600, nAdjustedTime := 1000600, nChainHeight := 100
          mapBlockIndex := fun _ => some 100 }
        { vin := ⟨⟨[7], 0⟩, [], 0⟩, blockHash := [9], sigTime := 1000550 } (some 0) false
        { mnodeman := { vZeronodes :=
            [{ vin := ⟨⟨[7], 0⟩, [], 0⟩, sigTime := 1000000
               nActiveState := ZERONODE_PRE_ENABLED
               lastPing := { vin := ⟨⟨[7], 0⟩, [], 0⟩, blockHash := [8]
                             sigTime := 1000000 } }] } }).2.2.lastPingAt 0) :=
  (C21_lastPing_not_rolled_back
    (ManageState { nTime := 1000600, nAdjustedTime := 1000600, nChainHeight := 100
                   mapBlockIndex := fun _ => some 100 } 2)
    { nTime := 1000600, nAdjustedTime := 1000600, nChainHeight := 100
      mapBlockIndex := fun _ => some 100 }
    { mnodeman := { vZeronodes :=
        [{ vin := ⟨⟨[7], 0⟩, [], 0⟩, sigTime := 1000000
           nActiveState := ZERONODE_PRE_ENABLED
           lastPing := { vin := ⟨⟨[7], 0⟩, [], 0⟩, blockHash := [8]
                         sigTime := 1000000 } }] } }
    0 { vin := ⟨⟨[7], 0⟩, [], 0⟩, blockHash := [8], sigTime := 1000000 }
    (by decide) (by decide)).1
    { vin := ⟨⟨[7], 0⟩, [], 0⟩, blockHash := [9], sigTime := 1000550 } (some 0) false
    (by decide)

/-! ## The scan of `ProcessVerifyReply` does not always end -/

theorem stuckAt_step (env : Env) (pnode : CNode) (blockHash : uint256) (it : Nat)
    (st : VerifyReplyState) (h : stuckAt env pnode blockHash it st) :
    ∃ st', verifyReplyBody env pnode blockHash it st = .next it st' ∧
      stuckAt env pnode blockHash it st' := by
  obtain ⟨mn, hmn, haddr, hver, hvin⟩ := h
  have hlt := getElem?_lt hmn
  unfold verifyReplyBody
  rw [hmn]
  dsimp only
  rw [if_neg (not_not.mpr haddr), if_neg (by rw [hver]; exact Bool.noConfusion)]
  have hv1 : ({ st.w.setMn it (if mn.IsPoSeVerified = false then mn.DecreasePoSeBanScore
        else mn) with
      vFulfilled := (st.w.setMn it (if mn.IsPoSeVerified = false then mn.DecreasePoSeBanScore
        else mn)).vFulfilled ++ [(pnode.addr, FulfilledKind.mnverifyDone)] } :
        World).activeZeronode.vin = CTxIn.null := hvin
  rw [if_pos hv1]
  refine ⟨_, rfl, (if mn.IsPoSeVerified = false then mn.DecreasePoSeBanScore else mn), ?_, ?_,
    ?_, hvin⟩
  · simp only [World.setMn]
    exact List.getElem?_set_self hlt
  · split
    · unfold CZeronode.DecreasePoSeBanScore
      split <;> exact haddr
    · exact haddr
  · have hk : (if mn.IsPoSeVerified = false then mn.DecreasePoSeBanScore
        else mn).pubKeyZeronode = mn.pubKeyZeronode := by
      split
      · unfold CZeronode.DecreasePoSeBanScore
        split <;> rfl
      · rfl
    rw [hk]
    exact hver

theorem stuckAt_diverges (env : Env) (pnode : CNode) (blockHash : uint256) (it : Nat)
    (fuel : Nat) : ∀ st : VerifyReplyState, stuckAt env pnode blockHash it st →
      verifyReplyWhile env pnode blockHash fuel it st = none := by
  induction fuel with
  | zero => intro st _; rfl
  | succ n ih =>
    intro st h
    obtain ⟨st', hstep, hst'⟩ := stuckAt_step env pnode blockHash it st h
    obtain ⟨mn, hmn, _⟩ := h
    unfold verifyReplyWhile
    rw [if_neg (not_le.mpr (getElem?_lt hmn)), hstep]
    exact ih st' hst'

theorem verifyReplyLoop_cons (env : Env) (pnode : CNode) (blockHash : uint256) (i : Nat)
    (rest : List Nat) (st : VerifyReplyState) :
    verifyReplyLoop env pnode blockHash (i :: rest) st =
      match verifyReplyBody env pnode blockHash i st with
      | .returned w => some (.returned w)
      | .next it' st' =>
          if it' = i then none else verifyReplyLoop env pnode blockHash rest st' := by
  rw [verifyReplyLoop]
  unfold verifyReplyBody
  cases hmn : st.w.mnodeman.vZeronodes[i]? with
  | none => simp
  | some mn =>
    dsimp only
    by_cases h1 : mn.addr ≠ pnode.addr
    · rw [if_pos h1, if_pos h1]; simp
    rw [if_neg h1, if_neg h1]
    by_cases h2 : env.VerifyMessage mn.pubKeyZeronode st.mnv.vchSig1
        (.verify1 pnode.addr st.mnv.nonce blockHash) = false
    · rw [if_pos h2, if_pos h2]; simp
    rw [if_neg h2, if_neg h2]
    generalize (if mn.IsPoSeVerified = false then mn.DecreasePoSeBanScore else mn) = mn1
    by_cases h3 : ({ st.w.setMn i mn1 with
        vFulfilled := (st.w.setMn i mn1).vFulfilled ++
            [(pnode.addr, FulfilledKind.mnverifyDone)] } :
          World).activeZeronode.vin = CTxIn.null
    · rw [if_pos h3, if_pos h3]; simp
    rw [if_neg h3, if_neg h3]
    split
    · rfl
    · split
      · rfl
      · simp

theorem verifyReplyBody_next (env : Env) (pnode : CNode) (blockHash : uint256) (it it' : Nat)
    (st st' : VerifyReplyState)
    (h : verifyReplyBody env pnode blockHash it st = .next it' st') :
    st'.w.mnodeman.vZeronodes.length = st.w.mnodeman.vZeronodes.length ∧
    st'.w.activeZeronode = st.w.activeZeronode ∧
    (it' = it + 1 ∨ (it' = it ∧ stuckAt env pnode blockHash it st)) := by
  unfold verifyReplyBody at h
  cases hmn : st.w.mnodeman.vZeronodes[it]? with
  | none =>
    rw [hmn] at h
    simp only [VerifyReplyStep.next.injEq] at h
    obtain ⟨h1, h2⟩ := h
    subst h2
    exact ⟨rfl, rfl, Or.inl h1.symm⟩
  | some mn =>
    rw [hmn] at h
    dsimp only at h
    by_cases h1 : mn.addr ≠ pnode.addr
    · rw [if_pos h1] at h
      simp only [VerifyReplyStep.next.injEq] at h
      obtain ⟨h1, h2⟩ := h
      subst h2
      exact ⟨rfl, rfl, Or.inl h1.symm⟩
    rw [if_neg h1] at h
    by_cases h2 : env.VerifyMessage mn.pubKeyZeronode st.mnv.vchSig1
        (.verify1 pnode.addr st.mnv.nonce blockHash) = false
    · rw [if_pos h2] at h
      simp only [VerifyReplyStep.next.injEq] at h
      obtain ⟨h1, h2⟩ := h
      subst h2
      exact ⟨rfl, rfl, Or.inl h1.symm⟩
    rw [if_neg h2] at h
    generalize (if mn.IsPoSeVerified = false then mn.DecreasePoSeBanScore else mn) = mn1 at h
    by_cases h3 : ({ st.w.setMn it mn1 with
        vFulfilled := (st.w.setMn it mn1).vFulfilled ++
            [(pnode.addr, FulfilledKind.mnverifyDone)] } :
          World).activeZeronode.vin = CTxIn.null
    · rw [if_pos h3] at h
      simp only [VerifyReplyStep.next.injEq] at h
      obtain ⟨h4, h5⟩ := h
      subst h5
      refine ⟨?_, rfl, Or.inr ⟨h4.symm, mn, hmn, not_not.mp h1,
        Bool.eq_true_of_ne_false_zro h2, h3⟩⟩
      simp only [World.setMn, List.length_set]
    rw [if_neg h3] at h
    split at h
    · exact VerifyReplyStep.noConfusion h
    · split at h
      · exact VerifyReplyStep.noConfusion h
      · simp only [VerifyReplyStep.next.injEq] at h
        obtain ⟨h4, h5⟩ := h
        subst h5
        refine ⟨?_, rfl, Or.inl h4.symm⟩
        simp only [CZeronodeVerification.Relay, World.RelayInv, World.setMn, List.length_set]

theorem verifyReplyLoop_none (env : Env) (pnode : CNode) (blockHash : uint256) (n : Nat) :
    ∀ (it : Nat) (st : VerifyReplyState), it + n = st.w.mnodeman.vZeronodes.length →
      verifyReplyLoop env pnode blockHash (List.range' it n) st = none →
      ∀ fuel, verifyReplyWhile env pnode blockHash fuel it st = none := by
  induction n with
  | zero =>
    intro it st _ h
    simp only [List.range'_zero, verifyReplyLoop] at h
    exact Option.noConfusion h
  | succ n ih =>
    intro it st hlen h fuel
    rw [List.range'_succ, verifyReplyLoop_cons] at h
    cases hb : verifyReplyBody env pnode blockHash it st with
    | returned w =>
      rw [hb] at h
      exact Option.noConfusion h
    | next it' st' =>
      rw [hb] at h
      dsimp only at h
      obtain ⟨hl, _, hit⟩ := verifyReplyBody_next env pnode blockHash it it' st st' hb
      rcases hit with hit | ⟨_, hstuck⟩
      · subst hit
        rw [if_neg (Nat.succ_ne_self it)] at h
        cases fuel with
        | zero => rfl
        | succ f =>
          unfold verifyReplyWhile
          rw [if_neg (by omega), hb]
          exact ih (it + 1) st' (by omega) h f
      · exact stuckAt_diverges env pnode blockHash it fuel st hstuck

theorem verifyReplyLoop_some (env : Env) (pnode : CNode) (blockHash : uint256) (n : Nat) :
    ∀ (it : Nat) (st : VerifyReplyState) (e : VerifyReplyEnd),
      it + n = st.w.mnodeman.vZeronodes.length →
      verifyReplyLoop env pnode blockHash (List.range' it n) st = some e →
      verifyReplyWhile env pnode blockHash (n + 1) it st = some e := by
  induction n with
  | zero =>
    intro it st e hlen h
    simp only [List.range'_zero, verifyReplyLoop] at h
    unfold verifyReplyWhile
    rw [if_pos (by omega)]
    exact h
  | succ n ih =>
    intro it st e hlen h
    rw [List.range'_succ, verifyReplyLoop_cons] at h
    unfold verifyReplyWhile
    rw [if_neg (by omega)]
    cases hb : verifyReplyBody env pnode blockHash it st with
    | returned w =>
      rw [hb] at h
      exact h
    | next it' st' =>
      rw [hb] at h
      dsimp only at h ⊢
      obtain ⟨hl, _, hit⟩ := verifyReplyBody_next env pnode blockHash it it' st st' hb
      by_cases he : it' = it
      · rw [if_pos he] at h
        exact Option.noConfusion h
      · rw [if_neg he] at h
        rcases hit with hit | ⟨hit, _⟩
        · subst hit
          exact ih (it + 1) st' e (by omega) h
        · exact absurd hit he

/-- With an activated collateral at the local node the scan ends: it looks at each
position once, so `length - it + 1` tests of the loop condition are enough. -/
theorem verifyReplyWhile_ends (env : Env) (pnode : CNode) (blockHash : uint256) (n : Nat) :
    ∀ (it : Nat) (st : VerifyReplyState), it + n = st.w.mnodeman.vZeronodes.length →
      st.w.activeZeronode.vin ≠ CTxIn.null →
      (verifyReplyWhile env pnode blockHash (n + 1) it st).isSome = true := by
  induction n with
  | zero =>
    intro it st hlen _
    unfold verifyReplyWhile
    rw [if_pos (by omega)]
    rfl
  | succ n ih =>
    intro it st hlen hvin
    unfold verifyReplyWhile
    rw [if_neg (by omega)]
    cases hb : verifyReplyBody env pnode blockHash it st with
    | returned w => rfl
    | next it' st' =>
      dsimp only
      obtain ⟨hl, ha, hit⟩ := verifyReplyBody_next env pnode blockHash it it' st st' hb
      rcases hit with hit | ⟨_, _, _, _, _, hnull⟩
      · subst hit
        exact ih (it + 1) st' (by omega) (by rw [ha]; exact hvin)
      · exact absurd hnull hvin

/-- Claim C27 fails on the code. The local node has no activated collateral; the registry
holds one entry at the address of the peer, asked for verification with nonce 77 at
height 99; the peer replies with a signature that verifies under the service key of
the entry. The scan of `ProcessVerifyReply` then stays at position 0 however many times
its condition is tested, and the method gives no result. -/
theorem C27_ProcessVerifyReply_does_not_end :
    (∀ fuel : Nat,
      verifyReplyWhile
        { GetBlockHash := fun _ => some [5]
          HasFulfilledRequest := fun _ k => decide (k = FulfilledKind.mnverifyRequest) }
        { addr := ⟨[1, 2, 3, 4], 8168⟩ } [5] fuel 0
        { w := { mnodeman := {
                   vZeronodes := [{ vin := ⟨⟨[7], 0⟩, [], 0⟩, addr := ⟨[1, 2, 3, 4], 8168⟩
                                    pubKeyZeronode := [5] }]
                   mWeAskedForVerification :=
                     [([1, 2, 3, 4], { addr := ⟨[1, 2, 3, 4], 8168⟩, nonce := 77
                                       nBlockHeight := 99 })] } }
          mnv := { addr := ⟨[1, 2, 3, 4], 8168⟩, nonce := 77, nBlockHeight := 99
                   vchSig1 := [1] } } = none) ∧
    ProcessVerifyReply
        { GetBlockHash := fun _ => some [5]
          HasFulfilledRequest := fun _ k => decide (k = FulfilledKind.mnverifyRequest) }
        { addr := ⟨[1, 2, 3, 4], 8168⟩ }
        { addr := ⟨[1, 2, 3, 4], 8168⟩, nonce := 77, nBlockHeight := 99, vchSig1 := [1] }
        { mnodeman := {
            vZeronodes := [{ vin := ⟨⟨[7], 0⟩, [], 0⟩, addr := ⟨[1, 2, 3, 4], 8168⟩
                             pubKeyZeronode := [5] }]
            mWeAskedForVerification :=
              [([1, 2, 3, 4], { addr := ⟨[1, 2, 3, 4], 8168⟩, nonce := 77
                                nBlockHeight := 99 })] } } = none :=
  ⟨fun fuel => stuckAt_diverges _ _ _ 0 fuel _
      ⟨{ vin := ⟨⟨[7], 0⟩, [], 0⟩, addr := ⟨[1, 2, 3, 4], 8168⟩, pubKeyZeronode := [5] },
        rfl, rfl, rfl, rfl⟩,
   by decide⟩

end Zro
